import Mathlib

/-!
# Vehicle Network Service: broker core

A shallow embedding of `VehicleNetworkService.cpp` (the broker between one vehicle HAL and
many client processes) together with theorems about it.

Conventions of the embedding.

* `int32_t` bit masks (zones, subscribe flags, access bits) are carried as their bit pattern,
  a natural number; property ids, timestamps and status codes are integers.
* `float` sample rates are values of `CFloat`: NaN, an infinity, or the rational a finite
  float denotes. The source only copies and compares them, and every comparison with NaN is
  false, as in C.
* The two `int` counters of the event statistics are integers that wrap at 32 bits.
* `KeyedVector`, `SortedVector` and `std::set` are association lists and lists with the
  container's operations (`indexOfKey`, `add`, `removeItem`, `remove`); the position of an entry
  inside the container, which in the source depends on pointer values, is not modelled.
* A `sp<HalClient>` is an index into a heap of client objects, so that the registry and the
  per-property subscriber vectors share the objects as they do in the source.
* Calls that leave the service (HAL, mock, listeners, looper, death links) are recorded in
  the list of `Call`s an operation returns; what the HAL or the mock answers is read from the
  `Device` and `HalMock` records.
* A dereference of a null pointer makes the operation return `none`.
* Allocation never fails, and every operation runs atomically.
-/

namespace VNS

/-! ## Platform constants -/

/-- Status `NO_ERROR` of `utils/Errors.h`. -/
def NO_ERROR : Int := 0

/-- Status `BAD_VALUE` of `utils/Errors.h`. -/
def BAD_VALUE : Int := -22

/-- Status `NO_MEMORY` of `utils/Errors.h`. -/
def NO_MEMORY : Int := -12

/-- The errno value `EAGAIN`; the HAL reports "not ready" as `-EAGAIN`. -/
def EAGAIN : Int := 11

/-- Access bit `VEHICLE_PROP_ACCESS_READ`. -/
def VEHICLE_PROP_ACCESS_READ : Nat := 1

/-- Access bit `VEHICLE_PROP_ACCESS_WRITE`. -/
def VEHICLE_PROP_ACCESS_WRITE : Nat := 2

/-- Change modes `VEHICLE_PROP_CHANGE_MODE_*` of a property. -/
inductive ChangeMode where
  | STATIC
  | ON_CHANGE
  | ON_SET
  | CONTINUOUS
  | POLL
deriving DecidableEq, Repr

/-- Value types `VEHICLE_VALUE_TYPE_*`: the ones the service names, and every other code. -/
inductive ValueType where
  | STRING
  | BYTES
  | ZONED_INT32
  | ZONED_FLOAT
  | ZONED_BOOLEAN
  | ZONED_INT32_VEC2
  | ZONED_INT32_VEC3
  | ZONED_FLOAT_VEC2
  | ZONED_FLOAT_VEC3
  | other (code : Nat)
deriving DecidableEq, Repr

namespace SubscribeFlags

/-- Flag value `SubscribeFlags::UNDEFINED`. -/
def UNDEFINED : Nat := 0

/-- Flag bit `SubscribeFlags::HAL_EVENT`. -/
def HAL_EVENT : Nat := 1

/-- Flag bit `SubscribeFlags::SET_CALL`. -/
def SET_CALL : Nat := 2

/-- Flag value `SubscribeFlags::DEFAULT`. -/
def DEFAULT : Nat := HAL_EVENT

end SubscribeFlags

/-- The dispatch interval `DISPATCH_INTERVAL_MS` of the message handler. -/
def DISPATCH_INTERVAL_MS : Int := 10

/-- Nanoseconds per millisecond, `MS_TO_NS`. -/
def MS_TO_NS : Int := 1000000

/-! ## Floats and machine integers -/

/-- A C `float` as far as the service uses it. The source copies sample rates and compares
them with `!=`, `<` and `>`, and does no arithmetic on them, so a value is NaN, an infinity,
or the rational a finite float denotes; the two zeros, which compare equal, are one
value. -/
inductive CFloat where
  | nan
  | negInf
  | num (q : Rat)
  | posInf
deriving DecidableEq, Repr

namespace CFloat

/-- The comparison `<` of C: false as soon as one side is NaN. -/
def lt : CFloat → CFloat → Bool
  | nan, _ => false
  | _, nan => false
  | negInf, negInf => false
  | negInf, _ => true
  | num _, negInf => false
  | num a, num b => decide (a < b)
  | num _, posInf => true
  | posInf, _ => false

/-- The comparison `<=` of C: false as soon as one side is NaN. -/
def le : CFloat → CFloat → Bool
  | nan, _ => false
  | _, nan => false
  | negInf, _ => true
  | num _, negInf => false
  | num a, num b => decide (a ≤ b)
  | num _, posInf => true
  | posInf, posInf => true
  | posInf, _ => false

/-- The greater of two values as `std::max` computes it: the second when the first is
below it, the first otherwise. -/
def maxOf (a b : CFloat) : CFloat :=
  if lt a b then b else a

end CFloat

/-- The order `a < b` on `CFloat` is the comparison of C. -/
instance : LT CFloat :=
  ⟨fun a b => CFloat.lt a b = true⟩

/-- The order `a ≤ b` on `CFloat` is the comparison of C. -/
instance : LE CFloat :=
  ⟨fun a b => CFloat.le a b = true⟩

/-- The comparison `<` is computed by `CFloat.lt`. -/
instance (a b : CFloat) : Decidable (a < b) :=
  inferInstanceAs (Decidable (CFloat.lt a b = true))

/-- The comparison `≤` is computed by `CFloat.le`. -/
instance (a b : CFloat) : Decidable (a ≤ b) :=
  inferInstanceAs (Decidable (CFloat.le a b = true))

/-- A numeral denotes the finite float of that value. -/
instance (n : Nat) : OfNat CFloat n :=
  ⟨CFloat.num n⟩

/-- The maximum of two values is `CFloat.maxOf`. -/
instance : Max CFloat :=
  ⟨CFloat.maxOf⟩

/-- Largest value of a 32-bit `int`, `INT_MAX`. -/
def INT32_MAX : Int := 2147483647

/-- Smallest value of a 32-bit `int`, `INT_MIN`. -/
def INT32_MIN : Int := -2147483648

/-- The increment `x++` of a 32-bit `int`: the value plus one reduced to 32 bits in two's
complement, so that `INT_MAX` is followed by `INT_MIN` as on the targets of the platform (in
C++ the overflow itself is undefined). -/
def incrementInt32 (x : Int) : Int :=
  (x + 1 + 2147483648) % 4294967296 - 2147483648

/-! ## Data -/

/-- A property configuration, `vehicle_prop_config_t`. -/
structure vehicle_prop_config_t where
  prop : Int
  access : Nat
  change_mode : ChangeMode
  value_type : ValueType
  vehicle_zone_flags : Nat
  min_sample_rate : CFloat
  max_sample_rate : CFloat
deriving DecidableEq, Repr

/-- A property value, `vehicle_prop_value_t`; the payload union is a list of bytes. -/
structure vehicle_prop_value_t where
  prop : Int
  value_type : ValueType
  timestamp : Int
  zone : Nat
  value : List Nat
deriving DecidableEq, Repr

/-- Per client and per property subscription record, `SubscriptionInfo`. -/
structure SubscriptionInfo where
  sampleRate : CFloat
  zones : Nat
  flags : Nat
deriving DecidableEq, Repr

/-- Per property event statistics, `EventInfo`; `eventCount` is an `int` of 32 bits, which
the source prints with `%d`. -/
structure EventInfo where
  lastTimestamp : Int
  eventCount : Int
deriving DecidableEq, Repr

/-- An error reported by the HAL, `VehicleHalError`. -/
structure VehicleHalError where
  errorCode : Int
  property : Int
  operation : Int
deriving DecidableEq, Repr

/-! ## Containers -/

/-- Value stored under a key, `KeyedVector::indexOfKey` followed by `valueAt`. -/
def valueFor {K V : Type} [DecidableEq K] : List (K × V) → K → Option V
  | [], _ => none
  | (k1, v) :: t, k => if k1 = k then some v else valueFor t k

/-- Insertion `KeyedVector::add`: the value of an existing key is replaced. -/
def kvAdd {K V : Type} [DecidableEq K] : List (K × V) → K → V → List (K × V)
  | [], k, v => [(k, v)]
  | (k1, v1) :: t, k, v => if k1 = k then (k, v) :: t else (k1, v1) :: kvAdd t k v

/-- Removal `KeyedVector::removeItem`. -/
def removeItem {K V : Type} [DecidableEq K] (m : List (K × V)) (k : K) : List (K × V) :=
  m.filter (fun e => decide (e.1 ≠ k))

/-- Insertion into a set-like vector, `SortedVector::add` and `std::set::insert`. -/
def setAdd {A : Type} [DecidableEq A] (v : List A) (a : A) : List A :=
  if a ∈ v then v else v ++ [a]

/-- Removal from a set-like vector, `SortedVector::remove` and `std::set::erase`. -/
def setRemove {A : Type} [DecidableEq A] (v : List A) (a : A) : List A :=
  v.filter (fun x => decide (x ≠ a))

/-! ## Client objects -/

/-- Modelled from the spec: the class `HalClient` is declared in `VehicleNetworkService.h`,
which is not among the sources. A client record holds its listener (identified by the
listener's binder), its subscriptions, its two monitor flags and its pending events. -/
structure HalClient where
  mListener : Nat
  mSubscriptionInfos : List (Int × SubscriptionInfo)
  mMonitoringHalRestart : Bool
  mMonitoringHalError : Bool
  mEvents : List vehicle_prop_value_t
deriving DecidableEq, Repr

namespace HalClient

/-- Modelled from the spec: the constructor of `HalClient`, a record without subscriptions,
monitors or pending events. -/
def create (listener : Nat) : HalClient :=
  { mListener := listener, mSubscriptionInfos := [], mMonitoringHalRestart := false,
    mMonitoringHalError := false, mEvents := [] }

/-- Modelled from the spec: `HalClient::getSubscriptionInfo`, the record of a property or
null. -/
def getSubscriptionInfo (c : HalClient) (property : Int) : Option SubscriptionInfo :=
  valueFor c.mSubscriptionInfos property

/-- Modelled from the spec: `HalClient::setSubscriptionInfo` (`add_subscription`), which
inserts or replaces the record of a property. -/
def setSubscriptionInfo (c : HalClient) (property : Int) (sampleRate : CFloat)
    (zones flags : Nat) : HalClient :=
  { c with mSubscriptionInfos :=
             kvAdd c.mSubscriptionInfos property (SubscriptionInfo.mk sampleRate zones flags) }

/-- Modelled from the spec: `HalClient::isActive`; a client is active iff it has at least
one subscription, or monitors errors, or monitors HAL restart. -/
def isActive (c : HalClient) : Bool :=
  decide (c.mSubscriptionInfos.length > 0) || c.mMonitoringHalRestart || c.mMonitoringHalError

/-- Modelled from the spec: the state change of `HalClient::removePropertyAndCheckIfActive`
(`remove_subscription`); the value it returns is `isActive` of the result. -/
def removeProperty (c : HalClient) (property : Int) : HalClient :=
  { c with mSubscriptionInfos := removeItem c.mSubscriptionInfos property }

/-- Modelled from the spec: `HalClient::removeAllProperties`. -/
def removeAllProperties (c : HalClient) : HalClient :=
  { c with mSubscriptionInfos := [] }

/-- Modelled from the spec: `HalClient::setHalErrorMonitoringState`. -/
def setHalErrorMonitoringState (c : HalClient) (state : Bool) : HalClient :=
  { c with mMonitoringHalError := state }

/-- Modelled from the spec: `HalClient::setHalRestartMonitoringState`. -/
def setHalRestartMonitoringState (c : HalClient) (state : Bool) : HalClient :=
  { c with mMonitoringHalRestart := state }

/-- Modelled from the spec: `HalClient::addEvent` (`enqueue_event`). -/
def addEvent (c : HalClient) (e : vehicle_prop_value_t) : HalClient :=
  { c with mEvents := c.mEvents ++ [e] }

/-- Modelled from the spec: `HalClient::clearEvents`, the state change of a flush. -/
def clearEvents (c : HalClient) : HalClient :=
  { c with mEvents := [] }

end HalClient

/-! ## The world outside the service -/

/-- The real HAL, `vehicle_hw_device_t`: what it answers to the calls of the service. The
first argument of `get` and `set` is the number of the attempt inside one retry loop. -/
structure Device where
  get : Nat → vehicle_prop_value_t → Int × vehicle_prop_value_t
  set : Nat → vehicle_prop_value_t → Int
  subscribe : Int → CFloat → Nat → Int

/-- A mock of the HAL, `IVehicleNetworkHalMock`: its binder and what it answers. -/
structure HalMock where
  binder : Nat
  onListProperties : List vehicle_prop_config_t
  onPropertyGet : vehicle_prop_value_t → Int × vehicle_prop_value_t
  onPropertySet : vehicle_prop_value_t → Int
  onPropertySubscribe : Int → CFloat → Nat → Int

/-- What the service is built on: the HAL device, the access policy, and the constants of
`vehicle-internal.h` and `VehicleNetworkService.h`, which are not among the sources. -/
structure Env where
  mDevice : Device
  isAutoGetEnabled : Int → Bool
  VEHICLE_PROPERTY_INTERNAL_START : Int
  VEHICLE_PROPERTY_INTERNAL_END : Int
  MAX_GET_SET_RETRY_NUMBER_FOR_NOT_READY : Nat

/-- A call that leaves the service. Listeners and death links are named by binder. -/
inductive Call where
  | halGet (v : vehicle_prop_value_t)
  | halSet (v : vehicle_prop_value_t)
  | halSubscribe (prop : Int) (sampleRate : CFloat) (zones : Nat)
  | halUnsubscribe (prop : Int)
  | halReleaseMemoryFromGet (v : vehicle_prop_value_t)
  | mockGet (v : vehicle_prop_value_t)
  | mockSet (v : vehicle_prop_value_t)
  | mockSubscribe (prop : Int) (sampleRate : CFloat) (zones : Nat)
  | mockUnsubscribe (prop : Int)
  | mockListProperties
  | onEvents (listener : Nat) (events : List vehicle_prop_value_t) (ts : Int)
  | onHalError (listener : Nat) (errorCode property operation : Int)
  | onHalRestart (listener : Nat) (inMocking : Bool)
  | onPropertySet (listener : Nat) (v : vehicle_prop_value_t)
  | linkToDeath (binder : Nat)
  | unlinkToDeath (binder : Nat)
  | sendMessageHalEvent
  | sendMessageDelayedHalEvent (delayNs : Int)
  | sendMessageHalError
  | removeMessages
  | usleep
deriving DecidableEq, Repr

/-! ## State -/

/-- The event and error queues of the worker, `VehicleHalMessageHandler`. -/
structure VehicleHalMessageHandler where
  mHalPropertyList0 : List vehicle_prop_value_t
  mHalPropertyList1 : List vehicle_prop_value_t
  mFreeListIndex : Nat
  mLastDispatchTime : Int
  mHalErrors : List VehicleHalError
deriving DecidableEq, Repr

/-- The state of `VehicleNetworkService`. `heap` holds the `HalClient` objects and
`nextClient` is the index of the next object to allocate. -/
structure Service where
  mProperties : List vehicle_prop_config_t
  mPropertiesForMocking : List vehicle_prop_config_t
  mMockingEnabled : Bool
  mHalMock : Option HalMock
  heap : Nat → HalClient
  nextClient : Nat
  mBinderToClientMap : List (Nat × Nat)
  mPropertyToClientsMap : List (Int × List Nat)
  mSubscriptionInfos : List (Int × SubscriptionInfo)
  mEventInfos : List (Int × EventInfo)
  mPropertiesSubscribedToSetCall : List Int
  mCache : List (Int × vehicle_prop_value_t)
  mDroppedEventsWhileInMocking : Int
  mLastEventDropTimeWhileInMocking : Int
  mHandler : VehicleHalMessageHandler

/-- What an operation leaves behind: the new state, the status it returns (`NO_ERROR` for
an operation returning `void`) and the calls it made, in order. -/
structure Outcome where
  state : Service
  status : Int
  calls : List Call

/-- The state after construction and `onFirstRef`: the property list is the list of the HAL
followed by the internal properties; nothing is subscribed, cached or queued. -/
def Service.init (properties : List vehicle_prop_config_t) : Service :=
  { mProperties := properties, mPropertiesForMocking := [], mMockingEnabled := false,
    mHalMock := none, heap := fun i => HalClient.create i, nextClient := 0,
    mBinderToClientMap := [], mPropertyToClientsMap := [], mSubscriptionInfos := [],
    mEventInfos := [], mPropertiesSubscribedToSetCall := [], mCache := [],
    mDroppedEventsWhileInMocking := 0, mLastEventDropTimeWhileInMocking := 0,
    mHandler := { mHalPropertyList0 := [], mHalPropertyList1 := [], mFreeListIndex := 0,
                  mLastDispatchTime := 0, mHalErrors := [] } }

/-- Replaces the client object at index `c`. -/
def Service.setClient (s : Service) (c : Nat) (obj : HalClient) : Service :=
  { s with heap := fun i => if i = c then obj else s.heap i }

/-! ## Property registry -/

/-- First configuration with the given id in a property list: the loop of
`findConfigLocked`. -/
def findConfigIn : List vehicle_prop_config_t → Int → Option vehicle_prop_config_t
  | [], _ => none
  | config :: t, property => if config.prop = property then some config else findConfigIn t property

/-- Lookup `VehicleNetworkService::findConfigLocked`: in the mock's list while mocking is
enabled, in the HAL's and internal properties otherwise. -/
def findConfigLocked (s : Service) (property : Int) : Option vehicle_prop_config_t :=
  findConfigIn (if s.mMockingEnabled then s.mPropertiesForMocking else s.mProperties) property

/-- Predicate `VehicleNetworkService::isGettableLocked`. -/
def isGettableLocked (s : Service) (property : Int) : Bool :=
  match findConfigLocked s property with
  | none => false
  | some config =>
    if config.access &&& VEHICLE_PROP_ACCESS_READ = 0 then false else true

/-- Predicate `VehicleNetworkService::isSettableLocked`. -/
def isSettableLocked (s : Service) (property : Int) (valueType : ValueType) : Bool :=
  match findConfigLocked s property with
  | none => false
  | some config =>
    if config.access &&& VEHICLE_PROP_ACCESS_WRITE = 0 then false
    else if config.value_type ≠ valueType then false
    else true

/-- Predicate `VehicleNetworkService::isSubscribableLocked`. -/
def isSubscribableLocked (s : Service) (property : Int) : Bool :=
  match findConfigLocked s property with
  | none => false
  | some config =>
    if config.access &&& VEHICLE_PROP_ACCESS_READ = 0 then false
    else if config.change_mode = ChangeMode.STATIC then false
    else if config.change_mode = ChangeMode.POLL then false
    else true

/-- Predicate `VehicleNetworkService::isZonedProperty`; the argument may be null. -/
def isZonedProperty (config : Option vehicle_prop_config_t) : Bool :=
  match config with
  | none => false
  | some c =>
    match c.value_type with
    | ValueType.ZONED_INT32 => true
    | ValueType.ZONED_FLOAT => true
    | ValueType.ZONED_BOOLEAN => true
    | ValueType.ZONED_INT32_VEC2 => true
    | ValueType.ZONED_INT32_VEC3 => true
    | ValueType.ZONED_FLOAT_VEC2 => true
    | ValueType.ZONED_FLOAT_VEC3 => true
    | _ => false

/-- Predicate `isSampleRateFixed`. -/
def isSampleRateFixed (changeMode : ChangeMode) : Bool :=
  match changeMode with
  | ChangeMode.ON_CHANGE => true
  | ChangeMode.ON_SET => true
  | _ => false

/-- Test of the internal range, `prop >= VEHICLE_PROPERTY_INTERNAL_START && prop <=
VEHICLE_PROPERTY_INTERNAL_END`. -/
def isInternalProperty (env : Env) (prop : Int) : Bool :=
  decide (prop ≥ env.VEHICLE_PROPERTY_INTERNAL_START) &&
    decide (prop ≤ env.VEHICLE_PROPERTY_INTERNAL_END)

/-! ## Internal property cache -/

/-- Modelled from the spec: `VehiclePropValueUtil::copyVehiclePropValue` of
`libvehiclenetwork`, which is not among the sources; the destination becomes a copy of the
source and the copy succeeds. -/
def copyVehiclePropValue (_dest src : vehicle_prop_value_t) : Int × vehicle_prop_value_t :=
  (NO_ERROR, src)

/-- Cache write `PropertyValueCache::writeToCache`: a copy of the value is stored under its
property, in place of the old one if there is one. -/
def writeToCache (mCache : List (Int × vehicle_prop_value_t)) (value : vehicle_prop_value_t) :
    List (Int × vehicle_prop_value_t) :=
  match valueFor mCache value.prop with
  | none => kvAdd mCache value.prop value
  | some v => kvAdd mCache value.prop (copyVehiclePropValue v value).2

/-- Cache read `PropertyValueCache::readFromCache`: `none` stands for `false`, and
`some v` for `true` with `v` the caller's value after the copy. -/
def readFromCache (mCache : List (Int × vehicle_prop_value_t)) (value : vehicle_prop_value_t) :
    Option vehicle_prop_value_t :=
  match valueFor mCache value.prop with
  | none => none
  | some cached =>
    let r := copyVehiclePropValue value cached
    if r.1 ≠ NO_ERROR then none else some r.2

/-! ## Event worker: producer side -/

namespace VehicleHalMessageHandler

/-- The list `mHalPropertyList[i]`. -/
def list (h : VehicleHalMessageHandler) (i : Nat) : List vehicle_prop_value_t :=
  if i = 0 then h.mHalPropertyList0 else h.mHalPropertyList1

/-- Assignment to `mHalPropertyList[i]`. -/
def setList (h : VehicleHalMessageHandler) (i : Nat) (l : List vehicle_prop_value_t) :
    VehicleHalMessageHandler :=
  if i = 0 then { h with mHalPropertyList0 := l } else { h with mHalPropertyList1 := l }

/-- Producer step `VehicleHalMessageHandler::handleHalEvent`; `now` is `elapsedRealtime()`. -/
def handleHalEvent (h : VehicleHalMessageHandler) (eventData : vehicle_prop_value_t)
    (now : Int) : VehicleHalMessageHandler × List Call :=
  let h1 := h.setList h.mFreeListIndex (h.list h.mFreeListIndex ++ [eventData])
  let deltaFromLast := now - h.mLastDispatchTime
  if deltaFromLast > DISPATCH_INTERVAL_MS then (h1, [Call.sendMessageHalEvent])
  else (h1, [Call.sendMessageDelayedHalEvent ((DISPATCH_INTERVAL_MS - deltaFromLast) * MS_TO_NS)])

/-- Error producer `VehicleHalMessageHandler::handleHalError`. -/
def handleHalError (h : VehicleHalMessageHandler) (error : VehicleHalError) :
    VehicleHalMessageHandler × List Call :=
  ({ h with mHalErrors := h.mHalErrors ++ [error] }, [Call.sendMessageHalError])

/-- Reset `VehicleHalMessageHandler::handleMockStateChange`: both lists are emptied and the
pending messages removed. -/
def handleMockStateChange (h : VehicleHalMessageHandler) : VehicleHalMessageHandler × List Call :=
  ({ h with mHalPropertyList0 := [], mHalPropertyList1 := [] }, [Call.removeMessages])

end VehicleHalMessageHandler

/-! ## Event ingestion -/

/-- Ingestion `VehicleNetworkService::onHalEvent`. `nowMs` and `nowNs` are the readings of
`elapsedRealtime()` and `elapsedRealtimeNano()`. The parameter `doCopy` of the source only
decides who owns the memory of the event and is left out. The counter of dropped events and
the event count are `int`s of 32 bits, incremented with `incrementInt32`. -/
def onHalEvent (s : Service) (eventData : vehicle_prop_value_t) (isInjection : Bool)
    (nowMs nowNs : Int) : Outcome :=
  if !isInjection && s.mMockingEnabled then
    { state := { s with mDroppedEventsWhileInMocking :=
                          incrementInt32 s.mDroppedEventsWhileInMocking,
                        mLastEventDropTimeWhileInMocking := nowNs },
      status := NO_ERROR, calls := [] }
  else
    let infos :=
      match valueFor s.mEventInfos eventData.prop with
      | none => kvAdd s.mEventInfos eventData.prop (EventInfo.mk eventData.timestamp 1)
      | some info =>
        kvAdd s.mEventInfos eventData.prop
          (EventInfo.mk eventData.timestamp (incrementInt32 info.eventCount))
    let r := s.mHandler.handleHalEvent eventData nowMs
    { state := { s with mEventInfos := infos, mHandler := r.1 }, status := NO_ERROR, calls := r.2 }

/-- Entry point `VehicleNetworkService::eventCallback` of the real HAL: `onHalEvent` with
its default arguments (`isInjection = false`), always answering `NO_ERROR`. -/
def eventCallback (s : Service) (eventData : vehicle_prop_value_t) (nowMs nowNs : Int) : Outcome :=
  { onHalEvent s eventData false nowMs nowNs with status := NO_ERROR }

/-- Entry point `VehicleNetworkService::injectEvent`. -/
def injectEvent (s : Service) (value : vehicle_prop_value_t) (nowMs nowNs : Int) : Outcome :=
  onHalEvent s value true nowMs nowNs

/-! ## Client registry -/

/-- Lookup `VehicleNetworkService::findClientLocked`. -/
def findClientLocked (s : Service) (ibinder : Nat) : Option Nat :=
  valueFor s.mBinderToClientMap ibinder

/-- Lookup or creation `VehicleNetworkService::findOrCreateClientLocked`: a new client object
is allocated, watched for death and registered when the binder is unknown. -/
def findOrCreateClientLocked (s : Service) (ibinder : Nat) : Service × Nat × List Call :=
  match valueFor s.mBinderToClientMap ibinder with
  | none =>
    ({ s with heap := fun i => if i = s.nextClient then HalClient.create ibinder else s.heap i,
              nextClient := s.nextClient + 1,
              mBinderToClientMap := kvAdd s.mBinderToClientMap ibinder s.nextClient },
     s.nextClient, [Call.linkToDeath ibinder])
  | some client => (s, client, [])

/-- Lookup `VehicleNetworkService::findClientsVectorForPropertyLocked`. -/
def findClientsVectorForPropertyLocked (s : Service) (property : Int) : Option (List Nat) :=
  valueFor s.mPropertyToClientsMap property

/-- Loop of `VehicleNetworkService::hasClientsSubscribedToSetCallLocked`. -/
def hasClientsSubscribedToSetCallLocked (s : Service) (property : Int) : List Nat → Bool
  | [] => false
  | c :: t =>
    match (s.heap c).getSubscriptionInfo property with
    | some subscription =>
      if SubscribeFlags.SET_CALL &&& subscription.flags ≠ 0 then true
      else hasClientsSubscribedToSetCallLocked s property t
    | none => hasClientsSubscribedToSetCallLocked s property t

/-! ## Subscribe -/

/-- The sample rate after the normalisation block of `subscribe`: forced to zero for a
property whose rate is fixed, limited to the configured maximum and then to the configured
minimum otherwise. -/
def normalizedSampleRate (config : vehicle_prop_config_t) (sampleRate : CFloat) : CFloat :=
  if isSampleRateFixed config.change_mode then
    (if sampleRate ≠ 0 then 0 else sampleRate)
  else
    let r1 := if sampleRate > config.max_sample_rate then config.max_sample_rate else sampleRate
    if r1 < config.min_sample_rate then config.min_sample_rate else r1

/-- The value of `newZones` computed by `subscribe` when the property already has an
aggregate `info`. -/
def mergedZones (info : SubscriptionInfo) (zones : Nat) : Nat :=
  if info.zones = 0 then 0 else (if zones = 0 then 0 else info.zones ||| zones)

/-- Release `VehicleNetworkService::releaseMemoryFromGet`: only strings and byte arrays
carry memory, which the HAL releases unless mocking is enabled. -/
def releaseMemoryFromGet (s : Service) (value : vehicle_prop_value_t) : List Call :=
  match value.value_type with
  | ValueType.STRING => if s.mMockingEnabled then [] else [Call.halReleaseMemoryFromGet value]
  | ValueType.BYTES => if s.mMockingEnabled then [] else [Call.halReleaseMemoryFromGet value]
  | _ => []

/-- Initial value of one zone: `VehicleNetworkService::notifyClientWithCurrentValue(bool,
int32_t, int32_t, int32_t)`. The value is read from the mock or the HAL and handed to
`onHalEvent` as an event that is not an injection. -/
def notifyClientWithCurrentValueZone (env : Env) (s : Service) (isMocking : Bool) (prop : Int)
    (valueType : ValueType) (zone : Nat) (nowMs nowNs : Int) : Option Outcome :=
  let v : vehicle_prop_value_t :=
    { prop := prop, value_type := valueType, timestamp := 0, zone := zone, value := [] }
  let answer : Option ((Int × vehicle_prop_value_t) × Call) :=
    if isMocking then
      match s.mHalMock with
      | none => none
      | some mock => some (mock.onPropertyGet v, Call.mockGet v)
    else some (env.mDevice.get 0 v, Call.halGet v)
  match answer with
  | none => none
  | some (r, call) =>
    if r.1 ≠ NO_ERROR then
      if r.1 = -EAGAIN then some { state := s, status := NO_ERROR, calls := [call] }
      else some { state := s, status := r.1, calls := [call] }
    else
      let o := onHalEvent s r.2 false nowMs nowNs
      if isMocking then some { state := o.state, status := NO_ERROR, calls := call :: o.calls }
      else some { state := o.state, status := NO_ERROR,
                  calls := call :: o.calls ++ releaseMemoryFromGet o.state r.2 }

/-- The loop of `notifyClientWithCurrentValue` over the zone bits `1 << i`. -/
def notifyZonesLoop (env : Env) (isMocking : Bool) (prop : Int) (valueType : ValueType)
    (requestedZones : Nat) (nowMs nowNs : Int) : List Nat → Service → Option Outcome
  | [], s => some { state := s, status := NO_ERROR, calls := [] }
  | i :: t, s =>
    if (2 ^ i) &&& requestedZones = 2 ^ i then
      match notifyClientWithCurrentValueZone env s isMocking prop valueType (2 ^ i) nowMs nowNs with
      | none => none
      | some o =>
        if o.status ≠ NO_ERROR then some o
        else
          match notifyZonesLoop env isMocking prop valueType requestedZones nowMs nowNs t o.state with
          | none => none
          | some o2 => some { state := o2.state, status := o2.status, calls := o.calls ++ o2.calls }
    else notifyZonesLoop env isMocking prop valueType requestedZones nowMs nowNs t s

/-- Initial values of a subscription: `VehicleNetworkService::notifyClientWithCurrentValue(
bool, const vehicle_prop_config_t*, int32_t)`. -/
def notifyClientWithCurrentValue (env : Env) (s : Service) (isMocking : Bool)
    (config : vehicle_prop_config_t) (zones : Nat) (nowMs nowNs : Int) : Option Outcome :=
  if isZonedProperty (some config) then
    notifyZonesLoop env isMocking config.prop config.value_type
      (if zones = 0 then config.vehicle_zone_flags else zones) nowMs nowNs (List.range 32) s
  else
    notifyClientWithCurrentValueZone env s isMocking config.prop config.value_type 0 nowMs nowNs

/-- The part of `subscribe` after the lock is released: the subscription at the mock or the
HAL, then the initial values. -/
def subscribeUnlocked (env : Env) (s : Service) (calls : List Call) (shouldSubscribe inMock
    autoGetEnabled : Bool) (config : vehicle_prop_config_t) (prop : Int) (sampleRate : CFloat)
    (zones newZones flags : Nat) (nowMs nowNs : Int) : Option Outcome :=
  let answer : Option (Int × List Call) :=
    if shouldSubscribe && decide (SubscribeFlags.HAL_EVENT &&& flags ≠ 0) then
      if inMock then
        match s.mHalMock with
        | none => none
        | some mock =>
          some (mock.onPropertySubscribe prop sampleRate newZones,
                [Call.mockSubscribe prop sampleRate newZones])
      else
        some (env.mDevice.subscribe prop sampleRate newZones,
              [Call.halSubscribe prop sampleRate newZones])
    else some (NO_ERROR, [])
  match answer with
  | none => none
  | some (r, calls1) =>
    if r ≠ NO_ERROR then some { state := s, status := r, calls := calls ++ calls1 }
    else if autoGetEnabled && isSampleRateFixed config.change_mode then
      match notifyClientWithCurrentValue env s inMock config zones nowMs nowNs with
      | none => none
      | some o => some { state := o.state, status := o.status, calls := calls ++ calls1 ++ o.calls }
    else some { state := s, status := NO_ERROR, calls := calls ++ calls1 }

/-- The state change of `subscribe` under the lock once the request is validated:
`sampleRate`, `zones` and `flags` are the normalised values, `newZones` the aggregate zones
and `shouldSubscribe` tells whether the aggregate is replaced. -/
def subscribeRecord (s : Service) (ibinder : Nat) (prop : Int) (sampleRate : CFloat)
    (zones newZones flags : Nat) (shouldSubscribe : Bool) : Service × Nat × List Call :=
  let r := findOrCreateClientLocked s ibinder
  let s1 := r.1
  let client := r.2.1
  let clientsForProperty := (valueFor s1.mPropertyToClientsMap prop).getD []
  let s2 : Service :=
    { s1 with mPropertyToClientsMap :=
                kvAdd s1.mPropertyToClientsMap prop (setAdd clientsForProperty client) }
  let s3 : Service :=
    if SubscribeFlags.SET_CALL &&& flags ≠ 0 then
      { s2 with mPropertiesSubscribedToSetCall := setAdd s2.mPropertiesSubscribedToSetCall prop }
    else s2
  let s4 := s3.setClient client ((s3.heap client).setSubscriptionInfo prop sampleRate zones flags)
  let s5 : Service :=
    if shouldSubscribe then
      { s4 with mSubscriptionInfos :=
                  kvAdd s4.mSubscriptionInfos prop (SubscriptionInfo.mk sampleRate newZones flags) }
    else s4
  (s5, client, r.2.2)

/-- The flags `subscribe` works with: `SubscribeFlags::DEFAULT` when the caller passed
`SubscribeFlags::UNDEFINED`. -/
def subscribeFlags (flags0 : Nat) : Nat :=
  if flags0 = SubscribeFlags.UNDEFINED then SubscribeFlags.DEFAULT else flags0

/-- The zones `subscribe` works with once they are validated: the caller's for a zoned
property, zero otherwise. -/
def subscribeZones (config : vehicle_prop_config_t) (zones0 : Nat) : Nat :=
  if isZonedProperty (some config) then zones0 else 0

/-- The value of `shouldSubscribe` in `subscribe`, from the aggregate the property has
before the call, if any, and the normalised request. -/
def shouldSubscribeFor (prior : Option SubscriptionInfo) (sampleRate : CFloat) (zones flags : Nat) :
    Bool :=
  match prior with
  | none => true
  | some info =>
    decide (info.sampleRate < sampleRate) || decide (info.zones ≠ mergedZones info zones)
      || decide (info.flags ≠ flags)

/-- The value of `newZones` in `subscribe`: initialised with the zones the caller passed,
and recomputed only when the property already has an aggregate. -/
def newZonesFor (prior : Option SubscriptionInfo) (zones0 zones : Nat) : Nat :=
  match prior with
  | none => zones0
  | some info => mergedZones info zones

/-- Operation `VehicleNetworkService::subscribe`. `listener` is the binder of the
listener. -/
def subscribe (env : Env) (s : Service) (listener : Nat) (prop : Int) (sampleRate0 : CFloat)
    (zones0 flags0 : Nat) (nowMs nowNs : Int) : Option Outcome :=
  let flags := subscribeFlags flags0
  if isSubscribableLocked s prop = false then
    some { state := s, status := BAD_VALUE, calls := [] }
  else
    match findConfigLocked s prop with
    | none => none
    | some config =>
      if SubscribeFlags.SET_CALL &&& flags ≠ 0 ∧ config.access &&& VEHICLE_PROP_ACCESS_WRITE = 0 then
        some { state := s, status := BAD_VALUE, calls := [] }
      else
        let sampleRate := normalizedSampleRate config sampleRate0
        if isZonedProperty (some config) = true ∧ zones0 ≠ 0 ∧
            zones0 &&& config.vehicle_zone_flags ≠ zones0 then
          some { state := s, status := BAD_VALUE, calls := [] }
        else
          let zones := subscribeZones config zones0
          let prior := valueFor s.mSubscriptionInfos prop
          let shouldSubscribe := shouldSubscribeFor prior sampleRate zones flags
          let newZones := newZonesFor prior zones0 zones
          let r := subscribeRecord s listener prop sampleRate zones newZones flags shouldSubscribe
          if shouldSubscribe && isInternalProperty env prop then
            some { state := r.1, status := NO_ERROR, calls := r.2.2 }
          else
            subscribeUnlocked env r.1 r.2.2 shouldSubscribe r.1.mMockingEnabled
              (shouldSubscribe && env.isAutoGetEnabled prop) config prop sampleRate zones newZones
              flags nowMs nowNs

/-! ## Unsubscribe and client death -/

/-- The first step of `removePropertyFromClientLocked`: the client drops its record of the
property and, when it is no longer active, leaves the registry and loses its death watch. -/
def removePropertyFromClient (s : Service) (ibinder client : Nat) (property : Int) :
    Service × List Call :=
  let s1 := s.setClient client ((s.heap client).removeProperty property)
  if (s1.heap client).isActive = false then
    ({ s1 with mBinderToClientMap := removeItem s1.mBinderToClientMap ibinder },
     [Call.unlinkToDeath ibinder])
  else (s1, [])

/-- The second step of `removePropertyFromClientLocked`: the client leaves the subscriber
vector of the property, the property leaves the set-call set when no subscriber with
`SET_CALL` remains, and an emptied vector is removed with its aggregate. The flag tells
whether the property should be unsubscribed from the HAL. -/
def removeClientFromSubscribers (s : Service) (client : Nat) (property : Int) :
    Service × Bool :=
  match findClientsVectorForPropertyLocked s property with
  | none => (s, false)
  | some clientsForProperty =>
    let clients1 := setRemove clientsForProperty client
    let s3 : Service :=
      { s with mPropertyToClientsMap := kvAdd s.mPropertyToClientsMap property clients1 }
    let s4 : Service :=
      if hasClientsSubscribedToSetCallLocked s3 property clients1 = false then
        { s3 with mPropertiesSubscribedToSetCall :=
                    setRemove s3.mPropertiesSubscribedToSetCall property }
      else s3
    if clients1.length = 0 then
      ({ s4 with mPropertyToClientsMap := removeItem s4.mPropertyToClientsMap property,
                 mSubscriptionInfos := removeItem s4.mSubscriptionInfos property },
       true)
    else (s4, false)

/-- Helper `VehicleNetworkService::removePropertyFromClientLocked`: the new state, whether
the property should be unsubscribed from the HAL, and the calls made. -/
def removePropertyFromClientLocked (s : Service) (ibinder client : Nat) (property : Int) :
    Service × Bool × List Call :=
  let r := removePropertyFromClient s ibinder client property
  let r2 := removeClientFromSubscribers r.1 client property
  (r2.1, r2.2, r.2)

/-- Operation `VehicleNetworkService::unsubscribe`. -/
def unsubscribe (env : Env) (s : Service) (listener : Nat) (prop : Int) : Option Outcome :=
  if isSubscribableLocked s prop = false then some { state := s, status := NO_ERROR, calls := [] }
  else
    match findClientLocked s listener with
    | none => some { state := s, status := NO_ERROR, calls := [] }
    | some client =>
      let r := removePropertyFromClientLocked s listener client prop
      if isInternalProperty env prop then
        some { state := r.1, status := NO_ERROR, calls := r.2.2 }
      else if r.2.1 then
        if r.1.mMockingEnabled then
          match r.1.mHalMock with
          | none => none
          | some _ =>
            some { state := r.1, status := NO_ERROR, calls := r.2.2 ++ [Call.mockUnsubscribe prop] }
        else some { state := r.1, status := NO_ERROR, calls := r.2.2 ++ [Call.halUnsubscribe prop] }
      else some { state := r.1, status := NO_ERROR, calls := r.2.2 }

/-- The first loop of `binderDied` over `mPropertyToClientsMap`: the dead client leaves every
subscriber vector; the result is the map with the updated vectors, the aggregates without
the properties whose vector became empty, and those properties. -/
def binderDiedLoop (currentClient : Nat) :
    List (Int × List Nat) → List (Int × SubscriptionInfo) →
      List (Int × List Nat) × List (Int × SubscriptionInfo) × List Int
  | [], infos => ([], infos, [])
  | (property, clients) :: t, infos =>
    let clients1 := setRemove clients currentClient
    if clients1.length = 0 then
      let r := binderDiedLoop currentClient t (removeItem infos property)
      ((property, clients1) :: r.1, r.2.1, property :: r.2.2)
    else
      let r := binderDiedLoop currentClient t infos
      ((property, clients1) :: r.1, r.2.1, r.2.2)

/-- Removal of every listed key from a keyed vector. -/
def removeItems {V : Type} (m : List (Int × V)) : List Int → List (Int × V)
  | [] => m
  | k :: t => removeItems (removeItem m k) t

/-- Death notification `VehicleNetworkService::binderDied` of a client's binder. -/
def binderDied (s : Service) (who : Nat) : Outcome :=
  match valueFor s.mBinderToClientMap who with
  | none => { state := s, status := NO_ERROR, calls := [Call.unlinkToDeath who] }
  | some currentClient =>
    let r := binderDiedLoop currentClient s.mPropertyToClientsMap s.mSubscriptionInfos
    { state := { s with mBinderToClientMap := removeItem s.mBinderToClientMap who,
                        mPropertyToClientsMap := removeItems r.1 r.2.2,
                        mSubscriptionInfos := r.2.1 },
      status := NO_ERROR,
      calls := Call.unlinkToDeath who :: r.2.2.map Call.halUnsubscribe }

/-! ## Monitoring -/

/-- Operation `VehicleNetworkService::startErrorListening`. -/
def startErrorListening (s : Service) (listener : Nat) : Outcome :=
  let r := findOrCreateClientLocked s listener
  { state := r.1.setClient r.2.1 ((r.1.heap r.2.1).setHalErrorMonitoringState true),
    status := NO_ERROR, calls := r.2.2 }

/-- Operation `VehicleNetworkService::stopErrorListening`. -/
def stopErrorListening (s : Service) (listener : Nat) : Outcome :=
  match findClientLocked s listener with
  | none => { state := s, status := NO_ERROR, calls := [] }
  | some client =>
    { state := s.setClient client ((s.heap client).setHalErrorMonitoringState false),
      status := NO_ERROR, calls := [] }

/-- Operation `VehicleNetworkService::startHalRestartMonitoring`. -/
def startHalRestartMonitoring (s : Service) (listener : Nat) : Outcome :=
  let r := findOrCreateClientLocked s listener
  { state := r.1.setClient r.2.1 ((r.1.heap r.2.1).setHalRestartMonitoringState true),
    status := NO_ERROR, calls := r.2.2 }

/-- Operation `VehicleNetworkService::stopHalRestartMonitoring`. -/
def stopHalRestartMonitoring (s : Service) (listener : Nat) : Outcome :=
  match findClientLocked s listener with
  | none => { state := s, status := NO_ERROR, calls := [] }
  | some client =>
    { state := s.setClient client ((s.heap client).setHalRestartMonitoringState false),
      status := NO_ERROR, calls := [] }

/-! ## Mocking -/

/-- The loop of `handleHalRestartAndGetClientsToDispatchLocked` over the registry: every
client loses its subscriptions; the result is the new state, the clients that monitor HAL
restart and the clients that are no longer active. -/
def restartLoop : List (Nat × Nat) → Service → Service × List Nat × List Nat
  | [], s => (s, [], [])
  | (_, client) :: t, s =>
    let s1 := s.setClient client (s.heap client).removeAllProperties
    let r := restartLoop t s1
    (r.1,
     (if (s1.heap client).mMonitoringHalRestart then client :: r.2.1 else r.2.1),
     (if (s1.heap client).isActive = false then client :: r.2.2 else r.2.2))

/-- The second loop of `handleHalRestartAndGetClientsToDispatchLocked`: the clients that are
no longer active leave the registry and their death watch is removed. -/
def removeClientsLoop : List Nat → Service → Service × List Call
  | [], s => (s, [])
  | client :: t, s =>
    let ibinder := (s.heap client).mListener
    let r := removeClientsLoop t
      { s with mBinderToClientMap := removeItem s.mBinderToClientMap ibinder }
    (r.1, Call.unlinkToDeath ibinder :: r.2)

/-- Helper `VehicleNetworkService::handleHalRestartAndGetClientsToDispatchLocked`: the new
state, the clients to notify and the calls made. -/
def handleHalRestartAndGetClientsToDispatchLocked (s : Service) :
    Service × List Nat × List Call :=
  let s1 : Service :=
    { s with mPropertyToClientsMap := [], mSubscriptionInfos := [], mEventInfos := [] }
  let r := restartLoop s1.mBinderToClientMap s1
  let r2 := removeClientsLoop r.2.2 r.1
  (r2.1, r.2.1, r2.2)

/-- Operation `VehicleNetworkService::startMocking`. -/
def startMocking (s : Service) (mock : HalMock) : Outcome :=
  let calls0 : List Call :=
    if s.mMockingEnabled then
      match s.mHalMock with
      | some old => [Call.unlinkToDeath old.binder]
      | none => []
    else []
  let s1 : Service :=
    { s with mHalMock := some mock, mMockingEnabled := true,
             mPropertiesForMocking := mock.onListProperties }
  let r := handleHalRestartAndGetClientsToDispatchLocked s1
  let h := r.1.mHandler.handleMockStateChange
  { state := { r.1 with mHandler := h.1 },
    status := NO_ERROR,
    calls := calls0 ++ [Call.linkToDeath mock.binder, Call.mockListProperties] ++ r.2.2 ++ h.2 ++
      r.2.1.map (fun client => Call.onHalRestart (r.1.heap client).mListener true) }

/-- Operation `VehicleNetworkService::stopMocking`. -/
def stopMocking (s : Service) (mock : HalMock) : Outcome :=
  match s.mHalMock with
  | none => { state := s, status := NO_ERROR, calls := [] }
  | some current =>
    if mock.binder ≠ current.binder then { state := s, status := NO_ERROR, calls := [] }
    else
      let s1 : Service :=
        { s with mHalMock := none, mMockingEnabled := false, mPropertiesForMocking := [] }
      let r := handleHalRestartAndGetClientsToDispatchLocked s1
      let h := r.1.mHandler.handleMockStateChange
      { state := { r.1 with mHandler := h.1 },
        status := NO_ERROR,
        calls := [Call.unlinkToDeath mock.binder] ++ r.2.2 ++ h.2 ++
          r.2.1.map (fun client => Call.onHalRestart (r.1.heap client).mListener false) }

/-! ## Get and set -/

/-- What `getProperty` leaves behind: the status, the caller's value and the calls made.
The state of the service is not changed by a get. -/
structure GetOutcome where
  status : Int
  data : vehicle_prop_value_t
  calls : List Call

/-- The retry loop of `getProperty` against the HAL. `budget` is the number of retries
still allowed, `MAX_GET_SET_RETRY_NUMBER_FOR_NOT_READY - retryCount`. -/
def getRetryLoop (env : Env) : Nat → Nat → vehicle_prop_value_t → GetOutcome
  | 0, attempt, data =>
    let r := env.mDevice.get attempt data
    { status := r.1, data := r.2, calls := [Call.halGet data] }
  | budget + 1, attempt, data =>
    let r := env.mDevice.get attempt data
    if r.1 = NO_ERROR then { status := r.1, data := r.2, calls := [Call.halGet data] }
    else if r.1 ≠ -EAGAIN then { status := r.1, data := r.2, calls := [Call.halGet data] }
    else
      let rest := getRetryLoop env budget (attempt + 1) r.2
      { rest with calls := Call.halGet data :: Call.usleep :: rest.calls }

/-- The retry loop of `setProperty` against the HAL: the status and the calls made. -/
def setRetryLoop (env : Env) (data : vehicle_prop_value_t) : Nat → Nat → Int × List Call
  | 0, attempt => (env.mDevice.set attempt data, [Call.halSet data])
  | budget + 1, attempt =>
    let r := env.mDevice.set attempt data
    if r = NO_ERROR then (r, [Call.halSet data])
    else if r ≠ -EAGAIN then (r, [Call.halSet data])
    else
      let rest := setRetryLoop env data budget (attempt + 1)
      (rest.1, Call.halSet data :: Call.usleep :: rest.2)

/-- Operation `VehicleNetworkService::getProperty`. -/
def getProperty (env : Env) (s : Service) (data : vehicle_prop_value_t) : Option GetOutcome :=
  if isGettableLocked s data.prop = false then
    some { status := BAD_VALUE, data := data, calls := [] }
  else if isInternalProperty env data.prop then
    match readFromCache s.mCache data with
    | none => some { status := BAD_VALUE, data := data, calls := [] }
    | some v => some { status := NO_ERROR, data := v, calls := [] }
  else if s.mMockingEnabled then
    match s.mHalMock with
    | none => none
    | some mock =>
      let r := mock.onPropertyGet data
      some { status := r.1, data := r.2, calls := [Call.mockGet data] }
  else some (getRetryLoop env env.MAX_GET_SET_RETRY_NUMBER_FOR_NOT_READY 0 data)

/-- Fan-out `VehicleNetworkService::dispatchPropertySetEvent`: the listeners notified of a
set, in the order of the subscriber vector. -/
def dispatchPropertySetEvent (s : Service) (data : vehicle_prop_value_t) : List Nat → List Call
  | [] => []
  | client :: t =>
    let shouldDispatch : Bool :=
      match (s.heap client).getSubscriptionInfo data.prop with
      | none => false
      | some subscription =>
        decide (SubscribeFlags.SET_CALL &&& subscription.flags ≠ 0) &&
          (decide (data.zone = subscription.zones) || decide (data.zone &&& subscription.zones ≠ 0))
    if shouldDispatch then
      Call.onPropertySet (s.heap client).mListener data :: dispatchPropertySetEvent s data t
    else dispatchPropertySetEvent s data t

/-- Operation `VehicleNetworkService::setProperty`. -/
def setProperty (env : Env) (s : Service) (data : vehicle_prop_value_t) (nowMs nowNs : Int) :
    Option Outcome :=
  if isSettableLocked s data.prop data.value_type = false then
    some { state := s, status := BAD_VALUE, calls := [] }
  else
    let s1 : Service :=
      if isInternalProperty env data.prop then { s with mCache := writeToCache s.mCache data }
      else s
    let inMocking := s1.mMockingEnabled
    let propertyClientsForSetEvent : Option (List Nat) :=
      if data.prop ∈ s1.mPropertiesSubscribedToSetCall then
        findClientsVectorForPropertyLocked s1 data.prop
      else none
    let answer : Option (Int × List Call) :=
      if inMocking then
        match s1.mHalMock with
        | none => none
        | some mock => some (mock.onPropertySet data, [Call.mockSet data])
      else some (NO_ERROR, [])
    match answer with
    | none => none
    | some (r, calls1) =>
      if r ≠ NO_ERROR then some { state := s1, status := r, calls := calls1 }
      else
        let calls2 : List Call :=
          match propertyClientsForSetEvent with
          | none => []
          | some clients => dispatchPropertySetEvent s1 data clients
        if isInternalProperty env data.prop then
          let o := onHalEvent s1 data inMocking nowMs nowNs
          some { state := o.state, status := NO_ERROR, calls := calls1 ++ calls2 ++ o.calls }
        else if inMocking then some { state := s1, status := NO_ERROR, calls := calls1 ++ calls2 }
        else
          let r2 := setRetryLoop env data env.MAX_GET_SET_RETRY_NUMBER_FOR_NOT_READY 0
          some { state := s1, status := r2.1, calls := calls1 ++ calls2 ++ r2.2 }

/-! ## Event and error dispatch -/

/-- The inner loop of `dispatchHalEvents` over the subscribers of one event: the clients
subscribed with `HAL_EVENT` become active and get the event appended. A subscriber without
a record for the property is a null dereference. -/
def dispatchToClients (e : vehicle_prop_value_t) :
    List Nat → Service → List Nat → Option (Service × List Nat)
  | [], s, activeClients => some (s, activeClients)
  | client :: t, s, activeClients =>
    match (s.heap client).getSubscriptionInfo e.prop with
    | none => none
    | some info =>
      if SubscribeFlags.HAL_EVENT &&& info.flags ≠ 0 then
        dispatchToClients e t (s.setClient client ((s.heap client).addEvent e))
          (setAdd activeClients client)
      else dispatchToClients e t s activeClients

/-- The outer loop of `dispatchHalEvents` over the events of a batch. -/
def dispatchEventsLoop :
    List vehicle_prop_value_t → Service → List Nat → Option (Service × List Nat)
  | [], s, activeClients => some (s, activeClients)
  | e :: t, s, activeClients =>
    match valueFor s.mPropertyToClientsMap e.prop with
    | none => dispatchEventsLoop t s activeClients
    | some clients =>
      match dispatchToClients e clients s activeClients with
      | none => none
      | some r => dispatchEventsLoop t r.1 r.2

/-- Modelled from the spec: the flushes `HalClient::dispatchEvents` of the active clients;
each sends the pending batch to the listener in one call and empties it. -/
def flushClients (now : Int) : List Nat → Service → Service × List Call
  | [], s => (s, [])
  | client :: t, s =>
    let r := flushClients now t (s.setClient client (s.heap client).clearEvents)
    (r.1, Call.onEvents (s.heap client).mListener (s.heap client).mEvents now :: r.2)

/-- Fan-out `VehicleNetworkService::dispatchHalEvents`; `now` is `elapsedRealtimeNano()`. -/
def dispatchHalEvents (s : Service) (events : List vehicle_prop_value_t) (now : Int) :
    Option Outcome :=
  match dispatchEventsLoop events s [] with
  | none => none
  | some r =>
    let f := flushClients now r.2 r.1
    some { state := f.1, status := NO_ERROR, calls := f.2 }

/-- Ingestion `VehicleNetworkService::onHalError`. -/
def onHalError (s : Service) (errorCode property operation : Int) (isInjection : Bool) : Outcome :=
  if !isInjection && s.mMockingEnabled then { state := s, status := NO_ERROR, calls := [] }
  else
    let r := s.mHandler.handleHalError (VehicleHalError.mk errorCode property operation)
    { state := { s with mHandler := r.1 }, status := NO_ERROR, calls := r.2 }

/-- Entry point `VehicleNetworkService::injectHalError`. -/
def injectHalError (s : Service) (errorCode property operation : Int) : Outcome :=
  onHalError s errorCode property operation true

/-- Fan-out `VehicleNetworkService::dispatchHalError`: the clients to notify are the
subscribers of the property of the error; when the property is zero or has no subscriber,
the registered clients that monitor errors. -/
def dispatchHalError (s : Service) (error : VehicleHalError) : List Call :=
  let clientsForProperty : List Nat :=
    if error.property ≠ 0 then (findClientsVectorForPropertyLocked s error.property).getD []
    else []
  let clientsToDispatch : List Nat :=
    if error.property = 0 ∨ clientsForProperty.length = 0 then
      clientsForProperty ++
        (s.mBinderToClientMap.map Prod.snd).filter (fun c => (s.heap c).mMonitoringHalError)
    else clientsForProperty
  clientsToDispatch.map
    (fun c => Call.onHalError (s.heap c).mListener error.errorCode error.property error.operation)

/-- Consumer step `VehicleHalMessageHandler::doHandleHalEvent`, with the fan-out it
triggers; `nowMs` is `elapsedRealtime()` and `nowNs` is `elapsedRealtimeNano()`. -/
def doHandleHalEvent (s : Service) (nowMs nowNs : Int) : Option Outcome :=
  let h := s.mHandler
  let nonFreeListIndex := h.mFreeListIndex ^^^ 1
  let h1 : VehicleHalMessageHandler := { h with mLastDispatchTime := nowMs }
  if (h1.list nonFreeListIndex).length > 0 then
    let events := h1.list nonFreeListIndex ++ h1.list h1.mFreeListIndex
    let h2 := (h1.setList h1.mFreeListIndex []).setList nonFreeListIndex events
    match dispatchHalEvents { s with mHandler := h2 } events nowNs with
    | none => none
    | some o =>
      some { o with state :=
                      { o.state with mHandler := o.state.mHandler.setList nonFreeListIndex [] } }
  else if (h1.list h1.mFreeListIndex).length > 0 then
    let events := h1.list h1.mFreeListIndex
    let h2 : VehicleHalMessageHandler := { h1 with mFreeListIndex := nonFreeListIndex }
    match dispatchHalEvents { s with mHandler := h2 } events nowNs with
    | none => none
    | some o =>
      some { o with state :=
                      { o.state with mHandler := o.state.mHandler.setList h.mFreeListIndex [] } }
  else some { state := { s with mHandler := h1 }, status := NO_ERROR, calls := [] }

/-- Consumer step `VehicleHalMessageHandler::doHandleHalError`, with the fan-out it
triggers: the oldest queued error is taken and dispatched. -/
def doHandleHalError (s : Service) : Outcome :=
  match s.mHandler.mHalErrors with
  | [] => { state := s, status := NO_ERROR, calls := [] }
  | error :: rest =>
    { state := { s with mHandler := { s.mHandler with mHalErrors := rest } },
      status := NO_ERROR,
      calls := dispatchHalError s error }

/-- Operation `VehicleNetworkService::listProperties`: the active list for property zero,
else the configuration of the property, if it is known. -/
def listProperties (s : Service) (property : Int) : List vehicle_prop_config_t :=
  if property = 0 then
    (if !s.mMockingEnabled then s.mProperties else s.mPropertiesForMocking)
  else
    match findConfigLocked s property with
    | some config => [config]
    | none => []

/-! ## Relations between states -/

/-- Two states agree on the property lists, the mocking state, the clients, the
subscriptions and the cache; they may differ in the event statistics, the queues of the
worker and the drop counters. -/
def SameBroker (s s1 : Service) : Prop :=
  s1.mProperties = s.mProperties ∧ s1.mPropertiesForMocking = s.mPropertiesForMocking ∧
  s1.mMockingEnabled = s.mMockingEnabled ∧ s1.mHalMock = s.mHalMock ∧ s1.heap = s.heap ∧
  s1.nextClient = s.nextClient ∧ s1.mBinderToClientMap = s.mBinderToClientMap ∧
  s1.mPropertyToClientsMap = s.mPropertyToClientsMap ∧
  s1.mSubscriptionInfos = s.mSubscriptionInfos ∧
  s1.mPropertiesSubscribedToSetCall = s.mPropertiesSubscribedToSetCall ∧ s1.mCache = s.mCache

/-- The subscriber vector of a property; empty when the property has none. -/
def subscribersOf (s : Service) (p : Int) : List Nat :=
  (valueFor s.mPropertyToClientsMap p).getD []

/-- Whether the client object `c` has a record for the property with `HAL_EVENT` set. -/
def subscribedToHalEvent (s : Service) (p : Int) (c : Nat) : Bool :=
  match (s.heap c).getSubscriptionInfo p with
  | none => false
  | some info => decide (SubscribeFlags.HAL_EVENT &&& info.flags ≠ 0)

/-- Neither the HAL nor the mock registered in `s` answers `BAD_VALUE` to a subscribe or to
a get. -/
def NoBadValueAnswer (env : Env) (s : Service) : Prop :=
  (∀ p r z, env.mDevice.subscribe p r z ≠ BAD_VALUE) ∧
  (∀ n v, (env.mDevice.get n v).1 ≠ BAD_VALUE) ∧
  ∀ mock, s.mHalMock = some mock →
    (∀ p r z, mock.onPropertySubscribe p r z ≠ BAD_VALUE) ∧
    ∀ v, (mock.onPropertyGet v).1 ≠ BAD_VALUE

/-- The aggregate of every property with subscribers exists and carries a sample rate that
is at least the rate each subscriber recorded for the property; the client objects in use
lie below `nextClient`. -/
def RateBounded (s : Service) : Prop :=
  (∀ p clients c, valueFor s.mPropertyToClientsMap p = some clients → c ∈ clients →
    c < s.nextClient ∧ ∃ info agg, (s.heap c).getSubscriptionInfo p = some info ∧
      valueFor s.mSubscriptionInfos p = some agg ∧ info.sampleRate ≤ agg.sampleRate) ∧
  (∀ b c, valueFor s.mBinderToClientMap b = some c → c < s.nextClient)

/-- The registry files each client under the binder of its listener, a subscriber vector
holds no client twice, every subscriber has a record for the property, and the client
objects in use lie below `nextClient`. -/
def WellFormed (s : Service) : Prop :=
  (∀ b c, (b, c) ∈ s.mBinderToClientMap → (s.heap c).mListener = b ∧ c < s.nextClient) ∧
  (∀ p clients, valueFor s.mPropertyToClientsMap p = some clients →
    clients.Nodup ∧ ∀ c ∈ clients, c < s.nextClient ∧ (s.heap c).getSubscriptionInfo p ≠ none)

/-- The container invariants the source relies on: the subscriber map and the map of
every client hold each property once, every property with a subscriber vector is
subscribable under the active property list, and a mock is registered whenever mocking is
enabled. -/
def Coherent (s : Service) : Prop :=
  (s.mPropertyToClientsMap.map Prod.fst).Nodup ∧
  (∀ c, ((s.heap c).mSubscriptionInfos.map Prod.fst).Nodup) ∧
  (∀ p v, valueFor s.mPropertyToClientsMap p = some v → isSubscribableLocked s p = true) ∧
  (s.mMockingEnabled = true → s.mHalMock ≠ none)

/-! ## Sequences of operations -/

/-- An operation of the facade, or the death of a client's binder, with its arguments. -/
inductive Op where
  | subscribe (listener : Nat) (prop : Int) (sampleRate : CFloat) (zones flags : Nat)
      (nowMs nowNs : Int)
  | unsubscribe (listener : Nat) (prop : Int)
  | binderDied (who : Nat)
  | startErrorListening (listener : Nat)
  | stopErrorListening (listener : Nat)
  | startHalRestartMonitoring (listener : Nat)
  | stopHalRestartMonitoring (listener : Nat)
  | startMocking (mock : HalMock)
  | stopMocking (mock : HalMock)

/-- Whether the operation is a subscribe, an unsubscribe or the death of a client. -/
def Op.isSubscription : Op → Bool
  | Op.subscribe _ _ _ _ _ _ _ => true
  | Op.unsubscribe _ _ => true
  | Op.binderDied _ => true
  | _ => false

/-- The state after one operation; `none` when the operation dereferences null. -/
def step (env : Env) (s : Service) : Op → Option Service
  | Op.subscribe listener prop sampleRate zones flags nowMs nowNs =>
    (subscribe env s listener prop sampleRate zones flags nowMs nowNs).map Outcome.state
  | Op.unsubscribe listener prop => (unsubscribe env s listener prop).map Outcome.state
  | Op.binderDied who => some (binderDied s who).state
  | Op.startErrorListening listener => some (startErrorListening s listener).state
  | Op.stopErrorListening listener => some (stopErrorListening s listener).state
  | Op.startHalRestartMonitoring listener => some (startHalRestartMonitoring s listener).state
  | Op.stopHalRestartMonitoring listener => some (stopHalRestartMonitoring s listener).state
  | Op.startMocking mock => some (startMocking s mock).state
  | Op.stopMocking mock => some (stopMocking s mock).state

/-- The state after a sequence of operations, applied from left to right. -/
def run (env : Env) : Service → List Op → Option Service
  | s, [] => some s
  | s, op :: t =>
    match step env s op with
    | none => none
    | some s1 => run env s1 t

/-- Maximum of the sample rates that the listed clients recorded for a property; `none`
when none of them has a record. -/
def maxSubscriberRate (s : Service) (p : Int) : List Nat → Option CFloat
  | [] => none
  | c :: t =>
    match (s.heap c).getSubscriptionInfo p, maxSubscriberRate s p t with
    | some info, some m => some (max info.sampleRate m)
    | some info, none => some info.sampleRate
    | none, r => r

/-- Whether the operation, when it is a subscribe, passes a sample rate that is not NaN,
the zones 0 and the flags `flagsOf prop` chosen for its property. -/
def Op.uniform (flagsOf : Int → Nat) : Op → Bool
  | Op.subscribe _ prop sampleRate zones flags _ _ =>
    decide (sampleRate ≠ CFloat.nan) && decide (zones = 0) && decide (flags = flagsOf prop)
  | _ => true

/-! ## Observations on the calls -/

/-- Whether a call goes to the HAL or to the mock. -/
def Call.isHalOrMock : Call → Bool
  | Call.halGet _ => true
  | Call.halSet _ => true
  | Call.halSubscribe _ _ _ => true
  | Call.halUnsubscribe _ => true
  | Call.halReleaseMemoryFromGet _ => true
  | Call.mockGet _ => true
  | Call.mockSet _ => true
  | Call.mockSubscribe _ _ _ => true
  | Call.mockUnsubscribe _ => true
  | Call.mockListProperties => true
  | _ => false

/-- Whether a call is a get of the HAL. -/
def Call.isHalGet : Call → Bool
  | Call.halGet _ => true
  | _ => false

/-- Whether a call is a set of the HAL. -/
def Call.isHalSet : Call → Bool
  | Call.halSet _ => true
  | _ => false

/-- The value the HAL is handed at each attempt of the retry loop of `getProperty`: the
caller's value as the earlier attempts left it. -/
def getAttemptData (env : Env) (data : vehicle_prop_value_t) : Nat → vehicle_prop_value_t
  | 0 => data
  | n + 1 => (env.mDevice.get n (getAttemptData env data n)).2

/-- The status the HAL answers at each attempt of the retry loop of `getProperty`. -/
def getAttemptStatus (env : Env) (data : vehicle_prop_value_t) (n : Nat) : Int :=
  (env.mDevice.get n (getAttemptData env data n)).1

/-! ## Access control -/

/-- Status `PERMISSION_DENIED` of `utils/Errors.h`. -/
def PERMISSION_DENIED : Int := -1

/-- Predicate `VehicleNetworkService::isOperationAllowed`. The access controller
`mVehiclePropertyAccessControl.testAccess` and the uid of the caller, which the source reads
from the Binder thread state, are parameters. No function of the source file calls it. -/
def isOperationAllowed (testAccess : Int → Nat → Bool → Bool) (uid : Nat) (property : Int)
    (isWrite : Bool) : Bool :=
  let allowed := testAccess property uid isWrite
  allowed

/-- Modelled from the spec: the transaction `getProperty` of the Binder stub of
`IVehicleNetwork`, which is not among the sources. The stub asks `isOperationAllowed` for
read access to the property and answers a permission error without calling the service when
it is refused; otherwise it calls `getProperty`. -/
def gatedGetProperty (testAccess : Int → Nat → Bool → Bool) (uid : Nat) (env : Env)
    (s : Service) (data : vehicle_prop_value_t) : Option GetOutcome :=
  if isOperationAllowed testAccess uid data.prop false = false then
    some { status := PERMISSION_DENIED, data := data, calls := [] }
  else getProperty env s data

/-- Modelled from the spec: the transaction `setProperty` of the Binder stub of
`IVehicleNetwork`, which is not among the sources. The stub asks `isOperationAllowed` for
write access to the property and answers a permission error without calling the service
when it is refused; otherwise it calls `setProperty`. -/
def gatedSetProperty (testAccess : Int → Nat → Bool → Bool) (uid : Nat) (env : Env)
    (s : Service) (data : vehicle_prop_value_t) (nowMs nowNs : Int) : Option Outcome :=
  if isOperationAllowed testAccess uid data.prop true = false then
    some { state := s, status := PERMISSION_DENIED, calls := [] }
  else setProperty env s data nowMs nowNs

/-- Modelled from the spec: the transaction `subscribe` of the Binder stub of
`IVehicleNetwork`, which is not among the sources. The stub asks `isOperationAllowed` for
the kind of access `isWrite` to the property and answers a permission error without calling
the service when it is refused; otherwise it calls `subscribe`. -/
def gatedSubscribe (testAccess : Int → Nat → Bool → Bool) (uid : Nat) (isWrite : Bool)
    (env : Env) (s : Service) (listener : Nat) (prop : Int) (sampleRate : CFloat)
    (zones flags : Nat) (nowMs nowNs : Int) : Option Outcome :=
  if isOperationAllowed testAccess uid prop isWrite = false then
    some { state := s, status := PERMISSION_DENIED, calls := [] }
  else subscribe env s listener prop sampleRate zones flags nowMs nowNs

/-! ## Event worker: consumer side and runs of the pipeline -/

/-- Entry point `VehicleNetworkService::errorCallback` of the real HAL: `onHalError` with
its default argument (`isInjection = false`), always answering `NO_ERROR`. -/
def errorCallback (s : Service) (errorCode property operation : Int) : Outcome :=
  { onHalError s errorCode property operation false with status := NO_ERROR }

/-- The part of `VehicleHalMessageHandler::doHandleHalEvent` that works on the handler
alone, used to state what `doHandleHalEvent` hands to `dispatchHalEvents`: the swap of the
lists under the lock and the final `events->clear()`. The result is the handler after the
step and the batch handed over, if there is one. -/
def VehicleHalMessageHandler.takeBatch (h : VehicleHalMessageHandler) (now : Int) :
    VehicleHalMessageHandler × Option (List vehicle_prop_value_t) :=
  let nonFreeListIndex := h.mFreeListIndex ^^^ 1
  let h1 : VehicleHalMessageHandler := { h with mLastDispatchTime := now }
  if (h1.list nonFreeListIndex).length > 0 then
    let events := h1.list nonFreeListIndex ++ h1.list h1.mFreeListIndex
    let h2 := (h1.setList h1.mFreeListIndex []).setList nonFreeListIndex events
    (h2.setList nonFreeListIndex [], some events)
  else if (h1.list h1.mFreeListIndex).length > 0 then
    let events := h1.list h1.mFreeListIndex
    let h2 : VehicleHalMessageHandler := { h1 with mFreeListIndex := nonFreeListIndex }
    (h2.setList h.mFreeListIndex [], some events)
  else (h1, none)

/-- A step of the event worker: the producer step `handleHalEvent` with its event and the
reading of `elapsedRealtime()`, or the consumer step `doHandleHalEvent` with the readings of
`elapsedRealtime()` and `elapsedRealtimeNano()`. -/
inductive PipelineStep where
  | produce (v : vehicle_prop_value_t) (now : Int)
  | consume (nowMs nowNs : Int)

/-- Whether the step is a producer step. -/
def PipelineStep.isProduce : PipelineStep → Bool
  | PipelineStep.produce _ _ => true
  | PipelineStep.consume _ _ => false

/-- The events of the producer steps of a sequence, in the order of the steps. -/
def producedEvents : List PipelineStep → List vehicle_prop_value_t
  | [] => []
  | PipelineStep.produce v _ :: t => v :: producedEvents t
  | PipelineStep.consume _ _ :: t => producedEvents t

/-- The handler after a sequence of steps and the batches its consumer steps hand over, in
the order of the steps, each with the time stamp of its dispatch. -/
def runPipeline : VehicleHalMessageHandler → List PipelineStep →
    VehicleHalMessageHandler × List (List vehicle_prop_value_t × Int)
  | h, [] => (h, [])
  | h, PipelineStep.produce v now :: t => runPipeline (h.handleHalEvent v now).1 t
  | h, PipelineStep.consume nowMs nowNs :: t =>
    let r := h.takeBatch nowMs
    let rest := runPipeline r.1 t
    match r.2 with
    | none => rest
    | some batch => (rest.1, (batch, nowNs) :: rest.2)

/-- Whether the call hands a batch of events to a listener. -/
def Call.isOnEvents : Call → Bool
  | Call.onEvents _ _ _ => true
  | _ => false

/-- A sequence of steps of the event worker run on the service: a producer step is
`handleHalEvent` on the handler of the service, a consumer step is `doHandleHalEvent`. The
result is the state after the steps and the calls they made, in order; `none` when a
consumer step dereferences null. -/
def runWorker : Service → List PipelineStep → Option (Service × List Call)
  | s, [] => some (s, [])
  | s, PipelineStep.produce v now :: t =>
    let r := s.mHandler.handleHalEvent v now
    (runWorker { s with mHandler := r.1 } t).map (fun x => (x.1, r.2 ++ x.2))
  | s, PipelineStep.consume nowMs nowNs :: t =>
    match doHandleHalEvent s nowMs nowNs with
    | none => none
    | some o => (runWorker o.state t).map (fun x => (x.1, o.calls ++ x.2))

/-- The fan-outs `dispatchHalEvents` of a list of batches, one after the other, each with
its time stamp: the state after them and the calls they made, in order. -/
def dispatchBatches : Service → List (List vehicle_prop_value_t × Int) →
    Option (Service × List Call)
  | s, [] => some (s, [])
  | s, (batch, now) :: t =>
    match dispatchHalEvents s batch now with
    | none => none
    | some o => (dispatchBatches o.state t).map (fun x => (x.1, o.calls ++ x.2))

/-! ## Invariants of the subscriptions -/

/-- Whether the call is a subscribe sent to the HAL or to the mock. -/
def Call.isSubscribe : Call → Bool
  | Call.halSubscribe _ _ _ => true
  | Call.mockSubscribe _ _ _ => true
  | _ => false

/-- A subscriber vector in the map is never empty and its property has an aggregate, and a
property with an aggregate has a subscriber vector. -/
def Balanced (s : Service) : Prop :=
  (∀ p v, valueFor s.mPropertyToClientsMap p = some v →
    v ≠ [] ∧ valueFor s.mSubscriptionInfos p ≠ none) ∧
  (∀ p, valueFor s.mSubscriptionInfos p ≠ none → valueFor s.mPropertyToClientsMap p ≠ none)

/-- A registered client that holds a record for a property is in the subscriber vector of
that property. -/
def Linked (s : Service) : Prop :=
  ∀ b c, (b, c) ∈ s.mBinderToClientMap →
    ∀ p, (s.heap c).getSubscriptionInfo p ≠ none → c ∈ subscribersOf s p

/-- Whether the operation, when it is a subscribe, passes flags that are `UNDEFINED` or
contain `HAL_EVENT` or `SET_CALL`. -/
def Op.properFlags : Op → Bool
  | Op.subscribe _ _ _ _ flags _ _ =>
    decide (flags = SubscribeFlags.UNDEFINED ∨ SubscribeFlags.HAL_EVENT &&& flags ≠ 0 ∨
      SubscribeFlags.SET_CALL &&& flags ≠ 0)
  | _ => true

/-- Every record of every client object has `HAL_EVENT` or `SET_CALL` set. -/
def FlagsSet (s : Service) : Prop :=
  ∀ c p info, (s.heap c).getSubscriptionInfo p = some info →
    SubscribeFlags.HAL_EVENT &&& info.flags ≠ 0 ∨ SubscribeFlags.SET_CALL &&& info.flags ≠ 0

/-- Whether the call is a set-event notification of a listener. -/
def Call.isOnPropertySet : Call → Bool
  | Call.onPropertySet _ _ => true
  | _ => false

/-- Follows the specification, not the source: whether the client object `c` is to receive
the set-event of `data`, which is when it has a record for the property with `SET_CALL`
whose zones equal the zone of the value or intersect it. -/
def specReceivesSetEvent (s : Service) (data : vehicle_prop_value_t) (c : Nat) : Bool :=
  match (s.heap c).getSubscriptionInfo data.prop with
  | none => false
  | some info =>
    decide (info.flags &&& SubscribeFlags.SET_CALL ≠ 0) &&
      (decide (info.zones = data.zone) || decide (info.zones &&& data.zone ≠ 0))

/-- Every subscriber whose record for a property has `SET_CALL` set is a subscriber of a
property of `mPropertiesSubscribedToSetCall`. -/
def SetCallCovered (s : Service) : Prop :=
  ∀ p clients, valueFor s.mPropertyToClientsMap p = some clients →
    ∀ c ∈ clients, ∀ info, (s.heap c).getSubscriptionInfo p = some info →
      SubscribeFlags.SET_CALL &&& info.flags ≠ 0 → p ∈ s.mPropertiesSubscribedToSetCall

/-- Every aggregate has the zones 0, the flags `subscribe` derives from `flagsOf` of its
property, and a sample rate that is not NaN. -/
def UniformAggregates (flagsOf : Int → Nat) (s : Service) : Prop :=
  ∀ p agg, valueFor s.mSubscriptionInfos p = some agg →
    agg.zones = 0 ∧ agg.flags = subscribeFlags (flagsOf p) ∧ agg.sampleRate ≠ CFloat.nan

/-! ## Sample configurations -/

/-- A HAL that accepts every call and returns the value it is given. -/
def sampleDevice : Device :=
  { get := fun _ v => (NO_ERROR, v), set := fun _ _ => NO_ERROR,
    subscribe := fun _ _ _ => NO_ERROR }

/-- An environment over `sampleDevice` without automatic get. -/
def sampleEnv : Env :=
  { mDevice := sampleDevice, isAutoGetEnabled := fun _ => false,
    VEHICLE_PROPERTY_INTERNAL_START := 0x74000000,
    VEHICLE_PROPERTY_INTERNAL_END := 0x74ffffff,
    MAX_GET_SET_RETRY_NUMBER_FOR_NOT_READY := 3 }

/-- A continuous, readable and writable, non-zoned property `0x100` with rates in
`[1, 50]`. -/
def sampleSpeed : vehicle_prop_config_t :=
  { prop := 0x100, access := 3, change_mode := ChangeMode.CONTINUOUS,
    value_type := ValueType.other 0x10, vehicle_zone_flags := 0,
    min_sample_rate := 1, max_sample_rate := 50 }

/-- A zoned on-change property `0x200`, readable and writable, with zones `0b1111`. -/
def sampleZoned : vehicle_prop_config_t :=
  { prop := 0x200, access := 3, change_mode := ChangeMode.ON_CHANGE,
    value_type := ValueType.ZONED_INT32, vehicle_zone_flags := 0xf,
    min_sample_rate := 0, max_sample_rate := 0 }

/-- An internal on-change property, readable and writable. -/
def sampleInternal : vehicle_prop_config_t :=
  { prop := 0x74000000, access := 3, change_mode := ChangeMode.ON_CHANGE,
    value_type := ValueType.other 0x20, vehicle_zone_flags := 0,
    min_sample_rate := 0, max_sample_rate := 0 }

/-- The service over the three sample properties. -/
def sampleService : Service :=
  Service.init [sampleSpeed, sampleZoned, sampleInternal]

/-- A mock that accepts every call and lists the three sample properties. -/
def sampleMock : HalMock :=
  { binder := 99, onListProperties := [sampleSpeed, sampleZoned, sampleInternal],
    onPropertyGet := fun v => (NO_ERROR, v), onPropertySet := fun _ => NO_ERROR,
    onPropertySubscribe := fun _ _ _ => NO_ERROR }

/-- A value for the internal sample property. -/
def sampleValue : vehicle_prop_value_t :=
  { prop := 0x74000000, value_type := ValueType.other 0x20, timestamp := 5, zone := 0,
    value := [1, 2, 3] }

/-- Two clients subscribe to the sample property `0x100` at rates 10 and 25, then the second
one unsubscribes. -/
def sampleOps : List Op :=
  [Op.subscribe 7 0x100 10 0 1 0 0, Op.subscribe 8 0x100 25 0 1 0 0, Op.unsubscribe 8 0x100]

/-- The sample service after two clients subscribed to property `0x100` and a third one
started to monitor HAL restarts. -/
def sampleBusy : Service :=
  (run sampleEnv sampleService
    [Op.subscribe 7 0x100 10 0 1 0 0, Op.subscribe 8 0x100 25 0 3 0 0,
     Op.startHalRestartMonitoring 9]).getD sampleService

/-- An event for the sample property `0x100`. -/
def sampleEvent : vehicle_prop_value_t :=
  { prop := 0x100, value_type := ValueType.other 0x10, timestamp := 42, zone := 0, value := [7] }

/-- A HAL that is not ready at the first two attempts of a get and never ready for a set. -/
def sampleNotReadyDevice : Device :=
  { get := fun n v => (if n < 2 then -EAGAIN else NO_ERROR, v), set := fun _ _ => -EAGAIN,
    subscribe := fun _ _ _ => NO_ERROR }

/-- A HAL that rejects every set with the status `-EIO`. -/
def sampleRejectingDevice : Device :=
  { get := fun _ v => (NO_ERROR, v), set := fun _ _ => -5,
    subscribe := fun _ _ _ => NO_ERROR }

/-- An on-change property `0x300` that can be read but not written. -/
def sampleReadOnly : vehicle_prop_config_t :=
  { prop := 0x300, access := 1, change_mode := ChangeMode.ON_CHANGE,
    value_type := ValueType.other 0x10, vehicle_zone_flags := 0,
    min_sample_rate := 0, max_sample_rate := 0 }

/-- The sample service after client 7 subscribed to the properties `0x100` and `0x200` and
client 8 to the property `0x200`. -/
def sampleTwoProperties : Service :=
  (run sampleEnv sampleService
    [Op.subscribe 7 0x100 10 0 1 0 0, Op.subscribe 7 0x200 0 0 1 0 0,
     Op.subscribe 8 0x200 0 0 1 0 0]).getD sampleService

/-- The HAL and mock calls of each step when three clients subscribe to property `0x100`
at the rates 10, 25 and 5 with default flags and then unsubscribe in the reverse order. -/
def threeSubscribers (env : Env) (s : Service) (a b c : Nat) : Option (List (List Call)) :=
  match subscribe env s a 0x100 10 0 0 0 0 with
  | none => none
  | some o1 =>
    match subscribe env o1.state b 0x100 25 0 0 0 0 with
    | none => none
    | some o2 =>
      match subscribe env o2.state c 0x100 5 0 0 0 0 with
      | none => none
      | some o3 =>
        match unsubscribe env o3.state c 0x100 with
        | none => none
        | some o4 =>
          match unsubscribe env o4.state b 0x100 with
          | none => none
          | some o5 =>
            match unsubscribe env o5.state a 0x100 with
            | none => none
            | some o6 =>
              some ([o1, o2, o3, o4, o5, o6].map
                (fun o => o.calls.filter Call.isHalOrMock))

/-- A mock that lists the three sample properties and rejects every set with the status
`-EIO`. -/
def sampleRejectingMock : HalMock :=
  { binder := 98, onListProperties := [sampleSpeed, sampleZoned, sampleInternal],
    onPropertyGet := fun v => (NO_ERROR, v), onPropertySet := fun _ => -5,
    onPropertySubscribe := fun _ _ _ => NO_ERROR }

/-- The sample environment with automatic get enabled for every property. -/
def sampleAutoGetEnv : Env :=
  { sampleEnv with isAutoGetEnabled := fun _ => true }

/-- A value for zone 1 of the zoned sample property `0x200`. -/
def sampleZonedValue : vehicle_prop_value_t :=
  { prop := 0x200, value_type := ValueType.ZONED_INT32, timestamp := 9, zone := 1,
    value := [5] }

/-- The sample service after clients 7 and 8 subscribed to property `0x100`, client 9
started to listen for errors, and an error about property `0x100` was injected. -/
def sampleWithError : Service :=
  (injectHalError
    ((run sampleEnv sampleService
      [Op.subscribe 7 0x100 10 0 1 0 0, Op.subscribe 8 0x100 25 0 3 0 0,
       Op.startErrorListening 9]).getD sampleService) 3 0x100 1).state

/-- Client 7 subscribes to property `0x100` with `HAL_EVENT` and client 8 with `HAL_EVENT`
and `SET_CALL`; client 9 subscribes to the zoned property `0x200` with `SET_CALL` for all
zones. -/
def sampleSetCallOps : List Op :=
  [Op.subscribe 7 0x100 10 0 1 0 0, Op.subscribe 8 0x100 25 0 3 0 0,
   Op.subscribe 9 0x200 0 0 2 0 0]

/-- Two clients subscribe to property `0x100`, the first at rate 25 with `HAL_EVENT`, the
second at rate 10 with `HAL_EVENT` and `SET_CALL`. -/
def sampleFlagChangeOps : List Op :=
  [Op.subscribe 7 0x100 25 0 1 0 0, Op.subscribe 8 0x100 10 0 3 0 0]

/-- Two clients subscribe to the non-zoned property `0x100` with the same flags, the first
at rate 25 with the zones 5, the second at rate 10 with the zones 0. -/
def sampleZoneChangeOps : List Op :=
  [Op.subscribe 7 0x100 25 5 1 0 0, Op.subscribe 8 0x100 10 0 1 0 0]

/-- One client subscribes to property `0x100` with a sample rate that is NaN. -/
def sampleNanOps : List Op :=
  [Op.subscribe 7 0x100 CFloat.nan 0 1 0 0]

/-- The sample service after two clients subscribed to property `0x100` and an event of
that property was injected. -/
def sampleWithEvent : Service :=
  (injectEvent sampleBusy sampleEvent 4 0).state

/-! ## Facts about the containers -/

theorem valueFor_kvAdd_self {K V : Type} [DecidableEq K] (m : List (K × V)) (k : K) (v : V) :
    valueFor (kvAdd m k v) k = some v := by
  induction m with
  | nil => simp [kvAdd, valueFor]
  | cons e t ih =>
    obtain ⟨k1, v1⟩ := e
    by_cases h : k1 = k
    · simp [kvAdd, valueFor, h]
    · simp [kvAdd, valueFor, h, ih]

theorem valueFor_kvAdd_ne {K V : Type} [DecidableEq K] (m : List (K × V)) (k k2 : K) (v : V)
    (h : k2 ≠ k) : valueFor (kvAdd m k v) k2 = valueFor m k2 := by
  induction m with
  | nil => simp [kvAdd, valueFor, Ne.symm h]
  | cons e t ih =>
    obtain ⟨k1, v1⟩ := e
    by_cases h1 : k1 = k
    · subst h1
      simp [kvAdd, valueFor, Ne.symm h]
    · by_cases h2 : k1 = k2
      · subst h2
        simp [kvAdd, valueFor, h]
      · simp [kvAdd, valueFor, h1, h2, ih]

theorem valueFor_removeItem_self {K V : Type} [DecidableEq K] (m : List (K × V)) (k : K) :
    valueFor (removeItem m k) k = none := by
  induction m with
  | nil => simp [removeItem, valueFor]
  | cons e t ih =>
    obtain ⟨k1, v1⟩ := e
    by_cases h : k1 = k
    · simpa [removeItem, List.filter_cons, h] using ih
    · simpa [removeItem, List.filter_cons, h, valueFor] using ih

theorem valueFor_removeItem_ne {K V : Type} [DecidableEq K] (m : List (K × V)) (k k2 : K)
    (h : k2 ≠ k) : valueFor (removeItem m k) k2 = valueFor m k2 := by
  induction m with
  | nil => simp [removeItem, valueFor]
  | cons e t ih =>
    obtain ⟨k1, v1⟩ := e
    by_cases h1 : k1 = k
    · subst h1
      simpa [removeItem, List.filter_cons, valueFor, Ne.symm h] using ih
    · by_cases h2 : k1 = k2
      · subst h2
        simp [removeItem, List.filter_cons, valueFor, h]
      · simpa [removeItem, List.filter_cons, valueFor, h1, h2] using ih

theorem valueFor_mem {K V : Type} [DecidableEq K] (m : List (K × V)) (k : K) (v : V)
    (h : valueFor m k = some v) : (k, v) ∈ m := by
  induction m with
  | nil => simp [valueFor] at h
  | cons e t ih =>
    obtain ⟨k1, v1⟩ := e
    by_cases h1 : k1 = k
    · simp [valueFor, h1] at h
      simp [h1, h]
    · simp [valueFor, h1] at h
      exact List.mem_cons_of_mem _ (ih h)

theorem mem_setAdd {A : Type} [DecidableEq A] (v : List A) (a x : A) :
    x ∈ setAdd v a ↔ x ∈ v ∨ x = a := by
  unfold setAdd
  by_cases h : a ∈ v
  · simp only [h, if_true]
    constructor
    · intro hx; exact Or.inl hx
    · rintro (hx | hx)
      · exact hx
      · exact hx ▸ h
  · simp [h]

theorem mem_setRemove {A : Type} [DecidableEq A] (v : List A) (a x : A) :
    x ∈ setRemove v a ↔ x ∈ v ∧ x ≠ a := by
  simp [setRemove]

theorem nodup_setAdd {A : Type} [DecidableEq A] (v : List A) (a : A) (h : v.Nodup) :
    (setAdd v a).Nodup := by
  unfold setAdd
  by_cases ha : a ∈ v
  · simpa [ha] using h
  · simp only [ha, if_false]
    exact List.Nodup.append h (List.nodup_singleton a) (by simpa using ha)

/-! ## Facts about floats and counters -/

theorem cfloat_lt_iff (a b : CFloat) : a < b ↔ CFloat.lt a b = true := Iff.rfl

theorem cfloat_le_iff (a b : CFloat) : a ≤ b ↔ CFloat.le a b = true := Iff.rfl

theorem cfloat_le_of_lt {a b : CFloat} (h : a < b) : a ≤ b := by
  rw [cfloat_lt_iff] at h
  rw [cfloat_le_iff]
  cases a <;> cases b <;> simp_all [CFloat.lt, CFloat.le]
  exact le_of_lt h

theorem cfloat_le_refl {a : CFloat} (h : a ≠ CFloat.nan) : a ≤ a := by
  rw [cfloat_le_iff]
  cases a <;> simp_all [CFloat.le]

theorem cfloat_le_of_not_lt {a b : CFloat} (ha : a ≠ CFloat.nan) (hb : b ≠ CFloat.nan)
    (h : ¬ a < b) : b ≤ a := by
  rw [cfloat_lt_iff] at h
  rw [cfloat_le_iff]
  cases a <;> cases b <;> simp_all [CFloat.lt, CFloat.le]

theorem cfloat_le_trans {a b c : CFloat} (h1 : a ≤ b) (h2 : b ≤ c) : a ≤ c := by
  rw [cfloat_le_iff] at h1 h2 ⊢
  cases a <;> cases b <;> cases c <;> simp_all [CFloat.le]
  exact le_trans h1 h2

theorem cfloat_not_lt_of_le {a b : CFloat} (h : a ≤ b) : ¬ b < a := by
  rw [cfloat_le_iff] at h
  rw [cfloat_lt_iff]
  cases a <;> cases b <;> simp_all [CFloat.lt, CFloat.le]

theorem cfloat_ne_nan_of_le {a b : CFloat} (h : a ≤ b) : a ≠ CFloat.nan ∧ b ≠ CFloat.nan := by
  rw [cfloat_le_iff] at h
  cases a <;> cases b <;> simp_all [CFloat.le]

theorem cfloat_ne_nan_of_lt {a b : CFloat} (h : a < b) : a ≠ CFloat.nan ∧ b ≠ CFloat.nan := by
  rw [cfloat_lt_iff] at h
  cases a <;> cases b <;> simp_all [CFloat.lt]

theorem cfloat_lt_of_lt_of_le {a b c : CFloat} (h1 : a < b) (h2 : b ≤ c) : a < c := by
  rw [cfloat_lt_iff] at h1 ⊢
  rw [cfloat_le_iff] at h2
  cases a <;> cases b <;> cases c <;> simp_all [CFloat.lt, CFloat.le]
  exact lt_of_lt_of_le h1 h2

theorem incrementInt32_eq (x : Int) (hlo : INT32_MIN ≤ x) (hhi : x < INT32_MAX) :
    incrementInt32 x = x + 1 := by
  unfold incrementInt32
  unfold INT32_MIN at hlo
  unfold INT32_MAX at hhi
  omega

/-! ## Facts about the operations -/

theorem SameBroker.refl (s : Service) : SameBroker s s := by
  simp [SameBroker]

theorem SameBroker.trans {s s1 s2 : Service} (h1 : SameBroker s s1) (h2 : SameBroker s1 s2) :
    SameBroker s s2 := by
  obtain ⟨a1, a2, a3, a4, a5, a6, a7, a8, a9, a10, a11⟩ := h1
  obtain ⟨b1, b2, b3, b4, b5, b6, b7, b8, b9, b10, b11⟩ := h2
  exact ⟨b1.trans a1, b2.trans a2, b3.trans a3, b4.trans a4, b5.trans a5, b6.trans a6,
    b7.trans a7, b8.trans a8, b9.trans a9, b10.trans a10, b11.trans a11⟩

theorem onHalEvent_same (s : Service) (e : vehicle_prop_value_t) (inj : Bool) (a b : Int) :
    SameBroker s (onHalEvent s e inj a b).state := by
  unfold onHalEvent
  split <;> simp [SameBroker]

theorem notifyZone_same {env : Env} {s : Service} {m : Bool} {prop : Int} {vt : ValueType}
    {zone : Nat} {a b : Int} {o : Outcome}
    (h : notifyClientWithCurrentValueZone env s m prop vt zone a b = some o) :
    SameBroker s o.state := by
  unfold notifyClientWithCurrentValueZone at h
  simp only at h
  split at h
  · simp at h
  · rename_i r call _
    split at h
    · split at h <;> (simp at h; subst h; exact SameBroker.refl s)
    · split at h <;> (simp at h; subst h; exact onHalEvent_same s _ _ _ _)

theorem notifyZonesLoop_same {env : Env} {m : Bool} {prop : Int} {vt : ValueType}
    {req : Nat} {a b : Int} (l : List Nat) :
    ∀ {s : Service} {o : Outcome},
      notifyZonesLoop env m prop vt req a b l s = some o → SameBroker s o.state := by
  induction l with
  | nil =>
    intro s o h
    simp [notifyZonesLoop] at h
    subst h
    exact SameBroker.refl s
  | cons i t ih =>
    intro s o h
    unfold notifyZonesLoop at h
    split at h
    · split at h
      · simp at h
      · rename_i o1 h1
        split at h
        · simp at h
          subst h
          exact notifyZone_same h1
        · split at h
          · simp at h
          · rename_i o2 h2
            simp at h
            subst h
            exact SameBroker.trans (notifyZone_same h1) (ih (o := o2) h2)
    · exact ih h

theorem notify_same {env : Env} {s : Service} {m : Bool} {config : vehicle_prop_config_t}
    {zones : Nat} {a b : Int} {o : Outcome}
    (h : notifyClientWithCurrentValue env s m config zones a b = some o) :
    SameBroker s o.state := by
  unfold notifyClientWithCurrentValue at h
  split at h
  · exact notifyZonesLoop_same _ h
  · exact notifyZone_same h

theorem subscribeUnlocked_same {env : Env} {s : Service} {calls : List Call}
    {sh inMock ag : Bool} {config : vehicle_prop_config_t} {prop : Int} {rate : CFloat}
    {zones newZones flags : Nat} {a b : Int} {o : Outcome}
    (h : subscribeUnlocked env s calls sh inMock ag config prop rate zones newZones flags a b
      = some o) : SameBroker s o.state := by
  unfold subscribeUnlocked at h
  simp only at h
  split at h
  · simp at h
  · split at h
    · simp at h
      subst h
      exact SameBroker.refl s
    · split at h
      · split at h
        · simp at h
        · rename_i o1 h1
          simp at h
          subst h
          exact notify_same (o := o1) h1
      · simp at h
        subst h
        exact SameBroker.refl s

theorem subscribe_outcome {env : Env} {s : Service} {listener : Nat} {prop : Int} {r : CFloat}
    {z f : Nat} {a b : Int} {o : Outcome}
    (h : subscribe env s listener prop r z f a b = some o) :
    (o.state = s ∧ o.status = BAD_VALUE ∧ o.calls = []) ∨
    ∃ config, findConfigLocked s prop = some config ∧
      isSubscribableLocked s prop = true ∧
      ¬ (SubscribeFlags.SET_CALL &&& subscribeFlags f ≠ 0 ∧
          config.access &&& VEHICLE_PROP_ACCESS_WRITE = 0) ∧
      ¬ (isZonedProperty (some config) = true ∧ z ≠ 0 ∧ z &&& config.vehicle_zone_flags ≠ z) ∧
      SameBroker
        (subscribeRecord s listener prop (normalizedSampleRate config r) (subscribeZones config z)
          (newZonesFor (valueFor s.mSubscriptionInfos prop) z (subscribeZones config z))
          (subscribeFlags f)
          (shouldSubscribeFor (valueFor s.mSubscriptionInfos prop) (normalizedSampleRate config r)
            (subscribeZones config z) (subscribeFlags f))).1 o.state := by
  unfold subscribe at h
  simp only at h
  split at h
  · simp at h
    subst h
    exact Or.inl ⟨rfl, rfl, rfl⟩
  · rename_i hsub
    split at h
    · simp at h
    · rename_i config hcfg
      split at h
      · simp at h
        subst h
        exact Or.inl ⟨rfl, rfl, rfl⟩
      · rename_i hflags
        split at h
        · simp at h
          subst h
          exact Or.inl ⟨rfl, rfl, rfl⟩
        · rename_i hzones
          refine Or.inr ⟨config, by assumption, by simpa using hsub, hflags, hzones, ?_⟩
          split at h
          · simp at h
            subst h
            exact SameBroker.refl _
          · exact subscribeUnlocked_same h

theorem subscribeRecord_registry (s : Service) (b : Nat) (p : Int) (rate : CFloat)
    (z nz f : Nat) (sh : Bool) :
    valueFor (subscribeRecord s b p rate z nz f sh).1.mBinderToClientMap b
      = some (subscribeRecord s b p rate z nz f sh).2.1 := by
  unfold subscribeRecord findOrCreateClientLocked
  cases hreg : valueFor s.mBinderToClientMap b with
  | none =>
    simp only [Service.setClient]
    split <;> split <;> simp [valueFor_kvAdd_self]
  | some c =>
    simp only [Service.setClient]
    split <;> split <;> simp [hreg]

theorem subscribeRecord_heap (s : Service) (b : Nat) (p : Int) (rate : CFloat)
    (z nz f : Nat) (sh : Bool) :
    ((subscribeRecord s b p rate z nz f sh).1.heap
        (subscribeRecord s b p rate z nz f sh).2.1).getSubscriptionInfo p
      = some (SubscriptionInfo.mk rate z f) := by
  unfold subscribeRecord
  simp only [Service.setClient]
  split <;> split <;>
    simp [HalClient.getSubscriptionInfo, HalClient.setSubscriptionInfo, valueFor_kvAdd_self]

theorem restartLoop_fields (l : List (Nat × Nat)) :
    ∀ s : Service,
      (restartLoop l s).1.mBinderToClientMap = s.mBinderToClientMap ∧
      (restartLoop l s).1.mPropertyToClientsMap = s.mPropertyToClientsMap ∧
      (restartLoop l s).1.mSubscriptionInfos = s.mSubscriptionInfos ∧
      (restartLoop l s).1.mEventInfos = s.mEventInfos ∧
      (restartLoop l s).1.mMockingEnabled = s.mMockingEnabled ∧
      (restartLoop l s).1.mHalMock = s.mHalMock ∧
      (restartLoop l s).1.mHandler = s.mHandler := by
  induction l with
  | nil => intro s; simp [restartLoop]
  | cons e t ih =>
    intro s
    obtain ⟨b, client⟩ := e
    simpa [restartLoop, Service.setClient] using
      ih (s.setClient client (s.heap client).removeAllProperties)

theorem restartLoop_heap (l : List (Nat × Nat)) :
    ∀ (s : Service) (c : Nat),
      (restartLoop l s).1.heap c =
        if c ∈ l.map Prod.snd then (s.heap c).removeAllProperties else s.heap c := by
  induction l with
  | nil => intro s c; simp [restartLoop]
  | cons e t ih =>
    intro s c
    obtain ⟨b, client⟩ := e
    simp only [restartLoop, List.map_cons, List.mem_cons]
    rw [ih]
    by_cases hc : c = client
    · subst hc
      by_cases ht : c ∈ t.map Prod.snd
      · simp [ht, Service.setClient, HalClient.removeAllProperties]
      · simp [ht, Service.setClient]
    · by_cases ht : c ∈ t.map Prod.snd
      · simp [ht, hc, Service.setClient]
      · simp [ht, hc, Service.setClient]

theorem restartLoop_removed (l : List (Nat × Nat)) :
    ∀ (s : Service) (c : Nat),
      c ∈ l.map Prod.snd → ((restartLoop l s).1.heap c).isActive = false →
        c ∈ (restartLoop l s).2.2 := by
  induction l with
  | nil => intro s c h; simp at h
  | cons e t ih =>
    intro s c hc hact
    obtain ⟨b, client⟩ := e
    simp only [restartLoop] at hact ⊢
    by_cases h : c = client
    · subst h
      have hfinal : (restartLoop t (s.setClient c (s.heap c).removeAllProperties)).1.heap c
          = (s.setClient c (s.heap c).removeAllProperties).heap c := by
        rw [restartLoop_heap]
        split <;> simp [Service.setClient, HalClient.removeAllProperties]
      rw [hfinal] at hact
      simp [hact]
    · have hct : c ∈ t.map Prod.snd := by
        simpa [h] using hc
      have := ih (s.setClient client (s.heap client).removeAllProperties) c hct hact
      split
      · exact List.mem_cons_of_mem _ this
      · exact this

theorem removeClientsLoop_fields (l : List Nat) :
    ∀ s : Service,
      (removeClientsLoop l s).1.heap = s.heap ∧
      (removeClientsLoop l s).1.mPropertyToClientsMap = s.mPropertyToClientsMap ∧
      (removeClientsLoop l s).1.mSubscriptionInfos = s.mSubscriptionInfos ∧
      (removeClientsLoop l s).1.mEventInfos = s.mEventInfos ∧
      (removeClientsLoop l s).1.mMockingEnabled = s.mMockingEnabled ∧
      (removeClientsLoop l s).1.mHalMock = s.mHalMock ∧
      (removeClientsLoop l s).1.mHandler = s.mHandler := by
  induction l with
  | nil => intro s; simp [removeClientsLoop]
  | cons c t ih =>
    intro s
    simpa [removeClientsLoop] using
      ih { s with mBinderToClientMap := removeItem s.mBinderToClientMap (s.heap c).mListener }

theorem removeClientsLoop_registry (l : List Nat) :
    ∀ (s : Service) (b c : Nat),
      (b, c) ∈ (removeClientsLoop l s).1.mBinderToClientMap →
        (b, c) ∈ s.mBinderToClientMap ∧ ∀ x ∈ l, (s.heap x).mListener ≠ b := by
  induction l with
  | nil => intro s b c h; simpa [removeClientsLoop] using h
  | cons x t ih =>
    intro s b c h
    simp only [removeClientsLoop] at h
    have h1 := ih _ b c h
    simp only [removeItem, List.mem_filter, decide_eq_true_eq] at h1
    refine ⟨h1.1.1, ?_⟩
    intro y hy
    rcases List.mem_cons.mp hy with hy | hy
    · subst hy
      exact fun hb => h1.1.2 hb.symm
    · exact h1.2 y hy

theorem removeClientsLoop_calls (l : List Nat) :
    ∀ (s : Service) (call : Call), call ∈ (removeClientsLoop l s).2 →
      ∃ b, call = Call.unlinkToDeath b := by
  induction l with
  | nil => intro s call h; simp [removeClientsLoop] at h
  | cons x t ih =>
    intro s call h
    simp only [removeClientsLoop, List.mem_cons] at h
    rcases h with h | h
    · exact ⟨_, h⟩
    · exact ih _ call h

theorem subscribedToHalEvent_addEvent (s : Service) (p : Int) (client : Nat)
    (e : vehicle_prop_value_t) (c : Nat) :
    subscribedToHalEvent (s.setClient client ((s.heap client).addEvent e)) p c
      = subscribedToHalEvent s p c := by
  unfold subscribedToHalEvent Service.setClient
  by_cases h : c = client
  · subst h
    simp [HalClient.getSubscriptionInfo, HalClient.addEvent]
  · simp [h]

theorem dispatchToClients_spec (e : vehicle_prop_value_t) (clients : List Nat) :
    ∀ (s : Service) (active : List Nat),
      (∀ c ∈ clients, (s.heap c).getSubscriptionInfo e.prop ≠ none) →
      clients.Nodup → (∀ c ∈ clients, c ∉ active) →
      ∃ s1, dispatchToClients e clients s active
          = some (s1, active ++ clients.filter (subscribedToHalEvent s e.prop)) ∧
        (∀ c, s1.heap c =
          if c ∈ clients ∧ subscribedToHalEvent s e.prop c = true then (s.heap c).addEvent e
          else s.heap c) ∧
        s1.mPropertyToClientsMap = s.mPropertyToClientsMap ∧
        s1.mBinderToClientMap = s.mBinderToClientMap ∧
        s1.mSubscriptionInfos = s.mSubscriptionInfos ∧
        s1.mHandler = s.mHandler := by
  induction clients with
  | nil =>
    intro s active _ _ _
    exact ⟨s, by simp [dispatchToClients], by simp, rfl, rfl, rfl, rfl⟩
  | cons client t ih =>
    intro s active hrec hnodup hdisj
    have hclient := hrec client (List.mem_cons_self _ _)
    obtain ⟨info, hinfo⟩ := Option.ne_none_iff_exists'.mp hclient
    have hnt : client ∉ t := (List.nodup_cons.mp hnodup).1
    have hnodt : t.Nodup := (List.nodup_cons.mp hnodup).2
    unfold dispatchToClients
    rw [hinfo]
    dsimp only
    by_cases hflag : SubscribeFlags.HAL_EVENT &&& info.flags ≠ 0
    · rw [if_pos hflag]
      have hw : subscribedToHalEvent s e.prop client = true := by
        simp [subscribedToHalEvent, hinfo, hflag]
      have hna : client ∉ active := hdisj client (List.mem_cons_self _ _)
      have hadd : setAdd active client = active ++ [client] := by
        simp [setAdd, hna]
      obtain ⟨s1, h1, h2, h3, h4, h5, h6⟩ :=
        ih (s.setClient client ((s.heap client).addEvent e)) (setAdd active client)
          (by
            intro c hc
            have hne : c ≠ client := fun h => hnt (h ▸ hc)
            simpa [Service.setClient, hne] using hrec c (List.mem_cons_of_mem _ hc))
          hnodt
          (by
            intro c hc
            rw [hadd]
            have hne : c ≠ client := fun h => hnt (h ▸ hc)
            simp [hdisj c (List.mem_cons_of_mem _ hc), hne])
      refine ⟨s1, ?_, ?_, h3, h4, h5, h6⟩
      · rw [h1, hadd]
        have : t.filter (subscribedToHalEvent (s.setClient client ((s.heap client).addEvent e))
            e.prop) = t.filter (subscribedToHalEvent s e.prop) := by
          congr 1
          funext c
          exact subscribedToHalEvent_addEvent s e.prop client e c
        rw [this]
        simp [List.filter_cons, hw]
      · intro c
        rw [h2 c, subscribedToHalEvent_addEvent]
        by_cases hc : c = client
        · subst hc
          simp [hnt, hw, Service.setClient]
        · simp [hc, Service.setClient]
    · rw [if_neg hflag]
      have hw : subscribedToHalEvent s e.prop client = false := by
        simp [subscribedToHalEvent, hinfo, hflag]
      obtain ⟨s1, h1, h2, h3, h4, h5, h6⟩ :=
        ih s active (fun c hc => hrec c (List.mem_cons_of_mem _ hc)) hnodt
          (fun c hc => hdisj c (List.mem_cons_of_mem _ hc))
      refine ⟨s1, ?_, ?_, h3, h4, h5, h6⟩
      · rw [h1]
        simp [List.filter_cons, hw]
      · intro c
        rw [h2 c]
        by_cases hc : c = client
        · subst hc
          simp [hnt, hw]
        · simp [hc]

theorem flushClients_spec (now : Int) (l : List Nat) :
    ∀ s : Service, l.Nodup →
      (flushClients now l s).2
        = l.map (fun c => Call.onEvents (s.heap c).mListener (s.heap c).mEvents now) ∧
      (∀ c, (flushClients now l s).1.heap c =
        if c ∈ l then (s.heap c).clearEvents else s.heap c) ∧
      (flushClients now l s).1.mPropertyToClientsMap = s.mPropertyToClientsMap ∧
      (flushClients now l s).1.mBinderToClientMap = s.mBinderToClientMap ∧
      (flushClients now l s).1.mSubscriptionInfos = s.mSubscriptionInfos ∧
      (flushClients now l s).1.mHandler = s.mHandler := by
  induction l with
  | nil => intro s _; simp [flushClients]
  | cons client t ih =>
    intro s hnodup
    have hnt : client ∉ t := (List.nodup_cons.mp hnodup).1
    obtain ⟨h1, h2, h3, h4, h5, h6⟩ :=
      ih (s.setClient client (s.heap client).clearEvents) (List.nodup_cons.mp hnodup).2
    simp only [flushClients]
    refine ⟨?_, ?_, h3, h4, h5, h6⟩
    · rw [h1]
      simp only [List.map_cons, List.cons.injEq, true_and]
      apply List.map_congr_left
      intro c hc
      have hne : c ≠ client := fun h => hnt (h ▸ hc)
      simp [Service.setClient, hne]
    · intro c
      rw [h2 c]
      by_cases hc : c = client
      · subst hc
        simp [hnt, Service.setClient]
      · simp [hc, Service.setClient]

theorem noError_ne_badValue : NO_ERROR ≠ BAD_VALUE := by decide

theorem noBadValueAnswer_same {env : Env} {s s1 : Service} (h : SameBroker s s1)
    (hn : NoBadValueAnswer env s) : NoBadValueAnswer env s1 := by
  obtain ⟨h1, h2, h3⟩ := hn
  refine ⟨h1, h2, ?_⟩
  intro mock hm
  rw [h.2.2.2.1] at hm
  exact h3 mock hm

theorem notifyZone_status {env : Env} {s : Service} {m : Bool} {prop : Int} {vt : ValueType}
    {zone : Nat} {a b : Int}
    (hn : NoBadValueAnswer env s) (hm : m = true → s.mHalMock ≠ none) :
    ∃ o, notifyClientWithCurrentValueZone env s m prop vt zone a b = some o ∧
      o.status ≠ BAD_VALUE := by
  unfold notifyClientWithCurrentValueZone
  simp only
  cases m with
  | false =>
    simp only [Bool.false_eq_true, if_false]
    split
    · split
      · exact ⟨_, rfl, noError_ne_badValue⟩
      · exact ⟨_, rfl, hn.2.1 _ _⟩
    · exact ⟨_, rfl, noError_ne_badValue⟩
  | true =>
    obtain ⟨mock, hmock⟩ := Option.ne_none_iff_exists'.mp (hm rfl)
    simp only [hmock, if_true]
    split
    · split
      · exact ⟨_, rfl, noError_ne_badValue⟩
      · exact ⟨_, rfl, (hn.2.2 mock hmock).2 _⟩
    · exact ⟨_, rfl, noError_ne_badValue⟩

theorem notifyZonesLoop_status {env : Env} {m : Bool} {prop : Int} {vt : ValueType}
    {req : Nat} {a b : Int} (l : List Nat) :
    ∀ {s : Service}, NoBadValueAnswer env s → (m = true → s.mHalMock ≠ none) →
      ∃ o, notifyZonesLoop env m prop vt req a b l s = some o ∧ o.status ≠ BAD_VALUE := by
  induction l with
  | nil =>
    intro s _ _
    exact ⟨_, rfl, noError_ne_badValue⟩
  | cons i t ih =>
    intro s hn hm
    unfold notifyZonesLoop
    split
    · obtain ⟨o1, h1, hs1⟩ := @notifyZone_status env s m prop vt (2 ^ i) a b hn hm
      rw [h1]
      dsimp only
      split
      · exact ⟨o1, rfl, hs1⟩
      · have hsame := notifyZone_same h1
        obtain ⟨o2, h2, hs2⟩ := ih (s := o1.state) (noBadValueAnswer_same hsame hn)
          (by rw [hsame.2.2.2.1]; exact hm)
        rw [h2]
        exact ⟨_, rfl, hs2⟩
    · exact ih hn hm

theorem notify_status {env : Env} {s : Service} {m : Bool} {config : vehicle_prop_config_t}
    {zones : Nat} {a b : Int}
    (hn : NoBadValueAnswer env s) (hm : m = true → s.mHalMock ≠ none) :
    ∃ o, notifyClientWithCurrentValue env s m config zones a b = some o ∧
      o.status ≠ BAD_VALUE := by
  unfold notifyClientWithCurrentValue
  split
  · exact notifyZonesLoop_status _ hn hm
  · exact notifyZone_status hn hm

theorem subscribeUnlocked_status {env : Env} {s : Service} {calls : List Call}
    {sh inMock ag : Bool} {config : vehicle_prop_config_t} {prop : Int} {rate : CFloat}
    {zones newZones flags : Nat} {a b : Int}
    (hn : NoBadValueAnswer env s) (hm : inMock = true → s.mHalMock ≠ none) :
    ∃ o, subscribeUnlocked env s calls sh inMock ag config prop rate zones newZones flags a b
        = some o ∧ o.status ≠ BAD_VALUE := by
  unfold subscribeUnlocked
  simp only
  split
  · rename_i heq
    exfalso
    split at heq
    · split at heq
      · rename_i hin
        obtain ⟨mock, hmock⟩ := Option.ne_none_iff_exists'.mp (hm hin)
        rw [hmock] at heq
        simp at heq
      · simp at heq
    · simp at heq
  · rename_i r calls1 heq
    have hrs : r ≠ BAD_VALUE := by
      split at heq
      · split at heq
        · rename_i hin
          obtain ⟨mock, hmock⟩ := Option.ne_none_iff_exists'.mp (hm hin)
          rw [hmock] at heq
          simp at heq
          rw [← heq.1]
          exact (hn.2.2 mock hmock).1 _ _ _
        · simp at heq
          rw [← heq.1]
          exact hn.1 _ _ _
      · simp at heq
        rw [← heq.1]
        exact noError_ne_badValue
    split
    · exact ⟨_, rfl, hrs⟩
    · split
      · obtain ⟨o1, h1, hs1⟩ := @notify_status env s inMock config zones a b hn hm
        rw [h1]
        exact ⟨_, rfl, hs1⟩
      · exact ⟨_, rfl, noError_ne_badValue⟩

theorem subscribeRecord_mock (s : Service) (b : Nat) (p : Int) (rate : CFloat)
    (z nz f : Nat) (sh : Bool) :
    (subscribeRecord s b p rate z nz f sh).1.mMockingEnabled = s.mMockingEnabled ∧
    (subscribeRecord s b p rate z nz f sh).1.mHalMock = s.mHalMock := by
  unfold subscribeRecord findOrCreateClientLocked
  simp only [Service.setClient]
  cases valueFor s.mBinderToClientMap b <;> (constructor <;> (split <;> split <;> simp))

theorem rateBounded_same {s s1 : Service} (h : SameBroker s s1) (hb : RateBounded s) :
    RateBounded s1 := by
  obtain ⟨_, _, _, _, h5, h6, h7, h8, h9, _, _⟩ := h
  unfold RateBounded
  rw [h5, h6, h7, h8, h9]
  exact hb

theorem rateBounded_init (properties : List vehicle_prop_config_t) :
    RateBounded (Service.init properties) := by
  constructor
  · intro p clients c h
    simp [Service.init, valueFor] at h
  · intro b c h
    simp [Service.init, valueFor] at h

theorem subscribeRecord_spec (s : Service) (b : Nat) (p : Int) (rate : CFloat)
    (z nz f : Nat) (sh : Bool) :
    ((valueFor s.mBinderToClientMap b = some (subscribeRecord s b p rate z nz f sh).2.1 ∧
        (subscribeRecord s b p rate z nz f sh).1.nextClient = s.nextClient ∧
        (subscribeRecord s b p rate z nz f sh).1.mBinderToClientMap = s.mBinderToClientMap ∧
        (subscribeRecord s b p rate z nz f sh).1.heap (subscribeRecord s b p rate z nz f sh).2.1
          = (s.heap (subscribeRecord s b p rate z nz f sh).2.1).setSubscriptionInfo p rate z f) ∨
      (valueFor s.mBinderToClientMap b = none ∧
        (subscribeRecord s b p rate z nz f sh).2.1 = s.nextClient ∧
        (subscribeRecord s b p rate z nz f sh).1.nextClient = s.nextClient + 1 ∧
        (subscribeRecord s b p rate z nz f sh).1.mBinderToClientMap
          = kvAdd s.mBinderToClientMap b s.nextClient ∧
        (subscribeRecord s b p rate z nz f sh).1.heap s.nextClient
          = (HalClient.create b).setSubscriptionInfo p rate z f)) ∧
    (∀ c, c ≠ (subscribeRecord s b p rate z nz f sh).2.1 →
      (subscribeRecord s b p rate z nz f sh).1.heap c = s.heap c) ∧
    (subscribeRecord s b p rate z nz f sh).1.mPropertyToClientsMap
      = kvAdd s.mPropertyToClientsMap p
          (setAdd ((valueFor s.mPropertyToClientsMap p).getD [])
            (subscribeRecord s b p rate z nz f sh).2.1) ∧
    (subscribeRecord s b p rate z nz f sh).1.mSubscriptionInfos
      = (if sh then kvAdd s.mSubscriptionInfos p (SubscriptionInfo.mk rate nz f)
         else s.mSubscriptionInfos) ∧
    (subscribeRecord s b p rate z nz f sh).1.mPropertiesSubscribedToSetCall
      = (if SubscribeFlags.SET_CALL &&& f ≠ 0 then setAdd s.mPropertiesSubscribedToSetCall p
         else s.mPropertiesSubscribedToSetCall) := by
  unfold subscribeRecord findOrCreateClientLocked
  cases hreg : valueFor s.mBinderToClientMap b with
  | none =>
    refine ⟨Or.inr ⟨rfl, ?_, ?_, ?_, ?_⟩, ?_, ?_, ?_, ?_⟩ <;>
      (try simp only [Service.setClient]) <;> (repeat' split) <;> (try simp +contextual)
  | some c =>
    refine ⟨Or.inl ⟨?_, ?_, ?_, ?_⟩, ?_, ?_, ?_, ?_⟩ <;>
      (try simp only [Service.setClient]) <;> (repeat' split) <;> (try simp +contextual)

theorem getSubscriptionInfo_set_self (c : HalClient) (p : Int) (rate : CFloat) (z f : Nat) :
    (c.setSubscriptionInfo p rate z f).getSubscriptionInfo p
      = some (SubscriptionInfo.mk rate z f) := by
  simp [HalClient.getSubscriptionInfo, HalClient.setSubscriptionInfo, valueFor_kvAdd_self]

theorem getSubscriptionInfo_set_ne (c : HalClient) (p q : Int) (rate : CFloat) (z f : Nat)
    (h : q ≠ p) :
    (c.setSubscriptionInfo p rate z f).getSubscriptionInfo q = c.getSubscriptionInfo q := by
  simp [HalClient.getSubscriptionInfo, HalClient.setSubscriptionInfo, valueFor_kvAdd_ne _ _ _ _ h]

theorem getSubscriptionInfo_remove_ne (c : HalClient) (p q : Int) (h : q ≠ p) :
    (c.removeProperty p).getSubscriptionInfo q = c.getSubscriptionInfo q := by
  simp [HalClient.getSubscriptionInfo, HalClient.removeProperty, valueFor_removeItem_ne _ _ _ h]

theorem subscribeRecord_bounded (s : Service) (b : Nat) (p : Int) (rate : CFloat)
    (z nz f : Nat) (sh : Bool) (hinv : RateBounded s) (hnum : rate ≠ CFloat.nan)
    (hA : sh = false → ∃ a, valueFor s.mSubscriptionInfos p = some a ∧ rate ≤ a.sampleRate)
    (hB : sh = true → ∀ a, valueFor s.mSubscriptionInfos p = some a → a.sampleRate ≤ rate) :
    RateBounded (subscribeRecord s b p rate z nz f sh).1 := by
  obtain ⟨hcl, hheap, hmap, hinfos, _⟩ := subscribeRecord_spec s b p rate z nz f sh
  generalize subscribeRecord s b p rate z nz f sh = r at hcl hheap hmap hinfos ⊢
  obtain ⟨hI1, hI2⟩ := hinv
  have hnext : s.nextClient ≤ r.1.nextClient := by
    rcases hcl with ⟨_, h, _⟩ | ⟨_, _, h, _⟩ <;> omega
  have hclient : r.2.1 < r.1.nextClient := by
    rcases hcl with ⟨h0, h, _⟩ | ⟨_, h0, h, _⟩
    · rw [h]; exact hI2 b _ h0
    · omega
  have hself : (r.1.heap r.2.1).getSubscriptionInfo p = some (SubscriptionInfo.mk rate z f) := by
    rcases hcl with ⟨_, _, _, h⟩ | ⟨_, h0, _, _, h⟩
    · rw [h]; exact getSubscriptionInfo_set_self _ _ _ _ _
    · rw [h0, h]; exact getSubscriptionInfo_set_self _ _ _ _ _
  have hother : ∀ q, q ≠ p → r.2.1 < s.nextClient →
      (r.1.heap r.2.1).getSubscriptionInfo q = (s.heap r.2.1).getSubscriptionInfo q := by
    intro q hq hlt
    rcases hcl with ⟨_, _, _, h⟩ | ⟨_, h0, _⟩
    · rw [h]; exact getSubscriptionInfo_set_ne _ _ _ _ _ _ hq
    · omega
  constructor
  · intro q clients c hv hc
    rw [hmap] at hv
    by_cases hq : q = p
    · subst hq
      rw [valueFor_kvAdd_self] at hv
      have hcl2 := Option.some.inj hv
      subst hcl2
      rw [mem_setAdd] at hc
      by_cases hcc : c = r.2.1
      · subst hcc
        refine ⟨hclient, SubscriptionInfo.mk rate z f, ?_⟩
        rw [hinfos]
        cases sh with
        | true =>
          exact ⟨SubscriptionInfo.mk rate nz f, hself, by simp [valueFor_kvAdd_self],
            cfloat_le_refl hnum⟩
        | false =>
          obtain ⟨a, ha, hle⟩ := hA rfl
          exact ⟨a, hself, by simpa using ha, hle⟩
      · have hold : c ∈ (valueFor s.mPropertyToClientsMap q).getD [] := by
          rcases hc with h | h
          · exact h
          · exact absurd h hcc
        cases hv0 : valueFor s.mPropertyToClientsMap q with
        | none => simp [hv0] at hold
        | some old =>
          simp only [hv0, Option.getD_some] at hold
          obtain ⟨hlt, info, agg, h1, h2, h3⟩ := hI1 q old c hv0 hold
          refine ⟨lt_of_lt_of_le hlt hnext, info, ?_⟩
          rw [hheap c hcc, hinfos]
          cases sh with
          | true =>
            exact ⟨SubscriptionInfo.mk rate nz f, h1, by simp [valueFor_kvAdd_self],
              cfloat_le_trans h3 (hB rfl agg h2)⟩
          | false => exact ⟨agg, h1, by simpa using h2, h3⟩
    · rw [valueFor_kvAdd_ne _ _ _ _ hq] at hv
      obtain ⟨hlt, info, agg, h1, h2, h3⟩ := hI1 q clients c hv hc
      refine ⟨lt_of_lt_of_le hlt hnext, info, agg, ?_, ?_, h3⟩
      · by_cases hcc : c = r.2.1
        · subst hcc
          rw [hother q hq hlt]
          exact h1
        · rw [hheap c hcc]
          exact h1
      · rw [hinfos]
        cases sh with
        | true => simpa [valueFor_kvAdd_ne _ _ _ _ hq] using h2
        | false => simpa using h2
  · intro b1 c hv
    rcases hcl with ⟨_, h, hr, _⟩ | ⟨_, h0, h, hr, _⟩
    · rw [hr] at hv
      rw [h]
      exact hI2 b1 c hv
    · rw [hr] at hv
      rw [h]
      by_cases hb : b1 = b
      · subst hb
        rw [valueFor_kvAdd_self] at hv
        have := Option.some.inj hv
        omega
      · rw [valueFor_kvAdd_ne _ _ _ _ hb] at hv
        have := hI2 b1 c hv
        omega

theorem valueFor_removeItem_some {K V : Type} [DecidableEq K] (m : List (K × V)) (k k2 : K)
    (v : V) (h : valueFor (removeItem m k) k2 = some v) : valueFor m k2 = some v := by
  by_cases hk : k2 = k
  · subst hk
    rw [valueFor_removeItem_self] at h
    exact absurd h (by simp)
  · rwa [valueFor_removeItem_ne _ _ _ hk] at h

theorem removePropertyFromClient_spec (s : Service) (b client : Nat) (p : Int) :
    (removePropertyFromClient s b client p).1.nextClient = s.nextClient ∧
    (removePropertyFromClient s b client p).1.heap
      = (fun i => if i = client then (s.heap client).removeProperty p else s.heap i) ∧
    ((removePropertyFromClient s b client p).1.mBinderToClientMap = s.mBinderToClientMap ∨
      (removePropertyFromClient s b client p).1.mBinderToClientMap
        = removeItem s.mBinderToClientMap b) ∧
    (removePropertyFromClient s b client p).1.mPropertyToClientsMap = s.mPropertyToClientsMap ∧
    (removePropertyFromClient s b client p).1.mSubscriptionInfos = s.mSubscriptionInfos ∧
    (removePropertyFromClient s b client p).1.mPropertiesSubscribedToSetCall
      = s.mPropertiesSubscribedToSetCall ∧
    (removePropertyFromClient s b client p).1.mMockingEnabled = s.mMockingEnabled ∧
    (removePropertyFromClient s b client p).1.mHalMock = s.mHalMock := by
  by_cases h : ((s.heap client).removeProperty p).isActive = false
  · simp [removePropertyFromClient, Service.setClient, h]
  · simp [removePropertyFromClient, Service.setClient, h]

theorem removeClientFromSubscribers_spec (s : Service) (client : Nat) (p : Int) :
    (removeClientFromSubscribers s client p).1.nextClient = s.nextClient ∧
    (removeClientFromSubscribers s client p).1.heap = s.heap ∧
    (removeClientFromSubscribers s client p).1.mBinderToClientMap = s.mBinderToClientMap ∧
    (removeClientFromSubscribers s client p).1.mMockingEnabled = s.mMockingEnabled ∧
    (removeClientFromSubscribers s client p).1.mHalMock = s.mHalMock ∧
    ((valueFor s.mPropertyToClientsMap p = none ∧
        (removeClientFromSubscribers s client p).2 = false ∧
        (removeClientFromSubscribers s client p).1.mPropertyToClientsMap
          = s.mPropertyToClientsMap ∧
        (removeClientFromSubscribers s client p).1.mSubscriptionInfos
          = s.mSubscriptionInfos) ∨
      (∃ old, valueFor s.mPropertyToClientsMap p = some old ∧ setRemove old client = [] ∧
        (removeClientFromSubscribers s client p).2 = true ∧
        (removeClientFromSubscribers s client p).1.mPropertyToClientsMap
          = removeItem (kvAdd s.mPropertyToClientsMap p []) p ∧
        (removeClientFromSubscribers s client p).1.mSubscriptionInfos
          = removeItem s.mSubscriptionInfos p) ∨
      (∃ old, valueFor s.mPropertyToClientsMap p = some old ∧ setRemove old client ≠ [] ∧
        (removeClientFromSubscribers s client p).2 = false ∧
        (removeClientFromSubscribers s client p).1.mPropertyToClientsMap
          = kvAdd s.mPropertyToClientsMap p (setRemove old client) ∧
        (removeClientFromSubscribers s client p).1.mSubscriptionInfos
          = s.mSubscriptionInfos)) := by
  unfold removeClientFromSubscribers findClientsVectorForPropertyLocked
  cases hv : valueFor s.mPropertyToClientsMap p with
  | none => simp
  | some old =>
    dsimp only
    by_cases hempty : setRemove old client = []
    · simp only [hempty, List.length_nil, if_true]
      refine ⟨?_, ?_, ?_, ?_, ?_, Or.inr (Or.inl ⟨old, rfl, hempty, ?_, ?_, ?_⟩)⟩ <;>
        (repeat' split) <;> simp
    · have hlen : (setRemove old client).length ≠ 0 := by
        simpa [List.length_eq_zero] using hempty
      simp only [hlen, if_false]
      refine ⟨?_, ?_, ?_, ?_, ?_, Or.inr (Or.inr ⟨old, rfl, hempty, ?_, ?_, ?_⟩)⟩ <;>
        (repeat' split) <;> simp

theorem removePropertyFromClientLocked_bounded (s : Service) (b client : Nat) (p : Int)
    (hinv : RateBounded s) : RateBounded (removePropertyFromClientLocked s b client p).1 := by
  unfold removePropertyFromClientLocked
  dsimp only
  obtain ⟨a1, a2, a3, a4, a5, _⟩ := removePropertyFromClient_spec s b client p
  generalize (removePropertyFromClient s b client p).1 = t at a1 a2 a3 a4 a5 ⊢
  obtain ⟨b1, b2, b3, _, _, b4⟩ := removeClientFromSubscribers_spec t client p
  generalize (removeClientFromSubscribers t client p).1 = u at b1 b2 b3 b4 ⊢
  generalize (removeClientFromSubscribers t client p).2 = flag at b4
  obtain ⟨hI1, hI2⟩ := hinv
  rw [a4, a5] at b4
  have hheap : ∀ c q, (q ≠ p ∨ c ≠ client) →
      (u.heap c).getSubscriptionInfo q = (s.heap c).getSubscriptionInfo q := by
    intro c q h
    rw [b2, a2]
    by_cases hc : c = client
    · subst hc
      rcases h with h | h
      · simp [getSubscriptionInfo_remove_ne _ _ _ h]
      · exact absurd rfl h
    · simp [hc]
  constructor
  · intro q clients c hv hc
    rw [b1, a1]
    by_cases hq : q = p
    · subst hq
      rcases b4 with ⟨h0, _, hm, _⟩ | ⟨old, _, _, _, hm, _⟩ | ⟨old, h0, hne, _, hm, hi⟩
      · rw [hm, h0] at hv
        exact absurd hv (by simp)
      · rw [hm, valueFor_removeItem_self] at hv
        exact absurd hv (by simp)
      · rw [hm, valueFor_kvAdd_self] at hv
        have := Option.some.inj hv
        subst this
        obtain ⟨hc1, hc2⟩ := (mem_setRemove _ _ _).mp hc
        obtain ⟨hlt, info, agg, h1, h2, h3⟩ := hI1 q old c h0 hc1
        refine ⟨hlt, info, agg, ?_, ?_, h3⟩
        · rw [hheap c q (Or.inr hc2)]
          exact h1
        · rw [hi]
          exact h2
    · have hv0 : valueFor s.mPropertyToClientsMap q = some clients := by
        rcases b4 with ⟨_, _, hm, _⟩ | ⟨old, _, _, _, hm, _⟩ | ⟨old, _, _, _, hm, _⟩
        · rwa [hm] at hv
        · rwa [hm, valueFor_removeItem_ne _ _ _ hq, valueFor_kvAdd_ne _ _ _ _ hq] at hv
        · rwa [hm, valueFor_kvAdd_ne _ _ _ _ hq] at hv
      obtain ⟨hlt, info, agg, h1, h2, h3⟩ := hI1 q clients c hv0 hc
      refine ⟨hlt, info, agg, ?_, ?_, h3⟩
      · rw [hheap c q (Or.inl hq)]
        exact h1
      · rcases b4 with ⟨_, _, _, hi⟩ | ⟨old, _, _, _, _, hi⟩ | ⟨old, _, _, _, _, hi⟩
        · rwa [hi]
        · rwa [hi, valueFor_removeItem_ne _ _ _ hq]
        · rwa [hi]
  · intro b1' c hv
    rw [b1, a1]
    rw [b3] at hv
    rcases a3 with h | h
    · rw [h] at hv
      exact hI2 b1' c hv
    · rw [h] at hv
      exact hI2 b1' c (valueFor_removeItem_some _ _ _ _ hv)

theorem valueFor_removeItems {V : Type} (ks : List Int) :
    ∀ (m : List (Int × V)) (q : Int),
      valueFor (removeItems m ks) q = if q ∈ ks then none else valueFor m q := by
  induction ks with
  | nil => intro m q; simp [removeItems]
  | cons k t ih =>
    intro m q
    simp only [removeItems, List.mem_cons]
    rw [ih]
    by_cases hq : q = k
    · subst hq
      simp [valueFor_removeItem_self]
    · by_cases ht : q ∈ t
      · simp [ht]
      · simp [ht, hq, valueFor_removeItem_ne _ _ _ hq]

theorem binderDiedLoop_infos (c : Nat) (m : List (Int × List Nat)) :
    ∀ infos : List (Int × SubscriptionInfo),
      (binderDiedLoop c m infos).2.1 = removeItems infos (binderDiedLoop c m infos).2.2 := by
  induction m with
  | nil => intro infos; simp [binderDiedLoop, removeItems]
  | cons e t ih =>
    intro infos
    obtain ⟨property, clients⟩ := e
    simp only [binderDiedLoop]
    split
    · simp only [removeItems]
      exact ih _
    · exact ih _

theorem binderDiedLoop_map (c : Nat) (m : List (Int × List Nat)) :
    ∀ (infos : List (Int × SubscriptionInfo)) (q : Int),
      valueFor (binderDiedLoop c m infos).1 q
        = (valueFor m q).map (fun v => setRemove v c) := by
  induction m with
  | nil => intro infos q; simp [binderDiedLoop, valueFor]
  | cons e t ih =>
    intro infos q
    obtain ⟨property, clients⟩ := e
    simp only [binderDiedLoop]
    split
    · by_cases hq : property = q
      · simp [valueFor, hq]
      · simp [valueFor, hq, ih]
    · by_cases hq : property = q
      · simp [valueFor, hq]
      · simp [valueFor, hq, ih]

theorem binderDied_bounded (s : Service) (who : Nat) (hinv : RateBounded s) :
    RateBounded (binderDied s who).state := by
  unfold binderDied
  cases hreg : valueFor s.mBinderToClientMap who with
  | none => exact hinv
  | some currentClient =>
    dsimp only
    obtain ⟨hI1, hI2⟩ := hinv
    constructor
    · intro q clients c hv hc
      dsimp only at hv ⊢
      rw [valueFor_removeItems] at hv
      by_cases hq : q ∈ (binderDiedLoop currentClient s.mPropertyToClientsMap
          s.mSubscriptionInfos).2.2
      · simp [hq] at hv
      · simp only [hq, if_false] at hv
        rw [binderDiedLoop_map] at hv
        cases hold : valueFor s.mPropertyToClientsMap q with
        | none => simp [hold] at hv
        | some old =>
          simp only [hold, Option.map_some', Option.some.injEq] at hv
          subst hv
          obtain ⟨hc1, _⟩ := (mem_setRemove _ _ _).mp hc
          obtain ⟨hlt, info, agg, h1, h2, h3⟩ := hI1 q old c hold hc1
          refine ⟨hlt, info, agg, h1, ?_, h3⟩
          rw [binderDiedLoop_infos, valueFor_removeItems]
          simp [hq, h2]
    · intro b c hv
      exact hI2 b c (valueFor_removeItem_some _ _ _ _ hv)

theorem normalizedSampleRate_ne_nan (config : vehicle_prop_config_t) (rate : CFloat)
    (h : rate ≠ CFloat.nan) : normalizedSampleRate config rate ≠ CFloat.nan := by
  unfold normalizedSampleRate
  split
  · split
    · intro h0
      cases h0
    · exact h
  · dsimp only
    by_cases h1 : rate > config.max_sample_rate
    · rw [if_pos h1]
      have hmax := (cfloat_ne_nan_of_lt h1).1
      split
      · rename_i h2
        exact (cfloat_ne_nan_of_lt h2).2
      · exact hmax
    · rw [if_neg h1]
      split
      · rename_i h2
        exact (cfloat_ne_nan_of_lt h2).2
      · exact h

theorem uniformAggregates_init (flagsOf : Int → Nat) (properties : List vehicle_prop_config_t) :
    UniformAggregates flagsOf (Service.init properties) := by
  intro p agg h
  simp [Service.init, valueFor] at h

theorem uniformAggregates_same {flagsOf : Int → Nat} {s s1 : Service} (h : SameBroker s s1)
    (hu : UniformAggregates flagsOf s) : UniformAggregates flagsOf s1 := by
  obtain ⟨_, _, _, _, _, _, _, _, h9, _, _⟩ := h
  unfold UniformAggregates
  rw [h9]
  exact hu

theorem subscribeRecord_uniform (flagsOf : Int → Nat) (s : Service) (b : Nat) (p : Int)
    (rate : CFloat) (z nz f : Nat) (sh : Bool) (hnum : rate ≠ CFloat.nan) (hnz : nz = 0)
    (hf : f = subscribeFlags (flagsOf p)) (hu : UniformAggregates flagsOf s) :
    UniformAggregates flagsOf (subscribeRecord s b p rate z nz f sh).1 := by
  have hinfos := (subscribeRecord_spec s b p rate z nz f sh).2.2.2.1
  intro q agg hq
  rw [hinfos] at hq
  cases sh with
  | false => exact hu q agg (by simpa using hq)
  | true =>
    simp only [if_true] at hq
    by_cases hqp : q = p
    · subst hqp
      rw [valueFor_kvAdd_self] at hq
      simp only [Option.some.injEq] at hq
      rw [← hq]
      exact ⟨hnz, hf, hnum⟩
    · rw [valueFor_kvAdd_ne _ _ _ _ hqp] at hq
      exact hu q agg hq

theorem removePropertyFromClientLocked_uniform (flagsOf : Int → Nat) (s : Service)
    (b client : Nat) (p : Int) (hu : UniformAggregates flagsOf s) :
    UniformAggregates flagsOf (removePropertyFromClientLocked s b client p).1 := by
  obtain ⟨-, -, -, -, hinfos, -⟩ := removePropertyFromClient_spec s b client p
  obtain ⟨-, -, -, -, -, hcases⟩ :=
    removeClientFromSubscribers_spec (removePropertyFromClient s b client p).1 client p
  simp only [removePropertyFromClientLocked]
  intro q agg hq
  rcases hcases with ⟨-, -, -, hm⟩ | ⟨old, -, -, -, -, hm⟩ | ⟨old, -, -, -, -, hm⟩
  · rw [hm, hinfos] at hq
    exact hu q agg hq
  · rw [hm, hinfos] at hq
    exact hu q agg (valueFor_removeItem_some _ _ _ _ hq)
  · rw [hm, hinfos] at hq
    exact hu q agg hq

theorem binderDied_uniform (flagsOf : Int → Nat) (s : Service) (who : Nat)
    (hu : UniformAggregates flagsOf s) : UniformAggregates flagsOf (binderDied s who).state := by
  unfold binderDied
  split
  · exact hu
  · intro q agg hq
    dsimp only at hq
    rw [binderDiedLoop_infos, valueFor_removeItems] at hq
    split at hq
    · simp at hq
    · exact hu q agg hq

theorem subscribe_bounded {flagsOf : Int → Nat} {env : Env} {s : Service} {listener : Nat}
    {prop : Int} {r : CFloat} {z f : Nat} {a b : Int} {o : Outcome}
    (h : subscribe env s listener prop r z f a b = some o) (hinv : RateBounded s)
    (hu : UniformAggregates flagsOf s) (hnum : r ≠ CFloat.nan) (hz : z = 0)
    (hf : f = flagsOf prop) :
    RateBounded o.state ∧ UniformAggregates flagsOf o.state := by
  rcases subscribe_outcome h with ⟨hs, _, _⟩ | ⟨config, _, _, _, _, hsame⟩
  · rw [hs]; exact ⟨hinv, hu⟩
  · subst hz
    subst hf
    have hzones : subscribeZones config 0 = 0 := by
      unfold subscribeZones
      split <;> rfl
    have hrate := normalizedSampleRate_ne_nan config r hnum
    have hnz : newZonesFor (valueFor s.mSubscriptionInfos prop) 0 (subscribeZones config 0)
        = 0 := by
      rw [hzones]
      unfold newZonesFor mergedZones
      cases valueFor s.mSubscriptionInfos prop with
      | none => rfl
      | some info => dsimp only; split <;> rfl
    refine ⟨rateBounded_same hsame (subscribeRecord_bounded _ _ _ _ _ _ _ _ hinv hrate ?_ ?_),
      uniformAggregates_same hsame
        (subscribeRecord_uniform flagsOf _ _ _ _ _ _ _ _ hrate hnz rfl hu)⟩
    · intro hsh
      cases hprior : valueFor s.mSubscriptionInfos prop with
      | none => simp [hprior, shouldSubscribeFor] at hsh
      | some info =>
        simp only [hprior, shouldSubscribeFor, Bool.or_eq_false_iff,
          decide_eq_false_iff_not] at hsh
        exact ⟨info, rfl, cfloat_le_of_not_lt (hu prop info hprior).2.2 hrate hsh.1.1⟩
    · intro hsh info hprior
      obtain ⟨hz0, hfl, -⟩ := hu prop info hprior
      simp only [hprior, shouldSubscribeFor, Bool.or_eq_true, decide_eq_true_eq] at hsh
      rcases hsh with (hlt | hzn) | hfn
      · exact cfloat_le_of_lt hlt
      · exfalso
        apply hzn
        rw [hzones, hz0]
        simp [mergedZones]
      · exact absurd hfl hfn

theorem unsubscribe_state {env : Env} {s : Service} {listener : Nat} {prop : Int}
    {o : Outcome} (h : unsubscribe env s listener prop = some o) :
    o.state = s ∨ ∃ client, o.state = (removePropertyFromClientLocked s listener client prop).1 := by
  unfold unsubscribe at h
  split at h
  · simp at h; subst h; exact Or.inl rfl
  · split at h
    · simp at h; subst h; exact Or.inl rfl
    · rename_i client _
      dsimp only at h
      split at h
      · simp at h; subst h; exact Or.inr ⟨client, rfl⟩
      · split at h
        · split at h
          · split at h
            · simp at h
            · simp at h; subst h; exact Or.inr ⟨client, rfl⟩
          · simp at h; subst h; exact Or.inr ⟨client, rfl⟩
        · simp at h; subst h; exact Or.inr ⟨client, rfl⟩

theorem run_bounded (flagsOf : Int → Nat) (env : Env) (ops : List Op) :
    ∀ s s1 : Service, RateBounded s → UniformAggregates flagsOf s →
      (∀ op ∈ ops, op.isSubscription = true) → (∀ op ∈ ops, op.uniform flagsOf = true) →
      run env s ops = some s1 → RateBounded s1 ∧ UniformAggregates flagsOf s1 := by
  induction ops with
  | nil =>
    intro s s1 hinv hu _ _ hrun
    simp [run] at hrun
    subst hrun
    exact ⟨hinv, hu⟩
  | cons op t ih =>
    intro s s1 hinv hu hops hunif hrun
    simp only [run] at hrun
    cases hstep : step env s op with
    | none => simp [hstep] at hrun
    | some s2 =>
      simp only [hstep] at hrun
      have hops2 : ∀ op ∈ t, op.isSubscription = true :=
        fun x hx => hops x (List.mem_cons_of_mem _ hx)
      have hunif2 : ∀ op ∈ t, op.uniform flagsOf = true :=
        fun x hx => hunif x (List.mem_cons_of_mem _ hx)
      have hop := hops op (List.mem_cons_self _ _)
      have hopu := hunif op (List.mem_cons_self _ _)
      have hnext : RateBounded s2 ∧ UniformAggregates flagsOf s2 := by
        cases op with
        | subscribe listener prop rate zones flags nowMs nowNs =>
          simp only [step, Option.map_eq_some'] at hstep
          obtain ⟨o, ho, hs⟩ := hstep
          subst hs
          simp only [Op.uniform, Bool.and_eq_true, decide_eq_true_eq] at hopu
          exact subscribe_bounded ho hinv hu hopu.1.1 hopu.1.2 hopu.2
        | unsubscribe listener prop =>
          simp only [step, Option.map_eq_some'] at hstep
          obtain ⟨o, ho, hs⟩ := hstep
          subst hs
          rcases unsubscribe_state ho with h | ⟨client, h⟩
          · rw [h]; exact ⟨hinv, hu⟩
          · rw [h]
            exact ⟨removePropertyFromClientLocked_bounded _ _ _ _ hinv,
              removePropertyFromClientLocked_uniform flagsOf _ _ _ _ hu⟩
        | binderDied who =>
          simp only [step, Option.some.injEq] at hstep
          subst hstep
          exact ⟨binderDied_bounded _ _ hinv, binderDied_uniform flagsOf _ _ hu⟩
        | startErrorListening _ => simp [Op.isSubscription] at hop
        | stopErrorListening _ => simp [Op.isSubscription] at hop
        | startHalRestartMonitoring _ => simp [Op.isSubscription] at hop
        | stopHalRestartMonitoring _ => simp [Op.isSubscription] at hop
        | startMocking _ => simp [Op.isSubscription] at hop
        | stopMocking _ => simp [Op.isSubscription] at hop
      exact ih s2 s1 hnext.1 hnext.2 hops2 hunif2 hrun

theorem subscribeRecord_cache (s : Service) (b : Nat) (p : Int) (rate : CFloat)
    (z nz f : Nat) (sh : Bool) : (subscribeRecord s b p rate z nz f sh).1.mCache = s.mCache := by
  unfold subscribeRecord findOrCreateClientLocked
  simp only [Service.setClient]
  cases valueFor s.mBinderToClientMap b <;> (repeat' split) <;> rfl

theorem removePropertyFromClientLocked_cache (s : Service) (b client : Nat) (p : Int) :
    (removePropertyFromClientLocked s b client p).1.mCache = s.mCache := by
  have h1 : ∀ t : Service, (removeClientFromSubscribers t client p).1.mCache = t.mCache := by
    intro t
    unfold removeClientFromSubscribers
    split
    · rfl
    · dsimp only
      split <;> split <;> rfl
  have h2 : (removePropertyFromClient s b client p).1.mCache = s.mCache := by
    by_cases h : ((s.heap client).removeProperty p).isActive = false <;>
      simp [removePropertyFromClient, Service.setClient, h]
  unfold removePropertyFromClientLocked
  dsimp only
  rw [h1, h2]

theorem restartLoop_cache (l : List (Nat × Nat)) :
    ∀ s : Service, (restartLoop l s).1.mCache = s.mCache := by
  induction l with
  | nil => intro s; rfl
  | cons e t ih =>
    intro s
    obtain ⟨b, client⟩ := e
    simp only [restartLoop]
    rw [ih]
    rfl

theorem removeClientsLoop_cache (l : List Nat) :
    ∀ s : Service, (removeClientsLoop l s).1.mCache = s.mCache := by
  induction l with
  | nil => intro s; rfl
  | cons c t ih =>
    intro s
    simp only [removeClientsLoop]
    rw [ih]

theorem step_cache {env : Env} {s s1 : Service} {op : Op} (h : step env s op = some s1) :
    s1.mCache = s.mCache := by
  cases op with
  | subscribe listener prop rate zones flags nowMs nowNs =>
    simp only [step, Option.map_eq_some'] at h
    obtain ⟨o, ho, hs⟩ := h
    subst hs
    rcases subscribe_outcome ho with ⟨hs, _, _⟩ | ⟨config, _, _, _, _, hsame⟩
    · rw [hs]
    · rw [hsame.2.2.2.2.2.2.2.2.2.2]
      exact subscribeRecord_cache _ _ _ _ _ _ _ _
  | unsubscribe listener prop =>
    simp only [step, Option.map_eq_some'] at h
    obtain ⟨o, ho, hs⟩ := h
    subst hs
    rcases unsubscribe_state ho with h | ⟨client, h⟩
    · rw [h]
    · rw [h]; exact removePropertyFromClientLocked_cache _ _ _ _
  | binderDied who =>
    simp only [step, Option.some.injEq] at h
    subst h
    unfold binderDied
    split <;> rfl
  | startErrorListening listener =>
    simp only [step, Option.some.injEq] at h
    subst h
    unfold startErrorListening findOrCreateClientLocked
    simp only [Service.setClient]
    split <;> rfl
  | stopErrorListening listener =>
    simp only [step, Option.some.injEq] at h
    subst h
    unfold stopErrorListening
    split <;> rfl
  | startHalRestartMonitoring listener =>
    simp only [step, Option.some.injEq] at h
    subst h
    unfold startHalRestartMonitoring findOrCreateClientLocked
    simp only [Service.setClient]
    split <;> rfl
  | stopHalRestartMonitoring listener =>
    simp only [step, Option.some.injEq] at h
    subst h
    unfold stopHalRestartMonitoring
    split <;> rfl
  | startMocking mock =>
    simp only [step, Option.some.injEq] at h
    subst h
    simp only [startMocking, handleHalRestartAndGetClientsToDispatchLocked]
    rw [removeClientsLoop_cache, restartLoop_cache]
  | stopMocking mock =>
    simp only [step, Option.some.injEq] at h
    subst h
    unfold stopMocking
    split
    · rfl
    · split
      · rfl
      · simp only [handleHalRestartAndGetClientsToDispatchLocked]
        rw [removeClientsLoop_cache, restartLoop_cache]

theorem run_cache (env : Env) (ops : List Op) :
    ∀ s s1 : Service, run env s ops = some s1 → s1.mCache = s.mCache := by
  induction ops with
  | nil =>
    intro s s1 h
    simp [run] at h
    rw [h]
  | cons op t ih =>
    intro s s1 h
    simp only [run] at h
    cases hstep : step env s op with
    | none => simp [hstep] at h
    | some s2 =>
      simp only [hstep] at h
      rw [ih s2 s1 h, step_cache hstep]

theorem mem_kvAdd {K V : Type} [DecidableEq K] (m : List (K × V)) (k : K) (v : V) (x : K × V)
    (h : x ∈ kvAdd m k v) : x ∈ m ∨ x = (k, v) := by
  induction m with
  | nil => simpa [kvAdd] using h
  | cons e t ih =>
    obtain ⟨k1, v1⟩ := e
    by_cases hk : k1 = k
    · simp only [kvAdd, hk, if_true, List.mem_cons] at h
      rcases h with h | h
      · exact Or.inr h
      · exact Or.inl (List.mem_cons_of_mem _ h)
    · simp only [kvAdd, hk, if_false, List.mem_cons] at h
      rcases h with h | h
      · exact Or.inl (h ▸ List.mem_cons_self _ _)
      · rcases ih h with h1 | h1
        · exact Or.inl (List.mem_cons_of_mem _ h1)
        · exact Or.inr h1

theorem mem_removeItem {K V : Type} [DecidableEq K] (m : List (K × V)) (k : K) (x : K × V)
    (h : x ∈ removeItem m k) : x ∈ m := by
  simp only [removeItem, List.mem_filter] at h
  exact h.1

theorem nodup_setRemove {A : Type} [DecidableEq A] (v : List A) (a : A) (h : v.Nodup) :
    (setRemove v a).Nodup :=
  List.Nodup.filter _ h

theorem wellFormed_init (properties : List vehicle_prop_config_t) :
    WellFormed (Service.init properties) := by
  constructor
  · intro b c h
    simp [Service.init] at h
  · intro p clients h
    simp [Service.init, valueFor] at h

theorem wellFormed_same {s s1 : Service} (h : SameBroker s s1) (hw : WellFormed s) :
    WellFormed s1 := by
  obtain ⟨_, _, _, _, h5, h6, h7, h8, _, _, _⟩ := h
  unfold WellFormed
  rw [h5, h6, h7, h8]
  exact hw

theorem subscribeRecord_wellFormed (s : Service) (b : Nat) (p : Int) (rate : CFloat)
    (z nz f : Nat) (sh : Bool) (hw : WellFormed s) :
    WellFormed (subscribeRecord s b p rate z nz f sh).1 := by
  obtain ⟨hcl, hheap, hmap, _, _⟩ := subscribeRecord_spec s b p rate z nz f sh
  generalize subscribeRecord s b p rate z nz f sh = r at hcl hheap hmap ⊢
  obtain ⟨hK, hV⟩ := hw
  have hnext : s.nextClient ≤ r.1.nextClient := by
    rcases hcl with ⟨_, h, _⟩ | ⟨_, _, h, _⟩ <;> omega
  have hclient : r.2.1 < r.1.nextClient := by
    rcases hcl with ⟨h0, h, _⟩ | ⟨_, h0, h, _⟩
    · rw [h]; exact (hK b _ (valueFor_mem _ _ _ h0)).2
    · omega
  have hself : (r.1.heap r.2.1).getSubscriptionInfo p = some (SubscriptionInfo.mk rate z f) := by
    rcases hcl with ⟨_, _, _, h⟩ | ⟨_, h0, _, _, h⟩
    · rw [h]; exact getSubscriptionInfo_set_self _ _ _ _ _
    · rw [h0, h]; exact getSubscriptionInfo_set_self _ _ _ _ _
  have hother : ∀ q, q ≠ p → r.2.1 < s.nextClient →
      (r.1.heap r.2.1).getSubscriptionInfo q = (s.heap r.2.1).getSubscriptionInfo q := by
    intro q hq hlt
    rcases hcl with ⟨_, _, _, h⟩ | ⟨_, h0, _⟩
    · rw [h]; exact getSubscriptionInfo_set_ne _ _ _ _ _ _ hq
    · omega
  constructor
  · intro b1 c hmem
    rcases hcl with ⟨_, hn, hr, hh⟩ | ⟨_, h0, hn, hr, hh⟩
    · rw [hr] at hmem
      obtain ⟨h1, h2⟩ := hK b1 c hmem
      refine ⟨?_, by omega⟩
      by_cases hc : c = r.2.1
      · subst hc
        rw [hh]
        exact h1
      · rw [hheap c hc]
        exact h1
    · rw [hr] at hmem
      rcases mem_kvAdd _ _ _ _ hmem with h | h
      · obtain ⟨h1, h2⟩ := hK b1 c h
        refine ⟨?_, by omega⟩
        rw [hheap c (by omega)]
        exact h1
      · have hb : b1 = b := congrArg Prod.fst h
        have hc : c = s.nextClient := congrArg Prod.snd h
        subst hb hc
        refine ⟨?_, by omega⟩
        rw [hh]
        rfl
  · intro q clients hv
    rw [hmap] at hv
    by_cases hq : q = p
    · subst hq
      rw [valueFor_kvAdd_self] at hv
      have := Option.some.inj hv
      subst this
      have hold : ((valueFor s.mPropertyToClientsMap q).getD []).Nodup ∧
          ∀ c ∈ (valueFor s.mPropertyToClientsMap q).getD [],
            c < s.nextClient ∧ (s.heap c).getSubscriptionInfo q ≠ none := by
        cases hv0 : valueFor s.mPropertyToClientsMap q with
        | none => simp
        | some old => simpa using hV q old hv0
      refine ⟨nodup_setAdd _ _ hold.1, ?_⟩
      intro c hc
      by_cases hcc : c = r.2.1
      · subst hcc
        exact ⟨hclient, by rw [hself]; simp⟩
      · rcases (mem_setAdd _ _ _).mp hc with h | h
        · obtain ⟨h1, h2⟩ := hold.2 c h
          refine ⟨by omega, ?_⟩
          rw [hheap c hcc]
          exact h2
        · exact absurd h hcc
    · rw [valueFor_kvAdd_ne _ _ _ _ hq] at hv
      obtain ⟨h1, h2⟩ := hV q clients hv
      refine ⟨h1, ?_⟩
      intro c hc
      obtain ⟨h3, h4⟩ := h2 c hc
      refine ⟨by omega, ?_⟩
      by_cases hcc : c = r.2.1
      · subst hcc
        rw [hother q hq h3]
        exact h4
      · rw [hheap c hcc]
        exact h4

theorem removePropertyFromClientLocked_wellFormed (s : Service) (b client : Nat) (p : Int)
    (hw : WellFormed s) : WellFormed (removePropertyFromClientLocked s b client p).1 := by
  unfold removePropertyFromClientLocked
  dsimp only
  obtain ⟨a1, a2, a3, a4, _, _⟩ := removePropertyFromClient_spec s b client p
  generalize (removePropertyFromClient s b client p).1 = t at a1 a2 a3 a4 ⊢
  obtain ⟨b1, b2, b3, _, _, b4⟩ := removeClientFromSubscribers_spec t client p
  generalize (removeClientFromSubscribers t client p).1 = u at b1 b2 b3 b4 ⊢
  generalize (removeClientFromSubscribers t client p).2 = flag at b4
  obtain ⟨hK, hV⟩ := hw
  rw [a4] at b4
  have hlistener : ∀ c, (u.heap c).mListener = (s.heap c).mListener := by
    intro c
    rw [b2, a2]
    by_cases hc : c = client
    · subst hc
      simp [HalClient.removeProperty]
    · simp [hc]
  have hheap : ∀ c q, (q ≠ p ∨ c ≠ client) →
      (u.heap c).getSubscriptionInfo q = (s.heap c).getSubscriptionInfo q := by
    intro c q h
    rw [b2, a2]
    by_cases hc : c = client
    · subst hc
      rcases h with h | h
      · simp [getSubscriptionInfo_remove_ne _ _ _ h]
      · exact absurd rfl h
    · simp [hc]
  constructor
  · intro b1' c hmem
    rw [b3] at hmem
    rw [b1, a1, hlistener]
    rcases a3 with h | h
    · rw [h] at hmem
      exact hK b1' c hmem
    · rw [h] at hmem
      exact hK b1' c (mem_removeItem _ _ _ hmem)
  · intro q clients hv
    rw [b1, a1]
    by_cases hq : q = p
    · subst hq
      rcases b4 with ⟨h0, _, hm, _⟩ | ⟨old, _, _, _, hm, _⟩ | ⟨old, h0, hne, _, hm, _⟩
      · rw [hm, h0] at hv
        exact absurd hv (by simp)
      · rw [hm, valueFor_removeItem_self] at hv
        exact absurd hv (by simp)
      · rw [hm, valueFor_kvAdd_self] at hv
        have := Option.some.inj hv
        subst this
        obtain ⟨h1, h2⟩ := hV q old h0
        refine ⟨nodup_setRemove _ _ h1, ?_⟩
        intro c hc
        obtain ⟨hc1, hc2⟩ := (mem_setRemove _ _ _).mp hc
        obtain ⟨h3, h4⟩ := h2 c hc1
        refine ⟨h3, ?_⟩
        rw [hheap c q (Or.inr hc2)]
        exact h4
    · have hv0 : valueFor s.mPropertyToClientsMap q = some clients := by
        rcases b4 with ⟨_, _, hm, _⟩ | ⟨old, _, _, _, hm, _⟩ | ⟨old, _, _, _, hm, _⟩
        · rwa [hm] at hv
        · rwa [hm, valueFor_removeItem_ne _ _ _ hq, valueFor_kvAdd_ne _ _ _ _ hq] at hv
        · rwa [hm, valueFor_kvAdd_ne _ _ _ _ hq] at hv
      obtain ⟨h1, h2⟩ := hV q clients hv0
      refine ⟨h1, ?_⟩
      intro c hc
      obtain ⟨h3, h4⟩ := h2 c hc
      refine ⟨h3, ?_⟩
      rw [hheap c q (Or.inl hq)]
      exact h4

theorem binderDied_wellFormed (s : Service) (who : Nat) (hw : WellFormed s) :
    WellFormed (binderDied s who).state := by
  unfold binderDied
  cases hreg : valueFor s.mBinderToClientMap who with
  | none => exact hw
  | some currentClient =>
    dsimp only
    obtain ⟨hK, hV⟩ := hw
    constructor
    · intro b c hmem
      exact hK b c (mem_removeItem _ _ _ hmem)
    · intro q clients hv
      dsimp only at hv ⊢
      rw [valueFor_removeItems] at hv
      by_cases hq : q ∈ (binderDiedLoop currentClient s.mPropertyToClientsMap
          s.mSubscriptionInfos).2.2
      · simp [hq] at hv
      · simp only [hq, if_false] at hv
        rw [binderDiedLoop_map] at hv
        cases hold : valueFor s.mPropertyToClientsMap q with
        | none => simp [hold] at hv
        | some old =>
          simp only [hold, Option.map_some', Option.some.injEq] at hv
          subst hv
          obtain ⟨h1, h2⟩ := hV q old hold
          refine ⟨nodup_setRemove _ _ h1, ?_⟩
          intro c hc
          exact h2 c ((mem_setRemove _ _ _).mp hc).1

theorem setClient_wellFormed (s : Service) (c : Nat) (obj : HalClient) (hw : WellFormed s)
    (h1 : obj.mListener = (s.heap c).mListener)
    (h2 : obj.mSubscriptionInfos = (s.heap c).mSubscriptionInfos) :
    WellFormed (s.setClient c obj) := by
  obtain ⟨hK, hV⟩ := hw
  have hl : ∀ x, ((s.setClient c obj).heap x).mListener = (s.heap x).mListener := by
    intro x
    by_cases hx : x = c
    · subst hx; simp [Service.setClient, h1]
    · simp [Service.setClient, hx]
  have hs : ∀ x q, ((s.setClient c obj).heap x).getSubscriptionInfo q
      = (s.heap x).getSubscriptionInfo q := by
    intro x q
    by_cases hx : x = c
    · subst hx; simp [Service.setClient, HalClient.getSubscriptionInfo, h2]
    · simp [Service.setClient, hx]
  constructor
  · intro b x hmem
    rw [hl]
    exact hK b x hmem
  · intro q clients hv
    obtain ⟨h3, h4⟩ := hV q clients hv
    refine ⟨h3, ?_⟩
    intro x hx
    rw [hs]
    exact h4 x hx

theorem findOrCreateClientLocked_wellFormed (s : Service) (b : Nat) (hw : WellFormed s) :
    WellFormed (findOrCreateClientLocked s b).1 := by
  unfold findOrCreateClientLocked
  cases hreg : valueFor s.mBinderToClientMap b with
  | some c => exact hw
  | none =>
    dsimp only
    obtain ⟨hK, hV⟩ := hw
    constructor
    · intro b1 c hmem
      dsimp only at hmem ⊢
      rcases mem_kvAdd _ _ _ _ hmem with h | h
      · obtain ⟨h1, h2⟩ := hK b1 c h
        have hne : c ≠ s.nextClient := by omega
        simp only [hne, if_false]
        exact ⟨h1, by omega⟩
      · have hb : b1 = b := congrArg Prod.fst h
        have hc : c = s.nextClient := congrArg Prod.snd h
        subst hb hc
        simp [HalClient.create]
    · intro q clients hv
      obtain ⟨h3, h4⟩ := hV q clients hv
      refine ⟨h3, ?_⟩
      intro c hc
      obtain ⟨h5, h6⟩ := h4 c hc
      have hne : c ≠ s.nextClient := by omega
      dsimp only
      simp only [hne, if_false]
      exact ⟨by omega, h6⟩

theorem restartLoop_nextClient (l : List (Nat × Nat)) :
    ∀ s : Service, (restartLoop l s).1.nextClient = s.nextClient := by
  induction l with
  | nil => intro s; rfl
  | cons e t ih =>
    intro s
    obtain ⟨b, client⟩ := e
    simp only [restartLoop]
    rw [ih]
    rfl

theorem removeClientsLoop_nextClient (l : List Nat) :
    ∀ s : Service, (removeClientsLoop l s).1.nextClient = s.nextClient := by
  induction l with
  | nil => intro s; rfl
  | cons c t ih =>
    intro s
    simp only [removeClientsLoop]
    rw [ih]

theorem handleHalRestart_wellFormed (s : Service) (hw : WellFormed s) :
    WellFormed (handleHalRestartAndGetClientsToDispatchLocked s).1 := by
  obtain ⟨hK, _⟩ := hw
  simp only [handleHalRestartAndGetClientsToDispatchLocked]
  constructor
  · intro b c hmem
    obtain ⟨hreg, _⟩ := removeClientsLoop_registry _ _ b c hmem
    rw [(restartLoop_fields _ _).1] at hreg
    obtain ⟨h1, h2⟩ := hK b c hreg
    rw [(removeClientsLoop_fields _ _).1, removeClientsLoop_nextClient, restartLoop_nextClient,
      restartLoop_heap]
    refine ⟨?_, h2⟩
    split
    · exact h1
    · exact h1
  · intro q clients hv
    rw [(removeClientsLoop_fields _ _).2.1, (restartLoop_fields _ _).2.1] at hv
    simp [valueFor] at hv

theorem step_wellFormed {env : Env} {s s1 : Service} {op : Op} (h : step env s op = some s1)
    (hw : WellFormed s) : WellFormed s1 := by
  cases op with
  | subscribe listener prop rate zones flags nowMs nowNs =>
    simp only [step, Option.map_eq_some'] at h
    obtain ⟨o, ho, hs⟩ := h
    subst hs
    rcases subscribe_outcome ho with ⟨hs, _, _⟩ | ⟨config, _, _, _, _, hsame⟩
    · rw [hs]; exact hw
    · exact wellFormed_same hsame (subscribeRecord_wellFormed _ _ _ _ _ _ _ _ hw)
  | unsubscribe listener prop =>
    simp only [step, Option.map_eq_some'] at h
    obtain ⟨o, ho, hs⟩ := h
    subst hs
    rcases unsubscribe_state ho with h | ⟨client, h⟩
    · rw [h]; exact hw
    · rw [h]; exact removePropertyFromClientLocked_wellFormed _ _ _ _ hw
  | binderDied who =>
    simp only [step, Option.some.injEq] at h
    subst h
    exact binderDied_wellFormed _ _ hw
  | startErrorListening listener =>
    simp only [step, Option.some.injEq] at h
    subst h
    exact setClient_wellFormed _ _ _ (findOrCreateClientLocked_wellFormed s listener hw) rfl rfl
  | stopErrorListening listener =>
    simp only [step, Option.some.injEq] at h
    subst h
    unfold stopErrorListening
    split
    · exact hw
    · exact setClient_wellFormed _ _ _ hw rfl rfl
  | startHalRestartMonitoring listener =>
    simp only [step, Option.some.injEq] at h
    subst h
    exact setClient_wellFormed _ _ _ (findOrCreateClientLocked_wellFormed s listener hw) rfl rfl
  | stopHalRestartMonitoring listener =>
    simp only [step, Option.some.injEq] at h
    subst h
    unfold stopHalRestartMonitoring
    split
    · exact hw
    · exact setClient_wellFormed _ _ _ hw rfl rfl
  | startMocking mock =>
    simp only [step, Option.some.injEq] at h
    subst h
    exact handleHalRestart_wellFormed
      { s with mHalMock := some mock, mMockingEnabled := true,
               mPropertiesForMocking := mock.onListProperties } hw
  | stopMocking mock =>
    simp only [step, Option.some.injEq] at h
    subst h
    unfold stopMocking
    split
    · exact hw
    · split
      · exact hw
      · exact handleHalRestart_wellFormed
          { s with mHalMock := none, mMockingEnabled := false, mPropertiesForMocking := [] } hw

theorem run_wellFormed (env : Env) (ops : List Op) :
    ∀ s s1 : Service, WellFormed s → run env s ops = some s1 → WellFormed s1 := by
  induction ops with
  | nil =>
    intro s s1 hw h
    simp [run] at h
    rw [← h]
    exact hw
  | cons op t ih =>
    intro s s1 hw h
    simp only [run] at h
    cases hstep : step env s op with
    | none => simp [hstep] at h
    | some s2 =>
      simp only [hstep] at h
      exact ih s2 s1 (step_wellFormed hstep hw) h

theorem valueFor_none_of_not_mem {K V : Type} [DecidableEq K] (m : List (K × V)) (k : K)
    (h : k ∉ m.map Prod.fst) : valueFor m k = none := by
  cases hv : valueFor m k with
  | none => rfl
  | some v =>
    exact absurd (List.mem_map.mpr ⟨(k, v), valueFor_mem m k v hv, rfl⟩) h

theorem keys_kvAdd {K V : Type} [DecidableEq K] (m : List (K × V)) (k : K) (v : V) :
    ∀ x, x ∈ (kvAdd m k v).map Prod.fst ↔ x ∈ m.map Prod.fst ∨ x = k := by
  induction m with
  | nil => intro x; simp [kvAdd]
  | cons e t ih =>
    intro x
    obtain ⟨k1, v1⟩ := e
    by_cases hk : k1 = k
    · subst hk
      simp only [kvAdd, if_true, List.map_cons, List.mem_cons]
      tauto
    · simp only [kvAdd, hk, if_false, List.map_cons, List.mem_cons, ih]
      tauto

theorem nodup_keys_kvAdd {K V : Type} [DecidableEq K] (m : List (K × V)) (k : K) (v : V)
    (h : (m.map Prod.fst).Nodup) : ((kvAdd m k v).map Prod.fst).Nodup := by
  induction m with
  | nil => simp [kvAdd]
  | cons e t ih =>
    obtain ⟨k1, v1⟩ := e
    simp only [List.map_cons, List.nodup_cons] at h
    by_cases hk : k1 = k
    · subst hk
      simpa [kvAdd] using h
    · simp only [kvAdd, hk, if_false, List.map_cons, List.nodup_cons]
      refine ⟨?_, ih h.2⟩
      intro hin
      rcases (keys_kvAdd t k v k1).mp hin with h1 | h1
      · exact h.1 h1
      · exact hk h1

theorem filter_kvAdd_self {K V : Type} [DecidableEq K] (m : List (K × V)) (k : K) (v : V)
    (h : (m.map Prod.fst).Nodup) :
    (kvAdd m k v).filter (fun e => decide (e.1 = k)) = [(k, v)] := by
  induction m with
  | nil => simp [kvAdd]
  | cons e t ih =>
    obtain ⟨k1, v1⟩ := e
    simp only [List.map_cons, List.nodup_cons] at h
    by_cases hk : k1 = k
    · subst hk
      simp only [kvAdd, if_true]
      rw [List.filter_cons_of_pos (by simp)]
      congr 1
      rw [List.filter_eq_nil_iff]
      intro x hx hkx
      simp only [decide_eq_true_eq] at hkx
      exact h.1 (List.mem_map.mpr ⟨x, hx, hkx⟩)
    · simp only [kvAdd, hk, if_false]
      rw [List.filter_cons_of_neg (by simpa using hk)]
      exact ih h.2

theorem setAdd_of_mem {A : Type} [DecidableEq A] (v : List A) (a : A) (h : a ∈ v) :
    setAdd v a = v := by
  simp [setAdd, h]

theorem getRetryLoop_spec (env : Env) (data : vehicle_prop_value_t) (budget : Nat) :
    ∀ a : Nat, ∃ n, a ≤ n ∧ n ≤ a + budget ∧
      (getRetryLoop env budget a (getAttemptData env data a)).calls.countP Call.isHalGet
        = n - a + 1 ∧
      (getRetryLoop env budget a (getAttemptData env data a)).status
        = getAttemptStatus env data n ∧
      (∀ i, a ≤ i → i < n → getAttemptStatus env data i = -EAGAIN) ∧
      ((getRetryLoop env budget a (getAttemptData env data a)).status = -EAGAIN →
        n = a + budget) := by
  induction budget with
  | zero =>
    intro a
    refine ⟨a, le_refl _, le_refl _, ?_, rfl, ?_, fun _ => rfl⟩
    · simp [getRetryLoop, Call.isHalGet]
    · intro i h1 h2; omega
  | succ b ih =>
    intro a
    by_cases h0 : getAttemptStatus env data a = NO_ERROR
    · refine ⟨a, le_refl _, by omega, ?_, ?_, ?_, ?_⟩
      · have h0' : (env.mDevice.get a (getAttemptData env data a)).1 = NO_ERROR := h0
        simp [getRetryLoop, h0', Call.isHalGet]
      · have h0' : (env.mDevice.get a (getAttemptData env data a)).1 = NO_ERROR := h0
        simp [getRetryLoop, h0', getAttemptStatus]
      · intro i h1 h2; omega
      · intro h
        have h0' : (env.mDevice.get a (getAttemptData env data a)).1 = NO_ERROR := h0
        simp [getRetryLoop, h0'] at h
        exact absurd h (by decide)
    · by_cases h1 : getAttemptStatus env data a = -EAGAIN
      · have h0' : ¬ (env.mDevice.get a (getAttemptData env data a)).1 = NO_ERROR := h0
        have h1' : (env.mDevice.get a (getAttemptData env data a)).1 = -EAGAIN := h1
        obtain ⟨n, hn1, hn2, hc, hs, hall, hlast⟩ := ih (a + 1)
        have hd : getAttemptData env data (a + 1)
            = (env.mDevice.get a (getAttemptData env data a)).2 := rfl
        have hloop : getRetryLoop env (b + 1) a (getAttemptData env data a)
            = { getRetryLoop env b (a + 1) (getAttemptData env data (a + 1)) with
                calls := Call.halGet (getAttemptData env data a) :: Call.usleep ::
                  (getRetryLoop env b (a + 1) (getAttemptData env data (a + 1))).calls } := by
          rw [hd]
          simp only [getRetryLoop]
          rw [if_neg h0', if_neg (by simpa using h1')]
        refine ⟨n, by omega, by omega, ?_, ?_, ?_, ?_⟩
        · rw [hloop]
          simp only [List.countP_cons, Call.isHalGet]
          rw [hc]
          simp
          omega
        · rw [hloop]; exact hs
        · intro i hi1 hi2
          by_cases hia : i = a
          · subst hia; exact h1
          · exact hall i (by omega) hi2
        · intro h
          rw [hloop] at h
          have := hlast h
          omega
      · have h0' : ¬ (env.mDevice.get a (getAttemptData env data a)).1 = NO_ERROR := h0
        have h1' : ¬ (env.mDevice.get a (getAttemptData env data a)).1 = -EAGAIN := h1
        refine ⟨a, le_refl _, by omega, ?_, ?_, ?_, ?_⟩
        · simp [getRetryLoop, h0', h1', Call.isHalGet]
        · simp [getRetryLoop, h0', h1', getAttemptStatus]
        · intro i h1 h2; omega
        · intro h
          simp [getRetryLoop, h0', h1'] at h

theorem setRetryLoop_spec (env : Env) (data : vehicle_prop_value_t) (budget : Nat) :
    ∀ a : Nat, ∃ n, a ≤ n ∧ n ≤ a + budget ∧
      (setRetryLoop env data budget a).2.countP Call.isHalSet = n - a + 1 ∧
      (setRetryLoop env data budget a).1 = env.mDevice.set n data ∧
      (∀ i, a ≤ i → i < n → env.mDevice.set i data = -EAGAIN) ∧
      ((setRetryLoop env data budget a).1 = -EAGAIN → n = a + budget) := by
  induction budget with
  | zero =>
    intro a
    refine ⟨a, le_refl _, le_refl _, ?_, rfl, ?_, fun _ => rfl⟩
    · simp [setRetryLoop, Call.isHalSet]
    · intro i h1 h2; omega
  | succ b ih =>
    intro a
    by_cases h0 : env.mDevice.set a data = NO_ERROR
    · refine ⟨a, le_refl _, by omega, ?_, ?_, ?_, ?_⟩
      · simp [setRetryLoop, h0, Call.isHalSet]
      · simp [setRetryLoop, h0]
      · intro i h1 h2; omega
      · intro h
        simp [setRetryLoop, h0] at h
        exact absurd h (by decide)
    · by_cases h1 : env.mDevice.set a data = -EAGAIN
      · obtain ⟨n, hn1, hn2, hc, hs, hall, hlast⟩ := ih (a + 1)
        have hloop : setRetryLoop env data (b + 1) a
            = ((setRetryLoop env data b (a + 1)).1,
                Call.halSet data :: Call.usleep :: (setRetryLoop env data b (a + 1)).2) := by
          simp only [setRetryLoop]
          rw [if_neg h0, if_neg (by simpa using h1)]
        refine ⟨n, by omega, by omega, ?_, ?_, ?_, ?_⟩
        · rw [hloop]
          simp only [List.countP_cons, Call.isHalSet]
          rw [hc]
          simp
          omega
        · rw [hloop]; exact hs
        · intro i hi1 hi2
          by_cases hia : i = a
          · subst hia; exact h1
          · exact hall i (by omega) hi2
        · intro h
          rw [hloop] at h
          have := hlast h
          omega
      · refine ⟨a, le_refl _, by omega, ?_, ?_, ?_, ?_⟩
        · simp [setRetryLoop, h0, h1, Call.isHalSet]
        · simp [setRetryLoop, h0, h1]
        · intro i h1 h2; omega
        · intro h
          simp [setRetryLoop, h0, h1] at h

theorem dispatchPropertySetEvent_calls (s : Service) (data : vehicle_prop_value_t)
    (clients : List Nat) :
    ∀ call ∈ dispatchPropertySetEvent s data clients,
      ∃ c ∈ clients, call = Call.onPropertySet (s.heap c).mListener data := by
  induction clients with
  | nil => intro call h; simp [dispatchPropertySetEvent] at h
  | cons c t ih =>
    intro call h
    simp only [dispatchPropertySetEvent] at h
    split at h
    · rcases List.mem_cons.mp h with h | h
      · exact ⟨c, List.mem_cons_self _ _, h⟩
      · obtain ⟨x, hx, hc⟩ := ih call h
        exact ⟨x, List.mem_cons_of_mem _ hx, hc⟩
    · obtain ⟨x, hx, hc⟩ := ih call h
      exact ⟨x, List.mem_cons_of_mem _ hx, hc⟩

theorem countP_eq_zero_of_forall {p : Call → Bool} (l : List Call)
    (h : ∀ call ∈ l, p call = false) : l.countP p = 0 := by
  rw [List.countP_eq_zero]
  intro a ha
  simp [h a ha]

theorem restartLoop_dispatch (l : List (Nat × Nat)) :
    ∀ (s : Service) (c : Nat),
      c ∈ (restartLoop l s).2.1 ↔
        c ∈ l.map Prod.snd ∧ (s.heap c).mMonitoringHalRestart = true := by
  induction l with
  | nil => intro s c; simp [restartLoop]
  | cons e t ih =>
    intro s c
    obtain ⟨b, client⟩ := e
    simp only [restartLoop, List.map_cons, List.mem_cons]
    have hmon : ∀ x, ((s.setClient client (s.heap client).removeAllProperties).heap x
        ).mMonitoringHalRestart = (s.heap x).mMonitoringHalRestart := by
      intro x
      by_cases hx : x = client
      · subst hx; simp [Service.setClient, HalClient.removeAllProperties]
      · simp [Service.setClient, hx]
    split
    · rename_i hm
      rw [List.mem_cons, ih, hmon]
      rw [hmon] at hm
      constructor
      · rintro (h | h)
        · subst h; exact ⟨Or.inl rfl, hm⟩
        · exact ⟨Or.inr h.1, h.2⟩
      · rintro ⟨h | h, h2⟩
        · exact Or.inl h
        · exact Or.inr ⟨h, h2⟩
    · rename_i hm
      rw [ih, hmon]
      rw [hmon] at hm
      constructor
      · rintro ⟨h, h2⟩; exact ⟨Or.inr h, h2⟩
      · rintro ⟨h | h, h2⟩
        · subst h; exact absurd h2 hm
        · exact ⟨h, h2⟩

theorem restartLoop_listener (l : List (Nat × Nat)) :
    ∀ (s : Service) (c : Nat),
      ((restartLoop l s).1.heap c).mListener = (s.heap c).mListener := by
  intro s c
  rw [restartLoop_heap]
  split <;> rfl

theorem subscribeUnlocked_not_fixed {env : Env} {s : Service} {calls : List Call}
    {sh : Bool} {ag : Bool} {config : vehicle_prop_config_t} {prop : Int}
    {rate : CFloat} {zones newZones flags : Nat} {a b : Int}
    (hfix : isSampleRateFixed config.change_mode = false) :
    subscribeUnlocked env s calls sh false ag config prop rate zones newZones flags a b
      = some { state := s,
               status := (if sh && decide (SubscribeFlags.HAL_EVENT &&& flags ≠ 0)
                 then env.mDevice.subscribe prop rate newZones else NO_ERROR),
               calls := calls ++ (if sh && decide (SubscribeFlags.HAL_EVENT &&& flags ≠ 0)
                 then [Call.halSubscribe prop rate newZones] else []) } := by
  unfold subscribeUnlocked
  by_cases h : (sh && decide (SubscribeFlags.HAL_EVENT &&& flags ≠ 0)) = true
  · simp only [h, if_true, hfix, Bool.and_false]
    by_cases hr : env.mDevice.subscribe prop rate newZones = NO_ERROR
    · simp [hr]
    · simp [hr]
  · rw [if_neg h, if_neg h, if_neg h]
    simp [hfix]

theorem subscribe_not_fixed (config : vehicle_prop_config_t) {env : Env} {s : Service}
    {listener : Nat} {prop : Int} {rate0 : CFloat} {zones0 flags0 : Nat} {a b : Int}
    (hsub : isSubscribableLocked s prop = true) (hcfg : findConfigLocked s prop = some config)
    (hfix : isSampleRateFixed config.change_mode = false)
    (hmock : s.mMockingEnabled = false) (hint : isInternalProperty env prop = false)
    (hset : ¬ (SubscribeFlags.SET_CALL &&& subscribeFlags flags0 ≠ 0 ∧
      config.access &&& VEHICLE_PROP_ACCESS_WRITE = 0))
    (hzone : ¬ (isZonedProperty (some config) = true ∧ zones0 ≠ 0 ∧
      zones0 &&& config.vehicle_zone_flags ≠ zones0)) :
    subscribe env s listener prop rate0 zones0 flags0 a b = some
      { state := (subscribeRecord s listener prop (normalizedSampleRate config rate0)
          (subscribeZones config zones0)
          (newZonesFor (valueFor s.mSubscriptionInfos prop) zones0 (subscribeZones config zones0))
          (subscribeFlags flags0)
          (shouldSubscribeFor (valueFor s.mSubscriptionInfos prop)
            (normalizedSampleRate config rate0) (subscribeZones config zones0)
            (subscribeFlags flags0))).1,
        status :=
          (if shouldSubscribeFor (valueFor s.mSubscriptionInfos prop)
                (normalizedSampleRate config rate0) (subscribeZones config zones0)
                (subscribeFlags flags0) &&
              decide (SubscribeFlags.HAL_EVENT &&& subscribeFlags flags0 ≠ 0)
           then env.mDevice.subscribe prop (normalizedSampleRate config rate0)
             (newZonesFor (valueFor s.mSubscriptionInfos prop) zones0
               (subscribeZones config zones0))
           else NO_ERROR),
        calls := (subscribeRecord s listener prop (normalizedSampleRate config rate0)
          (subscribeZones config zones0)
          (newZonesFor (valueFor s.mSubscriptionInfos prop) zones0 (subscribeZones config zones0))
          (subscribeFlags flags0)
          (shouldSubscribeFor (valueFor s.mSubscriptionInfos prop)
            (normalizedSampleRate config rate0) (subscribeZones config zones0)
            (subscribeFlags flags0))).2.2 ++
          (if shouldSubscribeFor (valueFor s.mSubscriptionInfos prop)
                (normalizedSampleRate config rate0) (subscribeZones config zones0)
                (subscribeFlags flags0) &&
              decide (SubscribeFlags.HAL_EVENT &&& subscribeFlags flags0 ≠ 0)
           then [Call.halSubscribe prop (normalizedSampleRate config rate0)
             (newZonesFor (valueFor s.mSubscriptionInfos prop) zones0
               (subscribeZones config zones0))]
           else []) } := by
  unfold subscribe
  simp only [hsub, hcfg, hint, Bool.and_false]
  rw [if_neg (by simp), if_neg hset, if_neg hzone, if_neg (by simp),
    (subscribeRecord_mock _ _ _ _ _ _ _ _).1, hmock]
  exact subscribeUnlocked_not_fixed hfix

theorem unsubscribe_env {env env1 : Env} (s : Service) (listener : Nat) (prop : Int)
    (h : isInternalProperty env prop = isInternalProperty env1 prop) :
    unsubscribe env s listener prop = unsubscribe env1 s listener prop := by
  unfold unsubscribe
  rw [h]

theorem removePropertyFromClient_calls (s : Service) (b client : Nat) (p : Int) :
    (removePropertyFromClient s b client p).2.filter Call.isHalOrMock = [] := by
  by_cases h : ((s.heap client).removeProperty p).isActive = false
  · simp [removePropertyFromClient, Service.setClient, h, Call.isHalOrMock]
  · simp [removePropertyFromClient, Service.setClient, h]

theorem removePropertyFromClientLocked_spec (s : Service) (b client : Nat) (p : Int)
    (clients : List Nat) (hvec : valueFor s.mPropertyToClientsMap p = some clients) :
    (removePropertyFromClientLocked s b client p).1.heap client
      = (s.heap client).removeProperty p ∧
    (removePropertyFromClientLocked s b client p).1.mMockingEnabled = s.mMockingEnabled ∧
    (removePropertyFromClientLocked s b client p).1.mHalMock = s.mHalMock ∧
    (removePropertyFromClientLocked s b client p).2.2.filter Call.isHalOrMock = [] ∧
    (setRemove clients client = [] →
      (removePropertyFromClientLocked s b client p).2.1 = true ∧
      valueFor (removePropertyFromClientLocked s b client p).1.mPropertyToClientsMap p = none ∧
      valueFor (removePropertyFromClientLocked s b client p).1.mSubscriptionInfos p = none) ∧
    (setRemove clients client ≠ [] →
      (removePropertyFromClientLocked s b client p).2.1 = false ∧
      valueFor (removePropertyFromClientLocked s b client p).1.mPropertyToClientsMap p
        = some (setRemove clients client) ∧
      (removePropertyFromClientLocked s b client p).1.mSubscriptionInfos
        = s.mSubscriptionInfos) := by
  obtain ⟨-, hheap, -, hmap, hinfos, -, hmk, hmock⟩ := removePropertyFromClient_spec s b client p
  obtain ⟨-, hheap2, -, hmk2, hmock2, hcases⟩ :=
    removeClientFromSubscribers_spec (removePropertyFromClient s b client p).1 client p
  rw [hmap, hinfos] at hcases
  simp only [removePropertyFromClientLocked]
  refine ⟨?_, by rw [hmk2, hmk], by rw [hmock2, hmock],
    removePropertyFromClient_calls s b client p, ?_, ?_⟩
  · rw [hheap2, hheap]; simp
  · intro hempty
    rcases hcases with ⟨hnone, -⟩ | ⟨old, hold, -, hflag, hm, hi⟩ | ⟨old, hold, hne, -⟩
    · rw [hvec] at hnone; simp at hnone
    · refine ⟨hflag, ?_, ?_⟩
      · rw [hm, valueFor_removeItem_self]
      · rw [hi, valueFor_removeItem_self]
    · rw [hvec] at hold
      simp only [Option.some.injEq] at hold
      subst hold
      exact absurd hempty hne
  · intro hne
    rcases hcases with ⟨hnone, -⟩ | ⟨old, hold, hempty, -⟩ | ⟨old, hold, -, hflag, hm, hi⟩
    · rw [hvec] at hnone; simp at hnone
    · rw [hvec] at hold
      simp only [Option.some.injEq] at hold
      subst hold
      exact absurd hempty hne
    · rw [hvec] at hold
      simp only [Option.some.injEq] at hold
      subst hold
      refine ⟨hflag, ?_, hi⟩
      rw [hm, valueFor_kvAdd_self]

theorem binderDiedLoop_removed (c : Nat) (m : List (Int × List Nat)) :
    ∀ infos : List (Int × SubscriptionInfo), (m.map Prod.fst).Nodup →
      (binderDiedLoop c m infos).2.2.Nodup ∧
      ∀ q, q ∈ (binderDiedLoop c m infos).2.2 ↔
        ∃ v, valueFor m q = some v ∧ setRemove v c = [] := by
  induction m with
  | nil => intro infos _; simp [binderDiedLoop, valueFor]
  | cons e t ih =>
    intro infos hnd
    obtain ⟨property, clients⟩ := e
    simp only [List.map_cons, List.nodup_cons] at hnd
    obtain ⟨hnot, hnd⟩ := hnd
    have hnotin : ∀ infos1, property ∉ (binderDiedLoop c t infos1).2.2 := by
      intro infos1 hin
      obtain ⟨v, hv, -⟩ := ((ih infos1 hnd).2 property).mp hin
      rw [valueFor_none_of_not_mem t property hnot] at hv
      simp at hv
    simp only [binderDiedLoop]
    by_cases hempty : setRemove clients c = []
    · have hlen : (setRemove clients c).length = 0 := by simp [hempty]
      simp only [hlen, if_true]
      refine ⟨List.nodup_cons.mpr ⟨hnotin _, (ih _ hnd).1⟩, ?_⟩
      intro q
      by_cases hq : property = q
      · subst hq
        simp [valueFor, hempty]
      · have hq' : q ≠ property := fun h => hq h.symm
        simp only [List.mem_cons, hq', false_or, valueFor, hq, if_false]
        exact (ih _ hnd).2 q
    · have hlen : ¬ (setRemove clients c).length = 0 := by
        simpa [List.length_eq_zero] using hempty
      simp only [hlen, if_false]
      refine ⟨(ih _ hnd).1, ?_⟩
      intro q
      by_cases hq : property = q
      · subst hq
        simp only [valueFor, if_true, Option.some.injEq, exists_eq_left']
        constructor
        · intro hin; exact absurd hin (hnotin _)
        · intro h; exact absurd h hempty
      · simp only [valueFor, hq, if_false]
        exact (ih _ hnd).2 q

theorem subscribeRecord_config (s : Service) (b : Nat) (p : Int) (rate : CFloat)
    (z nz f : Nat) (sh : Bool) (q : Int) :
    findConfigLocked (subscribeRecord s b p rate z nz f sh).1 q = findConfigLocked s q := by
  unfold subscribeRecord findOrCreateClientLocked findConfigLocked
  simp only [Service.setClient]
  cases valueFor s.mBinderToClientMap b <;> (split <;> split <;> simp)

/-! ## Properties of the service -/

theorem normalizedSampleRate_fixed (config : vehicle_prop_config_t) (rate : CFloat)
    (h : config.change_mode = ChangeMode.ON_CHANGE ∨ config.change_mode = ChangeMode.ON_SET) :
    normalizedSampleRate config rate = 0 := by
  unfold normalizedSampleRate
  rcases h with h | h <;> simp [h, isSampleRateFixed] 

theorem normalizedSampleRate_clamped (config : vehicle_prop_config_t) (rate : CFloat)
    (h1 : config.change_mode ≠ ChangeMode.ON_CHANGE) (h2 : config.change_mode ≠ ChangeMode.ON_SET)
    (hle : config.min_sample_rate ≤ config.max_sample_rate) :
    (rate > config.max_sample_rate → normalizedSampleRate config rate = config.max_sample_rate) ∧
    (rate < config.min_sample_rate → normalizedSampleRate config rate = config.min_sample_rate) ∧
    (config.min_sample_rate ≤ rate → rate ≤ config.max_sample_rate →
      normalizedSampleRate config rate = rate) ∧
    (rate ≠ CFloat.nan →
      config.min_sample_rate ≤ normalizedSampleRate config rate ∧
      normalizedSampleRate config rate ≤ config.max_sample_rate) ∧
    (rate = CFloat.nan → normalizedSampleRate config rate = CFloat.nan) := by
  have hfix : isSampleRateFixed config.change_mode = false := by
    cases hc : config.change_mode <;> simp_all [isSampleRateFixed]
  have hmm : ¬ config.max_sample_rate < config.min_sample_rate := cfloat_not_lt_of_le hle
  obtain ⟨hmin, hmax⟩ := cfloat_ne_nan_of_le hle
  unfold normalizedSampleRate
  simp only [hfix]
  refine ⟨?_, ?_, ?_, ?_, ?_⟩
  · intro h
    have h3 : config.max_sample_rate < rate := h
    simp [h3, hmm]
  · intro h
    have : ¬ config.max_sample_rate < rate :=
      cfloat_not_lt_of_le (cfloat_le_trans (cfloat_le_of_lt h) hle)
    simp [this, h]
  · intro h3 h4
    simp [cfloat_not_lt_of_le h4, cfloat_not_lt_of_le h3]
  · intro hnum
    by_cases h : config.max_sample_rate < rate
    · simp [h, hmm, hle, cfloat_le_refl hmax]
    · by_cases h3 : rate < config.min_sample_rate
      · simp [h, h3, hle, cfloat_le_refl hmin]
      · simp [h, h3, cfloat_le_of_not_lt hnum hmin h3, cfloat_le_of_not_lt hmax hnum h]
  · intro hnan
    subst hnan
    have ha : ¬ config.max_sample_rate < CFloat.nan := fun h => (cfloat_ne_nan_of_lt h).2 rfl
    have hb : ¬ CFloat.nan < config.min_sample_rate := fun h => (cfloat_ne_nan_of_lt h).1 rfl
    simp [ha, hb]

theorem readFromCache_writeToCache (cache : List (Int × vehicle_prop_value_t))
    (v data : vehicle_prop_value_t) (h : data.prop = v.prop) :
    readFromCache (writeToCache cache v) data = some v := by
  have hw : writeToCache cache v = kvAdd cache v.prop v := by
    unfold writeToCache
    split <;> simp [copyVehiclePropValue]
  unfold readFromCache
  rw [hw, h, valueFor_kvAdd_self]
  simp [copyVehiclePropValue]

theorem findConfigLocked_same {s s1 : Service} (h : SameBroker s s1) (p : Int) :
    findConfigLocked s1 p = findConfigLocked s p := by
  obtain ⟨h1, h2, h3, _⟩ := h
  simp [findConfigLocked, h1, h2, h3]

theorem nodup_keys_removeItem {K V : Type} [DecidableEq K] (m : List (K × V)) (k : K)
    (h : (m.map Prod.fst).Nodup) : ((removeItem m k).map Prod.fst).Nodup := by
  unfold removeItem
  exact List.Nodup.sublist (List.Sublist.map _ (List.filter_sublist _)) h

theorem nodup_keys_removeItems {V : Type} (ks : List Int) :
    ∀ m : List (Int × V), (m.map Prod.fst).Nodup → ((removeItems m ks).map Prod.fst).Nodup := by
  induction ks with
  | nil => intro m h; exact h
  | cons k t ih =>
    intro m h
    simp only [removeItems]
    exact ih _ (nodup_keys_removeItem m k h)

theorem binderDiedLoop_keys (c : Nat) (m : List (Int × List Nat)) :
    ∀ infos : List (Int × SubscriptionInfo),
      (binderDiedLoop c m infos).1.map Prod.fst = m.map Prod.fst := by
  induction m with
  | nil => intro infos; rfl
  | cons e t ih =>
    intro infos
    obtain ⟨property, clients⟩ := e
    simp only [binderDiedLoop]
    split <;> simp [ih]

theorem isSubscribableLocked_congr {s s1 : Service}
    (h : ∀ q, findConfigLocked s1 q = findConfigLocked s q) (p : Int) :
    isSubscribableLocked s1 p = isSubscribableLocked s p := by
  unfold isSubscribableLocked
  rw [h]

theorem coherent_init (properties : List vehicle_prop_config_t) :
    Coherent (Service.init properties) := by
  refine ⟨by simp [Service.init], ?_, ?_, ?_⟩
  · intro c; simp [Service.init, HalClient.create]
  · intro p v h; simp [Service.init, valueFor] at h
  · intro h; simp [Service.init] at h

theorem coherent_same {s s1 : Service} (h : SameBroker s s1) (hc : Coherent s) :
    Coherent s1 := by
  have hcfg := findConfigLocked_same h
  obtain ⟨_, _, h3, h4, h5, _, _, h8, _, _, _⟩ := h
  obtain ⟨c1, c2, c3, c4⟩ := hc
  refine ⟨by rw [h8]; exact c1, by rw [h5]; exact c2, ?_, by rw [h3, h4]; exact c4⟩
  intro p v hv
  rw [isSubscribableLocked_congr hcfg]
  rw [h8] at hv
  exact c3 p v hv

theorem subscribeRecord_coherent (s : Service) (b : Nat) (p : Int) (rate : CFloat)
    (z nz f : Nat) (sh : Bool) (hsub : isSubscribableLocked s p = true) (hc : Coherent s) :
    Coherent (subscribeRecord s b p rate z nz f sh).1 := by
  obtain ⟨c1, c2, c3, c4⟩ := hc
  obtain ⟨hcl, hother, hmap, -, -⟩ := subscribeRecord_spec s b p rate z nz f sh
  refine ⟨?_, ?_, ?_, ?_⟩
  · rw [hmap]
    exact nodup_keys_kvAdd _ _ _ c1
  · intro c
    by_cases hcc : c = (subscribeRecord s b p rate z nz f sh).2.1
    · rcases hcl with ⟨-, -, -, hh⟩ | ⟨-, hcn, -, -, hh⟩
      · rw [hcc, hh]
        exact nodup_keys_kvAdd _ _ _ (c2 _)
      · rw [hcc, hcn, hh]
        exact nodup_keys_kvAdd _ _ _ (by simp [HalClient.create])
    · rw [hother c hcc]
      exact c2 c
  · intro q v hv
    rw [isSubscribableLocked_congr (subscribeRecord_config s b p rate z nz f sh)]
    by_cases hq : q = p
    · rw [hq]; exact hsub
    · rw [hmap, valueFor_kvAdd_ne _ _ _ _ hq] at hv
      exact c3 q v hv
  · rw [(subscribeRecord_mock s b p rate z nz f sh).1,
      (subscribeRecord_mock s b p rate z nz f sh).2]
    exact c4

theorem removePropertyFromClientLocked_config (s : Service) (b client : Nat) (p q : Int) :
    findConfigLocked (removePropertyFromClientLocked s b client p).1 q
      = findConfigLocked s q := by
  have h1 : ∀ s : Service, findConfigLocked (removePropertyFromClient s b client p).1 q
      = findConfigLocked s q := by
    intro s
    by_cases h : ((s.heap client).removeProperty p).isActive = false
    · simp [removePropertyFromClient, Service.setClient, h, findConfigLocked]
    · simp [removePropertyFromClient, Service.setClient, h, findConfigLocked]
  have h2 : ∀ s : Service, findConfigLocked (removeClientFromSubscribers s client p).1 q
      = findConfigLocked s q := by
    intro s
    unfold removeClientFromSubscribers findClientsVectorForPropertyLocked findConfigLocked
    cases valueFor s.mPropertyToClientsMap p with
    | none => rfl
    | some old =>
      dsimp only
      split <;> split <;> rfl
  simp only [removePropertyFromClientLocked]
  rw [h2, h1]

theorem removePropertyFromClientLocked_coherent (s : Service) (b client : Nat) (p : Int)
    (hc : Coherent s) : Coherent (removePropertyFromClientLocked s b client p).1 := by
  obtain ⟨c1, c2, c3, c4⟩ := hc
  obtain ⟨-, hheap, -, hmap, -, -, hmk, hmock⟩ := removePropertyFromClient_spec s b client p
  obtain ⟨-, hheap2, -, hmk2, hmock2, hcases⟩ :=
    removeClientFromSubscribers_spec (removePropertyFromClient s b client p).1 client p
  rw [hmap] at hcases
  simp only [removePropertyFromClientLocked] at *
  have hsome : ∀ q v,
      valueFor (removeClientFromSubscribers (removePropertyFromClient s b client p).1 client
        p).1.mPropertyToClientsMap q = some v →
      ∃ v1, valueFor s.mPropertyToClientsMap q = some v1 := by
    intro q v hv
    rcases hcases with ⟨-, -, hm, -⟩ | ⟨old, hold, -, -, hm, -⟩ | ⟨old, hold, -, -, hm, -⟩
    · rw [hm] at hv; exact ⟨v, hv⟩
    · rw [hm] at hv
      have := valueFor_removeItem_some _ _ _ _ hv
      by_cases hq : q = p
      · rw [hq]; exact ⟨old, hold⟩
      · rw [valueFor_kvAdd_ne _ _ _ _ hq] at this
        exact ⟨v, this⟩
    · rw [hm] at hv
      by_cases hq : q = p
      · rw [hq]; exact ⟨old, hold⟩
      · rw [valueFor_kvAdd_ne _ _ _ _ hq] at hv
        exact ⟨v, hv⟩
  refine ⟨?_, ?_, ?_, ?_⟩
  · rcases hcases with ⟨-, -, hm, -⟩ | ⟨old, -, -, -, hm, -⟩ | ⟨old, -, -, -, hm, -⟩
    · rw [hm]; exact c1
    · rw [hm]; exact nodup_keys_removeItem _ _ (nodup_keys_kvAdd _ _ _ c1)
    · rw [hm]; exact nodup_keys_kvAdd _ _ _ c1
  · intro c
    rw [hheap2, hheap]
    by_cases hcc : c = client
    · subst hcc
      simp only [if_true, HalClient.removeProperty]
      exact nodup_keys_removeItem _ _ (c2 c)
    · simp only [hcc, if_false]
      exact c2 c
  · intro q v hv
    obtain ⟨v1, hv1⟩ := hsome q v hv
    have := removePropertyFromClientLocked_config s b client p
    simp only [removePropertyFromClientLocked] at this
    rw [isSubscribableLocked_congr this]
    exact c3 q v1 hv1
  · rw [hmk2, hmk, hmock2, hmock]
    exact c4

theorem binderDied_coherent (s : Service) (who : Nat) (hc : Coherent s) :
    Coherent (binderDied s who).state := by
  unfold binderDied
  cases hreg : valueFor s.mBinderToClientMap who with
  | none => exact hc
  | some currentClient =>
    dsimp only
    obtain ⟨c1, c2, c3, c4⟩ := hc
    refine ⟨?_, c2, ?_, c4⟩
    · dsimp only
      apply nodup_keys_removeItems
      rw [binderDiedLoop_keys]
      exact c1
    · intro q v hv
      dsimp only at hv
      rw [valueFor_removeItems] at hv
      split at hv
      · simp at hv
      · rw [binderDiedLoop_map] at hv
        cases hold : valueFor s.mPropertyToClientsMap q with
        | none => simp [hold] at hv
        | some old => exact c3 q old hold

theorem setClient_coherent (s : Service) (c : Nat) (obj : HalClient) (hc : Coherent s)
    (h2 : obj.mSubscriptionInfos = (s.heap c).mSubscriptionInfos) :
    Coherent (s.setClient c obj) := by
  obtain ⟨c1, c2, c3, c4⟩ := hc
  refine ⟨c1, ?_, c3, c4⟩
  intro x
  by_cases hx : x = c
  · subst hx
    simp only [Service.setClient, if_true, h2]
    exact c2 x
  · simp only [Service.setClient, hx, if_false]
    exact c2 x

theorem findOrCreateClientLocked_coherent (s : Service) (b : Nat) (hc : Coherent s) :
    Coherent (findOrCreateClientLocked s b).1 := by
  unfold findOrCreateClientLocked
  cases hreg : valueFor s.mBinderToClientMap b with
  | some c => exact hc
  | none =>
    dsimp only
    obtain ⟨c1, c2, c3, c4⟩ := hc
    refine ⟨c1, ?_, c3, c4⟩
    intro x
    dsimp only
    split
    · simp [HalClient.create]
    · exact c2 x

theorem handleHalRestart_coherent (s : Service)
    (hk : ∀ c, ((s.heap c).mSubscriptionInfos.map Prod.fst).Nodup)
    (hm : s.mMockingEnabled = true → s.mHalMock ≠ none) :
    Coherent (handleHalRestartAndGetClientsToDispatchLocked s).1 := by
  simp only [handleHalRestartAndGetClientsToDispatchLocked]
  refine ⟨?_, ?_, ?_, ?_⟩
  · rw [(removeClientsLoop_fields _ _).2.1, (restartLoop_fields _ _).2.1]
    simp
  · intro c
    rw [(removeClientsLoop_fields _ _).1, restartLoop_heap]
    split
    · simp [HalClient.removeAllProperties]
    · exact hk c
  · intro p v hv
    rw [(removeClientsLoop_fields _ _).2.1, (restartLoop_fields _ _).2.1] at hv
    simp [valueFor] at hv
  · rw [(removeClientsLoop_fields _ _).2.2.2.2.1, (restartLoop_fields _ _).2.2.2.2.1,
      (removeClientsLoop_fields _ _).2.2.2.2.2.1, (restartLoop_fields _ _).2.2.2.2.2.1]
    exact hm

theorem step_coherent {env : Env} {s s1 : Service} {op : Op} (h : step env s op = some s1)
    (hc : Coherent s) : Coherent s1 := by
  cases op with
  | subscribe listener prop rate zones flags nowMs nowNs =>
    simp only [step, Option.map_eq_some'] at h
    obtain ⟨o, ho, hs⟩ := h
    subst hs
    rcases subscribe_outcome ho with ⟨hs, _, _⟩ | ⟨config, _, hsub, _, _, hsame⟩
    · rw [hs]; exact hc
    · exact coherent_same hsame (subscribeRecord_coherent _ _ _ _ _ _ _ _ hsub hc)
  | unsubscribe listener prop =>
    simp only [step, Option.map_eq_some'] at h
    obtain ⟨o, ho, hs⟩ := h
    subst hs
    rcases unsubscribe_state ho with h | ⟨client, h⟩
    · rw [h]; exact hc
    · rw [h]; exact removePropertyFromClientLocked_coherent _ _ _ _ hc
  | binderDied who =>
    simp only [step, Option.some.injEq] at h
    subst h
    exact binderDied_coherent _ _ hc
  | startErrorListening listener =>
    simp only [step, Option.some.injEq] at h
    subst h
    exact setClient_coherent _ _ _ (findOrCreateClientLocked_coherent s listener hc) rfl
  | stopErrorListening listener =>
    simp only [step, Option.some.injEq] at h
    subst h
    unfold stopErrorListening
    split
    · exact hc
    · exact setClient_coherent _ _ _ hc rfl
  | startHalRestartMonitoring listener =>
    simp only [step, Option.some.injEq] at h
    subst h
    exact setClient_coherent _ _ _ (findOrCreateClientLocked_coherent s listener hc) rfl
  | stopHalRestartMonitoring listener =>
    simp only [step, Option.some.injEq] at h
    subst h
    unfold stopHalRestartMonitoring
    split
    · exact hc
    · exact setClient_coherent _ _ _ hc rfl
  | startMocking mock =>
    simp only [step, Option.some.injEq] at h
    subst h
    exact handleHalRestart_coherent
      { s with mHalMock := some mock, mMockingEnabled := true,
               mPropertiesForMocking := mock.onListProperties } hc.2.1 (fun _ => by simp)
  | stopMocking mock =>
    simp only [step, Option.some.injEq] at h
    subst h
    unfold stopMocking
    split
    · exact hc
    · split
      · exact hc
      · exact handleHalRestart_coherent
          { s with mHalMock := none, mMockingEnabled := false, mPropertiesForMocking := [] }
          hc.2.1 (fun h => by simp at h)

theorem run_coherent (env : Env) (ops : List Op) :
    ∀ s s1 : Service, Coherent s → run env s ops = some s1 → Coherent s1 := by
  induction ops with
  | nil =>
    intro s s1 hc h
    simp [run] at h
    rw [← h]
    exact hc
  | cons op t ih =>
    intro s s1 hc h
    simp only [run] at h
    cases hstep : step env s op with
    | none => simp [hstep] at h
    | some s2 =>
      simp only [hstep] at h
      exact ih s2 s1 (step_coherent hstep hc) h

theorem list_setList (h : VehicleHalMessageHandler) (i : Nat) (l : List vehicle_prop_value_t) :
    (h.setList i l).list i = l := by
  unfold VehicleHalMessageHandler.setList VehicleHalMessageHandler.list
  by_cases hi : i = 0 <;> simp [hi]

theorem list_setList_other (h : VehicleHalMessageHandler) (i : Nat)
    (l : List vehicle_prop_value_t) (hi : i ≤ 1) :
    (h.setList i l).list (i ^^^ 1) = h.list (i ^^^ 1) := by
  have : i = 0 ∨ i = 1 := by omega
  rcases this with h0 | h1
  · subst h0; rfl
  · subst h1; rfl

theorem findConfigIn_eq_find (l : List vehicle_prop_config_t) (p : Int) :
    findConfigIn l p = l.find? (fun c => decide (c.prop = p)) := by
  induction l with
  | nil => rfl
  | cons c t ih =>
    by_cases h : c.prop = p
    · simp [findConfigIn, h]
    · simp [findConfigIn, h, ih]

theorem xor_one_of_le_one (i : Nat) (hi : i ≤ 1) :
    i ^^^ 1 ≤ 1 ∧ i ^^^ 1 ≠ i ∧ (i ^^^ 1) ^^^ 1 = i := by
  have : i = 0 ∨ i = 1 := by omega
  rcases this with h0 | h1
  · subst h0; decide
  · subst h1; decide

theorem list_setList_ne (h : VehicleHalMessageHandler) (i j : Nat)
    (l : List vehicle_prop_value_t) (hi : i ≤ 1) (hj : j ≤ 1) (hij : j ≠ i) :
    (h.setList i l).list j = h.list j := by
  have : i = 0 ∨ i = 1 := by omega
  have : j = 0 ∨ j = 1 := by omega
  unfold VehicleHalMessageHandler.setList VehicleHalMessageHandler.list
  by_cases h0 : i = 0 <;> by_cases h1 : j = 0 <;> simp [h0, h1] <;> omega

theorem setList_fields (h : VehicleHalMessageHandler) (i : Nat)
    (l : List vehicle_prop_value_t) :
    (h.setList i l).mFreeListIndex = h.mFreeListIndex ∧
    (h.setList i l).mLastDispatchTime = h.mLastDispatchTime ∧
    (h.setList i l).mHalErrors = h.mHalErrors := by
  unfold VehicleHalMessageHandler.setList
  split <;> simp

theorem handleHalEvent_spec (h : VehicleHalMessageHandler) (v : vehicle_prop_value_t)
    (now : Int) (hidx : h.mFreeListIndex ≤ 1) :
    (h.handleHalEvent v now).1.list h.mFreeListIndex = h.list h.mFreeListIndex ++ [v] ∧
    (h.handleHalEvent v now).1.list (h.mFreeListIndex ^^^ 1) = h.list (h.mFreeListIndex ^^^ 1) ∧
    (h.handleHalEvent v now).1.mFreeListIndex = h.mFreeListIndex ∧
    (h.handleHalEvent v now).1.mLastDispatchTime = h.mLastDispatchTime ∧
    (h.handleHalEvent v now).1.mHalErrors = h.mHalErrors ∧
    (now - h.mLastDispatchTime > 10 →
      (h.handleHalEvent v now).2 = [Call.sendMessageHalEvent]) ∧
    (now - h.mLastDispatchTime ≤ 10 →
      (h.handleHalEvent v now).2
        = [Call.sendMessageDelayedHalEvent ((10 - (now - h.mLastDispatchTime)) * 1000000)]) := by
  have hstate : (h.handleHalEvent v now).1
      = h.setList h.mFreeListIndex (h.list h.mFreeListIndex ++ [v]) := by
    unfold VehicleHalMessageHandler.handleHalEvent
    dsimp only
    split <;> rfl
  have hfields : ∀ l, (h.setList h.mFreeListIndex l).mFreeListIndex = h.mFreeListIndex ∧
      (h.setList h.mFreeListIndex l).mLastDispatchTime = h.mLastDispatchTime ∧
      (h.setList h.mFreeListIndex l).mHalErrors = h.mHalErrors := by
    intro l
    unfold VehicleHalMessageHandler.setList
    split <;> simp
  rw [hstate]
  refine ⟨list_setList _ _ _, list_setList_other _ _ _ hidx, (hfields _).1, (hfields _).2.1,
    (hfields _).2.2, ?_, ?_⟩
  · intro hd
    simp [VehicleHalMessageHandler.handleHalEvent, DISPATCH_INTERVAL_MS, hd]
  · intro hd
    have : ¬ now - h.mLastDispatchTime > 10 := by omega
    simp [VehicleHalMessageHandler.handleHalEvent, DISPATCH_INTERVAL_MS, MS_TO_NS, this]

theorem takeBatch_spec (h : VehicleHalMessageHandler) (now : Int)
    (hidx : h.mFreeListIndex ≤ 1) :
    (h.takeBatch now).1.mLastDispatchTime = now ∧
    (h.list (h.mFreeListIndex ^^^ 1) ≠ [] →
      (h.takeBatch now).2
        = some (h.list (h.mFreeListIndex ^^^ 1) ++ h.list h.mFreeListIndex) ∧
      (h.takeBatch now).1.mFreeListIndex = h.mFreeListIndex ∧
      (h.takeBatch now).1.list h.mFreeListIndex = [] ∧
      (h.takeBatch now).1.list (h.mFreeListIndex ^^^ 1) = []) ∧
    (h.list (h.mFreeListIndex ^^^ 1) = [] → h.list h.mFreeListIndex ≠ [] →
      (h.takeBatch now).2 = some (h.list h.mFreeListIndex) ∧
      (h.takeBatch now).1.mFreeListIndex = h.mFreeListIndex ^^^ 1 ∧
      (h.takeBatch now).1.list h.mFreeListIndex = [] ∧
      (h.takeBatch now).1.list (h.mFreeListIndex ^^^ 1) = []) ∧
    (h.list (h.mFreeListIndex ^^^ 1) = [] → h.list h.mFreeListIndex = [] →
      (h.takeBatch now).2 = none ∧
      (h.takeBatch now).1.mFreeListIndex = h.mFreeListIndex ∧
      (h.takeBatch now).1.list h.mFreeListIndex = [] ∧
      (h.takeBatch now).1.list (h.mFreeListIndex ^^^ 1) = []) := by
  obtain ⟨hx1, hx2, hx3⟩ := xor_one_of_le_one h.mFreeListIndex hidx
  have hl : ∀ i, ({ h with mLastDispatchTime := now } : VehicleHalMessageHandler).list i
      = h.list i := fun i => rfl
  refine ⟨?_, ?_, ?_, ?_⟩
  · unfold VehicleHalMessageHandler.takeBatch
    dsimp only
    split
    · simp [(setList_fields _ _ _).2.1]
    · split
      · simp [(setList_fields _ _ _).2.1]
      · rfl
  · intro hne
    have hlen : (h.list (h.mFreeListIndex ^^^ 1)).length > 0 := List.length_pos.mpr hne
    unfold VehicleHalMessageHandler.takeBatch
    dsimp only
    rw [hl, if_pos hlen]
    dsimp only
    refine ⟨rfl, ?_, ?_, list_setList _ _ _⟩
    · simp [(setList_fields _ _ _).1]
    · rw [list_setList_ne _ _ _ _ hx1 hidx hx2.symm, list_setList_ne _ _ _ _ hx1 hidx hx2.symm,
        list_setList]
  · intro hempty hne
    have hlen : ¬ (h.list (h.mFreeListIndex ^^^ 1)).length > 0 := by simp [hempty]
    have hlen2 : (h.list h.mFreeListIndex).length > 0 := List.length_pos.mpr hne
    unfold VehicleHalMessageHandler.takeBatch
    dsimp only
    rw [hl, if_neg hlen, hl, if_pos hlen2]
    dsimp only
    refine ⟨rfl, ?_, list_setList _ _ _, ?_⟩
    · simp [(setList_fields _ _ _).1]
    · rw [list_setList_ne _ _ _ _ hidx hx1 hx2]
      exact hempty
  · intro hempty hempty2
    have hlen : ¬ (h.list (h.mFreeListIndex ^^^ 1)).length > 0 := by simp [hempty]
    have hlen2 : ¬ (h.list h.mFreeListIndex).length > 0 := by simp [hempty2]
    unfold VehicleHalMessageHandler.takeBatch
    dsimp only
    rw [hl, if_neg hlen, hl, if_neg hlen2]
    exact ⟨rfl, rfl, hempty2, hempty⟩

theorem dispatchToClients_handler (e : vehicle_prop_value_t) (h : VehicleHalMessageHandler)
    (clients : List Nat) :
    ∀ (s : Service) (active : List Nat),
      dispatchToClients e clients { s with mHandler := h } active
        = (dispatchToClients e clients s active).map
            (fun r => ({ r.1 with mHandler := h }, r.2)) := by
  induction clients with
  | nil => intro s active; rfl
  | cons client t ih =>
    intro s active
    simp only [dispatchToClients]
    cases hinfo : (s.heap client).getSubscriptionInfo e.prop with
    | none => rfl
    | some info =>
      dsimp only
      split
      · exact ih (s.setClient client ((s.heap client).addEvent e)) (setAdd active client)
      · exact ih s active

theorem dispatchEventsLoop_handler (h : VehicleHalMessageHandler)
    (events : List vehicle_prop_value_t) :
    ∀ (s : Service) (active : List Nat),
      dispatchEventsLoop events { s with mHandler := h } active
        = (dispatchEventsLoop events s active).map
            (fun r => ({ r.1 with mHandler := h }, r.2)) := by
  induction events with
  | nil => intro s active; rfl
  | cons e t ih =>
    intro s active
    simp only [dispatchEventsLoop]
    cases hv : valueFor s.mPropertyToClientsMap e.prop with
    | none => exact ih s active
    | some clients =>
      dsimp only
      rw [dispatchToClients_handler]
      cases hd : dispatchToClients e clients s active with
      | none => rfl
      | some r => exact ih r.1 r.2

theorem flushClients_handler (now : Int) (h : VehicleHalMessageHandler) (l : List Nat) :
    ∀ s : Service,
      flushClients now l { s with mHandler := h }
        = ({ (flushClients now l s).1 with mHandler := h }, (flushClients now l s).2) := by
  induction l with
  | nil => intro s; rfl
  | cons client t ih =>
    intro s
    simp only [flushClients]
    have := ih (s.setClient client (s.heap client).clearEvents)
    simp only [Service.setClient] at this ⊢
    rw [this]

theorem dispatchHalEvents_handler (s : Service) (h : VehicleHalMessageHandler)
    (events : List vehicle_prop_value_t) (now : Int) :
    dispatchHalEvents { s with mHandler := h } events now
      = (dispatchHalEvents s events now).map
          (fun o => { o with state := { o.state with mHandler := h } }) := by
  unfold dispatchHalEvents
  rw [dispatchEventsLoop_handler]
  cases hd : dispatchEventsLoop events s [] with
  | none => rfl
  | some r =>
    simp only [Option.map_some']
    rw [flushClients_handler]

theorem doHandleHalEvent_handler (s : Service) (nowMs nowNs : Int) :
    doHandleHalEvent s nowMs nowNs =
      match (s.mHandler.takeBatch nowMs).2 with
      | none =>
        some { state := { s with mHandler := (s.mHandler.takeBatch nowMs).1 },
               status := NO_ERROR, calls := [] }
      | some batch =>
        (dispatchHalEvents s batch nowNs).map
          (fun o => { o with state :=
            { o.state with mHandler := (s.mHandler.takeBatch nowMs).1 } }) := by
  unfold doHandleHalEvent VehicleHalMessageHandler.takeBatch
  dsimp only
  split
  · dsimp only
    rw [dispatchHalEvents_handler]
    cases dispatchHalEvents s _ nowNs <;> rfl
  · split
    · dsimp only
      rw [dispatchHalEvents_handler]
      cases dispatchHalEvents s _ nowNs <;> rfl
    · rfl

theorem runPipeline_append (a : List PipelineStep) :
    ∀ (h : VehicleHalMessageHandler) (b : List PipelineStep),
      runPipeline h (a ++ b)
        = ((runPipeline (runPipeline h a).1 b).1,
           (runPipeline h a).2 ++ (runPipeline (runPipeline h a).1 b).2) := by
  induction a with
  | nil => intro h b; simp [runPipeline]
  | cons st t ih =>
    intro h b
    cases st with
    | produce v now =>
      simp only [List.cons_append, runPipeline]
      exact ih _ b
    | consume nowMs nowNs =>
      cases hr : (h.takeBatch nowMs).2 <;> simp [runPipeline, hr, ih]

theorem runPipeline_invariant (steps : List PipelineStep) :
    ∀ h : VehicleHalMessageHandler, h.mFreeListIndex ≤ 1 →
      h.list (h.mFreeListIndex ^^^ 1) = [] →
      (runPipeline h steps).1.mFreeListIndex ≤ 1 ∧
      (runPipeline h steps).1.list ((runPipeline h steps).1.mFreeListIndex ^^^ 1) = [] ∧
      ((runPipeline h steps).2.map Prod.fst).flatten
          ++ (runPipeline h steps).1.list (runPipeline h steps).1.mFreeListIndex
        = h.list h.mFreeListIndex ++ producedEvents steps ∧
      ∀ b ∈ (runPipeline h steps).2, b.1 ≠ [] := by
  induction steps with
  | nil => intro h hidx hempty; simp [runPipeline, producedEvents, hidx, hempty]
  | cons st t ih =>
    intro h hidx hempty
    cases st with
    | produce v now =>
      obtain ⟨p1, p2, p3, -⟩ := handleHalEvent_spec h v now hidx
      simp only [runPipeline, producedEvents]
      obtain ⟨i1, i2, i3, i4⟩ := ih (h.handleHalEvent v now).1 (by rw [p3]; exact hidx)
        (by rw [p3, p2]; exact hempty)
      refine ⟨i1, i2, ?_, i4⟩
      rw [i3, p3, p1]
      simp
    | consume now nowNs =>
      obtain ⟨-, -, c2, c3⟩ := takeBatch_spec h now hidx
      obtain ⟨hx1, hx2, hx3⟩ := xor_one_of_le_one h.mFreeListIndex hidx
      simp only [runPipeline, producedEvents]
      by_cases hne : h.list h.mFreeListIndex = []
      · obtain ⟨d1, d2, d3, d4⟩ := c3 hempty hne
        obtain ⟨i1, i2, i3, i4⟩ := ih (h.takeBatch now).1 (by rw [d2]; exact hidx)
          (by rw [d2]; exact d4)
        rw [d1]
        dsimp only
        refine ⟨i1, i2, ?_, i4⟩
        rw [i3, d2, d3, hne]
      · obtain ⟨d1, d2, d3, d4⟩ := c2 hempty hne
        obtain ⟨i1, i2, i3, i4⟩ := ih (h.takeBatch now).1 (by rw [d2]; exact hx1)
          (by rw [d2, hx3]; exact d3)
        rw [d1]
        dsimp only
        refine ⟨i1, i2, ?_, ?_⟩
        · rw [List.map_cons, List.flatten_cons, List.append_assoc, i3, d2, d4]
          simp
        · intro b hb
          rcases List.mem_cons.mp hb with hb | hb
          · rw [hb]; exact hne
          · exact i4 b hb

theorem runPipeline_produce_only (steps : List PipelineStep)
    (hall : ∀ st ∈ steps, st.isProduce = true) :
    ∀ h : VehicleHalMessageHandler, (runPipeline h steps).2 = [] := by
  induction steps with
  | nil => intro h; rfl
  | cons st t ih =>
    intro h
    cases st with
    | produce v now =>
      simp only [runPipeline]
      exact ih (fun st hst => hall st (List.mem_cons_of_mem _ hst)) _
    | consume nowMs nowNs =>
      have := hall (PipelineStep.consume nowMs nowNs) (List.mem_cons_self _ _)
      simp [PipelineStep.isProduce] at this

theorem takeBatch_errors (h : VehicleHalMessageHandler) (now : Int) :
    (h.takeBatch now).1.mHalErrors = h.mHalErrors := by
  unfold VehicleHalMessageHandler.takeBatch VehicleHalMessageHandler.setList
  dsimp only
  split
  · split <;> split <;> rfl
  · split
    · split <;> rfl
    · rfl

theorem takeBatch_idle (h : VehicleHalMessageHandler) (now : Int)
    (h1 : h.list (h.mFreeListIndex ^^^ 1) = []) (h2 : h.list h.mFreeListIndex = []) :
    h.takeBatch now = ({ h with mLastDispatchTime := now }, none) := by
  have hl : ∀ i, ({ h with mLastDispatchTime := now } : VehicleHalMessageHandler).list i
      = h.list i := fun i => rfl
  unfold VehicleHalMessageHandler.takeBatch
  dsimp only
  rw [hl, hl, h1, h2]
  simp

theorem dispatchBatches_handler (h : VehicleHalMessageHandler)
    (batches : List (List vehicle_prop_value_t × Int)) :
    ∀ s : Service,
      dispatchBatches { s with mHandler := h } batches
        = (dispatchBatches s batches).map (fun r => ({ r.1 with mHandler := h }, r.2)) := by
  induction batches with
  | nil => intro s; rfl
  | cons b t ih =>
    intro s
    obtain ⟨batch, now⟩ := b
    simp only [dispatchBatches]
    rw [dispatchHalEvents_handler]
    cases hd : dispatchHalEvents s batch now with
    | none => rfl
    | some o =>
      simp only [Option.map_some']
      rw [ih o.state]
      cases dispatchBatches o.state t <;> rfl

theorem flushClients_onEvents (now : Int) (l : List Nat) :
    ∀ s : Service, (flushClients now l s).2.filter Call.isOnEvents = (flushClients now l s).2 := by
  induction l with
  | nil => intro s; rfl
  | cons c t ih =>
    intro s
    simp only [flushClients, List.filter_cons, Call.isOnEvents, if_true]
    rw [ih]

theorem dispatchHalEvents_onEvents {s : Service} {events : List vehicle_prop_value_t}
    {now : Int} {o : Outcome} (h : dispatchHalEvents s events now = some o) :
    o.calls.filter Call.isOnEvents = o.calls := by
  unfold dispatchHalEvents at h
  split at h
  · simp at h
  · simp only [Option.some.injEq] at h
    rw [← h]
    exact flushClients_onEvents _ _ _

theorem handleHalEvent_noOnEvents (h : VehicleHalMessageHandler) (v : vehicle_prop_value_t)
    (now : Int) : (h.handleHalEvent v now).2.filter Call.isOnEvents = [] := by
  unfold VehicleHalMessageHandler.handleHalEvent
  dsimp only
  split <;> rfl

theorem runWorker_batches (steps : List PipelineStep) :
    ∀ s : Service,
      (runWorker s steps).map (fun r => (r.1, r.2.filter Call.isOnEvents))
        = (dispatchBatches s (runPipeline s.mHandler steps).2).map
            (fun r => ({ r.1 with mHandler := (runPipeline s.mHandler steps).1 }, r.2)) := by
  induction steps with
  | nil => intro s; rfl
  | cons st t ih =>
    intro s
    cases st with
    | produce v now =>
      simp only [runWorker, runPipeline]
      have hi := ih { s with mHandler := (s.mHandler.handleHalEvent v now).1 }
      rw [dispatchBatches_handler] at hi
      have hc := handleHalEvent_noOnEvents s.mHandler v now
      cases hw : runWorker { s with mHandler := (s.mHandler.handleHalEvent v now).1 } t with
      | none =>
        rw [hw] at hi
        cases hdb : dispatchBatches s (runPipeline (s.mHandler.handleHalEvent v now).1 t).2 with
        | none => rfl
        | some y => rw [hdb] at hi; simp at hi
      | some x =>
        rw [hw] at hi
        cases hdb : dispatchBatches s (runPipeline (s.mHandler.handleHalEvent v now).1 t).2 with
        | none => rw [hdb] at hi; simp at hi
        | some y =>
          rw [hdb] at hi
          simp only [Option.map_some', Option.some.injEq, Prod.mk.injEq] at hi ⊢
          refine ⟨hi.1, ?_⟩
          rw [List.filter_append, hc, hi.2]
          rfl
    | consume nowMs nowNs =>
      simp only [runWorker, runPipeline]
      rw [doHandleHalEvent_handler]
      cases hb : (s.mHandler.takeBatch nowMs).2 with
      | none =>
        dsimp only
        have hi := ih { s with mHandler := (s.mHandler.takeBatch nowMs).1 }
        rw [dispatchBatches_handler] at hi
        cases hw : runWorker { s with mHandler := (s.mHandler.takeBatch nowMs).1 } t with
        | none =>
          rw [hw] at hi
          cases hdb : dispatchBatches s (runPipeline (s.mHandler.takeBatch nowMs).1 t).2 with
          | none => rfl
          | some y => rw [hdb] at hi; simp at hi
        | some x =>
          rw [hw] at hi
          cases hdb : dispatchBatches s (runPipeline (s.mHandler.takeBatch nowMs).1 t).2 with
          | none => rw [hdb] at hi; simp at hi
          | some y =>
            rw [hdb] at hi
            simp only [Option.map_some', Option.some.injEq, Prod.mk.injEq] at hi ⊢
            exact ⟨hi.1, by rw [List.nil_append]; exact hi.2⟩
      | some batch =>
        dsimp only
        simp only [dispatchBatches]
        cases hd : dispatchHalEvents s batch nowNs with
        | none => rfl
        | some o =>
          simp only [Option.map_some']
          have hi := ih { o.state with mHandler := (s.mHandler.takeBatch nowMs).1 }
          rw [dispatchBatches_handler] at hi
          have hc := dispatchHalEvents_onEvents hd
          cases hw : runWorker { o.state with mHandler := (s.mHandler.takeBatch nowMs).1 } t with
          | none =>
            rw [hw] at hi
            cases hdb : dispatchBatches o.state (runPipeline (s.mHandler.takeBatch nowMs).1 t).2 with
            | none => rfl
            | some y => rw [hdb] at hi; simp at hi
          | some x =>
            rw [hw] at hi
            cases hdb : dispatchBatches o.state (runPipeline (s.mHandler.takeBatch nowMs).1 t).2 with
            | none => rw [hdb] at hi; simp at hi
            | some y =>
              rw [hdb] at hi
              simp only [Option.map_some', Option.some.injEq, Prod.mk.injEq] at hi ⊢
              refine ⟨hi.1, ?_⟩
              rw [List.filter_append, hc, hi.2]

theorem onHalEvent_noSubscribe (s : Service) (e : vehicle_prop_value_t) (inj : Bool)
    (a b : Int) : ∀ call ∈ (onHalEvent s e inj a b).calls, call.isSubscribe = false := by
  intro call hc
  unfold onHalEvent at hc
  split at hc
  · simp at hc
  · simp only [VehicleHalMessageHandler.handleHalEvent] at hc
    split at hc <;> (simp at hc; subst hc; rfl)

theorem releaseMemoryFromGet_noSubscribe (s : Service) (v : vehicle_prop_value_t) :
    ∀ call ∈ releaseMemoryFromGet s v, call.isSubscribe = false := by
  intro call hc
  unfold releaseMemoryFromGet at hc
  split at hc
  · split at hc
    · simp at hc
    · simp at hc; subst hc; rfl
  · split at hc
    · simp at hc
    · simp at hc; subst hc; rfl
  · simp at hc

theorem notifyZone_noSubscribe {env : Env} {s : Service} {m : Bool} {prop : Int}
    {vt : ValueType} {zone : Nat} {a b : Int} {o : Outcome}
    (h : notifyClientWithCurrentValueZone env s m prop vt zone a b = some o) :
    ∀ call ∈ o.calls, call.isSubscribe = false := by
  have hcall : ∀ (answer : Option ((Int × vehicle_prop_value_t) × Call)) r call,
      (if m then
        match s.mHalMock with
        | none => none
        | some mock => some (mock.onPropertyGet
            { prop := prop, value_type := vt, timestamp := 0, zone := zone, value := [] },
            Call.mockGet
              { prop := prop, value_type := vt, timestamp := 0, zone := zone, value := [] })
       else some (env.mDevice.get 0
            { prop := prop, value_type := vt, timestamp := 0, zone := zone, value := [] },
            Call.halGet
              { prop := prop, value_type := vt, timestamp := 0, zone := zone, value := [] }))
        = answer → answer = some (r, call) → call.isSubscribe = false := by
    intro answer r call h1 h2
    subst h1
    split at h2
    · split at h2
      · simp at h2
      · simp at h2; rw [← h2.2]; rfl
    · simp at h2; rw [← h2.2]; rfl
  unfold notifyClientWithCurrentValueZone at h
  simp only at h
  split at h
  · simp at h
  · rename_i r call heq
    have hc := hcall _ r call rfl heq
    intro x hx
    split at h
    · split at h <;> (simp at h; subst h; simp at hx; subst hx; exact hc)
    · split at h
      · simp at h
        subst h
        simp only [List.mem_cons] at hx
        rcases hx with hx | hx
        · subst hx; exact hc
        · exact onHalEvent_noSubscribe _ _ _ _ _ x hx
      · simp at h
        subst h
        simp only [List.mem_cons, List.mem_append] at hx
        rcases hx with hx | hx | hx
        · subst hx; exact hc
        · exact onHalEvent_noSubscribe _ _ _ _ _ x hx
        · exact releaseMemoryFromGet_noSubscribe _ _ x hx

theorem notifyZonesLoop_noSubscribe {env : Env} {m : Bool} {prop : Int} {vt : ValueType}
    {req : Nat} {a b : Int} (l : List Nat) :
    ∀ {s : Service} {o : Outcome},
      notifyZonesLoop env m prop vt req a b l s = some o →
        ∀ call ∈ o.calls, call.isSubscribe = false := by
  induction l with
  | nil =>
    intro s o h
    simp [notifyZonesLoop] at h
    subst h
    simp
  | cons i t ih =>
    intro s o h
    unfold notifyZonesLoop at h
    split at h
    · split at h
      · simp at h
      · rename_i o1 h1
        split at h
        · simp at h
          subst h
          exact notifyZone_noSubscribe h1
        · split at h
          · simp at h
          · rename_i o2 h2
            simp at h
            subst h
            intro x hx
            simp only [List.mem_append] at hx
            rcases hx with hx | hx
            · exact notifyZone_noSubscribe h1 x hx
            · exact ih (o := o2) h2 x hx
    · exact ih h

theorem notify_noSubscribe {env : Env} {s : Service} {m : Bool} {config : vehicle_prop_config_t}
    {zones : Nat} {a b : Int} {o : Outcome}
    (h : notifyClientWithCurrentValue env s m config zones a b = some o) :
    ∀ call ∈ o.calls, call.isSubscribe = false := by
  unfold notifyClientWithCurrentValue at h
  split at h
  · exact notifyZonesLoop_noSubscribe _ h
  · exact notifyZone_noSubscribe h

theorem subscribeRecord_noSubscribe (s : Service) (b : Nat) (p : Int) (rate : CFloat)
    (z nz f : Nat) (sh : Bool) :
    ∀ call ∈ (subscribeRecord s b p rate z nz f sh).2.2, call.isSubscribe = false := by
  intro call hc
  unfold subscribeRecord findOrCreateClientLocked at hc
  cases hreg : valueFor s.mBinderToClientMap b with
  | none => simp [hreg] at hc; subst hc; rfl
  | some c => simp [hreg] at hc

theorem filter_isSubscribe_nil (l : List Call) (h : ∀ call ∈ l, call.isSubscribe = false) :
    l.filter Call.isSubscribe = [] := by
  rw [List.filter_eq_nil_iff]
  intro a ha
  simp [h a ha]

theorem subscribeUnlocked_subscribeCalls {env : Env} {s : Service} {calls : List Call}
    {sh inMock ag : Bool} {config : vehicle_prop_config_t} {prop : Int} {rate : CFloat}
    {zones newZones flags : Nat} {a b : Int} {o : Outcome}
    (hcalls : ∀ call ∈ calls, call.isSubscribe = false)
    (h : subscribeUnlocked env s calls sh inMock ag config prop rate zones newZones flags a b
      = some o) :
    o.calls.filter Call.isSubscribe =
      if sh && decide (SubscribeFlags.HAL_EVENT &&& flags ≠ 0) then
        [if inMock then Call.mockSubscribe prop rate newZones
         else Call.halSubscribe prop rate newZones]
      else [] := by
  have hanswer : ∀ (answer : Option (Int × List Call)) r calls1,
      (if sh && decide (SubscribeFlags.HAL_EVENT &&& flags ≠ 0) then
        if inMock then
          match s.mHalMock with
          | none => none
          | some mock =>
            some (mock.onPropertySubscribe prop rate newZones,
                  [Call.mockSubscribe prop rate newZones])
        else
          some (env.mDevice.subscribe prop rate newZones,
                [Call.halSubscribe prop rate newZones])
       else some (NO_ERROR, [])) = answer → answer = some (r, calls1) →
      calls1.filter Call.isSubscribe =
        if sh && decide (SubscribeFlags.HAL_EVENT &&& flags ≠ 0) then
          [if inMock then Call.mockSubscribe prop rate newZones
           else Call.halSubscribe prop rate newZones]
        else [] := by
    intro answer r calls1 h1 h2
    subst h1
    split at h2
    · rename_i hc
      rw [if_pos hc]
      split at h2
      · rename_i hm
        split at h2
        · simp at h2
        · simp at h2; rw [← h2.2]; simp [Call.isSubscribe, hm]
      · rename_i hm
        simp at h2; rw [← h2.2]; simp [Call.isSubscribe, hm]
    · rename_i hc
      rw [if_neg hc]
      simp at h2; rw [h2.2]; rfl
  unfold subscribeUnlocked at h
  simp only at h
  split at h
  · simp at h
  · rename_i r calls1 heq
    have hc1 := hanswer _ r calls1 rfl heq
    split at h
    · simp at h
      subst h
      simp only [List.filter_append, filter_isSubscribe_nil calls hcalls, List.nil_append]
      exact hc1
    · split at h
      · split at h
        · simp at h
        · rename_i o1 h1
          simp at h
          subst h
          simp only [List.filter_append, filter_isSubscribe_nil calls hcalls, List.nil_append,
            filter_isSubscribe_nil o1.calls (notify_noSubscribe h1), List.append_nil]
          exact hc1
      · simp at h
        subst h
        simp only [List.filter_append, filter_isSubscribe_nil calls hcalls, List.nil_append]
        exact hc1

theorem shouldSubscribeFor_iff (prior : Option SubscriptionInfo) (rate : CFloat)
    (zones0 zones flags : Nat) :
    shouldSubscribeFor prior rate zones flags = true ↔
      (prior = none ∨ ∃ info, prior = some info ∧
        (info.sampleRate < rate ∨ info.zones ≠ newZonesFor prior zones0 zones ∨
          info.flags ≠ flags)) := by
  cases prior with
  | none => simp [shouldSubscribeFor]
  | some info =>
    simp only [shouldSubscribeFor, newZonesFor, Bool.or_eq_true, decide_eq_true_eq,
      false_or, Option.some.injEq, exists_eq_left', reduceCtorEq]
    tauto

theorem subscribe_subscribeCalls {env : Env} {s : Service} {listener : Nat} {prop : Int}
    {r : CFloat} {z f : Nat} {a b : Int} {o : Outcome} {config : vehicle_prop_config_t}
    (hcfg : findConfigLocked s prop = some config)
    (hint : isInternalProperty env prop = false)
    (h : subscribe env s listener prop r z f a b = some o) (hok : o.status = NO_ERROR) :
    o.calls.filter Call.isSubscribe =
      if shouldSubscribeFor (valueFor s.mSubscriptionInfos prop) (normalizedSampleRate config r)
            (subscribeZones config z) (subscribeFlags f) &&
          decide (SubscribeFlags.HAL_EVENT &&& subscribeFlags f ≠ 0) then
        [if s.mMockingEnabled then
           Call.mockSubscribe prop (normalizedSampleRate config r)
             (newZonesFor (valueFor s.mSubscriptionInfos prop) z (subscribeZones config z))
         else
           Call.halSubscribe prop (normalizedSampleRate config r)
             (newZonesFor (valueFor s.mSubscriptionInfos prop) z (subscribeZones config z))]
      else [] := by
  have hbad : ∀ s1 : Service,
      some ({ state := s1, status := BAD_VALUE, calls := [] } : Outcome) = some o → False := by
    intro s1 h1
    simp at h1
    rw [← h1] at hok
    exact noError_ne_badValue hok.symm
  unfold subscribe at h
  simp only [hcfg, hint, Bool.and_false] at h
  split at h
  · exact (hbad _ h).elim
  · split at h
    · exact (hbad _ h).elim
    · split at h
      · exact (hbad _ h).elim
      · rw [if_neg (by simp)] at h
        have := subscribeUnlocked_subscribeCalls (subscribeRecord_noSubscribe _ _ _ _ _ _ _ _) h
        rw [this, (subscribeRecord_mock _ _ _ _ _ _ _ _).1]

theorem balanced_init (properties : List vehicle_prop_config_t) :
    Balanced (Service.init properties) := by
  constructor
  · intro p v h; simp [Service.init, valueFor] at h
  · intro p h; simp [Service.init, valueFor] at h

theorem balanced_of_maps {s s1 : Service}
    (h1 : s1.mPropertyToClientsMap = s.mPropertyToClientsMap)
    (h2 : s1.mSubscriptionInfos = s.mSubscriptionInfos) (hb : Balanced s) : Balanced s1 := by
  unfold Balanced
  rw [h1, h2]
  exact hb

theorem setAdd_ne_nil {A : Type} [DecidableEq A] (v : List A) (a : A) : setAdd v a ≠ [] := by
  intro h
  have : a ∈ setAdd v a := (mem_setAdd v a a).mpr (Or.inr rfl)
  rw [h] at this
  simp at this

theorem subscribeRecord_balanced (s : Service) (b : Nat) (p : Int) (rate : CFloat)
    (z nz f : Nat) (sh : Bool) (hsh : sh = false → valueFor s.mSubscriptionInfos p ≠ none)
    (hb : Balanced s) : Balanced (subscribeRecord s b p rate z nz f sh).1 := by
  obtain ⟨b1, b2⟩ := hb
  obtain ⟨-, -, hmap, hinfos, -⟩ := subscribeRecord_spec s b p rate z nz f sh
  have hagg : valueFor (subscribeRecord s b p rate z nz f sh).1.mSubscriptionInfos p ≠ none := by
    rw [hinfos]
    cases sh with
    | true => simp [valueFor_kvAdd_self]
    | false => simpa using hsh rfl
  have hother : ∀ q, q ≠ p →
      valueFor (subscribeRecord s b p rate z nz f sh).1.mSubscriptionInfos q
        = valueFor s.mSubscriptionInfos q := by
    intro q hq
    rw [hinfos]
    split
    · exact valueFor_kvAdd_ne _ _ _ _ hq
    · rfl
  constructor
  · intro q v hv
    rw [hmap] at hv
    by_cases hq : q = p
    · subst hq
      rw [valueFor_kvAdd_self] at hv
      simp only [Option.some.injEq] at hv
      subst hv
      exact ⟨setAdd_ne_nil _ _, hagg⟩
    · rw [valueFor_kvAdd_ne _ _ _ _ hq] at hv
      rw [hother q hq]
      exact b1 q v hv
  · intro q hq
    rw [hmap]
    by_cases hqp : q = p
    · subst hqp
      rw [valueFor_kvAdd_self]
      simp
    · rw [valueFor_kvAdd_ne _ _ _ _ hqp]
      rw [hother q hqp] at hq
      exact b2 q hq

theorem removePropertyFromClientLocked_balanced (s : Service) (b client : Nat) (p : Int)
    (hb : Balanced s) : Balanced (removePropertyFromClientLocked s b client p).1 := by
  obtain ⟨b1, b2⟩ := hb
  obtain ⟨-, -, -, hmap, hinfos, -⟩ := removePropertyFromClient_spec s b client p
  obtain ⟨-, -, -, -, -, hcases⟩ :=
    removeClientFromSubscribers_spec (removePropertyFromClient s b client p).1 client p
  rw [hmap, hinfos] at hcases
  simp only [removePropertyFromClientLocked]
  rcases hcases with ⟨-, -, hm, hi⟩ | ⟨old, hold, -, -, hm, hi⟩ | ⟨old, hold, hne, -, hm, hi⟩
  · exact balanced_of_maps hm hi ⟨b1, b2⟩
  · constructor
    · intro q v hv
      rw [hm] at hv
      by_cases hq : q = p
      · subst hq
        rw [valueFor_removeItem_self] at hv
        simp at hv
      · rw [valueFor_removeItem_ne _ _ _ hq, valueFor_kvAdd_ne _ _ _ _ hq] at hv
        rw [hi, valueFor_removeItem_ne _ _ _ hq]
        exact b1 q v hv
    · intro q hq
      rw [hi] at hq
      by_cases hqp : q = p
      · subst hqp
        rw [valueFor_removeItem_self] at hq
        exact absurd rfl hq
      · rw [valueFor_removeItem_ne _ _ _ hqp] at hq
        rw [hm, valueFor_removeItem_ne _ _ _ hqp, valueFor_kvAdd_ne _ _ _ _ hqp]
        exact b2 q hq
  · constructor
    · intro q v hv
      rw [hm] at hv
      rw [hi]
      by_cases hq : q = p
      · subst hq
        rw [valueFor_kvAdd_self] at hv
        simp only [Option.some.injEq] at hv
        subst hv
        exact ⟨hne, (b1 q old hold).2⟩
      · rw [valueFor_kvAdd_ne _ _ _ _ hq] at hv
        exact b1 q v hv
    · intro q hq
      rw [hi] at hq
      rw [hm]
      by_cases hqp : q = p
      · subst hqp
        rw [valueFor_kvAdd_self]
        simp
      · rw [valueFor_kvAdd_ne _ _ _ _ hqp]
        exact b2 q hq

theorem binderDied_maps (s : Service) (who client : Nat)
    (hreg : valueFor s.mBinderToClientMap who = some client)
    (hkeys : (s.mPropertyToClientsMap.map Prod.fst).Nodup) (q : Int) :
    (valueFor (binderDied s who).state.mPropertyToClientsMap q =
      match valueFor s.mPropertyToClientsMap q with
      | none => none
      | some v => if setRemove v client = [] then none else some (setRemove v client)) ∧
    (valueFor (binderDied s who).state.mSubscriptionInfos q =
      match valueFor s.mPropertyToClientsMap q with
      | none => valueFor s.mSubscriptionInfos q
      | some v => if setRemove v client = [] then none else valueFor s.mSubscriptionInfos q) := by
  obtain ⟨-, hrem⟩ := binderDiedLoop_removed client s.mPropertyToClientsMap
    s.mSubscriptionInfos hkeys
  have hstate : (binderDied s who).state =
      { s with mBinderToClientMap := removeItem s.mBinderToClientMap who,
               mPropertyToClientsMap := removeItems
                 (binderDiedLoop client s.mPropertyToClientsMap s.mSubscriptionInfos).1
                 (binderDiedLoop client s.mPropertyToClientsMap s.mSubscriptionInfos).2.2,
               mSubscriptionInfos :=
                 (binderDiedLoop client s.mPropertyToClientsMap s.mSubscriptionInfos).2.1 } := by
    simp [binderDied, hreg]
  rw [hstate]
  dsimp only
  rw [valueFor_removeItems, binderDiedLoop_map, binderDiedLoop_infos, valueFor_removeItems]
  cases hv : valueFor s.mPropertyToClientsMap q with
  | none =>
    have hnin : q ∉ (binderDiedLoop client s.mPropertyToClientsMap s.mSubscriptionInfos).2.2 := by
      intro hin
      obtain ⟨v1, hv1, -⟩ := (hrem q).mp hin
      rw [hv] at hv1
      simp at hv1
    simp [hnin]
  | some v =>
    by_cases hempty : setRemove v client = []
    · have hin : q ∈ (binderDiedLoop client s.mPropertyToClientsMap s.mSubscriptionInfos).2.2 :=
        (hrem q).mpr ⟨v, hv, hempty⟩
      simp [hin, hempty]
    · have hnin : q ∉ (binderDiedLoop client s.mPropertyToClientsMap
          s.mSubscriptionInfos).2.2 := by
        intro hin
        obtain ⟨v1, hv1, he⟩ := (hrem q).mp hin
        rw [hv] at hv1
        simp only [Option.some.injEq] at hv1
        subst hv1
        exact hempty he
      simp [hnin, hempty]

theorem binderDied_balanced (s : Service) (who : Nat)
    (hkeys : (s.mPropertyToClientsMap.map Prod.fst).Nodup) (hb : Balanced s) :
    Balanced (binderDied s who).state := by
  cases hreg : valueFor s.mBinderToClientMap who with
  | none =>
    have : (binderDied s who).state = s := by simp [binderDied, hreg]
    rw [this]; exact hb
  | some client =>
    obtain ⟨b1, b2⟩ := hb
    constructor
    · intro q v hv
      obtain ⟨hm, hi⟩ := binderDied_maps s who client hreg hkeys q
      rw [hm] at hv
      rw [hi]
      cases hold : valueFor s.mPropertyToClientsMap q with
      | none => simp [hold] at hv
      | some old =>
        simp only [hold] at hv ⊢
        split at hv
        · simp at hv
        · rename_i hne
          simp only [Option.some.injEq] at hv
          subst hv
          rw [if_neg hne]
          exact ⟨hne, (b1 q old hold).2⟩
    · intro q hq
      obtain ⟨hm, hi⟩ := binderDied_maps s who client hreg hkeys q
      rw [hi] at hq
      rw [hm]
      cases hold : valueFor s.mPropertyToClientsMap q with
      | none =>
        simp only [hold] at hq
        exact absurd hold (b2 q hq)
      | some old =>
        simp only [hold] at hq ⊢
        split
        · rename_i he
          rw [if_pos he] at hq
          exact absurd rfl hq
        · simp

theorem monitoring_maps (s : Service) (listener : Nat) :
    ((startErrorListening s listener).state.mPropertyToClientsMap = s.mPropertyToClientsMap ∧
      (startErrorListening s listener).state.mSubscriptionInfos = s.mSubscriptionInfos) ∧
    ((stopErrorListening s listener).state.mPropertyToClientsMap = s.mPropertyToClientsMap ∧
      (stopErrorListening s listener).state.mSubscriptionInfos = s.mSubscriptionInfos) ∧
    ((startHalRestartMonitoring s listener).state.mPropertyToClientsMap
        = s.mPropertyToClientsMap ∧
      (startHalRestartMonitoring s listener).state.mSubscriptionInfos
        = s.mSubscriptionInfos) ∧
    ((stopHalRestartMonitoring s listener).state.mPropertyToClientsMap
        = s.mPropertyToClientsMap ∧
      (stopHalRestartMonitoring s listener).state.mSubscriptionInfos = s.mSubscriptionInfos) := by
  unfold startErrorListening stopErrorListening startHalRestartMonitoring
    stopHalRestartMonitoring findOrCreateClientLocked findClientLocked
  cases valueFor s.mBinderToClientMap listener <;> simp [Service.setClient]

theorem handleHalRestart_balanced (s : Service) :
    Balanced (handleHalRestartAndGetClientsToDispatchLocked s).1 := by
  simp only [handleHalRestartAndGetClientsToDispatchLocked]
  constructor
  · intro p v hv
    rw [(removeClientsLoop_fields _ _).2.1, (restartLoop_fields _ _).2.1] at hv
    simp [valueFor] at hv
  · intro p hp
    rw [(removeClientsLoop_fields _ _).2.2.1, (restartLoop_fields _ _).2.2.1] at hp
    simp [valueFor] at hp

theorem step_balanced {env : Env} {s s1 : Service} {op : Op} (h : step env s op = some s1)
    (hc : Coherent s) (hb : Balanced s) : Balanced s1 := by
  cases op with
  | subscribe listener prop rate zones flags nowMs nowNs =>
    simp only [step, Option.map_eq_some'] at h
    obtain ⟨o, ho, hs⟩ := h
    subst hs
    rcases subscribe_outcome ho with ⟨hs, _, _⟩ | ⟨config, _, _, _, _, hsame⟩
    · rw [hs]; exact hb
    · obtain ⟨-, -, -, -, -, -, -, h8, h9, -, -⟩ := hsame
      refine balanced_of_maps h8 h9 (subscribeRecord_balanced _ _ _ _ _ _ _ _ ?_ hb)
      intro hsh hnone
      rw [hnone] at hsh
      simp [shouldSubscribeFor] at hsh
  | unsubscribe listener prop =>
    simp only [step, Option.map_eq_some'] at h
    obtain ⟨o, ho, hs⟩ := h
    subst hs
    rcases unsubscribe_state ho with h | ⟨client, h⟩
    · rw [h]; exact hb
    · rw [h]; exact removePropertyFromClientLocked_balanced _ _ _ _ hb
  | binderDied who =>
    simp only [step, Option.some.injEq] at h
    subst h
    exact binderDied_balanced _ _ hc.1 hb
  | startErrorListening listener =>
    simp only [step, Option.some.injEq] at h
    subst h
    exact balanced_of_maps (monitoring_maps s listener).1.1 (monitoring_maps s listener).1.2 hb
  | stopErrorListening listener =>
    simp only [step, Option.some.injEq] at h
    subst h
    exact balanced_of_maps (monitoring_maps s listener).2.1.1
      (monitoring_maps s listener).2.1.2 hb
  | startHalRestartMonitoring listener =>
    simp only [step, Option.some.injEq] at h
    subst h
    exact balanced_of_maps (monitoring_maps s listener).2.2.1.1
      (monitoring_maps s listener).2.2.1.2 hb
  | stopHalRestartMonitoring listener =>
    simp only [step, Option.some.injEq] at h
    subst h
    exact balanced_of_maps (monitoring_maps s listener).2.2.2.1
      (monitoring_maps s listener).2.2.2.2 hb
  | startMocking mock =>
    simp only [step, Option.some.injEq] at h
    subst h
    exact handleHalRestart_balanced
      { s with mHalMock := some mock, mMockingEnabled := true,
               mPropertiesForMocking := mock.onListProperties }
  | stopMocking mock =>
    simp only [step, Option.some.injEq] at h
    subst h
    unfold stopMocking
    split
    · exact hb
    · split
      · exact hb
      · exact handleHalRestart_balanced
          { s with mHalMock := none, mMockingEnabled := false, mPropertiesForMocking := [] }

theorem run_balanced (env : Env) (ops : List Op) :
    ∀ s s1 : Service, Coherent s → Balanced s → run env s ops = some s1 → Balanced s1 := by
  induction ops with
  | nil =>
    intro s s1 _ hb h
    simp [run] at h
    rw [← h]
    exact hb
  | cons op t ih =>
    intro s s1 hc hb h
    simp only [run] at h
    cases hstep : step env s op with
    | none => simp [hstep] at h
    | some s2 =>
      simp only [hstep] at h
      exact ih s2 s1 (step_coherent hstep hc) (step_balanced hstep hc hb) h

theorem linked_init (properties : List vehicle_prop_config_t) :
    Linked (Service.init properties) := by
  intro b c h
  simp [Service.init] at h

theorem linked_same {s s1 : Service} (h : SameBroker s s1) (hl : Linked s) : Linked s1 := by
  obtain ⟨_, _, _, _, h5, _, h7, h8, _, _, _⟩ := h
  unfold Linked subscribersOf
  rw [h5, h7, h8]
  exact hl

theorem subscribersOf_mem {s : Service} {p : Int} {c : Nat} (h : c ∈ subscribersOf s p) :
    ∃ v, valueFor s.mPropertyToClientsMap p = some v ∧ c ∈ v := by
  unfold subscribersOf at h
  cases hv : valueFor s.mPropertyToClientsMap p with
  | none => simp [hv] at h
  | some v => exact ⟨v, rfl, by simpa [hv] using h⟩

theorem subscribeRecord_linked (s : Service) (b : Nat) (p : Int) (rate : CFloat)
    (z nz f : Nat) (sh : Bool) (hl : Linked s) :
    Linked (subscribeRecord s b p rate z nz f sh).1 := by
  obtain ⟨hcl, hother, hmap, -, -⟩ := subscribeRecord_spec s b p rate z nz f sh
  have hsubs : ∀ q, subscribersOf (subscribeRecord s b p rate z nz f sh).1 q
      = if q = p then setAdd (subscribersOf s p) (subscribeRecord s b p rate z nz f sh).2.1
        else subscribersOf s q := by
    intro q
    unfold subscribersOf
    rw [hmap]
    by_cases hq : q = p
    · subst hq
      simp [valueFor_kvAdd_self]
    · simp [hq, valueFor_kvAdd_ne _ _ _ _ hq]
  have hgrow : ∀ q c, c ∈ subscribersOf s q →
      c ∈ subscribersOf (subscribeRecord s b p rate z nz f sh).1 q := by
    intro q c hc
    rw [hsubs]
    split
    · rename_i hq
      subst hq
      exact (mem_setAdd _ _ _).mpr (Or.inl hc)
    · exact hc
  intro b1 c hreg q hrec
  by_cases hc : c = (subscribeRecord s b p rate z nz f sh).2.1
  · by_cases hq : q = p
    · rw [hsubs, if_pos hq, hc]
      exact (mem_setAdd _ _ _).mpr (Or.inr rfl)
    · rcases hcl with ⟨hfound, -, -, hh⟩ | ⟨-, hcn, -, -, hh⟩
      · rw [hc, hh, getSubscriptionInfo_set_ne _ _ _ _ _ _ hq] at hrec
        rw [hc]
        exact hgrow q _ (hl b _ (valueFor_mem _ _ _ hfound) q hrec)
      · rw [hc, hcn, hh, getSubscriptionInfo_set_ne _ _ _ _ _ _ hq] at hrec
        simp [HalClient.getSubscriptionInfo, HalClient.create, valueFor] at hrec
  · rw [hother c hc] at hrec
    rcases hcl with ⟨-, -, hregs, -⟩ | ⟨-, hcn, -, hregs, -⟩
    · rw [hregs] at hreg
      exact hgrow q c (hl b1 c hreg q hrec)
    · rw [hregs] at hreg
      rcases mem_kvAdd _ _ _ _ hreg with h | h
      · exact hgrow q c (hl b1 c h q hrec)
      · have : c = s.nextClient := congrArg Prod.snd h
        rw [hcn] at hc
        exact absurd this hc

theorem removePropertyFromClientLocked_linked (s : Service) (b client : Nat) (p : Int)
    (hl : Linked s) : Linked (removePropertyFromClientLocked s b client p).1 := by
  obtain ⟨-, hheap, hregs, hmap, -, -⟩ := removePropertyFromClient_spec s b client p
  obtain ⟨-, hheap2, hregs2, -, -, hcases⟩ :=
    removeClientFromSubscribers_spec (removePropertyFromClient s b client p).1 client p
  rw [hmap] at hcases
  simp only [removePropertyFromClientLocked]
  have hreg_sub : ∀ b1 c, (b1, c) ∈ (removeClientFromSubscribers
      (removePropertyFromClient s b client p).1 client p).1.mBinderToClientMap →
      (b1, c) ∈ s.mBinderToClientMap := by
    intro b1 c h
    rw [hregs2] at h
    rcases hregs with h1 | h1
    · rw [h1] at h; exact h
    · rw [h1] at h; exact mem_removeItem _ _ _ h
  have hsubs_ne : ∀ q, q ≠ p →
      subscribersOf (removeClientFromSubscribers (removePropertyFromClient s b client p).1
        client p).1 q = subscribersOf s q := by
    intro q hq
    unfold subscribersOf
    rcases hcases with ⟨-, -, hm, -⟩ | ⟨old, -, -, -, hm, -⟩ | ⟨old, -, -, -, hm, -⟩
    · rw [hm]
    · rw [hm, valueFor_removeItem_ne _ _ _ hq, valueFor_kvAdd_ne _ _ _ _ hq]
    · rw [hm, valueFor_kvAdd_ne _ _ _ _ hq]
  intro b1 c hreg q hrec
  have hreg0 := hreg_sub b1 c hreg
  rw [hheap2, hheap] at hrec
  by_cases hc : c = client
  · subst hc
    simp only [if_true] at hrec
    by_cases hq : q = p
    · subst hq
      simp [HalClient.getSubscriptionInfo, HalClient.removeProperty,
        valueFor_removeItem_self] at hrec
    · rw [getSubscriptionInfo_remove_ne _ _ _ hq] at hrec
      rw [hsubs_ne q hq]
      exact hl b1 c hreg0 q hrec
  · simp only [hc, if_false] at hrec
    have hin := hl b1 c hreg0 q hrec
    by_cases hq : q = p
    · subst hq
      obtain ⟨v, hv, hcv⟩ := subscribersOf_mem hin
      have hkeep : c ∈ setRemove v client := (mem_setRemove _ _ _).mpr ⟨hcv, hc⟩
      rcases hcases with ⟨hnone, -⟩ | ⟨old, hold, hempty, -⟩ | ⟨old, hold, -, -, hm, -⟩
      · rw [hv] at hnone; simp at hnone
      · rw [hv] at hold
        simp only [Option.some.injEq] at hold
        subst hold
        rw [hempty] at hkeep
        simp at hkeep
      · rw [hv] at hold
        simp only [Option.some.injEq] at hold
        subst hold
        unfold subscribersOf
        rw [hm, valueFor_kvAdd_self]
        exact hkeep
    · rw [hsubs_ne q hq]
      exact hin

theorem binderDied_linked (s : Service) (who : Nat) (hw : WellFormed s)
    (hkeys : (s.mPropertyToClientsMap.map Prod.fst).Nodup) (hl : Linked s) :
    Linked (binderDied s who).state := by
  cases hreg : valueFor s.mBinderToClientMap who with
  | none =>
    have : (binderDied s who).state = s := by simp [binderDied, hreg]
    rw [this]; exact hl
  | some client =>
    have hregs : (binderDied s who).state.mBinderToClientMap
        = removeItem s.mBinderToClientMap who := by simp [binderDied, hreg]
    have hheap : (binderDied s who).state.heap = s.heap := by simp [binderDied, hreg]
    intro b1 c hmem q hrec
    rw [hregs] at hmem
    rw [hheap] at hrec
    have hmem0 : (b1, c) ∈ s.mBinderToClientMap := mem_removeItem _ _ _ hmem
    have hb1 : b1 ≠ who := by
      simp only [removeItem, List.mem_filter, decide_eq_true_eq] at hmem
      exact hmem.2
    have hc : c ≠ client := by
      intro hcc
      have h1 := (hw.1 b1 c hmem0).1
      have h2 := (hw.1 who client (valueFor_mem _ _ _ hreg)).1
      rw [hcc, h2] at h1
      exact hb1 h1.symm
    obtain ⟨v, hv, hcv⟩ := subscribersOf_mem (hl b1 c hmem0 q hrec)
    have hkeep : c ∈ setRemove v client := (mem_setRemove _ _ _).mpr ⟨hcv, hc⟩
    have hne : setRemove v client ≠ [] := by
      intro he
      rw [he] at hkeep
      simp at hkeep
    unfold subscribersOf
    rw [(binderDied_maps s who client hreg hkeys q).1, hv]
    simp only [hne, if_false, Option.getD_some]
    exact hkeep

theorem setClient_linked (s : Service) (c : Nat) (obj : HalClient) (hl : Linked s)
    (h2 : obj.mSubscriptionInfos = (s.heap c).mSubscriptionInfos) :
    Linked (s.setClient c obj) := by
  intro b1 x hmem q hrec
  have hs : ((s.setClient c obj).heap x).getSubscriptionInfo q
      = (s.heap x).getSubscriptionInfo q := by
    by_cases hx : x = c
    · subst hx; simp [Service.setClient, HalClient.getSubscriptionInfo, h2]
    · simp [Service.setClient, hx]
  rw [hs] at hrec
  exact hl b1 x hmem q hrec

theorem findOrCreateClientLocked_linked (s : Service) (b : Nat) (hw : WellFormed s)
    (hl : Linked s) : Linked (findOrCreateClientLocked s b).1 := by
  unfold findOrCreateClientLocked
  cases hreg : valueFor s.mBinderToClientMap b with
  | some c => exact hl
  | none =>
    dsimp only
    intro b1 c hmem q hrec
    dsimp only at hmem hrec
    rcases mem_kvAdd _ _ _ _ hmem with h | h
    · have hlt := (hw.1 b1 c h).2
      have hne : c ≠ s.nextClient := by omega
      simp only [hne, if_false] at hrec
      exact hl b1 c h q hrec
    · have hc : c = s.nextClient := congrArg Prod.snd h
      simp [hc, HalClient.getSubscriptionInfo, HalClient.create, valueFor] at hrec

theorem handleHalRestart_linked (s : Service) :
    Linked (handleHalRestartAndGetClientsToDispatchLocked s).1 := by
  simp only [handleHalRestartAndGetClientsToDispatchLocked]
  intro b c hmem q hrec
  obtain ⟨hreg, -⟩ := removeClientsLoop_registry _ _ b c hmem
  rw [(restartLoop_fields _ _).1] at hreg
  have hin : c ∈ List.map Prod.snd s.mBinderToClientMap :=
    List.mem_map.mpr ⟨(b, c), hreg, rfl⟩
  rw [(removeClientsLoop_fields _ _).1, restartLoop_heap] at hrec
  simp only [hin, if_true] at hrec
  simp [HalClient.getSubscriptionInfo, HalClient.removeAllProperties, valueFor] at hrec

theorem step_linked {env : Env} {s s1 : Service} {op : Op} (h : step env s op = some s1)
    (hw : WellFormed s) (hc : Coherent s) (hl : Linked s) : Linked s1 := by
  cases op with
  | subscribe listener prop rate zones flags nowMs nowNs =>
    simp only [step, Option.map_eq_some'] at h
    obtain ⟨o, ho, hs⟩ := h
    subst hs
    rcases subscribe_outcome ho with ⟨hs, _, _⟩ | ⟨config, _, _, _, _, hsame⟩
    · rw [hs]; exact hl
    · exact linked_same hsame (subscribeRecord_linked _ _ _ _ _ _ _ _ hl)
  | unsubscribe listener prop =>
    simp only [step, Option.map_eq_some'] at h
    obtain ⟨o, ho, hs⟩ := h
    subst hs
    rcases unsubscribe_state ho with h | ⟨client, h⟩
    · rw [h]; exact hl
    · rw [h]; exact removePropertyFromClientLocked_linked _ _ _ _ hl
  | binderDied who =>
    simp only [step, Option.some.injEq] at h
    subst h
    exact binderDied_linked _ _ hw hc.1 hl
  | startErrorListening listener =>
    simp only [step, Option.some.injEq] at h
    subst h
    exact setClient_linked _ _ _ (findOrCreateClientLocked_linked s listener hw hl) rfl
  | stopErrorListening listener =>
    simp only [step, Option.some.injEq] at h
    subst h
    unfold stopErrorListening
    split
    · exact hl
    · exact setClient_linked _ _ _ hl rfl
  | startHalRestartMonitoring listener =>
    simp only [step, Option.some.injEq] at h
    subst h
    exact setClient_linked _ _ _ (findOrCreateClientLocked_linked s listener hw hl) rfl
  | stopHalRestartMonitoring listener =>
    simp only [step, Option.some.injEq] at h
    subst h
    unfold stopHalRestartMonitoring
    split
    · exact hl
    · exact setClient_linked _ _ _ hl rfl
  | startMocking mock =>
    simp only [step, Option.some.injEq] at h
    subst h
    exact handleHalRestart_linked
      { s with mHalMock := some mock, mMockingEnabled := true,
               mPropertiesForMocking := mock.onListProperties }
  | stopMocking mock =>
    simp only [step, Option.some.injEq] at h
    subst h
    unfold stopMocking
    split
    · exact hl
    · split
      · exact hl
      · exact handleHalRestart_linked
          { s with mHalMock := none, mMockingEnabled := false, mPropertiesForMocking := [] }

theorem run_linked (env : Env) (ops : List Op) :
    ∀ s s1 : Service, WellFormed s → Coherent s → Linked s → run env s ops = some s1 →
      Linked s1 := by
  induction ops with
  | nil =>
    intro s s1 _ _ hl h
    simp [run] at h
    rw [← h]
    exact hl
  | cons op t ih =>
    intro s s1 hw hc hl h
    simp only [run] at h
    cases hstep : step env s op with
    | none => simp [hstep] at h
    | some s2 =>
      simp only [hstep] at h
      exact ih s2 s1 (step_wellFormed hstep hw) (step_coherent hstep hc)
        (step_linked hstep hw hc hl) h

theorem flagsSet_init (properties : List vehicle_prop_config_t) :
    FlagsSet (Service.init properties) := by
  intro c p info h
  simp [Service.init, HalClient.getSubscriptionInfo, HalClient.create, valueFor] at h

theorem flagsSet_same {s s1 : Service} (h : SameBroker s s1) (hf : FlagsSet s) :
    FlagsSet s1 := by
  obtain ⟨_, _, _, _, h5, _⟩ := h
  unfold FlagsSet
  rw [h5]
  exact hf

theorem subscribeFlags_proper (flags : Nat)
    (h : flags = SubscribeFlags.UNDEFINED ∨ SubscribeFlags.HAL_EVENT &&& flags ≠ 0 ∨
      SubscribeFlags.SET_CALL &&& flags ≠ 0) :
    SubscribeFlags.HAL_EVENT &&& subscribeFlags flags ≠ 0 ∨
      SubscribeFlags.SET_CALL &&& subscribeFlags flags ≠ 0 := by
  unfold subscribeFlags
  by_cases h0 : flags = SubscribeFlags.UNDEFINED
  · rw [if_pos h0]
    exact Or.inl (by decide)
  · rw [if_neg h0]
    rcases h with h | h
    · exact absurd h h0
    · exact h

theorem subscribeRecord_flagsSet (s : Service) (b : Nat) (p : Int) (rate : CFloat)
    (z nz f : Nat) (sh : Bool)
    (hflags : SubscribeFlags.HAL_EVENT &&& f ≠ 0 ∨ SubscribeFlags.SET_CALL &&& f ≠ 0)
    (hf : FlagsSet s) : FlagsSet (subscribeRecord s b p rate z nz f sh).1 := by
  obtain ⟨hcl, hother, -, -, -⟩ := subscribeRecord_spec s b p rate z nz f sh
  intro c q info hrec
  by_cases hc : c = (subscribeRecord s b p rate z nz f sh).2.1
  · by_cases hq : q = p
    · rw [hc, hq, subscribeRecord_heap] at hrec
      simp only [Option.some.injEq] at hrec
      rw [← hrec]
      exact hflags
    · rcases hcl with ⟨-, -, -, hh⟩ | ⟨-, hcn, -, -, hh⟩
      · rw [hc, hh, getSubscriptionInfo_set_ne _ _ _ _ _ _ hq] at hrec
        exact hf _ q info hrec
      · rw [hc, hcn, hh, getSubscriptionInfo_set_ne _ _ _ _ _ _ hq] at hrec
        simp [HalClient.getSubscriptionInfo, HalClient.create, valueFor] at hrec
  · rw [hother c hc] at hrec
    exact hf c q info hrec

theorem removePropertyFromClientLocked_flagsSet (s : Service) (b client : Nat) (p : Int)
    (hf : FlagsSet s) : FlagsSet (removePropertyFromClientLocked s b client p).1 := by
  obtain ⟨-, hheap, -⟩ := removePropertyFromClient_spec s b client p
  obtain ⟨-, hheap2, -⟩ :=
    removeClientFromSubscribers_spec (removePropertyFromClient s b client p).1 client p
  simp only [removePropertyFromClientLocked]
  intro c q info hrec
  rw [hheap2, hheap] at hrec
  by_cases hc : c = client
  · subst hc
    simp only [if_true] at hrec
    exact hf c q info (valueFor_removeItem_some _ _ _ _ hrec)
  · simp only [hc, if_false] at hrec
    exact hf c q info hrec

theorem setClient_flagsSet (s : Service) (c : Nat) (obj : HalClient) (hf : FlagsSet s)
    (h2 : obj.mSubscriptionInfos = (s.heap c).mSubscriptionInfos) :
    FlagsSet (s.setClient c obj) := by
  intro x q info hrec
  have hs : ((s.setClient c obj).heap x).getSubscriptionInfo q
      = (s.heap x).getSubscriptionInfo q := by
    by_cases hx : x = c
    · subst hx; simp [Service.setClient, HalClient.getSubscriptionInfo, h2]
    · simp [Service.setClient, hx]
  rw [hs] at hrec
  exact hf x q info hrec

theorem findOrCreateClientLocked_flagsSet (s : Service) (b : Nat) (hf : FlagsSet s) :
    FlagsSet (findOrCreateClientLocked s b).1 := by
  unfold findOrCreateClientLocked
  cases hreg : valueFor s.mBinderToClientMap b with
  | some c => exact hf
  | none =>
    dsimp only
    intro c q info hrec
    dsimp only at hrec
    split at hrec
    · simp [HalClient.getSubscriptionInfo, HalClient.create, valueFor] at hrec
    · exact hf c q info hrec

theorem handleHalRestart_flagsSet (s : Service) (hf : FlagsSet s) :
    FlagsSet (handleHalRestartAndGetClientsToDispatchLocked s).1 := by
  simp only [handleHalRestartAndGetClientsToDispatchLocked]
  intro c q info hrec
  rw [(removeClientsLoop_fields _ _).1, restartLoop_heap] at hrec
  split at hrec
  · simp [HalClient.getSubscriptionInfo, HalClient.removeAllProperties, valueFor] at hrec
  · exact hf c q info hrec

theorem step_flagsSet {env : Env} {s s1 : Service} {op : Op} (h : step env s op = some s1)
    (hp : op.properFlags = true) (hf : FlagsSet s) : FlagsSet s1 := by
  cases op with
  | subscribe listener prop rate zones flags nowMs nowNs =>
    simp only [step, Option.map_eq_some'] at h
    obtain ⟨o, ho, hs⟩ := h
    subst hs
    rcases subscribe_outcome ho with ⟨hs, _, _⟩ | ⟨config, _, _, _, _, hsame⟩
    · rw [hs]; exact hf
    · refine flagsSet_same hsame (subscribeRecord_flagsSet _ _ _ _ _ _ _ _ ?_ hf)
      exact subscribeFlags_proper flags (by simpa [Op.properFlags] using hp)
  | unsubscribe listener prop =>
    simp only [step, Option.map_eq_some'] at h
    obtain ⟨o, ho, hs⟩ := h
    subst hs
    rcases unsubscribe_state ho with h | ⟨client, h⟩
    · rw [h]; exact hf
    · rw [h]; exact removePropertyFromClientLocked_flagsSet _ _ _ _ hf
  | binderDied who =>
    simp only [step, Option.some.injEq] at h
    subst h
    unfold binderDied
    split
    · exact hf
    · exact hf
  | startErrorListening listener =>
    simp only [step, Option.some.injEq] at h
    subst h
    exact setClient_flagsSet _ _ _ (findOrCreateClientLocked_flagsSet s listener hf) rfl
  | stopErrorListening listener =>
    simp only [step, Option.some.injEq] at h
    subst h
    unfold stopErrorListening
    split
    · exact hf
    · exact setClient_flagsSet _ _ _ hf rfl
  | startHalRestartMonitoring listener =>
    simp only [step, Option.some.injEq] at h
    subst h
    exact setClient_flagsSet _ _ _ (findOrCreateClientLocked_flagsSet s listener hf) rfl
  | stopHalRestartMonitoring listener =>
    simp only [step, Option.some.injEq] at h
    subst h
    unfold stopHalRestartMonitoring
    split
    · exact hf
    · exact setClient_flagsSet _ _ _ hf rfl
  | startMocking mock =>
    simp only [step, Option.some.injEq] at h
    subst h
    exact handleHalRestart_flagsSet
      { s with mHalMock := some mock, mMockingEnabled := true,
               mPropertiesForMocking := mock.onListProperties } hf
  | stopMocking mock =>
    simp only [step, Option.some.injEq] at h
    subst h
    unfold stopMocking
    split
    · exact hf
    · split
      · exact hf
      · exact handleHalRestart_flagsSet
          { s with mHalMock := none, mMockingEnabled := false, mPropertiesForMocking := [] } hf

theorem run_flagsSet (env : Env) (ops : List Op) :
    ∀ s s1 : Service, FlagsSet s → (∀ op ∈ ops, op.properFlags = true) →
      run env s ops = some s1 → FlagsSet s1 := by
  induction ops with
  | nil =>
    intro s s1 hf _ h
    simp [run] at h
    rw [← h]
    exact hf
  | cons op t ih =>
    intro s s1 hf hp h
    simp only [run] at h
    cases hstep : step env s op with
    | none => simp [hstep] at h
    | some s2 =>
      simp only [hstep] at h
      exact ih s2 s1 (step_flagsSet hstep (hp op (List.mem_cons_self _ _)) hf)
        (fun op1 h1 => hp op1 (List.mem_cons_of_mem _ h1)) h

theorem dispatchToClients_records (e : vehicle_prop_value_t) (clients : List Nat) :
    ∀ (s : Service) (active : List Nat),
      (∀ c ∈ clients, (s.heap c).getSubscriptionInfo e.prop ≠ none) →
      ∃ r, dispatchToClients e clients s active = some r ∧
        r.1.mPropertyToClientsMap = s.mPropertyToClientsMap ∧
        ∀ c q, (r.1.heap c).getSubscriptionInfo q = (s.heap c).getSubscriptionInfo q := by
  induction clients with
  | nil =>
    intro s active _
    exact ⟨(s, active), by simp [dispatchToClients], rfl, fun _ _ => rfl⟩
  | cons client t ih =>
    intro s active hrec
    have hclient := hrec client (List.mem_cons_self _ _)
    obtain ⟨info, hinfo⟩ := Option.ne_none_iff_exists'.mp hclient
    unfold dispatchToClients
    rw [hinfo]
    dsimp only
    have hsame : ∀ c q, (((s.setClient client ((s.heap client).addEvent e)).heap c)).getSubscriptionInfo q
        = (s.heap c).getSubscriptionInfo q := by
      intro c q
      by_cases hc : c = client
      · subst hc
        simp [Service.setClient, HalClient.getSubscriptionInfo, HalClient.addEvent]
      · simp [Service.setClient, hc]
    split
    · obtain ⟨r, h1, h2, h3⟩ := ih (s.setClient client ((s.heap client).addEvent e))
        (setAdd active client) (by
          intro c hc
          rw [hsame]
          exact hrec c (List.mem_cons_of_mem _ hc))
      refine ⟨r, h1, ?_, ?_⟩
      · rw [h2]; rfl
      · intro c q
        rw [h3, hsame]
    · exact ih s active (fun c hc => hrec c (List.mem_cons_of_mem _ hc))

theorem dispatchEventsLoop_total (events : List vehicle_prop_value_t) :
    ∀ (s : Service) (active : List Nat),
      (∀ p clients, valueFor s.mPropertyToClientsMap p = some clients →
        ∀ c ∈ clients, (s.heap c).getSubscriptionInfo p ≠ none) →
      dispatchEventsLoop events s active ≠ none := by
  induction events with
  | nil =>
    intro s active _
    simp [dispatchEventsLoop]
  | cons e t ih =>
    intro s active hrec
    unfold dispatchEventsLoop
    cases hv : valueFor s.mPropertyToClientsMap e.prop with
    | none => exact ih s active hrec
    | some clients =>
      dsimp only
      obtain ⟨r, h1, h2, h3⟩ := dispatchToClients_records e clients s active (hrec _ _ hv)
      rw [h1]
      dsimp only
      apply ih
      intro p cl hp c hc
      rw [h2] at hp
      rw [h3]
      exact hrec p cl hp c hc

theorem dispatchHalEvents_total (s : Service) (events : List vehicle_prop_value_t) (now : Int)
    (hrec : ∀ p clients, valueFor s.mPropertyToClientsMap p = some clients →
      ∀ c ∈ clients, (s.heap c).getSubscriptionInfo p ≠ none) :
    dispatchHalEvents s events now ≠ none := by
  unfold dispatchHalEvents
  cases h : dispatchEventsLoop events s [] with
  | none => exact absurd h (dispatchEventsLoop_total events s [] hrec)
  | some r => simp

theorem dispatchHalError_spec (s : Service) (e : VehicleHalError) :
    (e.property ≠ 0 ∧ subscribersOf s e.property ≠ [] →
      dispatchHalError s e = (subscribersOf s e.property).map
        (fun c => Call.onHalError (s.heap c).mListener e.errorCode e.property e.operation)) ∧
    (e.property = 0 ∨ subscribersOf s e.property = [] →
      dispatchHalError s e =
        ((s.mBinderToClientMap.map Prod.snd).filter (fun c => (s.heap c).mMonitoringHalError)).map
          (fun c => Call.onHalError (s.heap c).mListener e.errorCode e.property e.operation)) := by
  constructor
  · rintro ⟨hp, hs⟩
    have hlen : ¬ ((findClientsVectorForPropertyLocked s e.property).getD []).length = 0 := by
      intro h
      exact hs (List.length_eq_zero.mp h)
    simp only [dispatchHalError, if_pos hp]
    rw [if_neg (by
      intro h
      rcases h with h | h
      · exact hp h
      · exact hlen h)]
    rfl
  · intro h
    by_cases hp : e.property = 0
    · simp [dispatchHalError, hp]
    · have hs : subscribersOf s e.property = [] := by
        rcases h with h | h
        · exact absurd h hp
        · exact h
      have hs2 : (findClientsVectorForPropertyLocked s e.property).getD [] = [] := hs
      simp [dispatchHalError, hp, hs2]

theorem setCallCovered_init (properties : List vehicle_prop_config_t) :
    SetCallCovered (Service.init properties) := by
  intro p clients h
  simp [Service.init, valueFor] at h

theorem setCallCovered_same {s s1 : Service} (h : SameBroker s s1) (hs : SetCallCovered s) :
    SetCallCovered s1 := by
  obtain ⟨_, _, _, _, h5, _, _, h8, _, h10, _⟩ := h
  unfold SetCallCovered
  rw [h5, h8, h10]
  exact hs

theorem hasClientsSubscribedToSetCallLocked_false (s : Service) (p : Int) (clients : List Nat)
    (h : hasClientsSubscribedToSetCallLocked s p clients = false) :
    ∀ c ∈ clients, ∀ info, (s.heap c).getSubscriptionInfo p = some info →
      SubscribeFlags.SET_CALL &&& info.flags = 0 := by
  induction clients with
  | nil => intro c hc; simp at hc
  | cons x t ih =>
    intro c hc info hrec
    unfold hasClientsSubscribedToSetCallLocked at h
    cases hx : (s.heap x).getSubscriptionInfo p with
    | none =>
      rw [hx] at h
      dsimp only at h
      rcases List.mem_cons.mp hc with hcx | hct
      · rw [hcx, hx] at hrec; simp at hrec
      · exact ih h c hct info hrec
    | some sub =>
      rw [hx] at h
      dsimp only at h
      by_cases hf : SubscribeFlags.SET_CALL &&& sub.flags ≠ 0
      · rw [if_pos hf] at h; simp at h
      · rw [if_neg hf] at h
        rcases List.mem_cons.mp hc with hcx | hct
        · rw [hcx, hx] at hrec
          simp only [Option.some.injEq] at hrec
          rw [← hrec]
          exact not_not.mp hf
        · exact ih h c hct info hrec

theorem subscribeRecord_setCallCovered (s : Service) (b : Nat) (p : Int) (rate : CFloat)
    (z nz f : Nat) (sh : Bool) (hs : SetCallCovered s) :
    SetCallCovered (subscribeRecord s b p rate z nz f sh).1 := by
  obtain ⟨hcl, hother, hmap, -, hset⟩ := subscribeRecord_spec s b p rate z nz f sh
  have hgrow : ∀ q, q ∈ s.mPropertiesSubscribedToSetCall →
      q ∈ (subscribeRecord s b p rate z nz f sh).1.mPropertiesSubscribedToSetCall := by
    intro q hq
    rw [hset]
    split
    · exact (mem_setAdd _ _ _).mpr (Or.inl hq)
    · exact hq
  intro q clients hv c hc info hrec hflag
  rw [hmap] at hv
  by_cases hq : q = p
  · subst hq
    rw [valueFor_kvAdd_self] at hv
    simp only [Option.some.injEq] at hv
    subst hv
    by_cases hcc : c = (subscribeRecord s b q rate z nz f sh).2.1
    · rw [hcc, subscribeRecord_heap] at hrec
      simp only [Option.some.injEq] at hrec
      rw [← hrec] at hflag
      rw [hset, if_pos hflag]
      exact (mem_setAdd _ _ _).mpr (Or.inr rfl)
    · rw [hother c hcc] at hrec
      rcases (mem_setAdd _ _ _).mp hc with hold | hnew
      · cases hvo : valueFor s.mPropertyToClientsMap q with
        | none => simp [hvo] at hold
        | some v =>
          rw [hvo] at hold
          exact hgrow q (hs q v hvo c hold info hrec hflag)
      · exact absurd hnew hcc
  · rw [valueFor_kvAdd_ne _ _ _ _ hq] at hv
    by_cases hcc : c = (subscribeRecord s b p rate z nz f sh).2.1
    · rcases hcl with ⟨-, -, -, hh⟩ | ⟨-, hcn, -, -, hh⟩
      · rw [hcc, hh, getSubscriptionInfo_set_ne _ _ _ _ _ _ hq] at hrec
        rw [hcc] at hc
        exact hgrow q (hs q clients hv _ hc info hrec hflag)
      · rw [hcc, hcn, hh, getSubscriptionInfo_set_ne _ _ _ _ _ _ hq] at hrec
        simp [HalClient.getSubscriptionInfo, HalClient.create, valueFor] at hrec
    · rw [hother c hcc] at hrec
      exact hgrow q (hs q clients hv c hc info hrec hflag)

theorem removeClientFromSubscribers_setCall (s : Service) (client : Nat) (p : Int) :
    (∀ q, q ≠ p → (q ∈ (removeClientFromSubscribers s client p).1.mPropertiesSubscribedToSetCall ↔
      q ∈ s.mPropertiesSubscribedToSetCall)) ∧
    (p ∈ s.mPropertiesSubscribedToSetCall →
      p ∈ (removeClientFromSubscribers s client p).1.mPropertiesSubscribedToSetCall ∨
      ∀ old, valueFor s.mPropertyToClientsMap p = some old →
        ∀ c ∈ setRemove old client, ∀ info, (s.heap c).getSubscriptionInfo p = some info →
          SubscribeFlags.SET_CALL &&& info.flags = 0) := by
  unfold removeClientFromSubscribers findClientsVectorForPropertyLocked
  cases hv : valueFor s.mPropertyToClientsMap p with
  | none => exact ⟨fun q _ => Iff.rfl, fun h => Or.inl h⟩
  | some old =>
    dsimp only
    by_cases hhas : hasClientsSubscribedToSetCallLocked
        { s with mPropertyToClientsMap := kvAdd s.mPropertyToClientsMap p (setRemove old client) }
        p (setRemove old client) = false
    · have hnone := hasClientsSubscribedToSetCallLocked_false _ _ _ hhas
      rw [if_pos hhas]
      constructor
      · intro q hq
        split <;> simp [mem_setRemove, hq]
      · intro _
        right
        intro old1 hold1
        simp only [Option.some.injEq] at hold1
        subst hold1
        exact hnone
    · rw [if_neg hhas]
      constructor
      · intro q hq
        split <;> exact Iff.rfl
      · intro h
        left
        split <;> exact h

theorem removePropertyFromClientLocked_setCallCovered (s : Service) (b client : Nat) (p : Int)
    (hs : SetCallCovered s) : SetCallCovered (removePropertyFromClientLocked s b client p).1 := by
  obtain ⟨-, hheap, -, hmap, -, hset, -, -⟩ := removePropertyFromClient_spec s b client p
  obtain ⟨-, hheap2, -, -, -, hcases⟩ :=
    removeClientFromSubscribers_spec (removePropertyFromClient s b client p).1 client p
  obtain ⟨hset_ne, hset_p⟩ :=
    removeClientFromSubscribers_setCall (removePropertyFromClient s b client p).1 client p
  rw [hmap] at hcases hset_p
  rw [hset] at hset_ne hset_p
  simp only [removePropertyFromClientLocked]
  intro q clients hv c hc info hrec hflag
  rw [hheap2, hheap] at hrec
  by_cases hq : q = p
  · subst hq
    rcases hcases with ⟨hnone, -, hm, -⟩ | ⟨old, -, -, -, hm, -⟩ | ⟨old, hold, -, -, hm, -⟩
    · rw [hm, hnone] at hv; simp at hv
    · rw [hm, valueFor_removeItem_self] at hv; simp at hv
    · rw [hm, valueFor_kvAdd_self] at hv
      simp only [Option.some.injEq] at hv
      subst hv
      obtain ⟨hcold, hcne⟩ := (mem_setRemove _ _ _).mp hc
      have hrec0 : (s.heap c).getSubscriptionInfo q = some info := by
        simpa [hcne] using hrec
      have hin := hs q old hold c hcold info hrec0 hflag
      rcases hset_p hin with h | h
      · exact h
      · have hz := h old hold c hc info (by rw [hheap]; simpa [hcne] using hrec0)
        exact absurd hz hflag
  · have hvold : valueFor s.mPropertyToClientsMap q = some clients := by
      rcases hcases with ⟨-, -, hm, -⟩ | ⟨old, -, -, -, hm, -⟩ | ⟨old, -, -, -, hm, -⟩
      · rw [hm] at hv; exact hv
      · rw [hm, valueFor_removeItem_ne _ _ _ hq, valueFor_kvAdd_ne _ _ _ _ hq] at hv; exact hv
      · rw [hm, valueFor_kvAdd_ne _ _ _ _ hq] at hv; exact hv
    have hrec0 : (s.heap c).getSubscriptionInfo q = some info := by
      by_cases hcc : c = client
      · subst hcc
        simp only [if_true] at hrec
        rw [getSubscriptionInfo_remove_ne _ _ _ hq] at hrec
        exact hrec
      · simpa [hcc] using hrec
    exact (hset_ne q hq).mpr (hs q clients hvold c hc info hrec0 hflag)

theorem binderDied_setCallCovered (s : Service) (who : Nat)
    (hkeys : (s.mPropertyToClientsMap.map Prod.fst).Nodup) (hs : SetCallCovered s) :
    SetCallCovered (binderDied s who).state := by
  cases hreg : valueFor s.mBinderToClientMap who with
  | none =>
    have : (binderDied s who).state = s := by simp [binderDied, hreg]
    rw [this]; exact hs
  | some client =>
    have hheap : (binderDied s who).state.heap = s.heap := by simp [binderDied, hreg]
    have hset : (binderDied s who).state.mPropertiesSubscribedToSetCall
        = s.mPropertiesSubscribedToSetCall := by simp [binderDied, hreg]
    intro q clients hv c hc info hrec hflag
    rw [hheap] at hrec
    rw [hset]
    rw [(binderDied_maps s who client hreg hkeys q).1] at hv
    cases hvo : valueFor s.mPropertyToClientsMap q with
    | none => rw [hvo] at hv; simp at hv
    | some v =>
      rw [hvo] at hv
      dsimp only at hv
      split at hv
      · simp at hv
      · simp only [Option.some.injEq] at hv
        subst hv
        exact hs q v hvo c ((mem_setRemove _ _ _).mp hc).1 info hrec hflag

theorem setClient_setCallCovered (s : Service) (c : Nat) (obj : HalClient)
    (hs : SetCallCovered s) (h2 : obj.mSubscriptionInfos = (s.heap c).mSubscriptionInfos) :
    SetCallCovered (s.setClient c obj) := by
  intro q clients hv x hx info hrec hflag
  have hsame : ((s.setClient c obj).heap x).getSubscriptionInfo q
      = (s.heap x).getSubscriptionInfo q := by
    by_cases hxc : x = c
    · subst hxc; simp [Service.setClient, HalClient.getSubscriptionInfo, h2]
    · simp [Service.setClient, hxc]
  rw [hsame] at hrec
  exact hs q clients hv x hx info hrec hflag

theorem findOrCreateClientLocked_setCallCovered (s : Service) (b : Nat)
    (hs : SetCallCovered s) : SetCallCovered (findOrCreateClientLocked s b).1 := by
  unfold findOrCreateClientLocked
  cases hreg : valueFor s.mBinderToClientMap b with
  | some c => exact hs
  | none =>
    dsimp only
    intro q clients hv c hc info hrec hflag
    dsimp only at hv hrec
    split at hrec
    · simp [HalClient.getSubscriptionInfo, HalClient.create, valueFor] at hrec
    · exact hs q clients hv c hc info hrec hflag

theorem handleHalRestart_setCallCovered (s : Service) :
    SetCallCovered (handleHalRestartAndGetClientsToDispatchLocked s).1 := by
  simp only [handleHalRestartAndGetClientsToDispatchLocked]
  intro q clients hv
  rw [(removeClientsLoop_fields _ _).2.1, (restartLoop_fields _ _).2.1] at hv
  simp [valueFor] at hv

theorem step_setCallCovered {env : Env} {s s1 : Service} {op : Op}
    (h : step env s op = some s1) (hc : Coherent s) (hs : SetCallCovered s) :
    SetCallCovered s1 := by
  cases op with
  | subscribe listener prop rate zones flags nowMs nowNs =>
    simp only [step, Option.map_eq_some'] at h
    obtain ⟨o, ho, hst⟩ := h
    subst hst
    rcases subscribe_outcome ho with ⟨hst, _, _⟩ | ⟨config, _, _, _, _, hsame⟩
    · rw [hst]; exact hs
    · exact setCallCovered_same hsame (subscribeRecord_setCallCovered _ _ _ _ _ _ _ _ hs)
  | unsubscribe listener prop =>
    simp only [step, Option.map_eq_some'] at h
    obtain ⟨o, ho, hst⟩ := h
    subst hst
    rcases unsubscribe_state ho with h | ⟨client, h⟩
    · rw [h]; exact hs
    · rw [h]; exact removePropertyFromClientLocked_setCallCovered _ _ _ _ hs
  | binderDied who =>
    simp only [step, Option.some.injEq] at h
    subst h
    exact binderDied_setCallCovered _ _ hc.1 hs
  | startErrorListening listener =>
    simp only [step, Option.some.injEq] at h
    subst h
    exact setClient_setCallCovered _ _ _ (findOrCreateClientLocked_setCallCovered s listener hs) rfl
  | stopErrorListening listener =>
    simp only [step, Option.some.injEq] at h
    subst h
    unfold stopErrorListening
    split
    · exact hs
    · exact setClient_setCallCovered _ _ _ hs rfl
  | startHalRestartMonitoring listener =>
    simp only [step, Option.some.injEq] at h
    subst h
    exact setClient_setCallCovered _ _ _ (findOrCreateClientLocked_setCallCovered s listener hs) rfl
  | stopHalRestartMonitoring listener =>
    simp only [step, Option.some.injEq] at h
    subst h
    unfold stopHalRestartMonitoring
    split
    · exact hs
    · exact setClient_setCallCovered _ _ _ hs rfl
  | startMocking mock =>
    simp only [step, Option.some.injEq] at h
    subst h
    exact handleHalRestart_setCallCovered
      { s with mHalMock := some mock, mMockingEnabled := true,
               mPropertiesForMocking := mock.onListProperties }
  | stopMocking mock =>
    simp only [step, Option.some.injEq] at h
    subst h
    unfold stopMocking
    split
    · exact hs
    · split
      · exact hs
      · exact handleHalRestart_setCallCovered
          { s with mHalMock := none, mMockingEnabled := false, mPropertiesForMocking := [] }

theorem run_setCallCovered (env : Env) (ops : List Op) :
    ∀ s s1 : Service, Coherent s → SetCallCovered s → run env s ops = some s1 →
      SetCallCovered s1 := by
  induction ops with
  | nil =>
    intro s s1 _ hs h
    simp [run] at h
    rw [← h]
    exact hs
  | cons op t ih =>
    intro s s1 hc hs h
    simp only [run] at h
    cases hstep : step env s op with
    | none => simp [hstep] at h
    | some s2 =>
      simp only [hstep] at h
      exact ih s2 s1 (step_coherent hstep hc) (step_setCallCovered hstep hc hs) h

theorem dispatchPropertySetEvent_filter (s : Service) (data : vehicle_prop_value_t)
    (clients : List Nat) :
    dispatchPropertySetEvent s data clients =
      (clients.filter (specReceivesSetEvent s data)).map
        (fun c => Call.onPropertySet (s.heap c).mListener data) := by
  induction clients with
  | nil => simp [dispatchPropertySetEvent]
  | cons c t ih =>
    unfold dispatchPropertySetEvent
    dsimp only
    rw [ih]
    cases hrec : (s.heap c).getSubscriptionInfo data.prop with
    | none => simp [List.filter_cons, specReceivesSetEvent, hrec]
    | some info =>
      have hz : (data.zone = info.zones) = (info.zones = data.zone) := propext eq_comm
      have hsel : specReceivesSetEvent s data c =
          (decide (SubscribeFlags.SET_CALL &&& info.flags ≠ 0) &&
            (decide (data.zone = info.zones) || decide (data.zone &&& info.zones ≠ 0))) := by
        simp only [specReceivesSetEvent, hrec, Nat.land_comm SubscribeFlags.SET_CALL info.flags,
          Nat.land_comm data.zone info.zones, hz]
      rw [List.filter_cons, hsel]
      dsimp only
      split <;> rfl

theorem setRetryLoop_noSetEvent (env : Env) (data : vehicle_prop_value_t) (budget : Nat) :
    ∀ a : Nat, (setRetryLoop env data budget a).2.filter Call.isOnPropertySet = [] := by
  induction budget with
  | zero => intro a; simp [setRetryLoop, Call.isOnPropertySet]
  | succ n ih =>
    intro a
    unfold setRetryLoop
    dsimp only
    split
    · simp [Call.isOnPropertySet]
    · split
      · simp [Call.isOnPropertySet]
      · simp [Call.isOnPropertySet, ih]

theorem onHalEvent_noSetEvent (s : Service) (v : vehicle_prop_value_t) (inj : Bool)
    (nowMs nowNs : Int) :
    (onHalEvent s v inj nowMs nowNs).calls.filter Call.isOnPropertySet = [] := by
  unfold onHalEvent
  split
  · rfl
  · simp only [VehicleHalMessageHandler.handleHalEvent]
    split <;> simp [Call.isOnPropertySet]

theorem filter_isOnPropertySet_map (s : Service) (data : vehicle_prop_value_t) (l : List Nat) :
    (l.map (fun c => Call.onPropertySet (s.heap c).mListener data)).filter Call.isOnPropertySet
      = l.map (fun c => Call.onPropertySet (s.heap c).mListener data) := by
  apply List.filter_eq_self.mpr
  intro a ha
  obtain ⟨c, -, hc⟩ := List.mem_map.mp ha
  rw [← hc]
  rfl

theorem setProperty_setEvents (env : Env) (s : Service) (data : vehicle_prop_value_t)
    (nowMs nowNs : Int) (o : Outcome)
    (hset : setProperty env s data nowMs nowNs = some o) (hok : o.status = NO_ERROR) :
    o.calls.filter Call.isOnPropertySet =
      if data.prop ∈ s.mPropertiesSubscribedToSetCall then
        ((subscribersOf s data.prop).filter (specReceivesSetEvent s data)).map
          (fun c => Call.onPropertySet (s.heap c).mListener data)
      else [] := by
  have hcalls2 : ∀ s1 : Service, s1.heap = s.heap →
      s1.mPropertyToClientsMap = s.mPropertyToClientsMap →
      s1.mPropertiesSubscribedToSetCall = s.mPropertiesSubscribedToSetCall →
      (match (if data.prop ∈ s1.mPropertiesSubscribedToSetCall then
          findClientsVectorForPropertyLocked s1 data.prop else none) with
        | none => ([] : List Call)
        | some clients => dispatchPropertySetEvent s1 data clients).filter Call.isOnPropertySet
      = if data.prop ∈ s.mPropertiesSubscribedToSetCall then
          ((subscribersOf s data.prop).filter (specReceivesSetEvent s data)).map
            (fun c => Call.onPropertySet (s.heap c).mListener data)
        else [] := by
    intro s1 h1 h2 h3
    have hsel : specReceivesSetEvent s1 data = specReceivesSetEvent s data := by
      funext c
      simp only [specReceivesSetEvent, h1]
    rw [h3]
    by_cases hin : data.prop ∈ s.mPropertiesSubscribedToSetCall
    · simp only [if_pos hin, findClientsVectorForPropertyLocked, subscribersOf, h2]
      cases valueFor s.mPropertyToClientsMap data.prop with
      | none => simp
      | some v =>
        dsimp only
        rw [dispatchPropertySetEvent_filter, hsel, h1, filter_isOnPropertySet_map]
        rfl
    · simp [if_neg hin]
  unfold setProperty at hset
  by_cases hsettable : isSettableLocked s data.prop data.value_type = false
  · rw [if_pos hsettable] at hset
    simp only [Option.some.injEq] at hset
    rw [← hset] at hok
    exact absurd hok.symm noError_ne_badValue
  · rw [if_neg hsettable] at hset
    generalize hs1 : (if isInternalProperty env data.prop = true then
      { s with mCache := writeToCache s.mCache data } else s) = s1 at hset
    have h1 : s1.heap = s.heap := by rw [← hs1]; split <;> rfl
    have h2 : s1.mPropertyToClientsMap = s.mPropertyToClientsMap := by
      rw [← hs1]; split <;> rfl
    have h3 : s1.mPropertiesSubscribedToSetCall = s.mPropertiesSubscribedToSetCall := by
      rw [← hs1]; split <;> rfl
    have hc2 := hcalls2 s1 h1 h2 h3
    dsimp only at hset
    split at hset
    · simp at hset
    · rename_i r calls1 heq
      have hc1 : calls1.filter Call.isOnPropertySet = [] := by
        split at heq
        · split at heq
          · simp at heq
          · simp only [Option.some.injEq, Prod.mk.injEq] at heq
            rw [← heq.2]
            rfl
        · simp only [Option.some.injEq, Prod.mk.injEq] at heq
          rw [← heq.2]
          rfl
      by_cases hr : r = NO_ERROR
      · rw [if_neg (not_not.mpr hr)] at hset
        split at hset
        · simp only [Option.some.injEq] at hset
          rw [← hset]
          simp only [List.filter_append, hc1, onHalEvent_noSetEvent, List.nil_append,
            List.append_nil]
          exact hc2
        · split at hset
          · simp only [Option.some.injEq] at hset
            rw [← hset]
            simp only [List.filter_append, hc1, List.nil_append]
            exact hc2
          · simp only [Option.some.injEq] at hset
            rw [← hset]
            simp only [List.filter_append, hc1, setRetryLoop_noSetEvent, List.nil_append,
              List.append_nil]
            exact hc2
      · rw [if_pos hr] at hset
        simp only [Option.some.injEq] at hset
        rw [← hset] at hok
        exact absurd hok hr

theorem maxSubscriberRate_le (s : Service) (p : Int) (bound : CFloat) (clients : List Nat)
    (h : ∀ c ∈ clients, ∃ info, (s.heap c).getSubscriptionInfo p = some info ∧
      info.sampleRate ≤ bound) (hne : clients ≠ []) :
    ∃ m, maxSubscriberRate s p clients = some m ∧ m ≤ bound := by
  induction clients with
  | nil => exact absurd rfl hne
  | cons c t ih =>
    obtain ⟨info, hrec, hle⟩ := h c (List.mem_cons_self _ _)
    by_cases ht : t = []
    · subst ht
      exact ⟨info.sampleRate, by simp [maxSubscriberRate, hrec], hle⟩
    · obtain ⟨m, hm, hmle⟩ := ih (fun x hx => h x (List.mem_cons_of_mem _ hx)) ht
      refine ⟨max info.sampleRate m, by simp [maxSubscriberRate, hrec, hm], ?_⟩
      show CFloat.maxOf info.sampleRate m ≤ bound
      unfold CFloat.maxOf
      split
      · exact hmle
      · exact hle

/-- C2, the code at the failing input: client 7 subscribes to the writable property 0x100
with the flags HAL_EVENT and SET_CALL and then subscribes again with HAL_EVENT only. The
property stays in the set of properties subscribed to set calls although its only
subscriber no longer has SET_CALL in its record. -/
theorem set_call_entry_survives_resubscribe :
    (run sampleEnv sampleService
        [Op.subscribe 7 0x100 10 0 3 0 0, Op.subscribe 7 0x100 10 0 1 0 0]).map
      (fun s => (s.mPropertiesSubscribedToSetCall, valueFor s.mPropertyToClientsMap 0x100,
        ((s.heap 0).getSubscriptionInfo 0x100).map (·.flags)))
    = some ([0x100], some [0], some 1) := by decide

/-- C3, the code at the failing input: a listener starts and then stops error listening.
Its client stays in the registry with no subscription and both monitor flags off. -/
theorem inactive_client_stays_registered :
    (run sampleEnv sampleService [Op.startErrorListening 7, Op.stopErrorListening 7]).map
      (fun s => (s.mBinderToClientMap, (s.heap 0).mSubscriptionInfos,
        (s.heap 0).mMonitoringHalError, (s.heap 0).mMonitoringHalRestart, (s.heap 0).isActive))
    = some ([(7, 0)], [], false, false, false) := by decide

/-- C4: in every state whose registry files each client under the binder of its listener,
after startMocking the status is NO_ERROR, the subscriber sets, the aggregates and the event
statistics are empty, every client left in the registry has an empty subscription map and is
active, mocking is enabled, and no subscribe call was made to the mock. -/
theorem startMocking_invalidates (s : Service) (mock : HalMock)
    (hkeys : ∀ b c, (b, c) ∈ s.mBinderToClientMap → (s.heap c).mListener = b) :
    (startMocking s mock).status = NO_ERROR ∧
    (startMocking s mock).state.mPropertyToClientsMap = [] ∧
    (startMocking s mock).state.mSubscriptionInfos = [] ∧
    (startMocking s mock).state.mEventInfos = [] ∧
    (∀ b c, (b, c) ∈ (startMocking s mock).state.mBinderToClientMap →
      ((startMocking s mock).state.heap c).mSubscriptionInfos = [] ∧
      ((startMocking s mock).state.heap c).isActive = true) ∧
    (startMocking s mock).state.mMockingEnabled = true ∧
    (∀ p r z, Call.mockSubscribe p r z ∉ (startMocking s mock).calls) := by
  have hclients : ∀ b c, (b, c) ∈ (startMocking s mock).state.mBinderToClientMap →
      ((startMocking s mock).state.heap c).mSubscriptionInfos = [] ∧
      ((startMocking s mock).state.heap c).isActive = true := by
    intro b c hbc
    simp only [startMocking, handleHalRestartAndGetClientsToDispatchLocked] at hbc ⊢
    obtain ⟨hreg, hrem⟩ := removeClientsLoop_registry _ _ b c hbc
    rw [(restartLoop_fields _ _).1] at hreg
    simp only at hreg
    have hmem : c ∈ List.map Prod.snd s.mBinderToClientMap :=
      List.mem_map.mpr ⟨(b, c), hreg, rfl⟩
    rw [(removeClientsLoop_fields _ _).1]
    have hheap := restartLoop_heap s.mBinderToClientMap
      { s with mHalMock := some mock, mMockingEnabled := true,
               mPropertiesForMocking := mock.onListProperties, mPropertyToClientsMap := [],
               mSubscriptionInfos := [], mEventInfos := [] } c
    simp only [hmem, if_true] at hheap
    refine ⟨by rw [hheap]; rfl, ?_⟩
    by_contra hact
    have hact1 := restartLoop_removed s.mBinderToClientMap _ c hmem
      (by simpa using hact)
    have := hrem c hact1
    rw [hheap] at this
    exact this (hkeys b c hreg)
  refine ⟨rfl, ?_, ?_, ?_, hclients, ?_, ?_⟩
  · simp only [startMocking, handleHalRestartAndGetClientsToDispatchLocked]
    rw [(removeClientsLoop_fields _ _).2.1, (restartLoop_fields _ _).2.1]
  · simp only [startMocking, handleHalRestartAndGetClientsToDispatchLocked]
    rw [(removeClientsLoop_fields _ _).2.2.1, (restartLoop_fields _ _).2.2.1]
  · simp only [startMocking, handleHalRestartAndGetClientsToDispatchLocked]
    rw [(removeClientsLoop_fields _ _).2.2.2.1, (restartLoop_fields _ _).2.2.2.1]
  · simp only [startMocking, handleHalRestartAndGetClientsToDispatchLocked]
    rw [(removeClientsLoop_fields _ _).2.2.2.2.1, (restartLoop_fields _ _).2.2.2.2.1]
  · intro p r z hmem
    simp only [startMocking, handleHalRestartAndGetClientsToDispatchLocked,
      VehicleHalMessageHandler.handleMockStateChange, List.mem_append, List.mem_map,
      List.mem_cons, List.mem_singleton] at hmem
    rcases hmem with (((h | h) | h) | h) | h
    · split at h
      · split at h <;> simp at h
      · simp at h
    · simp at h
    · obtain ⟨b, hb⟩ := removeClientsLoop_calls _ _ _ h
      simp at hb
    · simp at h
    · obtain ⟨c, _, hc⟩ := h
      simp at hc

theorem startMocking_invalidates_witness :
    (∀ e ∈ sampleBusy.mBinderToClientMap, (sampleBusy.heap e.2).mListener = e.1) ∧
    (startMocking sampleBusy sampleMock).state.mPropertyToClientsMap = [] ∧
    (startMocking sampleBusy sampleMock).state.mBinderToClientMap = [(9, 2)] ∧
    (∀ b c, (b, c) ∈ (startMocking sampleBusy sampleMock).state.mBinderToClientMap →
      ((startMocking sampleBusy sampleMock).state.heap c).mSubscriptionInfos = [] ∧
      ((startMocking sampleBusy sampleMock).state.heap c).isActive = true) :=
  have hkeys : ∀ e ∈ sampleBusy.mBinderToClientMap, (sampleBusy.heap e.2).mListener = e.1 := by
    decide
  ⟨hkeys, by decide, by decide,
    (startMocking_invalidates sampleBusy sampleMock (fun b c h => hkeys (b, c) h)).2.2.2.2.1⟩

/-- C5: while mocking is enabled and the counter of dropped events, a 32-bit int, is below
INT_MAX, an event delivered by the callback of the real HAL (onHalEvent with isInjection
false) is dropped: the call returns NO_ERROR and makes no call, the lists of the worker, the
event statistics and the client objects are unchanged, and the counter of dropped events
grows by exactly one. -/
theorem real_event_dropped_while_mocking (s : Service) (eventData : vehicle_prop_value_t)
    (nowMs nowNs : Int) (hmock : s.mMockingEnabled = true)
    (hlo : INT32_MIN ≤ s.mDroppedEventsWhileInMocking)
    (hhi : s.mDroppedEventsWhileInMocking < INT32_MAX) :
    (eventCallback s eventData nowMs nowNs).status = NO_ERROR ∧
    (eventCallback s eventData nowMs nowNs).state = (onHalEvent s eventData false nowMs nowNs).state ∧
    (eventCallback s eventData nowMs nowNs).calls = (onHalEvent s eventData false nowMs nowNs).calls ∧
    (onHalEvent s eventData false nowMs nowNs).status = NO_ERROR ∧
    (onHalEvent s eventData false nowMs nowNs).calls = [] ∧
    (onHalEvent s eventData false nowMs nowNs).state.mHandler = s.mHandler ∧
    (onHalEvent s eventData false nowMs nowNs).state.mEventInfos = s.mEventInfos ∧
    (onHalEvent s eventData false nowMs nowNs).state.heap = s.heap ∧
    (onHalEvent s eventData false nowMs nowNs).state.mDroppedEventsWhileInMocking =
      s.mDroppedEventsWhileInMocking + 1 := by
  simp [eventCallback, onHalEvent, hmock, incrementInt32_eq _ hlo hhi]

theorem real_event_dropped_while_mocking_witness :
    (eventCallback (startMocking sampleService sampleMock).state sampleValue 0 0).status = NO_ERROR ∧
    (onHalEvent (startMocking sampleService sampleMock).state sampleValue false 0 0).calls = [] ∧
    (onHalEvent (startMocking sampleService sampleMock).state sampleValue false 0
      0).state.mDroppedEventsWhileInMocking = 1 := by
  have h := real_event_dropped_while_mocking (startMocking sampleService sampleMock).state
    sampleValue 0 0 (by decide) (by decide) (by decide)
  exact ⟨h.1, h.2.2.2.2.1, h.2.2.2.2.2.2.2.2⟩

/-- C6: for an internal property whose configuration is readable and writable and a value
of the configured type, a set that succeeds followed by a get of the property returns
NO_ERROR and the caller's value is the value set, payload included, without any call to the
HAL or the mock; the same holds when subscribes, unsubscribes, monitoring and mocking
operations or client deaths, none of which is a set, come between the set and the get, as
long as the property is still gettable. -/
theorem internal_set_then_get (env : Env) (s : Service) (v data : vehicle_prop_value_t)
    (nowMs nowNs : Int) (o : Outcome) (config : vehicle_prop_config_t)
    (hlo : env.VEHICLE_PROPERTY_INTERNAL_START ≤ v.prop)
    (hhi : v.prop ≤ env.VEHICLE_PROPERTY_INTERNAL_END)
    (hcfg : findConfigLocked s v.prop = some config)
    (hread : config.access &&& VEHICLE_PROP_ACCESS_READ ≠ 0)
    (hwrite : config.access &&& VEHICLE_PROP_ACCESS_WRITE ≠ 0)
    (htype : v.value_type = config.value_type)
    (hset : setProperty env s v nowMs nowNs = some o)
    (hok : o.status = NO_ERROR)
    (hprop : data.prop = v.prop) :
    (∃ g, getProperty env o.state data = some g ∧ g.status = NO_ERROR ∧ g.data = v ∧
      g.data.value = v.value ∧ g.calls = []) ∧
    ∀ (ops : List Op) (s2 : Service), run env o.state ops = some s2 →
      isGettableLocked s2 v.prop = true →
      ∃ g, getProperty env s2 data = some g ∧ g.status = NO_ERROR ∧ g.data = v ∧
        g.data.value = v.value ∧ g.calls = [] := by
  have hint : isInternalProperty env v.prop = true := by
    simp [isInternalProperty, hlo, hhi]
  have hsettable : isSettableLocked s v.prop v.value_type = true := by
    simp [isSettableLocked, hcfg, hwrite, htype]
  have hstate : SameBroker { s with mCache := writeToCache s.mCache v } o.state := by
    unfold setProperty at hset
    simp only [hsettable, hint, if_true] at hset
    simp only [Bool.true_eq_false, if_false] at hset
    split at hset
    · simp at hset
    · split at hset
      · simp at hset
        subst hset
        exact SameBroker.refl _
      · simp at hset
        subst hset
        exact onHalEvent_same _ _ _ _ _
  have hcfg1 : findConfigLocked o.state v.prop = some config := by
    rw [findConfigLocked_same hstate]
    simpa [findConfigLocked] using hcfg
  have hcache : o.state.mCache = writeToCache s.mCache v := hstate.2.2.2.2.2.2.2.2.2.2
  have hget0 : isGettableLocked o.state v.prop = true := by
    simp [isGettableLocked, hcfg1, hread]
  have hgen : ∀ s2 : Service, s2.mCache = o.state.mCache → isGettableLocked s2 v.prop = true →
      ∃ g, getProperty env s2 data = some g ∧ g.status = NO_ERROR ∧ g.data = v ∧
        g.data.value = v.value ∧ g.calls = [] := by
    intro s2 hc hget
    refine ⟨{ status := NO_ERROR, data := v, calls := [] }, ?_, rfl, rfl, rfl, rfl⟩
    unfold getProperty
    simp [hget, hprop, hint, hc, hcache, readFromCache_writeToCache s.mCache v data hprop]
  exact ⟨hgen o.state rfl hget0, fun ops s2 hrun hget => hgen s2 (run_cache env ops _ _ hrun) hget⟩

theorem internal_set_then_get_witness :
    sampleEnv.VEHICLE_PROPERTY_INTERNAL_START ≤ sampleValue.prop ∧
    sampleValue.prop ≤ sampleEnv.VEHICLE_PROPERTY_INTERNAL_END ∧
    findConfigLocked sampleService sampleValue.prop = some sampleInternal ∧
    ((setProperty sampleEnv sampleService sampleValue 0 0).get (by decide)).status = NO_ERROR ∧
    ∃ g, getProperty sampleEnv ((setProperty sampleEnv sampleService sampleValue 0 0).get
        (by decide)).state { sampleValue with value := [], timestamp := 0 } = some g ∧
      g.status = NO_ERROR ∧ g.data = sampleValue ∧ g.data.value = sampleValue.value ∧
      g.calls = [] :=
  ⟨by decide, by decide, by decide, by decide,
    (internal_set_then_get sampleEnv sampleService sampleValue
      { sampleValue with value := [], timestamp := 0 } 0 0
      ((setProperty sampleEnv sampleService sampleValue 0 0).get (by decide)) sampleInternal
      (by decide) (by decide) (by decide) (by decide) (by decide) (by decide)
      (Option.some_get _).symm (by decide) (by decide)).1⟩

/-- C7: when the subscriber vector of the property of an event holds no client twice and
every client in it has a record for the property, the fan-out of the batch made of that
event appends the event once to the pending batch of each subscriber whose record has
HAL_EVENT and to no other client, then flushes exactly those clients, each once, with its
pending batch followed by the event, and leaves every other client object unchanged. -/
theorem dispatchHalEvents_single_event (s : Service) (v : vehicle_prop_value_t) (now : Int)
    (hnodup : (subscribersOf s v.prop).Nodup)
    (hrec : ∀ c ∈ subscribersOf s v.prop, (s.heap c).getSubscriptionInfo v.prop ≠ none) :
    ∃ s1 o,
      dispatchEventsLoop [v] s []
        = some (s1, (subscribersOf s v.prop).filter (subscribedToHalEvent s v.prop)) ∧
      (∀ c, s1.heap c =
        if c ∈ subscribersOf s v.prop ∧ subscribedToHalEvent s v.prop c = true
        then (s.heap c).addEvent v else s.heap c) ∧
      dispatchHalEvents s [v] now = some o ∧
      o.status = NO_ERROR ∧
      o.calls = ((subscribersOf s v.prop).filter (subscribedToHalEvent s v.prop)).map
        (fun c => Call.onEvents (s.heap c).mListener ((s.heap c).mEvents ++ [v]) now) ∧
      (∀ c, o.state.heap c =
        if c ∈ subscribersOf s v.prop ∧ subscribedToHalEvent s v.prop c = true
        then ((s.heap c).addEvent v).clearEvents else s.heap c) := by
  have hfn : ((subscribersOf s v.prop).filter (subscribedToHalEvent s v.prop)).Nodup :=
    List.Nodup.filter _ hnodup
  cases hsubs : valueFor s.mPropertyToClientsMap v.prop with
  | none =>
    have hempty : subscribersOf s v.prop = [] := by simp [subscribersOf, hsubs]
    refine ⟨s, { state := s, status := NO_ERROR, calls := [] }, ?_, ?_, ?_, rfl, ?_, ?_⟩
    · simp [dispatchEventsLoop, hsubs, hempty]
    · simp [hempty]
    · simp [dispatchHalEvents, dispatchEventsLoop, hsubs, flushClients]
    · simp [hempty]
    · simp [hempty]
  | some clients =>
    have hlist : subscribersOf s v.prop = clients := by simp [subscribersOf, hsubs]
    rw [hlist] at hnodup hrec hfn ⊢
    obtain ⟨s1, h1, h2, _, _, _, _⟩ :=
      dispatchToClients_spec v clients s [] hrec hnodup (by simp)
    simp only [List.nil_append] at h1
    have hloop : dispatchEventsLoop [v] s []
        = some (s1, clients.filter (subscribedToHalEvent s v.prop)) := by
      simp [dispatchEventsLoop, hsubs, h1]
    obtain ⟨f1, f2, _, _, _, _⟩ :=
      flushClients_spec now (clients.filter (subscribedToHalEvent s v.prop)) s1 hfn
    refine ⟨s1,
      { state := (flushClients now (clients.filter (subscribedToHalEvent s v.prop)) s1).1,
        status := NO_ERROR,
        calls := (flushClients now (clients.filter (subscribedToHalEvent s v.prop)) s1).2 },
      hloop, h2, ?_, ?_, ?_, ?_⟩
    · simp only [dispatchHalEvents, hloop]
    · rfl
    · simp only
      rw [f1]
      apply List.map_congr_left
      intro c hc
      have hc1 := List.mem_filter.mp hc
      rw [h2 c]
      simp [hc1.1, hc1.2, HalClient.addEvent]
    · intro c
      simp only
      rw [f2 c, h2 c]
      by_cases hc : c ∈ clients ∧ subscribedToHalEvent s v.prop c = true
      · simp [hc, List.mem_filter]
      · have : c ∉ clients.filter (subscribedToHalEvent s v.prop) := by
          intro hmem
          exact hc (List.mem_filter.mp hmem)
        simp [this, hc]

theorem dispatchHalEvents_single_event_witness :
    (subscribersOf sampleBusy sampleEvent.prop).Nodup ∧
    (∀ c ∈ subscribersOf sampleBusy sampleEvent.prop,
      (sampleBusy.heap c).getSubscriptionInfo sampleEvent.prop ≠ none) ∧
    ∃ s1 o,
      dispatchEventsLoop [sampleEvent] sampleBusy []
        = some (s1, (subscribersOf sampleBusy sampleEvent.prop).filter
            (subscribedToHalEvent sampleBusy sampleEvent.prop)) ∧
      (∀ c, s1.heap c =
        if c ∈ subscribersOf sampleBusy sampleEvent.prop ∧
            subscribedToHalEvent sampleBusy sampleEvent.prop c = true
        then (sampleBusy.heap c).addEvent sampleEvent else sampleBusy.heap c) ∧
      dispatchHalEvents sampleBusy [sampleEvent] 5 = some o ∧
      o.status = NO_ERROR ∧
      o.calls = ((subscribersOf sampleBusy sampleEvent.prop).filter
          (subscribedToHalEvent sampleBusy sampleEvent.prop)).map
        (fun c => Call.onEvents (sampleBusy.heap c).mListener
          ((sampleBusy.heap c).mEvents ++ [sampleEvent]) 5) ∧
      (∀ c, o.state.heap c =
        if c ∈ subscribersOf sampleBusy sampleEvent.prop ∧
            subscribedToHalEvent sampleBusy sampleEvent.prop c = true
        then ((sampleBusy.heap c).addEvent sampleEvent).clearEvents else sampleBusy.heap c) :=
  ⟨by decide, by decide,
    dispatchHalEvents_single_event sampleBusy sampleEvent 5 (by decide) (by decide)⟩

/-- C8, counterexample: on the continuous property 0x100, whose rates range from 1 to 50,
a subscribe with a sample rate that is NaN returns NO_ERROR and the client of the listener
records NaN, which is neither at least the minimum nor at most the maximum. -/
theorem nan_rate_recorded_unclamped :
    findConfigLocked sampleService 0x100 = some sampleSpeed ∧
    sampleSpeed.change_mode = ChangeMode.CONTINUOUS ∧
    sampleSpeed.min_sample_rate ≤ sampleSpeed.max_sample_rate ∧
    (subscribe sampleEnv sampleService 7 0x100 CFloat.nan 0 1 0 0).map (fun o => o.status)
      = some NO_ERROR ∧
    (subscribe sampleEnv sampleService 7 0x100 CFloat.nan 0 1 0 0).map
      (fun o => ((o.state.heap 0).getSubscriptionInfo 0x100).map (·.sampleRate))
      = some (some CFloat.nan) ∧
    (subscribe sampleEnv sampleService 7 0x100 CFloat.nan 0 1 0 0).map
      (fun o => findClientLocked o.state 7) = some (some 0) ∧
    ¬ (sampleSpeed.min_sample_rate ≤ CFloat.nan) ∧
    ¬ (CFloat.nan ≤ sampleSpeed.max_sample_rate) := by
  decide

/-- C8, amended: after a successful subscribe the client of the listener holds a record for
the property whose sample rate is 0 when the change mode of the property is ON_CHANGE or
ON_SET, for any requested rate; otherwise, when the minimum rate does not exceed the maximum
rate, it is the maximum when the requested rate is above it, the minimum when the requested
rate is below it and the requested rate when it lies between them, so that it lies between
the two whenever the requested rate is not NaN; a requested rate that is NaN is recorded as
NaN. -/
theorem subscribe_records_normalized_rate (env : Env) (s : Service) (listener : Nat)
    (prop : Int) (rate : CFloat) (zones flags : Nat) (nowMs nowNs : Int) (o : Outcome)
    (config : vehicle_prop_config_t)
    (hcfg : findConfigLocked s prop = some config)
    (hsub : subscribe env s listener prop rate zones flags nowMs nowNs = some o)
    (hok : o.status = NO_ERROR) :
    ∃ client info, findClientLocked o.state listener = some client ∧
      (o.state.heap client).getSubscriptionInfo prop = some info ∧
      ((config.change_mode = ChangeMode.ON_CHANGE ∨ config.change_mode = ChangeMode.ON_SET) →
        info.sampleRate = 0) ∧
      (config.change_mode ≠ ChangeMode.ON_CHANGE → config.change_mode ≠ ChangeMode.ON_SET →
        config.min_sample_rate ≤ config.max_sample_rate →
        (rate > config.max_sample_rate → info.sampleRate = config.max_sample_rate) ∧
        (rate < config.min_sample_rate → info.sampleRate = config.min_sample_rate) ∧
        (config.min_sample_rate ≤ rate → rate ≤ config.max_sample_rate →
          info.sampleRate = rate) ∧
        (rate ≠ CFloat.nan →
          config.min_sample_rate ≤ info.sampleRate ∧ info.sampleRate ≤ config.max_sample_rate) ∧
        (rate = CFloat.nan → info.sampleRate = CFloat.nan)) := by
  rcases subscribe_outcome hsub with ⟨_, hbad, _⟩ | ⟨config1, hcfg1, _, _, _, hsame⟩
  · rw [hok] at hbad
    exact absurd hbad (by decide)
  · have hc : config1 = config := by
      rw [hcfg] at hcfg1
      exact (Option.some.inj hcfg1).symm
    subst hc
    obtain ⟨_, _, _, _, hheap, _, hreg, _⟩ := hsame
    have hR := subscribeRecord_registry s listener prop (normalizedSampleRate config1 rate)
      (subscribeZones config1 zones)
      (newZonesFor (valueFor s.mSubscriptionInfos prop) zones (subscribeZones config1 zones))
      (subscribeFlags flags)
      (shouldSubscribeFor (valueFor s.mSubscriptionInfos prop) (normalizedSampleRate config1 rate)
        (subscribeZones config1 zones) (subscribeFlags flags))
    have hH := subscribeRecord_heap s listener prop (normalizedSampleRate config1 rate)
      (subscribeZones config1 zones)
      (newZonesFor (valueFor s.mSubscriptionInfos prop) zones (subscribeZones config1 zones))
      (subscribeFlags flags)
      (shouldSubscribeFor (valueFor s.mSubscriptionInfos prop) (normalizedSampleRate config1 rate)
        (subscribeZones config1 zones) (subscribeFlags flags))
    rw [← hreg] at hR
    rw [← hheap] at hH
    exact ⟨_, _, hR, hH, normalizedSampleRate_fixed config1 rate,
      normalizedSampleRate_clamped config1 rate⟩

theorem subscribe_records_normalized_rate_witness :
    findConfigLocked sampleService 0x100 = some sampleSpeed ∧
    ((subscribe sampleEnv sampleService 7 0x100 60 0 1 0 0).get (by decide)).status = NO_ERROR ∧
    ∃ client info,
      findClientLocked ((subscribe sampleEnv sampleService 7 0x100 60 0 1 0 0).get
        (by decide)).state 7 = some client ∧
      (((subscribe sampleEnv sampleService 7 0x100 60 0 1 0 0).get (by decide)).state.heap
        client).getSubscriptionInfo 0x100 = some info ∧ info.sampleRate = 50 ∧
      sampleSpeed.min_sample_rate ≤ info.sampleRate := by
  have h := subscribe_records_normalized_rate sampleEnv sampleService 7 0x100 60 0 1 0 0
    ((subscribe sampleEnv sampleService 7 0x100 60 0 1 0 0).get (by decide)) sampleSpeed
    (by decide) (Option.some_get _).symm (by decide)
  obtain ⟨client, info, h1, h2, _, h4⟩ := h
  refine ⟨by decide, by decide, client, info, h1, h2, ?_, ?_⟩
  · exact (h4 (by decide) (by decide) (by decide)).1 (by decide)
  · exact ((h4 (by decide) (by decide) (by decide)).2.2.2.1 (by decide)).1

/-- C9: for a subscribable property of a zoned value type, with flags that pass the
write-access check and a HAL and mock that do not answer BAD_VALUE themselves: a subscribe
with non-zero zones outside the supported mask returns BAD_VALUE and changes nothing; a
subscribe with zones 0, or with zones inside the supported mask, does not return BAD_VALUE
and records the requested zones for the client. -/
theorem subscribe_zone_validation (env : Env) (s : Service) (listener : Nat) (prop : Int)
    (rate : CFloat) (zones flags : Nat) (nowMs nowNs : Int) (config : vehicle_prop_config_t)
    (hcfg : findConfigLocked s prop = some config)
    (hsubable : isSubscribableLocked s prop = true)
    (hzoned : config.value_type ∈ [ValueType.ZONED_INT32, ValueType.ZONED_FLOAT,
      ValueType.ZONED_BOOLEAN, ValueType.ZONED_INT32_VEC2, ValueType.ZONED_INT32_VEC3,
      ValueType.ZONED_FLOAT_VEC2, ValueType.ZONED_FLOAT_VEC3])
    (hflags : SubscribeFlags.SET_CALL &&& flags ≠ 0 →
      config.access &&& VEHICLE_PROP_ACCESS_WRITE ≠ 0)
    (hmock : s.mMockingEnabled = true → s.mHalMock ≠ none)
    (hanswers : NoBadValueAnswer env s) :
    (zones ≠ 0 → zones &&& config.vehicle_zone_flags ≠ zones →
      ∃ o, subscribe env s listener prop rate zones flags nowMs nowNs = some o ∧
        o.status = BAD_VALUE ∧ o.state = s ∧ o.calls = []) ∧
    ((zones = 0 ∨ zones &&& config.vehicle_zone_flags = zones) →
      ∃ o client info, subscribe env s listener prop rate zones flags nowMs nowNs = some o ∧
        o.status ≠ BAD_VALUE ∧ findClientLocked o.state listener = some client ∧
        (o.state.heap client).getSubscriptionInfo prop = some info ∧ info.zones = zones) := by
  have hz : isZonedProperty (some config) = true := by
    simp only [List.mem_cons, List.mem_singleton, List.not_mem_nil, or_false] at hzoned
    rcases hzoned with h | h | h | h | h | h | h <;> simp [isZonedProperty, h]
  have hfl : ¬ (SubscribeFlags.SET_CALL &&& subscribeFlags flags ≠ 0 ∧
      config.access &&& VEHICLE_PROP_ACCESS_WRITE = 0) := by
    rintro ⟨h1, h2⟩
    by_cases hf : flags = SubscribeFlags.UNDEFINED
    · simp [subscribeFlags, hf, SubscribeFlags.SET_CALL, SubscribeFlags.DEFAULT,
        SubscribeFlags.HAL_EVENT] at h1
    · simp only [subscribeFlags, hf, if_false] at h1
      exact hflags h1 h2
  constructor
  · intro hne hout
    refine ⟨{ state := s, status := BAD_VALUE, calls := [] }, ?_, rfl, rfl, rfl⟩
    have hrej : isZonedProperty (some config) = true ∧ zones ≠ 0 ∧
        zones &&& config.vehicle_zone_flags ≠ zones := ⟨hz, hne, hout⟩
    unfold subscribe
    simp only [hsubable, hcfg]
    simp only [Bool.true_eq_false, if_false, if_neg hfl, if_pos hrej]
  · intro hin
    have hzv : ¬ (isZonedProperty (some config) = true ∧ zones ≠ 0 ∧
        zones &&& config.vehicle_zone_flags ≠ zones) := by
      rintro ⟨_, h1, h2⟩
      rcases hin with h | h
      · exact h1 h
      · exact h2 h
    have hR := subscribeRecord_registry s listener prop (normalizedSampleRate config rate)
      (subscribeZones config zones)
      (newZonesFor (valueFor s.mSubscriptionInfos prop) zones (subscribeZones config zones))
      (subscribeFlags flags)
      (shouldSubscribeFor (valueFor s.mSubscriptionInfos prop) (normalizedSampleRate config rate)
        (subscribeZones config zones) (subscribeFlags flags))
    have hH := subscribeRecord_heap s listener prop (normalizedSampleRate config rate)
      (subscribeZones config zones)
      (newZonesFor (valueFor s.mSubscriptionInfos prop) zones (subscribeZones config zones))
      (subscribeFlags flags)
      (shouldSubscribeFor (valueFor s.mSubscriptionInfos prop) (normalizedSampleRate config rate)
        (subscribeZones config zones) (subscribeFlags flags))
    have hM := subscribeRecord_mock s listener prop (normalizedSampleRate config rate)
      (subscribeZones config zones)
      (newZonesFor (valueFor s.mSubscriptionInfos prop) zones (subscribeZones config zones))
      (subscribeFlags flags)
      (shouldSubscribeFor (valueFor s.mSubscriptionInfos prop) (normalizedSampleRate config rate)
        (subscribeZones config zones) (subscribeFlags flags))
    have hzones : subscribeZones config zones = zones := by
      simp [subscribeZones, hz]
    have hexists : ∃ o, subscribe env s listener prop rate zones flags nowMs nowNs = some o ∧
        o.status ≠ BAD_VALUE := by
      unfold subscribe
      simp only [hsubable, hcfg]
      simp only [Bool.true_eq_false, if_false, if_neg hfl, if_neg hzv]
      split
      · exact ⟨_, rfl, noError_ne_badValue⟩
      · apply subscribeUnlocked_status
        · refine ⟨hanswers.1, hanswers.2.1, ?_⟩
          intro mock hmk
          rw [hM.2] at hmk
          exact hanswers.2.2 mock hmk
        · intro hen
          rw [hM.2]
          rw [hM.1] at hen
          exact hmock hen
    obtain ⟨o, ho, hst⟩ := hexists
    rcases subscribe_outcome ho with ⟨_, hbad, _⟩ | ⟨config1, hcfg1, _, _, _, hsame⟩
    · exact absurd hbad hst
    · have hc : config1 = config := by
        rw [hcfg] at hcfg1
        exact (Option.some.inj hcfg1).symm
      subst hc
      obtain ⟨_, _, _, _, hheap, _, hreg, _⟩ := hsame
      rw [← hreg] at hR
      rw [← hheap] at hH
      exact ⟨o, _, _, ho, hst, hR, hH, hzones⟩

theorem subscribe_zone_validation_witness :
    findConfigLocked sampleService 0x200 = some sampleZoned ∧
    isSubscribableLocked sampleService 0x200 = true ∧
    NoBadValueAnswer sampleEnv sampleService ∧
    (∃ o, subscribe sampleEnv sampleService 7 0x200 0 0x10 1 0 0 = some o ∧
      o.status = BAD_VALUE ∧ o.state = sampleService ∧ o.calls = []) ∧
    (∃ o client info, subscribe sampleEnv sampleService 7 0x200 0 0 1 0 0 = some o ∧
      o.status ≠ BAD_VALUE ∧ findClientLocked o.state 7 = some client ∧
      (o.state.heap client).getSubscriptionInfo 0x200 = some info ∧ info.zones = 0) :=
  have hanswers : NoBadValueAnswer sampleEnv sampleService :=
    ⟨fun _ _ _ => noError_ne_badValue, fun _ _ => noError_ne_badValue,
      fun _ h => by simp [sampleService, Service.init] at h⟩
  ⟨by decide, by decide, hanswers,
    (subscribe_zone_validation sampleEnv sampleService 7 0x200 0 0x10 1 0 0 sampleZoned
      (by decide) (by decide) (by decide) (by decide) (fun h => absurd h (by decide))
      hanswers).1 (by decide) (by decide),
    (subscribe_zone_validation sampleEnv sampleService 7 0x200 0 0 1 0 0 sampleZoned
      (by decide) (by decide) (by decide) (by decide) (fun h => absurd h (by decide))
      hanswers).2 (Or.inl rfl)⟩

/-- C10, the code at the failing input: the first subscribe to the non-zoned property
0x100 with zones 5 records zones 0 for the client, but the aggregate stored for the property
has zones 5 and the HAL is subscribed with zones 5. -/
theorem nonzoned_first_subscribe_keeps_caller_zones :
    (subscribe sampleEnv sampleService 7 0x100 10 5 1 0 0).map
      (fun o => (((o.state.heap 0).getSubscriptionInfo 0x100).map (·.zones),
        (valueFor o.state.mSubscriptionInfos 0x100).map (·.zones), o.calls))
    = some (some 0, some 5, [Call.linkToDeath 7, Call.halSubscribe 0x100 10 5]) := by decide

/-- C11: in a state whose client maps hold each property once and whose subscriber vector
of the property holds no client twice, after two successful subscribes of the same listener
to the same property the client of the listener holds exactly one record for the property,
it carries the normalised rate, zones and flags of the second call, the client occurs
exactly once in the subscriber vector, and the second call left the vector, hence the
number of subscribers, unchanged. -/
theorem resubscribe_replaces_record (env : Env) (s : Service) (listener : Nat) (prop : Int)
    (r1 r2 : CFloat) (z1 f1 z2 f2 : Nat) (a1 b1 a2 b2 : Int) (o1 o2 : Outcome)
    (config : vehicle_prop_config_t)
    (hkeys : ∀ c, ((s.heap c).mSubscriptionInfos.map Prod.fst).Nodup)
    (hvec : ∀ v, valueFor s.mPropertyToClientsMap prop = some v → v.Nodup)
    (hcfg : findConfigLocked s prop = some config)
    (h1 : subscribe env s listener prop r1 z1 f1 a1 b1 = some o1)
    (hok1 : o1.status = NO_ERROR)
    (h2 : subscribe env o1.state listener prop r2 z2 f2 a2 b2 = some o2)
    (hok2 : o2.status = NO_ERROR) :
    ∃ client, findClientLocked o1.state listener = some client ∧
      findClientLocked o2.state listener = some client ∧
      (o2.state.heap client).mSubscriptionInfos.filter (fun e => decide (e.1 = prop))
        = [(prop, SubscriptionInfo.mk (normalizedSampleRate config r2)
            (subscribeZones config z2) (subscribeFlags f2))] ∧
      (subscribersOf o2.state prop).count client = 1 ∧
      subscribersOf o2.state prop = subscribersOf o1.state prop ∧
      (subscribersOf o2.state prop).length = (subscribersOf o1.state prop).length := by
  rcases subscribe_outcome h1 with ⟨_, hbad, _⟩ | ⟨config1, hcfg1, _, _, _, hsame1⟩
  · rw [hok1] at hbad
    exact absurd hbad (by decide)
  have hc1 : config1 = config := by
    rw [hcfg] at hcfg1
    exact (Option.some.inj hcfg1).symm
  subst hc1
  have hcfgo1 : findConfigLocked o1.state prop = some config1 := by
    rw [findConfigLocked_same hsame1, subscribeRecord_config]
    exact hcfg
  rcases subscribe_outcome h2 with ⟨_, hbad, _⟩ | ⟨config2, hcfg2, _, _, _, hsame2⟩
  · rw [hok2] at hbad
    exact absurd hbad (by decide)
  have hc2 : config2 = config1 := by
    rw [hcfgo1] at hcfg2
    exact (Option.some.inj hcfg2).symm
  subst hc2
  -- the first subscribe
  generalize hsh1 : shouldSubscribeFor (valueFor s.mSubscriptionInfos prop)
    (normalizedSampleRate config2 r1) (subscribeZones config2 z1) (subscribeFlags f1) = sh1
    at hsame1
  generalize hnz1 : newZonesFor (valueFor s.mSubscriptionInfos prop) z1
    (subscribeZones config2 z1) = nz1 at hsame1
  obtain ⟨hcl1, hother1, hmap1, -, -⟩ := subscribeRecord_spec s listener prop
    (normalizedSampleRate config2 r1) (subscribeZones config2 z1) nz1 (subscribeFlags f1) sh1
  have hR1 := subscribeRecord_registry s listener prop
    (normalizedSampleRate config2 r1) (subscribeZones config2 z1) nz1 (subscribeFlags f1) sh1
  generalize hcl : (subscribeRecord s listener prop (normalizedSampleRate config2 r1)
    (subscribeZones config2 z1) nz1 (subscribeFlags f1) sh1).2.1 = client
    at hcl1 hother1 hmap1 hR1
  generalize hst : (subscribeRecord s listener prop (normalizedSampleRate config2 r1)
    (subscribeZones config2 z1) nz1 (subscribeFlags f1) sh1).1 = R1
    at hcl1 hother1 hmap1 hR1 hsame1
  obtain ⟨-, -, -, -, hheap1, -, hreg1, hpm1, -, -, -⟩ := hsame1
  have hreg_o1 : valueFor o1.state.mBinderToClientMap listener = some client := by
    rw [hreg1]; exact hR1
  have hkeys1 : ((o1.state.heap client).mSubscriptionInfos.map Prod.fst).Nodup := by
    rw [hheap1]
    rcases hcl1 with ⟨-, -, -, hh⟩ | ⟨-, hcn, -, -, hh⟩
    · rw [hh]
      exact nodup_keys_kvAdd _ _ _ (hkeys client)
    · rw [hcn, hh]
      exact nodup_keys_kvAdd _ _ _ (by simp [HalClient.create])
  have hold : ((valueFor s.mPropertyToClientsMap prop).getD []).Nodup := by
    cases hv : valueFor s.mPropertyToClientsMap prop with
    | none => simp
    | some v => simpa using hvec v hv
  have hvec1 : valueFor o1.state.mPropertyToClientsMap prop
      = some (setAdd ((valueFor s.mPropertyToClientsMap prop).getD []) client) := by
    rw [hpm1, hmap1, valueFor_kvAdd_self]
  have hmem1 : client ∈ setAdd ((valueFor s.mPropertyToClientsMap prop).getD []) client :=
    (mem_setAdd _ _ _).mpr (Or.inr rfl)
  have hnd1 : (setAdd ((valueFor s.mPropertyToClientsMap prop).getD []) client).Nodup :=
    nodup_setAdd _ _ hold
  -- the second subscribe
  generalize hsh2 : shouldSubscribeFor (valueFor o1.state.mSubscriptionInfos prop)
    (normalizedSampleRate config2 r2) (subscribeZones config2 z2) (subscribeFlags f2) = sh2
    at hsame2
  generalize hnz2 : newZonesFor (valueFor o1.state.mSubscriptionInfos prop) z2
    (subscribeZones config2 z2) = nz2 at hsame2
  obtain ⟨hcl2, -, hmap2, -, -⟩ := subscribeRecord_spec o1.state listener prop
    (normalizedSampleRate config2 r2) (subscribeZones config2 z2) nz2 (subscribeFlags f2) sh2
  have hR2 := subscribeRecord_registry o1.state listener prop
    (normalizedSampleRate config2 r2) (subscribeZones config2 z2) nz2 (subscribeFlags f2) sh2
  generalize hcl' : (subscribeRecord o1.state listener prop (normalizedSampleRate config2 r2)
    (subscribeZones config2 z2) nz2 (subscribeFlags f2) sh2).2.1 = client2
    at hcl2 hmap2 hR2
  generalize hst2 : (subscribeRecord o1.state listener prop (normalizedSampleRate config2 r2)
    (subscribeZones config2 z2) nz2 (subscribeFlags f2) sh2).1 = R2
    at hcl2 hmap2 hR2 hsame2
  obtain ⟨-, -, -, -, hheap2, -, hreg2, hpm2, -, -, -⟩ := hsame2
  rcases hcl2 with ⟨hfound, -, -, hh2⟩ | ⟨hnone, -⟩
  swap
  · rw [hreg_o1] at hnone
    simp at hnone
  have hce : client2 = client := by
    rw [hreg_o1] at hfound
    exact (Option.some.inj hfound).symm
  subst hce
  have hvec2 : valueFor o2.state.mPropertyToClientsMap prop
      = some (setAdd ((valueFor s.mPropertyToClientsMap prop).getD []) client2) := by
    rw [hpm2, hmap2, valueFor_kvAdd_self, hvec1]
    simp only [Option.getD_some]
    rw [setAdd_of_mem _ _ hmem1]
  have hsubs : subscribersOf o2.state prop = subscribersOf o1.state prop := by
    simp only [subscribersOf, hvec2, hvec1]
  refine ⟨client2, hreg_o1, ?_, ?_, ?_, hsubs, by rw [hsubs]⟩
  · show valueFor o2.state.mBinderToClientMap listener = some client2
    rw [hreg2]; exact hR2
  · rw [hheap2, hh2]
    exact filter_kvAdd_self _ _ _ hkeys1
  · simp only [subscribersOf, hvec2, Option.getD_some]
    exact List.count_eq_one_of_mem hnd1 hmem1

theorem resubscribe_replaces_record_witness :
    findConfigLocked sampleService 0x100 = some sampleSpeed ∧
    ∃ client,
      findClientLocked ((subscribe sampleEnv ((subscribe sampleEnv sampleService 7 0x100 10 0 1
        0 0).get (by decide)).state 7 0x100 60 0 3 0 0).get (by decide)).state 7
        = some client ∧
      (((subscribe sampleEnv ((subscribe sampleEnv sampleService 7 0x100 10 0 1
        0 0).get (by decide)).state 7 0x100 60 0 3 0 0).get (by decide)).state.heap
          client).mSubscriptionInfos.filter (fun e => decide (e.1 = 0x100))
        = [(0x100, SubscriptionInfo.mk 50 0 3)] ∧
      (subscribersOf ((subscribe sampleEnv ((subscribe sampleEnv sampleService 7 0x100 10 0 1
        0 0).get (by decide)).state 7 0x100 60 0 3 0 0).get (by decide)).state 0x100).count
          client = 1 := by
  have h := resubscribe_replaces_record sampleEnv sampleService 7 0x100 10 60 0 1 0 3 0 0 0 0
    ((subscribe sampleEnv sampleService 7 0x100 10 0 1 0 0).get (by decide))
    ((subscribe sampleEnv ((subscribe sampleEnv sampleService 7 0x100 10 0 1
        0 0).get (by decide)).state 7 0x100 60 0 3 0 0).get (by decide))
    sampleSpeed (fun c => List.nodup_nil) (fun v hv => by cases hv) (by decide)
    (Option.some_get _).symm (by decide) (Option.some_get _).symm (by decide)
  obtain ⟨client, _, h2, h3, h4, _⟩ := h
  refine ⟨by decide, client, h2, ?_, h4⟩
  rw [h3]
  decide

/-- C12: a subscribe to a property that is not subscribable, or with flags that contain
SET_CALL to a property whose configuration lacks write access, returns BAD_VALUE, leaves
the whole state of the service as it was (registry, subscriber sets, aggregates and set-call
set included) and makes no call at all, so none to the HAL or to the mock. -/
theorem subscribe_capability_failure_atomic (env : Env) (s : Service) (listener : Nat)
    (prop : Int) (sampleRate : CFloat) (zones flags : Nat) (nowMs nowNs : Int)
    (h : isSubscribableLocked s prop = false ∨
      ∃ config, findConfigLocked s prop = some config ∧
        SubscribeFlags.SET_CALL &&& flags ≠ 0 ∧
        config.access &&& VEHICLE_PROP_ACCESS_WRITE = 0) :
    ∃ o, subscribe env s listener prop sampleRate zones flags nowMs nowNs = some o ∧
      o.status = BAD_VALUE ∧ o.state = s ∧ o.calls = [] := by
  by_cases hsub : isSubscribableLocked s prop = false
  · exact ⟨{ state := s, status := BAD_VALUE, calls := [] }, by simp [subscribe, hsub],
      rfl, rfl, rfl⟩
  · rcases h with h | ⟨config, hcfg, hset, hacc⟩
    · exact absurd h hsub
    · have hflags : subscribeFlags flags = flags := by
        unfold subscribeFlags
        rw [if_neg]
        intro h0
        rw [h0] at hset
        exact hset (by simp [SubscribeFlags.UNDEFINED])
      refine ⟨{ state := s, status := BAD_VALUE, calls := [] }, ?_, rfl, rfl, rfl⟩
      simp only [subscribe, hflags, hcfg]
      rw [if_neg hsub, if_pos ⟨hset, hacc⟩]

theorem subscribe_capability_failure_atomic_witness :
    findConfigLocked (Service.init [sampleReadOnly]) 0x300 = some sampleReadOnly ∧
    ∃ o, subscribe sampleEnv (Service.init [sampleReadOnly]) 7 0x300 0 0 SubscribeFlags.SET_CALL
        0 0 = some o ∧
      o.status = BAD_VALUE ∧ o.state = Service.init [sampleReadOnly] ∧ o.calls = [] :=
  ⟨by decide,
   subscribe_capability_failure_atomic sampleEnv (Service.init [sampleReadOnly]) 7 0x300 0 0
     SubscribeFlags.SET_CALL 0 0
     (Or.inr ⟨sampleReadOnly, by decide, by decide, by decide⟩)⟩

/-- C13: isSettableLocked holds exactly when the property has a configuration with write
access whose value type is the one of the value; and when the property is unknown, or lacks
write access, or is configured with another value type, setProperty returns BAD_VALUE,
leaves the whole state as it was (cache, event statistics and queues of the worker
included) and makes no call: no mock or HAL set and no set-event notification. -/
theorem setProperty_validates_first (env : Env) (s : Service) (data : vehicle_prop_value_t)
    (nowMs nowNs : Int) :
    (isSettableLocked s data.prop data.value_type = true ↔
      ∃ config, findConfigLocked s data.prop = some config ∧
        config.access &&& VEHICLE_PROP_ACCESS_WRITE ≠ 0 ∧
        config.value_type = data.value_type) ∧
    ((findConfigLocked s data.prop = none ∨
      ∃ config, findConfigLocked s data.prop = some config ∧
        (config.access &&& VEHICLE_PROP_ACCESS_WRITE = 0 ∨
          config.value_type ≠ data.value_type)) →
      ∃ o, setProperty env s data nowMs nowNs = some o ∧ o.status = BAD_VALUE ∧
        o.state = s ∧ o.calls = []) := by
  constructor
  · unfold isSettableLocked
    cases hcfg : findConfigLocked s data.prop with
    | none => simp
    | some config =>
      by_cases h1 : config.access &&& VEHICLE_PROP_ACCESS_WRITE = 0
      · simp [h1]
      · by_cases h2 : config.value_type = data.value_type
        · simp [h1, h2]
        · simp [h1, h2]
  · intro h
    have hns : isSettableLocked s data.prop data.value_type = false := by
      unfold isSettableLocked
      rcases h with h | ⟨config, hcfg, h⟩
      · rw [h]
      · rw [hcfg]
        rcases h with h | h
        · simp [h]
        · simp [h]
    exact ⟨{ state := s, status := BAD_VALUE, calls := [] }, by simp [setProperty, hns],
      rfl, rfl, rfl⟩

theorem setProperty_validates_first_witness :
    findConfigLocked sampleService 0x100 = some sampleSpeed ∧
    ∃ o, setProperty sampleEnv sampleService
        { sampleEvent with value_type := ValueType.other 0x99 } 0 0 = some o ∧
      o.status = BAD_VALUE ∧ o.state = sampleService ∧ o.calls = [] :=
  ⟨by decide,
   (setProperty_validates_first sampleEnv sampleService
     { sampleEvent with value_type := ValueType.other 0x99 } 0 0).2
     (Or.inr ⟨sampleSpeed, by decide, Or.inr (by decide)⟩)⟩

/-- C14: over the sample service, where property 0x100 is continuous, readable and not
zoned with rates between 1 and 50, nothing is subscribed and mocking is off, and for every
HAL, every policy of automatic get and every internal range that leaves 0x100 out: when the
clients 1, 2 and 3 subscribe at the rates 10, 25 and 5 with default flags and then
unsubscribe in the order 3, 2, 1, the first subscribe calls the HAL with rate 10, the second
one with rate 25, so that exactly one subscribe call carries the rate 25, the third subscribe
and the first two unsubscribes make no HAL or mock call, and the last unsubscribe makes
exactly one call, the HAL unsubscribe of 0x100. -/
theorem three_subscribers_hal_calls (env : Env) (hint : isInternalProperty env 0x100 = false) :
    threeSubscribers env sampleService 1 2 3 =
    some [[Call.halSubscribe 0x100 10 0], [Call.halSubscribe 0x100 25 0], [], [], [],
      [Call.halUnsubscribe 0x100]] := by
  have hu : isInternalProperty env 0x100 = isInternalProperty sampleEnv 0x100 := by
    rw [hint]; decide
  unfold threeSubscribers
  rw [subscribe_not_fixed sampleSpeed (by decide) (by decide) (by decide) (by decide) hint
    (by decide) (by decide)]
  dsimp only
  rw [subscribe_not_fixed sampleSpeed (by decide) (by decide) (by decide) (by decide) hint
    (by decide) (by decide)]
  dsimp only
  rw [subscribe_not_fixed sampleSpeed (by decide) (by decide) (by decide) (by decide) hint
    (by decide) (by decide)]
  dsimp only
  simp only [unsubscribe_env _ _ (0x100 : Int) hu, List.map]
  decide

theorem three_subscribers_hal_calls_witness :
    isInternalProperty sampleEnv 0x100 = false ∧
    findConfigLocked sampleService 0x100 = some sampleSpeed ∧
    threeSubscribers sampleEnv sampleService 1 2 3 =
      some [[Call.halSubscribe 0x100 10 0], [Call.halSubscribe 0x100 25 0], [], [], [],
        [Call.halUnsubscribe 0x100]] :=
  ⟨by decide, by decide, three_subscribers_hal_calls sampleEnv (by decide)⟩

/-- C15: when the property is subscribable, the listener has a client, the property has a
subscriber vector and a mock is registered whenever mocking is enabled, unsubscribe
returns and afterwards the client has no record of the property and is in no subscriber
vector of it. If the vector became empty, the map entry and the aggregate of the
property are gone and the only HAL or mock call made is one unsubscribe of the property, to
the mock when mocking is enabled and to the HAL otherwise, and none for an internal
property. If the vector stayed non-empty, it is the old one without the client, the
aggregate is kept and no HAL or mock call is made. -/
theorem unsubscribe_removes_subscription (env : Env) (s : Service) (listener : Nat)
    (prop : Int) (client : Nat) (clients : List Nat)
    (hsub : isSubscribableLocked s prop = true)
    (hreg : findClientLocked s listener = some client)
    (hvec : valueFor s.mPropertyToClientsMap prop = some clients)
    (hmock : s.mMockingEnabled = true → s.mHalMock ≠ none) :
    ∃ o, unsubscribe env s listener prop = some o ∧
      (o.state.heap client).getSubscriptionInfo prop = none ∧
      (∀ v, valueFor o.state.mPropertyToClientsMap prop = some v → client ∉ v) ∧
      (setRemove clients client = [] →
        valueFor o.state.mPropertyToClientsMap prop = none ∧
        valueFor o.state.mSubscriptionInfos prop = none ∧
        o.calls.filter Call.isHalOrMock =
          (if isInternalProperty env prop then []
           else if s.mMockingEnabled then [Call.mockUnsubscribe prop]
           else [Call.halUnsubscribe prop])) ∧
      (setRemove clients client ≠ [] →
        valueFor o.state.mPropertyToClientsMap prop = some (setRemove clients client) ∧
        valueFor o.state.mSubscriptionInfos prop = valueFor s.mSubscriptionInfos prop ∧
        o.calls.filter Call.isHalOrMock = []) := by
  obtain ⟨hheap, hmk, hmck, hcalls, hE, hN⟩ :=
    removePropertyFromClientLocked_spec s listener client prop clients hvec
  have hrec : ((removePropertyFromClientLocked s listener client prop).1.heap
      client).getSubscriptionInfo prop = none := by
    rw [hheap]
    exact valueFor_removeItem_self _ _
  have hgone : ∀ v, valueFor (removePropertyFromClientLocked s listener client
      prop).1.mPropertyToClientsMap prop = some v → client ∉ v := by
    intro v hv
    by_cases hempty : setRemove clients client = []
    · rw [(hE hempty).2.1] at hv; simp at hv
    · rw [(hN hempty).2.1] at hv
      simp only [Option.some.injEq] at hv
      subst hv
      intro hin
      exact ((mem_setRemove _ _ _).mp hin).2 rfl
  have hsub' : ¬ isSubscribableLocked s prop = false := by simp [hsub]
  unfold unsubscribe
  rw [if_neg hsub', hreg]
  dsimp only
  by_cases hint : isInternalProperty env prop = true
  · rw [if_pos hint]
    refine ⟨_, rfl, hrec, hgone, ?_, ?_⟩
    · intro hempty
      exact ⟨(hE hempty).2.1, (hE hempty).2.2, by simpa [hint] using hcalls⟩
    · intro hne
      exact ⟨(hN hne).2.1, by rw [(hN hne).2.2], hcalls⟩
  · rw [if_neg hint]
    by_cases hempty : setRemove clients client = []
    · rw [if_pos (hE hempty).1, hmk]
      by_cases hm : s.mMockingEnabled = true
      · rw [if_pos hm, hmck]
        cases hmo : s.mHalMock with
        | none => exact absurd hmo (hmock hm)
        | some mock =>
          dsimp only
          refine ⟨_, rfl, hrec, hgone, ?_, fun hne => absurd hempty hne⟩
          intro _
          refine ⟨(hE hempty).2.1, (hE hempty).2.2, ?_⟩
          simp only [List.filter_append, hcalls]
          simp [hint, hm, Call.isHalOrMock]
      · rw [if_neg hm]
        refine ⟨_, rfl, hrec, hgone, ?_, fun hne => absurd hempty hne⟩
        intro _
        refine ⟨(hE hempty).2.1, (hE hempty).2.2, ?_⟩
        simp only [List.filter_append, hcalls]
        simp [hint, hm, Call.isHalOrMock]
    · have hf : ¬ (removePropertyFromClientLocked s listener client prop).2.1 = true := by
        rw [(hN hempty).1]; simp
      rw [if_neg hf]
      refine ⟨_, rfl, hrec, hgone, fun he => absurd he hempty, ?_⟩
      intro _
      exact ⟨(hN hempty).2.1, by rw [(hN hempty).2.2], hcalls⟩

theorem unsubscribe_removes_subscription_witness :
    isSubscribableLocked sampleBusy 0x100 = true ∧
    findClientLocked sampleBusy 8 = some 1 ∧
    valueFor sampleBusy.mPropertyToClientsMap 0x100 = some [0, 1] ∧
    ∃ o, unsubscribe sampleEnv sampleBusy 8 0x100 = some o ∧
      (o.state.heap 1).getSubscriptionInfo 0x100 = none ∧
      valueFor o.state.mPropertyToClientsMap 0x100 = some [0] ∧
      valueFor o.state.mSubscriptionInfos 0x100 = some (SubscriptionInfo.mk 25 0 3) ∧
      o.calls.filter Call.isHalOrMock = [] := by
  obtain ⟨o, ho, h1, _, _, h4⟩ := unsubscribe_removes_subscription sampleEnv sampleBusy 8 0x100
    1 [0, 1] (by decide) (by decide) (by decide) (fun h => absurd h (by decide))
  obtain ⟨h5, h6, h7⟩ := h4 (by decide)
  refine ⟨by decide, by decide, by decide, o, ho, h1, ?_, ?_, h7⟩
  · rw [h5]; decide
  · rw [h6]; decide

/-- C16: when the dead binder has a client in the registry and the subscriber map holds
each property once, after binderDied the binder is no longer registered and the client is
in no subscriber vector. Every property whose vector became empty has lost its map entry
and its aggregate and the HAL unsubscribe of it was called exactly once; every property
whose vector stayed non-empty keeps the old vector without the client and its
aggregate, and no HAL unsubscribe of it was called; a property without subscribers is
untouched. In particular a property whose only subscriber was the dead client gets
one HAL unsubscribe and has no aggregate afterwards. -/
theorem binderDied_cleanup (s : Service) (who client : Nat)
    (hreg : valueFor s.mBinderToClientMap who = some client)
    (hkeys : (s.mPropertyToClientsMap.map Prod.fst).Nodup) :
    valueFor (binderDied s who).state.mBinderToClientMap who = none ∧
    (∀ p v, valueFor (binderDied s who).state.mPropertyToClientsMap p = some v → client ∉ v) ∧
    (∀ p v, valueFor s.mPropertyToClientsMap p = some v → setRemove v client = [] →
      valueFor (binderDied s who).state.mPropertyToClientsMap p = none ∧
      valueFor (binderDied s who).state.mSubscriptionInfos p = none ∧
      (binderDied s who).calls.count (Call.halUnsubscribe p) = 1) ∧
    (∀ p v, valueFor s.mPropertyToClientsMap p = some v → setRemove v client ≠ [] →
      valueFor (binderDied s who).state.mPropertyToClientsMap p = some (setRemove v client) ∧
      valueFor (binderDied s who).state.mSubscriptionInfos p
        = valueFor s.mSubscriptionInfos p ∧
      Call.halUnsubscribe p ∉ (binderDied s who).calls) ∧
    (∀ p, valueFor s.mPropertyToClientsMap p = none →
      valueFor (binderDied s who).state.mPropertyToClientsMap p = none ∧
      valueFor (binderDied s who).state.mSubscriptionInfos p
        = valueFor s.mSubscriptionInfos p ∧
      Call.halUnsubscribe p ∉ (binderDied s who).calls) := by
  obtain ⟨hnd, hrem⟩ := binderDiedLoop_removed client s.mPropertyToClientsMap
    s.mSubscriptionInfos hkeys
  have hstate : (binderDied s who).state =
      { s with mBinderToClientMap := removeItem s.mBinderToClientMap who,
               mPropertyToClientsMap := removeItems
                 (binderDiedLoop client s.mPropertyToClientsMap s.mSubscriptionInfos).1
                 (binderDiedLoop client s.mPropertyToClientsMap s.mSubscriptionInfos).2.2,
               mSubscriptionInfos :=
                 (binderDiedLoop client s.mPropertyToClientsMap s.mSubscriptionInfos).2.1 } := by
    simp [binderDied, hreg]
  have hcalls : (binderDied s who).calls = Call.unlinkToDeath who ::
      (binderDiedLoop client s.mPropertyToClientsMap s.mSubscriptionInfos).2.2.map
        Call.halUnsubscribe := by
    simp [binderDied, hreg]
  have hmap : ∀ p, valueFor (binderDied s who).state.mPropertyToClientsMap p =
      if p ∈ (binderDiedLoop client s.mPropertyToClientsMap s.mSubscriptionInfos).2.2 then none
      else (valueFor s.mPropertyToClientsMap p).map (fun v => setRemove v client) := by
    intro p
    rw [hstate]
    dsimp only
    rw [valueFor_removeItems, binderDiedLoop_map]
  have hinfos : ∀ p, valueFor (binderDied s who).state.mSubscriptionInfos p =
      if p ∈ (binderDiedLoop client s.mPropertyToClientsMap s.mSubscriptionInfos).2.2 then none
      else valueFor s.mSubscriptionInfos p := by
    intro p
    rw [hstate]
    dsimp only
    rw [binderDiedLoop_infos, valueFor_removeItems]
  have hcount : ∀ p, (binderDied s who).calls.count (Call.halUnsubscribe p) =
      (binderDiedLoop client s.mPropertyToClientsMap s.mSubscriptionInfos).2.2.count p := by
    intro p
    rw [hcalls, List.count_cons]
    have hinj : Function.Injective Call.halUnsubscribe := by
      intro x y hxy
      injection hxy
    rw [List.count_map_of_injective _ _ hinj]
    simp
  have hmemc : ∀ p, Call.halUnsubscribe p ∈ (binderDied s who).calls →
      p ∈ (binderDiedLoop client s.mPropertyToClientsMap s.mSubscriptionInfos).2.2 := by
    intro p hp
    have : 0 < (binderDied s who).calls.count (Call.halUnsubscribe p) :=
      List.count_pos_iff.mpr hp
    rw [hcount] at this
    exact List.count_pos_iff.mp this
  refine ⟨?_, ?_, ?_, ?_, ?_⟩
  · rw [hstate]
    exact valueFor_removeItem_self _ _
  · intro p v hv
    rw [hmap] at hv
    split at hv
    · simp at hv
    · cases hold : valueFor s.mPropertyToClientsMap p with
      | none => simp [hold] at hv
      | some old =>
        simp only [hold, Option.map_some', Option.some.injEq] at hv
        subst hv
        intro hin
        exact ((mem_setRemove _ _ _).mp hin).2 rfl
  · intro p v hv hempty
    have hin : p ∈ (binderDiedLoop client s.mPropertyToClientsMap s.mSubscriptionInfos).2.2 :=
      (hrem p).mpr ⟨v, hv, hempty⟩
    refine ⟨by rw [hmap, if_pos hin], by rw [hinfos, if_pos hin], ?_⟩
    rw [hcount]
    exact List.count_eq_one_of_mem hnd hin
  · intro p v hv hne
    have hnin : p ∉ (binderDiedLoop client s.mPropertyToClientsMap s.mSubscriptionInfos).2.2 := by
      intro hin
      obtain ⟨v1, hv1, he⟩ := (hrem p).mp hin
      rw [hv] at hv1
      simp only [Option.some.injEq] at hv1
      subst hv1
      exact hne he
    refine ⟨by rw [hmap, if_neg hnin, hv]; rfl, by rw [hinfos, if_neg hnin], ?_⟩
    exact fun h => hnin (hmemc p h)
  · intro p hv
    have hnin : p ∉ (binderDiedLoop client s.mPropertyToClientsMap s.mSubscriptionInfos).2.2 := by
      intro hin
      obtain ⟨v1, hv1, -⟩ := (hrem p).mp hin
      rw [hv] at hv1
      simp at hv1
    refine ⟨by rw [hmap, if_neg hnin, hv]; rfl, by rw [hinfos, if_neg hnin], ?_⟩
    exact fun h => hnin (hmemc p h)

theorem binderDied_cleanup_witness :
    valueFor sampleTwoProperties.mBinderToClientMap 7 = some 0 ∧
    valueFor sampleTwoProperties.mPropertyToClientsMap 0x100 = some [0] ∧
    valueFor sampleTwoProperties.mPropertyToClientsMap 0x200 = some [0, 1] ∧
    (valueFor (binderDied sampleTwoProperties 7).state.mSubscriptionInfos 0x100 = none ∧
      (binderDied sampleTwoProperties 7).calls.count (Call.halUnsubscribe 0x100) = 1) ∧
    (valueFor (binderDied sampleTwoProperties 7).state.mPropertyToClientsMap 0x200 = some [1] ∧
      Call.halUnsubscribe 0x200 ∉ (binderDied sampleTwoProperties 7).calls) := by
  obtain ⟨_, _, h3, h4, _⟩ := binderDied_cleanup sampleTwoProperties 7 0 (by decide) (by decide)
  obtain ⟨_, h5, h6⟩ := h3 0x100 [0] (by decide) (by decide)
  obtain ⟨h7, _, h9⟩ := h4 0x200 [0, 1] (by decide) (by decide)
  refine ⟨by decide, by decide, by decide, ⟨h5, h6⟩, ?_, h9⟩
  rw [h7]; decide

/-- C17: over the sample service, after client 7 subscribed to the internal property
0x74000000, which made no HAL call, the death of the client calls the HAL unsubscribe with
the id of the internal property. -/
theorem binderDied_unsubscribes_internal_from_hal :
    isInternalProperty sampleEnv 0x74000000 = true ∧
    ((subscribe sampleEnv sampleService 7 0x74000000 0 0 0 0 0).map
      (fun o => (o.calls, (binderDied o.state 7).calls)))
    = some ([Call.linkToDeath 7], [Call.unlinkToDeath 7, Call.halUnsubscribe 0x74000000]) := by
  decide

/-- C18: over the sample service, where property 0x100 is not internal and mocking is
off, with a HAL that rejects every set: after client 7 subscribed to property 0x100 with
SET_CALL, a setProperty of 0x100 returns the error of the HAL, and yet client 7 was
notified of the set before the HAL was called. -/
theorem set_event_sent_before_failed_hal_set :
    isInternalProperty sampleEnv 0x100 = false ∧ sampleService.mMockingEnabled = false ∧
    ((subscribe { sampleEnv with mDevice := sampleRejectingDevice } sampleService 7 0x100 0 0
        SubscribeFlags.SET_CALL 0 0).bind
      (fun o => (setProperty { sampleEnv with mDevice := sampleRejectingDevice } o.state
        sampleEvent 0 0).map (fun o2 => (o2.status, o2.calls))))
    = some (-5, [Call.onPropertySet 7 sampleEvent, Call.halSet sampleEvent]) := by
  decide

/-- C19: for a property outside the internal range while mocking is off, and for every
HAL: a getProperty of a gettable property returns, its HAL get calls number n + 1 with n at
most MAX_GET_SET_RETRY_NUMBER_FOR_NOT_READY, every call before the last one answered
-EAGAIN, the status returned is the answer of the last call, and it is -EAGAIN only when
n is the maximum, that is when all MAX + 1 calls answered -EAGAIN. The same holds for a
setProperty of a settable property and its HAL set calls. A getProperty of a property that
is not gettable and a setProperty of one that is not settable return BAD_VALUE without
any call. -/
theorem get_set_retry_bounded (env : Env) (s : Service) (data : vehicle_prop_value_t)
    (nowMs nowNs : Int) (hint : isInternalProperty env data.prop = false)
    (hmock : s.mMockingEnabled = false) :
    (isGettableLocked s data.prop = true →
      ∃ o n, getProperty env s data = some o ∧
        n ≤ env.MAX_GET_SET_RETRY_NUMBER_FOR_NOT_READY ∧
        o.calls.countP Call.isHalGet = n + 1 ∧
        o.status = getAttemptStatus env data n ∧
        (∀ i, i < n → getAttemptStatus env data i = -EAGAIN) ∧
        (o.status = -EAGAIN → n = env.MAX_GET_SET_RETRY_NUMBER_FOR_NOT_READY)) ∧
    (isSettableLocked s data.prop data.value_type = true →
      ∃ o n, setProperty env s data nowMs nowNs = some o ∧
        n ≤ env.MAX_GET_SET_RETRY_NUMBER_FOR_NOT_READY ∧
        o.calls.countP Call.isHalSet = n + 1 ∧
        o.status = env.mDevice.set n data ∧
        (∀ i, i < n → env.mDevice.set i data = -EAGAIN) ∧
        (o.status = -EAGAIN → n = env.MAX_GET_SET_RETRY_NUMBER_FOR_NOT_READY)) ∧
    (isGettableLocked s data.prop = false →
      ∃ o, getProperty env s data = some o ∧ o.status = BAD_VALUE ∧ o.calls = []) ∧
    (isSettableLocked s data.prop data.value_type = false →
      ∃ o, setProperty env s data nowMs nowNs = some o ∧ o.status = BAD_VALUE ∧
        o.calls = []) := by
  refine ⟨?_, ?_, ?_, ?_⟩
  · intro hget
    obtain ⟨n, -, hn2, hc, hs, hall, hlast⟩ :=
      getRetryLoop_spec env data env.MAX_GET_SET_RETRY_NUMBER_FOR_NOT_READY 0
    refine ⟨_, n, ?_, by omega, ?_, hs, fun i hi => hall i (Nat.zero_le _) hi, ?_⟩
    · simp [getProperty, hget, hint, hmock]
      rfl
    · simpa using hc
    · intro h; simpa using hlast h
  · intro hset
    obtain ⟨n, -, hn2, hc, hs, hall, hlast⟩ :=
      setRetryLoop_spec env data env.MAX_GET_SET_RETRY_NUMBER_FOR_NOT_READY 0
    have hform : ∃ calls2 : List Call, (∀ call ∈ calls2, Call.isHalSet call = false) ∧
        setProperty env s data nowMs nowNs = some
          { state := s,
            status := (setRetryLoop env data env.MAX_GET_SET_RETRY_NUMBER_FOR_NOT_READY 0).1,
            calls := calls2 ++
              (setRetryLoop env data env.MAX_GET_SET_RETRY_NUMBER_FOR_NOT_READY 0).2 } := by
      by_cases hsc : data.prop ∈ s.mPropertiesSubscribedToSetCall
      · cases hv : findClientsVectorForPropertyLocked s data.prop with
        | none =>
          exact ⟨[], by simp, by simp [setProperty, hset, hint, hmock, hsc, hv]⟩
        | some clients =>
          refine ⟨dispatchPropertySetEvent s data clients, ?_,
            by simp [setProperty, hset, hint, hmock, hsc, hv]⟩
          intro call hcall
          obtain ⟨c, -, hc⟩ := dispatchPropertySetEvent_calls _ _ _ _ hcall
          rw [hc]; rfl
      · exact ⟨[], by simp, by simp [setProperty, hset, hint, hmock, hsc]⟩
    obtain ⟨calls2, hno, hres⟩ := hform
    refine ⟨_, n, hres, by omega, ?_, hs, fun i hi => hall i (Nat.zero_le _) hi, ?_⟩
    · simp only [List.countP_append]
      rw [countP_eq_zero_of_forall _ hno]
      simpa using hc
    · intro h; simpa using hlast h
  · intro hget
    exact ⟨{ status := BAD_VALUE, data := data, calls := [] }, by simp [getProperty, hget],
      rfl, rfl⟩
  · intro hset
    exact ⟨{ state := s, status := BAD_VALUE, calls := [] }, by simp [setProperty, hset],
      rfl, rfl⟩

theorem get_set_retry_bounded_witness :
    isInternalProperty { sampleEnv with mDevice := sampleNotReadyDevice } 0x100 = false ∧
    sampleService.mMockingEnabled = false ∧
    (∃ o n, getProperty { sampleEnv with mDevice := sampleNotReadyDevice } sampleService
        sampleEvent = some o ∧ n ≤ 3 ∧ o.calls.countP Call.isHalGet = n + 1 ∧
      o.status = getAttemptStatus { sampleEnv with mDevice := sampleNotReadyDevice }
        sampleEvent n) ∧
    (∃ o n, setProperty { sampleEnv with mDevice := sampleNotReadyDevice } sampleService
        sampleEvent 0 0 = some o ∧ n ≤ 3 ∧ o.calls.countP Call.isHalSet = n + 1 ∧
      (o.status = -EAGAIN → n = 3)) := by
  have h := get_set_retry_bounded { sampleEnv with mDevice := sampleNotReadyDevice }
    sampleService sampleEvent 0 0 (by decide) (by decide)
  obtain ⟨o, n, h1, h2, h3, h4, _⟩ := h.1 (by decide)
  obtain ⟨o2, n2, k1, k2, k3, _, _, k6⟩ := h.2.1 (by decide)
  exact ⟨by decide, by decide, ⟨o, n, h1, h2, h3, h4⟩, ⟨o2, n2, k1, k2, k3, k6⟩⟩

/-- C20: when no mock is registered, or the binder of the given mock differs from the
binder of the registered one, stopMocking leaves the whole state as it was (the queues
of the worker included) and makes no call, so no restart notification. When the binders
agree, afterwards mocking is disabled, no mock is registered, the subscriber map and
the aggregates are empty, every client that was registered has an empty subscription
map, every registered client that monitors HAL restart is notified with the argument
false, and nobody is notified with the argument true. -/
theorem stopMocking_only_for_registered_mock (s : Service) (mock : HalMock) :
    ((s.mHalMock = none ∨ ∃ current, s.mHalMock = some current ∧ mock.binder ≠ current.binder) →
      (stopMocking s mock).state = s ∧ (stopMocking s mock).calls = []) ∧
    (∀ current, s.mHalMock = some current → mock.binder = current.binder →
      (stopMocking s mock).state.mMockingEnabled = false ∧
      (stopMocking s mock).state.mHalMock = none ∧
      (stopMocking s mock).state.mPropertyToClientsMap = [] ∧
      (stopMocking s mock).state.mSubscriptionInfos = [] ∧
      (∀ b c, (b, c) ∈ s.mBinderToClientMap →
        ((stopMocking s mock).state.heap c).mSubscriptionInfos = [] ∧
        ((s.heap c).mMonitoringHalRestart = true →
          Call.onHalRestart (s.heap c).mListener false ∈ (stopMocking s mock).calls)) ∧
      (∀ l, Call.onHalRestart l true ∉ (stopMocking s mock).calls)) := by
  constructor
  · rintro (h | ⟨current, h, hne⟩)
    · simp [stopMocking, h]
    · simp [stopMocking, h, hne]
  · intro current hcur heq
    have hstate : (stopMocking s mock).state =
        { (handleHalRestartAndGetClientsToDispatchLocked
            { s with mHalMock := none, mMockingEnabled := false,
                     mPropertiesForMocking := [] }).1 with
          mHandler := ((handleHalRestartAndGetClientsToDispatchLocked
            { s with mHalMock := none, mMockingEnabled := false,
                     mPropertiesForMocking := [] }).1.mHandler.handleMockStateChange).1 } := by
      simp [stopMocking, hcur, heq]
    have hcalls : (stopMocking s mock).calls =
        [Call.unlinkToDeath mock.binder] ++
          (handleHalRestartAndGetClientsToDispatchLocked
            { s with mHalMock := none, mMockingEnabled := false,
                     mPropertiesForMocking := [] }).2.2 ++
          ((handleHalRestartAndGetClientsToDispatchLocked
            { s with mHalMock := none, mMockingEnabled := false,
                     mPropertiesForMocking := [] }).1.mHandler.handleMockStateChange).2 ++
          (handleHalRestartAndGetClientsToDispatchLocked
            { s with mHalMock := none, mMockingEnabled := false,
                     mPropertiesForMocking := [] }).2.1.map
            (fun client => Call.onHalRestart
              ((handleHalRestartAndGetClientsToDispatchLocked
                { s with mHalMock := none, mMockingEnabled := false,
                         mPropertiesForMocking := [] }).1.heap client).mListener false) := by
      simp [stopMocking, hcur, heq]
    refine ⟨?_, ?_, ?_, ?_, ?_, ?_⟩
    · rw [hstate]
      simp only [handleHalRestartAndGetClientsToDispatchLocked]
      rw [(removeClientsLoop_fields _ _).2.2.2.2.1, (restartLoop_fields _ _).2.2.2.2.1]
    · rw [hstate]
      simp only [handleHalRestartAndGetClientsToDispatchLocked]
      rw [(removeClientsLoop_fields _ _).2.2.2.2.2.1, (restartLoop_fields _ _).2.2.2.2.2.1]
    · rw [hstate]
      simp only [handleHalRestartAndGetClientsToDispatchLocked]
      rw [(removeClientsLoop_fields _ _).2.1, (restartLoop_fields _ _).2.1]
    · rw [hstate]
      simp only [handleHalRestartAndGetClientsToDispatchLocked]
      rw [(removeClientsLoop_fields _ _).2.2.1, (restartLoop_fields _ _).2.2.1]
    · intro b c hbc
      have hmem : c ∈ List.map Prod.snd s.mBinderToClientMap :=
        List.mem_map.mpr ⟨(b, c), hbc, rfl⟩
      constructor
      · rw [hstate]
        simp only [handleHalRestartAndGetClientsToDispatchLocked]
        rw [(removeClientsLoop_fields _ _).1, restartLoop_heap]
        simp only [hmem, if_true]
        rfl
      · intro hmon
        rw [hcalls]
        apply List.mem_append_right
        simp only [handleHalRestartAndGetClientsToDispatchLocked, List.mem_map]
        refine ⟨c, ?_, ?_⟩
        · rw [restartLoop_dispatch]
          exact ⟨hmem, hmon⟩
        · rw [(removeClientsLoop_fields _ _).1, restartLoop_listener]
    · intro l hmem
      rw [hcalls] at hmem
      simp only [handleHalRestartAndGetClientsToDispatchLocked,
        VehicleHalMessageHandler.handleMockStateChange, List.mem_append, List.mem_map,
        List.mem_cons, List.mem_singleton] at hmem
      rcases hmem with ((h | h) | h) | h
      · simp at h
      · obtain ⟨b, hb⟩ := removeClientsLoop_calls _ _ _ h
        simp at hb
      · simp at h
      · obtain ⟨c, _, hc⟩ := h
        simp at hc

theorem stopMocking_only_for_registered_mock_witness :
    ((stopMocking sampleBusy sampleMock).state.mBinderToClientMap = sampleBusy.mBinderToClientMap ∧
      (stopMocking sampleBusy sampleMock).calls = []) ∧
    (9, 2) ∈ (startMocking sampleBusy sampleMock).state.mBinderToClientMap ∧
    (stopMocking (startMocking sampleBusy sampleMock).state sampleMock).state.mMockingEnabled
      = false ∧
    Call.onHalRestart 9 false ∈
      (stopMocking (startMocking sampleBusy sampleMock).state sampleMock).calls := by
  have h := stopMocking_only_for_registered_mock sampleBusy sampleMock
  have h2 := stopMocking_only_for_registered_mock (startMocking sampleBusy sampleMock).state
    sampleMock
  obtain ⟨k1, _, _, _, k5, _⟩ := h2.2 sampleMock rfl rfl
  obtain ⟨hs, hc⟩ := h.1 (Or.inl rfl)
  refine ⟨⟨by rw [hs], hc⟩, by decide, k1, ?_⟩
  exact (k5 9 2 (by decide)).2 (by decide)

/-- C21: whether or not mocking is enabled, injectEvent returns NO_ERROR, leaves for the
property of the value an EventInfo with the timestamp of the value and the count 1 when
there was none, the old count plus one otherwise (the count is a 32-bit int and is taken
below INT_MAX), appends the value to the producer list of the worker, keeps the producer
index and leaves the counter of dropped events as it was; injectHalError returns NO_ERROR
and appends the error to the error queue; and while mocking is enabled an error reported by
the callback of the real HAL leaves the whole state as it was and posts nothing. -/
theorem injection_bypasses_mocking_filter (s : Service) (v : vehicle_prop_value_t)
    (nowMs nowNs errorCode property operation : Int) :
    (injectEvent s v nowMs nowNs).status = NO_ERROR ∧
    (valueFor s.mEventInfos v.prop = none →
      valueFor (injectEvent s v nowMs nowNs).state.mEventInfos v.prop
        = some (EventInfo.mk v.timestamp 1)) ∧
    (∀ info, valueFor s.mEventInfos v.prop = some info →
      INT32_MIN ≤ info.eventCount → info.eventCount < INT32_MAX →
      valueFor (injectEvent s v nowMs nowNs).state.mEventInfos v.prop
        = some (EventInfo.mk v.timestamp (info.eventCount + 1))) ∧
    (injectEvent s v nowMs nowNs).state.mHandler.list s.mHandler.mFreeListIndex
      = s.mHandler.list s.mHandler.mFreeListIndex ++ [v] ∧
    (injectEvent s v nowMs nowNs).state.mHandler.mFreeListIndex = s.mHandler.mFreeListIndex ∧
    (injectEvent s v nowMs nowNs).state.mDroppedEventsWhileInMocking
      = s.mDroppedEventsWhileInMocking ∧
    (injectHalError s errorCode property operation).status = NO_ERROR ∧
    (injectHalError s errorCode property operation).state.mHandler.mHalErrors
      = s.mHandler.mHalErrors ++ [VehicleHalError.mk errorCode property operation] ∧
    (s.mMockingEnabled = true →
      (errorCallback s errorCode property operation).state = s ∧
      (errorCallback s errorCode property operation).calls = []) := by
  have hidx : ∀ now, (s.mHandler.handleHalEvent v now).1.mFreeListIndex
      = s.mHandler.mFreeListIndex := by
    intro now
    unfold VehicleHalMessageHandler.handleHalEvent VehicleHalMessageHandler.setList
    by_cases hi : s.mHandler.mFreeListIndex = 0 <;> (simp only [hi]; split <;> simp)
  have hlist : ∀ now, (s.mHandler.handleHalEvent v now).1.list s.mHandler.mFreeListIndex
      = s.mHandler.list s.mHandler.mFreeListIndex ++ [v] := by
    intro now
    unfold VehicleHalMessageHandler.handleHalEvent
    dsimp only
    split <;> exact list_setList _ _ _
  refine ⟨rfl, ?_, ?_, ?_, ?_, rfl, rfl, rfl, ?_⟩
  · intro hnone
    simp [injectEvent, onHalEvent, hnone, valueFor_kvAdd_self]
  · intro info hinfo hlo hhi
    simp [injectEvent, onHalEvent, hinfo, valueFor_kvAdd_self, incrementInt32_eq _ hlo hhi]
  · simpa [injectEvent, onHalEvent] using hlist nowMs
  · simpa [injectEvent, onHalEvent] using hidx nowMs
  · intro hm
    simp [errorCallback, onHalError, hm]

theorem injection_bypasses_mocking_filter_witness :
    (startMocking sampleService sampleMock).state.mMockingEnabled = true ∧
    valueFor (injectEvent (startMocking sampleService sampleMock).state sampleEvent 0
      0).state.mEventInfos 0x100 = some (EventInfo.mk 42 1) ∧
    (errorCallback (startMocking sampleService sampleMock).state 1 0x100 2).calls = [] :=
  ⟨by decide,
   (injection_bypasses_mocking_filter (startMocking sampleService sampleMock).state
     sampleEvent 0 0 1 0x100 2).2.1 (by decide),
   ((injection_bypasses_mocking_filter (startMocking sampleService sampleMock).state
     sampleEvent 0 0 1 0x100 2).2.2.2.2.2.2.2.2 (by decide)).2⟩

/-- C22: the access test isOperationAllowed is the answer of the access controller for the
property, the uid of the caller and the kind of access. When the controller refuses the
caller, the gated getProperty (asked for read), the gated setProperty (asked for write) and
the gated subscribe return PERMISSION_DENIED, leave the whole state of the service as it was
(cache, registry, subscriber sets and aggregates included; a get hands the value back
untouched) and make no call, so none to the HAL or to the mock; when it accepts the caller,
each gated operation is the operation of the service itself. -/
theorem denied_operation_changes_nothing (testAccess : Int → Nat → Bool → Bool) (uid : Nat)
    (isWrite : Bool) (env : Env) (s : Service) (data : vehicle_prop_value_t) (listener : Nat)
    (prop : Int) (sampleRate : CFloat) (zones flags : Nat) (nowMs nowNs : Int) :
    (testAccess data.prop uid false = false →
      ∃ o, gatedGetProperty testAccess uid env s data = some o ∧
        o.status = PERMISSION_DENIED ∧ o.data = data ∧ o.calls = []) ∧
    (testAccess data.prop uid true = false →
      ∃ o, gatedSetProperty testAccess uid env s data nowMs nowNs = some o ∧
        o.status = PERMISSION_DENIED ∧ o.state = s ∧ o.calls = []) ∧
    (testAccess prop uid isWrite = false →
      ∃ o, gatedSubscribe testAccess uid isWrite env s listener prop sampleRate zones flags
          nowMs nowNs = some o ∧
        o.status = PERMISSION_DENIED ∧ o.state = s ∧ o.calls = []) ∧
    isOperationAllowed testAccess uid prop isWrite = testAccess prop uid isWrite ∧
    (testAccess data.prop uid false = true →
      gatedGetProperty testAccess uid env s data = getProperty env s data) ∧
    (testAccess data.prop uid true = true →
      gatedSetProperty testAccess uid env s data nowMs nowNs
        = setProperty env s data nowMs nowNs) ∧
    (testAccess prop uid isWrite = true →
      gatedSubscribe testAccess uid isWrite env s listener prop sampleRate zones flags nowMs
          nowNs
        = subscribe env s listener prop sampleRate zones flags nowMs nowNs) := by
  refine ⟨?_, ?_, ?_, rfl, ?_, ?_, ?_⟩
  · intro h
    exact ⟨{ status := PERMISSION_DENIED, data := data, calls := [] },
      by simp [gatedGetProperty, isOperationAllowed, h], rfl, rfl, rfl⟩
  · intro h
    exact ⟨{ state := s, status := PERMISSION_DENIED, calls := [] },
      by simp [gatedSetProperty, isOperationAllowed, h], rfl, rfl, rfl⟩
  · intro h
    exact ⟨{ state := s, status := PERMISSION_DENIED, calls := [] },
      by simp [gatedSubscribe, isOperationAllowed, h], rfl, rfl, rfl⟩
  · intro h
    simp [gatedGetProperty, isOperationAllowed, h]
  · intro h
    simp [gatedSetProperty, isOperationAllowed, h]
  · intro h
    simp [gatedSubscribe, isOperationAllowed, h]

theorem denied_operation_changes_nothing_witness :
    ∃ o, gatedSetProperty (fun _ _ isWrite => !isWrite) 1000 sampleEnv sampleService
        sampleEvent 0 0 = some o ∧
      o.status = PERMISSION_DENIED ∧ o.state = sampleService ∧ o.calls = [] :=
  (denied_operation_changes_nothing (fun _ _ isWrite => !isWrite) 1000 false sampleEnv
    sampleService sampleEvent 7 0x100 10 0 0 0 0).2.1 rfl

/-- C23: in every state reached from the initial state by subscribes, unsubscribes, client
deaths, startMocking and stopMocking (and the monitoring operations), a property has an
aggregate if and only if it has a subscriber vector that is not empty, and no subscriber
vector in the map is empty. -/
theorem aggregate_iff_subscribers (env : Env) (properties : List vehicle_prop_config_t)
    (ops : List Op) (s : Service) (hrun : run env (Service.init properties) ops = some s) :
    (∀ p, valueFor s.mSubscriptionInfos p ≠ none ↔
      ∃ v, valueFor s.mPropertyToClientsMap p = some v ∧ v ≠ []) ∧
    (∀ p v, valueFor s.mPropertyToClientsMap p = some v → v ≠ []) := by
  obtain ⟨b1, b2⟩ := run_balanced env ops _ s (coherent_init properties)
    (balanced_init properties) hrun
  refine ⟨?_, fun p v hv => (b1 p v hv).1⟩
  intro p
  constructor
  · intro hp
    cases hv : valueFor s.mPropertyToClientsMap p with
    | none => exact absurd hv (b2 p hp)
    | some v => exact ⟨v, rfl, (b1 p v hv).1⟩
  · rintro ⟨v, hv, -⟩
    exact (b1 p v hv).2

theorem aggregate_iff_subscribers_witness :
    valueFor ((run sampleEnv sampleService sampleOps).get (by decide)).mPropertyToClientsMap
      0x100 = some [0] ∧
    valueFor ((run sampleEnv sampleService sampleOps).get (by decide)).mSubscriptionInfos
      0x100 ≠ none :=
  ⟨by decide,
   ((aggregate_iff_subscribers sampleEnv [sampleSpeed, sampleZoned, sampleInternal] sampleOps
     ((run sampleEnv sampleService sampleOps).get (by decide))
     (Option.some_get _).symm).1 0x100).mpr ⟨[0], by decide, by decide⟩⟩

/-- C24, counterexample: in the state reached from the initial state by one subscribe of
listener 7 to property 0x100 with the flags 4, client 0 is registered and is in the
subscriber vector of 0x100, while its record for 0x100 carries the flags 4, which
contain neither HAL_EVENT nor SET_CALL. -/
theorem subscriber_without_event_or_set_flag :
    (0 ∈ subscribersOf ((run sampleEnv sampleService [Op.subscribe 7 0x100 10 0 4 0 0]).get
      (by decide)) 0x100) ∧
    (7, 0) ∈ ((run sampleEnv sampleService [Op.subscribe 7 0x100 10 0 4 0 0]).get
      (by decide)).mBinderToClientMap ∧
    (((run sampleEnv sampleService [Op.subscribe 7 0x100 10 0 4 0 0]).get
      (by decide)).heap 0).getSubscriptionInfo 0x100 = some (SubscriptionInfo.mk 10 0 4) ∧
    SubscribeFlags.HAL_EVENT &&& 4 = 0 ∧ SubscribeFlags.SET_CALL &&& 4 = 0 := by
  decide

/-- C24, amended: in every state reached from the initial state by the operations of the
facade and client deaths, a registered client is in the subscriber vector of a property if
and only if it has a record for the property; and when every subscribe of the run passed
flags that are UNDEFINED or contain HAL_EVENT or SET_CALL, every record has HAL_EVENT or
SET_CALL set. -/
theorem registry_matches_subscriber_sets (env : Env) (properties : List vehicle_prop_config_t)
    (ops : List Op) (s : Service) (hrun : run env (Service.init properties) ops = some s) :
    (∀ b c, (b, c) ∈ s.mBinderToClientMap →
      ∀ p, c ∈ subscribersOf s p ↔ (s.heap c).getSubscriptionInfo p ≠ none) ∧
    ((∀ op ∈ ops, op.properFlags = true) →
      ∀ c p info, (s.heap c).getSubscriptionInfo p = some info →
        SubscribeFlags.HAL_EVENT &&& info.flags ≠ 0 ∨
          SubscribeFlags.SET_CALL &&& info.flags ≠ 0) := by
  have hw := run_wellFormed env ops _ s (wellFormed_init properties) hrun
  have hl := run_linked env ops _ s (wellFormed_init properties) (coherent_init properties)
    (linked_init properties) hrun
  refine ⟨?_, fun hp => run_flagsSet env ops _ s (flagsSet_init properties) hp hrun⟩
  intro b c hreg p
  constructor
  · intro hin
    obtain ⟨v, hv, hcv⟩ := subscribersOf_mem hin
    exact ((hw.2 p v hv).2 c hcv).2
  · exact hl b c hreg p

theorem registry_matches_subscriber_sets_witness :
    (7, 0) ∈ ((run sampleEnv sampleService sampleOps).get (by decide)).mBinderToClientMap ∧
    (∀ op ∈ sampleOps, op.properFlags = true) ∧
    0 ∈ subscribersOf ((run sampleEnv sampleService sampleOps).get (by decide)) 0x100 ∧
    (SubscribeFlags.HAL_EVENT &&& 1 ≠ 0 ∨ SubscribeFlags.SET_CALL &&& 1 ≠ 0) :=
  have h := registry_matches_subscriber_sets sampleEnv [sampleSpeed, sampleZoned, sampleInternal]
    sampleOps ((run sampleEnv sampleService sampleOps).get (by decide)) (Option.some_get _).symm
  ⟨by decide, by decide, (h.1 7 0 (by decide) 0x100).mpr (by decide),
   h.2 (by decide) 0 0x100 (SubscriptionInfo.mk 10 0 1) (by decide)⟩

/-- C25: isSubscribableLocked holds exactly when findConfigLocked finds a configuration
for the property that has read access and whose change mode is neither STATIC nor POLL; and
the configuration findConfigLocked finds is the first one with the id of the property in
the list of the mock while mocking is enabled, in the list of the HAL and internal
properties otherwise. -/
theorem isSubscribable_characterised (s : Service) (prop : Int) :
    (isSubscribableLocked s prop = true ↔
      ∃ config, findConfigLocked s prop = some config ∧
        config.access &&& VEHICLE_PROP_ACCESS_READ ≠ 0 ∧
        config.change_mode ≠ ChangeMode.STATIC ∧ config.change_mode ≠ ChangeMode.POLL) ∧
    findConfigLocked s prop
      = (if s.mMockingEnabled then s.mPropertiesForMocking else s.mProperties).find?
          (fun c => decide (c.prop = prop)) := by
  constructor
  · unfold isSubscribableLocked
    cases hcfg : findConfigLocked s prop with
    | none => simp
    | some config =>
      by_cases h1 : config.access &&& VEHICLE_PROP_ACCESS_READ = 0
      · simp [h1]
      · by_cases h2 : config.change_mode = ChangeMode.STATIC
        · simp [h1, h2]
        · by_cases h3 : config.change_mode = ChangeMode.POLL
          · simp [h1, h2, h3]
          · simp [h1, h2, h3]
  · unfold findConfigLocked
    exact findConfigIn_eq_find _ _

theorem isSubscribable_characterised_witness :
    findConfigLocked sampleService 0x100 = some sampleSpeed ∧
    isSubscribableLocked sampleService 0x100 = true :=
  ⟨by decide,
   (isSubscribable_characterised sampleService 0x100).1.mpr
     ⟨sampleSpeed, by decide, by decide, by decide, by decide⟩⟩

/-- C26, counterexample: over the sample service, where property 0x100 is not internal
and has no aggregate, a subscribe of listener 7 to 0x100 with the flags SET_CALL alone
returns NO_ERROR and its only call is the death link of the listener: the HAL receives no
subscribe call although there was no prior aggregate. -/
theorem set_call_only_subscribe_skips_hal :
    isInternalProperty sampleEnv 0x100 = false ∧
    valueFor sampleService.mSubscriptionInfos 0x100 = none ∧
    (subscribe sampleEnv sampleService 7 0x100 10 0 SubscribeFlags.SET_CALL 0 0).map
      (fun o => (o.status, o.calls)) = some (NO_ERROR, [Call.linkToDeath 7]) := by
  decide

/-- C26, amended: for a subscribe to a property outside the internal range that returns
NO_ERROR, the subscribe calls made to the HAL and to the mock are either none or exactly
one, to the mock when mocking is enabled and to the HAL otherwise, carrying the property,
the normalised rate and the new aggregate zones; and the call is made exactly when the
flags contain HAL_EVENT and the property had no aggregate, or the normalised rate is above
the rate of the aggregate, or the new aggregate zones differ from its zones, or the flags
differ from its flags. -/
theorem hal_subscribe_condition (env : Env) (s : Service) (listener : Nat) (prop : Int)
    (rate : CFloat) (zones flags : Nat) (nowMs nowNs : Int) (o : Outcome)
    (config : vehicle_prop_config_t)
    (hcfg : findConfigLocked s prop = some config)
    (hint : isInternalProperty env prop = false)
    (hsub : subscribe env s listener prop rate zones flags nowMs nowNs = some o)
    (hok : o.status = NO_ERROR) :
    (o.calls.filter Call.isSubscribe = [] ∨
      o.calls.filter Call.isSubscribe =
        [if s.mMockingEnabled then
           Call.mockSubscribe prop (normalizedSampleRate config rate)
             (newZonesFor (valueFor s.mSubscriptionInfos prop) zones
               (subscribeZones config zones))
         else
           Call.halSubscribe prop (normalizedSampleRate config rate)
             (newZonesFor (valueFor s.mSubscriptionInfos prop) zones
               (subscribeZones config zones))]) ∧
    (o.calls.filter Call.isSubscribe ≠ [] ↔
      SubscribeFlags.HAL_EVENT &&& subscribeFlags flags ≠ 0 ∧
      (valueFor s.mSubscriptionInfos prop = none ∨
        ∃ info, valueFor s.mSubscriptionInfos prop = some info ∧
          (info.sampleRate < normalizedSampleRate config rate ∨
            info.zones ≠ newZonesFor (valueFor s.mSubscriptionInfos prop) zones
              (subscribeZones config zones) ∨
            info.flags ≠ subscribeFlags flags))) := by
  have hc := subscribe_subscribeCalls hcfg hint hsub hok
  rw [← shouldSubscribeFor_iff (valueFor s.mSubscriptionInfos prop)
    (normalizedSampleRate config rate) zones (subscribeZones config zones) (subscribeFlags flags)]
  by_cases hcond : (shouldSubscribeFor (valueFor s.mSubscriptionInfos prop)
      (normalizedSampleRate config rate) (subscribeZones config zones) (subscribeFlags flags) &&
      decide (SubscribeFlags.HAL_EVENT &&& subscribeFlags flags ≠ 0)) = true
  · rw [if_pos hcond] at hc
    refine ⟨Or.inr hc, ?_⟩
    rw [hc]
    simp only [Bool.and_eq_true, decide_eq_true_eq] at hcond
    simp [hcond.1, hcond.2]
  · rw [if_neg hcond] at hc
    refine ⟨Or.inl hc, ?_⟩
    rw [hc]
    simp only [Bool.and_eq_true, decide_eq_true_eq] at hcond
    constructor
    · intro h; exact absurd rfl h
    · intro h; exact absurd ⟨h.2, h.1⟩ hcond

theorem hal_subscribe_condition_witness :
    findConfigLocked sampleBusy 0x100 = some sampleSpeed ∧
    isInternalProperty sampleEnv 0x100 = false ∧
    valueFor sampleBusy.mSubscriptionInfos 0x100 = some (SubscriptionInfo.mk 25 0 3) ∧
    ((subscribe sampleEnv sampleBusy 9 0x100 40 0 3 0 0).get (by decide)).calls.filter
      Call.isSubscribe ≠ [] ∧
    ((subscribe sampleEnv sampleBusy 9 0x100 20 0 3 0 0).get (by decide)).calls.filter
      Call.isSubscribe = [] := by
  have h1 := hal_subscribe_condition sampleEnv sampleBusy 9 0x100 40 0 3 0 0
    ((subscribe sampleEnv sampleBusy 9 0x100 40 0 3 0 0).get (by decide)) sampleSpeed
    (by decide) (by decide) (Option.some_get _).symm (by decide)
  have h2 := hal_subscribe_condition sampleEnv sampleBusy 9 0x100 20 0 3 0 0
    ((subscribe sampleEnv sampleBusy 9 0x100 20 0 3 0 0).get (by decide)) sampleSpeed
    (by decide) (by decide) (Option.some_get _).symm (by decide)
  refine ⟨by decide, by decide, by decide, ?_, ?_⟩
  · exact h1.2.mpr ⟨by decide, Or.inr ⟨SubscriptionInfo.mk 25 0 3, by decide,
      Or.inl (by decide)⟩⟩
  · decide

/-- C27: after a subscribe that returns NO_ERROR to a property of a zoned value type that
already had an aggregate, the property has an aggregate whose zones are 0 when the zones of
the old aggregate or the requested zones are 0, and the bitwise OR of the two otherwise. -/
theorem aggregate_zones_absorb_zero (env : Env) (s : Service) (listener : Nat) (prop : Int)
    (rate : CFloat) (zones flags : Nat) (nowMs nowNs : Int) (o : Outcome)
    (config : vehicle_prop_config_t) (info : SubscriptionInfo)
    (hcfg : findConfigLocked s prop = some config)
    (hzoned : isZonedProperty (some config) = true)
    (hprior : valueFor s.mSubscriptionInfos prop = some info)
    (hsub : subscribe env s listener prop rate zones flags nowMs nowNs = some o)
    (hok : o.status = NO_ERROR) :
    ∃ agg, valueFor o.state.mSubscriptionInfos prop = some agg ∧
      agg.zones = (if info.zones = 0 ∨ zones = 0 then 0 else info.zones ||| zones) := by
  rcases subscribe_outcome hsub with ⟨_, hbad, _⟩ | ⟨config1, hcfg1, _, _, _, hsame⟩
  · rw [hok] at hbad
    exact absurd hbad (by decide)
  have hc1 : config1 = config := by
    rw [hcfg] at hcfg1
    exact (Option.some.inj hcfg1).symm
  subst hc1
  have hz : subscribeZones config1 zones = zones := by
    simp [subscribeZones, hzoned]
  rw [hprior, hz] at hsame
  obtain ⟨-, -, -, hinfos, -⟩ := subscribeRecord_spec s listener prop
    (normalizedSampleRate config1 rate) zones (newZonesFor (some info) zones zones)
    (subscribeFlags flags)
    (shouldSubscribeFor (some info) (normalizedSampleRate config1 rate) zones
      (subscribeFlags flags))
  obtain ⟨-, -, -, -, -, -, -, -, h9, -, -⟩ := hsame
  have hmerge : mergedZones info zones
      = (if info.zones = 0 ∨ zones = 0 then 0 else info.zones ||| zones) := by
    unfold mergedZones
    by_cases h1 : info.zones = 0
    · simp [h1]
    · by_cases h2 : zones = 0
      · simp [h2]
      · simp [h1, h2]
  rw [h9, hinfos]
  by_cases hsh : shouldSubscribeFor (some info) (normalizedSampleRate config1 rate) zones
      (subscribeFlags flags) = true
  · rw [if_pos hsh, valueFor_kvAdd_self]
    exact ⟨_, rfl, hmerge⟩
  · rw [if_neg hsh, hprior]
    refine ⟨info, rfl, ?_⟩
    rw [← hmerge]
    simp only [shouldSubscribeFor, Bool.or_eq_true, decide_eq_true_eq, not_or, not_not] at hsh
    exact hsh.1.2

theorem aggregate_zones_absorb_zero_witness :
    findConfigLocked sampleService 0x200 = some sampleZoned ∧
    sampleZoned.vehicle_zone_flags = 0b1111 ∧
    valueFor ((subscribe sampleEnv sampleService 1 0x200 0 0b0001 0 0 0).get
      (by decide)).state.mSubscriptionInfos 0x200 = some (SubscriptionInfo.mk 0 0b0001 1) ∧
    (∃ agg, valueFor ((subscribe sampleEnv ((subscribe sampleEnv sampleService 1 0x200 0 0b0001
        0 0 0).get (by decide)).state 2 0x200 0 0b0010 0 0 0).get
          (by decide)).state.mSubscriptionInfos 0x200 = some agg ∧ agg.zones = 0b0011) ∧
    (valueFor ((subscribe sampleEnv ((subscribe sampleEnv ((subscribe sampleEnv sampleService 1
        0x200 0 0b0001 0 0 0).get (by decide)).state 2 0x200 0 0b0010 0 0 0).get
          (by decide)).state 3 0x200 0 0 0 0 0).get (by decide)).state.mSubscriptionInfos
            0x200).map (fun agg => agg.zones) = some 0 := by
  have h := aggregate_zones_absorb_zero sampleEnv
    ((subscribe sampleEnv sampleService 1 0x200 0 0b0001 0 0 0).get (by decide)).state
    2 0x200 0 0b0010 0 0 0
    ((subscribe sampleEnv ((subscribe sampleEnv sampleService 1 0x200 0 0b0001
        0 0 0).get (by decide)).state 2 0x200 0 0b0010 0 0 0).get (by decide))
    sampleZoned (SubscriptionInfo.mk 0 0b0001 1) (by decide) (by decide) (by decide)
    (Option.some_get _).symm (by decide)
  obtain ⟨agg, h1, h2⟩ := h
  exact ⟨by decide, by decide, by decide, ⟨agg, h1, by rw [h2]; decide⟩, by decide⟩

/-- C28: with a producer index of 0 or 1, handleHalEvent appends the event at the tail of
the producer list and leaves the other list, the index, the time of the last dispatch and
the error queue as they were; when the time since the last dispatch exceeds 10 ms it posts
one immediate HAL_EVENT message, otherwise one HAL_EVENT message delayed by 10 ms minus
that time, given in nanoseconds; it makes no other call, so it dispatches nothing itself. -/
theorem handleHalEvent_produces (h : VehicleHalMessageHandler) (v : vehicle_prop_value_t)
    (now : Int) (hidx : h.mFreeListIndex ≤ 1) :
    (h.handleHalEvent v now).1.list h.mFreeListIndex = h.list h.mFreeListIndex ++ [v] ∧
    (h.handleHalEvent v now).1.list (h.mFreeListIndex ^^^ 1) = h.list (h.mFreeListIndex ^^^ 1) ∧
    (h.handleHalEvent v now).1.mFreeListIndex = h.mFreeListIndex ∧
    (h.handleHalEvent v now).1.mLastDispatchTime = h.mLastDispatchTime ∧
    (h.handleHalEvent v now).1.mHalErrors = h.mHalErrors ∧
    (now - h.mLastDispatchTime > 10 →
      (h.handleHalEvent v now).2 = [Call.sendMessageHalEvent]) ∧
    (now - h.mLastDispatchTime ≤ 10 →
      (h.handleHalEvent v now).2
        = [Call.sendMessageDelayedHalEvent ((10 - (now - h.mLastDispatchTime)) * 1000000)]) :=
  handleHalEvent_spec h v now hidx

theorem handleHalEvent_produces_witness :
    sampleService.mHandler.mFreeListIndex ≤ 1 ∧
    (sampleService.mHandler.handleHalEvent sampleEvent 4).1.list 0 = [sampleEvent] ∧
    (sampleService.mHandler.handleHalEvent sampleEvent 4).2
      = [Call.sendMessageDelayedHalEvent 6000000] :=
  have h := handleHalEvent_produces sampleService.mHandler sampleEvent 4 (by decide)
  ⟨by decide, h.1, h.2.2.2.2.2.2 (by decide)⟩

/-- C29: with a producer index of 0 or 1, the consumer step doHandleHalEvent leaves a
handler whose time of the last dispatch is now, whose error queue is unchanged and whose two
lists are empty. If the other list was not empty, the step is the fan-out dispatchHalEvents
of that list followed by the producer list, and the index is kept. If the other list was
empty and the producer list was not, the index is flipped and the step is the fan-out of the
former producer list. If both were empty, nothing is dispatched, no call is made and only
the time of the last dispatch changes. -/
theorem doHandleHalEvent_consumes (s : Service) (nowMs nowNs : Int)
    (hidx : s.mHandler.mFreeListIndex ≤ 1) :
    ∃ h : VehicleHalMessageHandler,
      h.mLastDispatchTime = nowMs ∧ h.mHalErrors = s.mHandler.mHalErrors ∧
      h.list s.mHandler.mFreeListIndex = [] ∧
      h.list (s.mHandler.mFreeListIndex ^^^ 1) = [] ∧
      (s.mHandler.list (s.mHandler.mFreeListIndex ^^^ 1) ≠ [] →
        h.mFreeListIndex = s.mHandler.mFreeListIndex ∧
        doHandleHalEvent s nowMs nowNs =
          (dispatchHalEvents s
            (s.mHandler.list (s.mHandler.mFreeListIndex ^^^ 1)
              ++ s.mHandler.list s.mHandler.mFreeListIndex) nowNs).map
            (fun o => { o with state := { o.state with mHandler := h } })) ∧
      (s.mHandler.list (s.mHandler.mFreeListIndex ^^^ 1) = [] →
        s.mHandler.list s.mHandler.mFreeListIndex ≠ [] →
        h.mFreeListIndex = s.mHandler.mFreeListIndex ^^^ 1 ∧
        doHandleHalEvent s nowMs nowNs =
          (dispatchHalEvents s (s.mHandler.list s.mHandler.mFreeListIndex) nowNs).map
            (fun o => { o with state := { o.state with mHandler := h } })) ∧
      (s.mHandler.list (s.mHandler.mFreeListIndex ^^^ 1) = [] →
        s.mHandler.list s.mHandler.mFreeListIndex = [] →
        h = { s.mHandler with mLastDispatchTime := nowMs } ∧
        doHandleHalEvent s nowMs nowNs =
          some { state := { s with mHandler := h }, status := NO_ERROR, calls := [] }) := by
  obtain ⟨c0, c1, c2, c3⟩ := takeBatch_spec s.mHandler nowMs hidx
  have hb := doHandleHalEvent_handler s nowMs nowNs
  refine ⟨(s.mHandler.takeBatch nowMs).1, c0, takeBatch_errors _ _, ?_, ?_, ?_, ?_, ?_⟩
  · by_cases h1 : s.mHandler.list (s.mHandler.mFreeListIndex ^^^ 1) = []
    · by_cases h2 : s.mHandler.list s.mHandler.mFreeListIndex = []
      · exact (c3 h1 h2).2.2.1
      · exact (c2 h1 h2).2.2.1
    · exact (c1 h1).2.2.1
  · by_cases h1 : s.mHandler.list (s.mHandler.mFreeListIndex ^^^ 1) = []
    · by_cases h2 : s.mHandler.list s.mHandler.mFreeListIndex = []
      · exact (c3 h1 h2).2.2.2
      · exact (c2 h1 h2).2.2.2
    · exact (c1 h1).2.2.2
  · intro h1
    obtain ⟨d1, d2, -, -⟩ := c1 h1
    rw [d1] at hb
    exact ⟨d2, hb⟩
  · intro h1 h2
    obtain ⟨d1, d2, -, -⟩ := c2 h1 h2
    rw [d1] at hb
    exact ⟨d2, hb⟩
  · intro h1 h2
    have hidle := takeBatch_idle s.mHandler nowMs h1 h2
    rw [hidle] at hb
    rw [hidle]
    exact ⟨rfl, hb⟩

theorem doHandleHalEvent_consumes_witness :
    sampleWithEvent.mHandler.mFreeListIndex = 0 ∧
    sampleWithEvent.mHandler.list 1 = [] ∧
    sampleWithEvent.mHandler.list 0 = [sampleEvent] ∧
    (dispatchHalEvents sampleWithEvent [sampleEvent] 30).map (fun o => o.calls)
      = some [Call.onEvents 7 [sampleEvent] 30, Call.onEvents 8 [sampleEvent] 30] ∧
    ∃ h : VehicleHalMessageHandler, h.mFreeListIndex = 1 ∧
      doHandleHalEvent sampleWithEvent 20 30 =
        (dispatchHalEvents sampleWithEvent [sampleEvent] 30).map
          (fun o => { o with state := { o.state with mHandler := h } }) :=
  ⟨by decide, by decide, by decide, by decide,
    (doHandleHalEvent_consumes sampleWithEvent 20 30 (by decide)).elim
      (fun h hh => ⟨h, hh.2.2.2.2.2.1 (by decide) (by decide)⟩)⟩

/-- C30: from a state whose two pipeline lists are empty and whose producer index is 0 or
1, every sequence of handleHalEvent and doHandleHalEvent steps followed by a doHandleHalEvent
step and then by handleHalEvent steps only has the effect of the fan-outs dispatchHalEvents
of a sequence of batches, one after the other: the state they leave apart from the handler,
and the calls to the listeners, are the same. The batches, concatenated in the order of
their dispatch, are the events produced before that last consumer step in the order they
were produced; no batch is empty and each is a run of consecutive events of that sequence,
so the events of a batch keep the order of the producer. -/
theorem pipeline_preserves_events (s : Service) (pre post : List PipelineStep) (nowMs nowNs : Int)
    (hidx : s.mHandler.mFreeListIndex ≤ 1)
    (h0 : s.mHandler.mHalPropertyList0 = []) (h1 : s.mHandler.mHalPropertyList1 = [])
    (hpost : ∀ st ∈ post, st.isProduce = true) :
    ∃ (batches : List (List vehicle_prop_value_t × Int)) (h : VehicleHalMessageHandler),
      (batches.map Prod.fst).flatten = producedEvents pre ∧
      (∀ b ∈ batches, b.1 ≠ [] ∧ b.1 <:+: producedEvents pre) ∧
      (runWorker s (pre ++ PipelineStep.consume nowMs nowNs :: post)).map
          (fun r => (r.1, r.2.filter Call.isOnEvents))
        = (dispatchBatches s batches).map (fun r => ({ r.1 with mHandler := h }, r.2)) := by
  have hlist : ∀ i, s.mHandler.list i = [] := by
    intro i
    unfold VehicleHalMessageHandler.list
    split
    · exact h0
    · exact h1
  have hinv := runPipeline_invariant (pre ++ PipelineStep.consume nowMs nowNs :: post)
    s.mHandler hidx (hlist _)
  have hjoin : ((runPipeline s.mHandler
      (pre ++ PipelineStep.consume nowMs nowNs :: post)).2.map Prod.fst).flatten
      = producedEvents pre := by
    obtain ⟨i1, i2, i3, -⟩ := runPipeline_invariant pre s.mHandler hidx (hlist _)
    rw [hlist, List.nil_append] at i3
    obtain ⟨-, -, c2, c3⟩ := takeBatch_spec (runPipeline s.mHandler pre).1 nowMs i1
    rw [runPipeline_append]
    dsimp only
    simp only [runPipeline]
    by_cases hne : (runPipeline s.mHandler pre).1.list
        (runPipeline s.mHandler pre).1.mFreeListIndex = []
    · rw [(c3 i2 hne).1]
      dsimp only
      rw [runPipeline_produce_only post hpost, List.append_nil]
      rw [hne, List.append_nil] at i3
      exact i3
    · rw [(c2 i2 hne).1]
      dsimp only
      rw [runPipeline_produce_only post hpost, List.map_append, List.flatten_append,
        List.map_cons, List.map_nil, List.flatten_cons, List.flatten_nil, List.append_nil]
      exact i3
  refine ⟨_, _, hjoin, ?_, runWorker_batches _ s⟩
  intro b hb
  refine ⟨hinv.2.2.2 b hb, ?_⟩
  rw [← hjoin]
  exact List.infix_of_mem_flatten (List.mem_map_of_mem Prod.fst hb)

theorem pipeline_preserves_events_witness :
    (runWorker sampleBusy
      ([PipelineStep.produce sampleEvent 1, PipelineStep.consume 3 4,
        PipelineStep.produce sampleEvent 5] ++
       PipelineStep.consume 30 31 :: [PipelineStep.produce sampleEvent 32])).map
        (fun r => r.2.filter Call.isOnEvents)
      = some [Call.onEvents 7 [sampleEvent] 4, Call.onEvents 8 [sampleEvent] 4,
              Call.onEvents 7 [sampleEvent] 31, Call.onEvents 8 [sampleEvent] 31] ∧
    ∃ (batches : List (List vehicle_prop_value_t × Int)) (h : VehicleHalMessageHandler),
      (batches.map Prod.fst).flatten = [sampleEvent, sampleEvent] ∧
      (∀ b ∈ batches, b.1 ≠ [] ∧ b.1 <:+: [sampleEvent, sampleEvent]) ∧
      (runWorker sampleBusy
        ([PipelineStep.produce sampleEvent 1, PipelineStep.consume 3 4,
          PipelineStep.produce sampleEvent 5] ++
         PipelineStep.consume 30 31 :: [PipelineStep.produce sampleEvent 32])).map
          (fun r => (r.1, r.2.filter Call.isOnEvents))
        = (dispatchBatches sampleBusy batches).map
            (fun r => ({ r.1 with mHandler := h }, r.2)) :=
  ⟨by decide, pipeline_preserves_events sampleBusy
    [PipelineStep.produce sampleEvent 1, PipelineStep.consume 3 4,
     PipelineStep.produce sampleEvent 5]
    [PipelineStep.produce sampleEvent 32] 30 31 (by decide) (by decide) (by decide) (by decide)⟩

/-- C31: the error worker takes the oldest queued error and leaves the others queued in
their order, and a new error is queued behind them. The taken error is sent to every client
of the subscriber vector of its property when the property is not 0 and the vector is not
empty, and to nobody else; when the property is 0 or has no subscriber it is sent to exactly
the registered clients that monitor errors. -/
theorem error_dispatch_set (s : Service) (e : VehicleHalError) (rest : List VehicleHalError)
    (hq : s.mHandler.mHalErrors = e :: rest) :
    (doHandleHalError s).state.mHandler.mHalErrors = rest ∧
    (∀ err, (s.mHandler.handleHalError err).1.mHalErrors = e :: (rest ++ [err])) ∧
    (e.property ≠ 0 ∧ subscribersOf s e.property ≠ [] →
      (doHandleHalError s).calls = (subscribersOf s e.property).map
        (fun c => Call.onHalError (s.heap c).mListener e.errorCode e.property e.operation)) ∧
    (e.property = 0 ∨ subscribersOf s e.property = [] →
      (doHandleHalError s).calls =
        ((s.mBinderToClientMap.map Prod.snd).filter (fun c => (s.heap c).mMonitoringHalError)).map
          (fun c => Call.onHalError (s.heap c).mListener e.errorCode e.property e.operation)) := by
  have hcalls : (doHandleHalError s).calls = dispatchHalError s e := by
    simp [doHandleHalError, hq]
  refine ⟨by simp [doHandleHalError, hq], ?_, ?_, ?_⟩
  · intro err
    simp [VehicleHalMessageHandler.handleHalError, hq]
  · rw [hcalls]; exact (dispatchHalError_spec s e).1
  · rw [hcalls]; exact (dispatchHalError_spec s e).2

theorem error_dispatch_set_witness :
    sampleWithError.mHandler.mHalErrors = [VehicleHalError.mk 3 0x100 1] ∧
    subscribersOf sampleWithError 0x100 = [0, 1] ∧
    (doHandleHalError sampleWithError).calls
      = [Call.onHalError 7 3 0x100 1, Call.onHalError 8 3 0x100 1] :=
  ⟨by decide, by decide,
    ((error_dispatch_set sampleWithError (VehicleHalError.mk 3 0x100 1) [] (by decide)).2.2.1
      ⟨by decide, by decide⟩).trans (by decide)⟩

/-- C32: in every state reached from the initial state by the operations of the facade and
client deaths, the set-event notifications of a setProperty that returns NO_ERROR are
exactly one per client of the subscriber vector of the property of the value whose record
for the property has SET_CALL and zones that equal the zone of the value or intersect it,
in the order of the vector; a client whose record carries only HAL_EVENT is not among
them. -/
theorem set_event_selection (env : Env) (properties : List vehicle_prop_config_t)
    (ops : List Op) (s : Service) (data : vehicle_prop_value_t) (nowMs nowNs : Int)
    (o : Outcome) (hrun : run env (Service.init properties) ops = some s)
    (hset : setProperty env s data nowMs nowNs = some o) (hok : o.status = NO_ERROR) :
    o.calls.filter Call.isOnPropertySet =
      ((subscribersOf s data.prop).filter (specReceivesSetEvent s data)).map
        (fun c => Call.onPropertySet (s.heap c).mListener data) ∧
    (∀ c, specReceivesSetEvent s data c = true ↔
      ∃ info, (s.heap c).getSubscriptionInfo data.prop = some info ∧
        SubscribeFlags.SET_CALL &&& info.flags ≠ 0 ∧
        (info.zones = data.zone ∨ info.zones &&& data.zone ≠ 0)) ∧
    (∀ c info, (s.heap c).getSubscriptionInfo data.prop = some info →
      info.flags = SubscribeFlags.HAL_EVENT →
      c ∉ (subscribersOf s data.prop).filter (specReceivesSetEvent s data)) := by
  have hcov := run_setCallCovered env ops _ s (coherent_init properties)
    (setCallCovered_init properties) hrun
  have hchar : ∀ c, specReceivesSetEvent s data c = true ↔
      ∃ info, (s.heap c).getSubscriptionInfo data.prop = some info ∧
        SubscribeFlags.SET_CALL &&& info.flags ≠ 0 ∧
        (info.zones = data.zone ∨ info.zones &&& data.zone ≠ 0) := by
    intro c
    unfold specReceivesSetEvent
    cases (s.heap c).getSubscriptionInfo data.prop with
    | none => simp
    | some info =>
      simp only [Bool.and_eq_true, Bool.or_eq_true, decide_eq_true_eq, Option.some.injEq,
        exists_eq_left', Nat.land_comm info.flags SubscribeFlags.SET_CALL]
  refine ⟨?_, hchar, ?_⟩
  · rw [setProperty_setEvents env s data nowMs nowNs o hset hok]
    by_cases hin : data.prop ∈ s.mPropertiesSubscribedToSetCall
    · rw [if_pos hin]
    · rw [if_neg hin]
      have hnil : (subscribersOf s data.prop).filter (specReceivesSetEvent s data) = [] := by
        rw [List.filter_eq_nil_iff]
        intro c hc hsel
        obtain ⟨v, hv, hcv⟩ := subscribersOf_mem hc
        obtain ⟨info, hrec, hflag, -⟩ := (hchar c).mp hsel
        exact hin (hcov data.prop v hv c hcv info hrec hflag)
      rw [hnil]
      rfl
  · intro c info hrec hflags hmem
    obtain ⟨info1, hrec1, hflag1, -⟩ := (hchar c).mp (List.mem_filter.mp hmem).2
    rw [hrec] at hrec1
    simp only [Option.some.injEq] at hrec1
    rw [← hrec1, hflags] at hflag1
    exact hflag1 (by decide)

theorem set_event_selection_witness :
    ((setProperty sampleEnv ((run sampleEnv sampleService sampleSetCallOps).get (by decide))
      sampleEvent 0 0).get (by decide)).calls.filter Call.isOnPropertySet
      = [Call.onPropertySet 8 sampleEvent] :=
  ((set_event_selection sampleEnv [sampleSpeed, sampleZoned, sampleInternal] sampleSetCallOps
    ((run sampleEnv sampleService sampleSetCallOps).get (by decide)) sampleEvent 0 0
    ((setProperty sampleEnv ((run sampleEnv sampleService sampleSetCallOps).get (by decide))
      sampleEvent 0 0).get (by decide))
    (Option.some_get _).symm (Option.some_get _).symm (by decide)).1).trans (by decide)

/-- C33, failing input: while the sample mock is registered and automatic get is enabled,
a subscribe of listener 7 to the on-change property 0x200 for zone 1 returns NO_ERROR after
a subscribe and one get sent to the mock, but the value the mock returned is dropped: both
producer lists and the event statistics stay empty and the drop counter becomes 1. The same
subscribe without mocking appends the fetched value to the producer list and counts it. -/
theorem auto_get_value_dropped_while_mocking :
    (startMocking sampleService sampleMock).state.mMockingEnabled = true ∧
    isInternalProperty sampleAutoGetEnv 0x200 = false ∧
    sampleAutoGetEnv.isAutoGetEnabled 0x200 = true ∧
    sampleZoned.change_mode = ChangeMode.ON_CHANGE ∧
    (subscribe sampleAutoGetEnv (startMocking sampleService sampleMock).state 7 0x200 0 0b0001
        0 0 0).map (fun o => (o.status, o.calls))
      = some (NO_ERROR,
          [Call.linkToDeath 7, Call.mockSubscribe 0x200 0 1,
           Call.mockGet { prop := 0x200, value_type := ValueType.ZONED_INT32, timestamp := 0,
                          zone := 1, value := [] }]) ∧
    (subscribe sampleAutoGetEnv (startMocking sampleService sampleMock).state 7 0x200 0 0b0001
        0 0 0).map (fun o => (o.state.mHandler.mHalPropertyList0,
          o.state.mHandler.mHalPropertyList1, o.state.mEventInfos))
      = some ([], [], []) ∧
    (subscribe sampleAutoGetEnv (startMocking sampleService sampleMock).state 7 0x200 0 0b0001
        0 0 0).map (fun o => o.state.mDroppedEventsWhileInMocking) = some 1 ∧
    (subscribe sampleAutoGetEnv sampleService 7 0x200 0 0b0001 0 0 0).map
      (fun o => (o.status, o.state.mHandler.mHalPropertyList0, o.state.mEventInfos))
      = some (NO_ERROR,
          [{ prop := 0x200, value_type := ValueType.ZONED_INT32, timestamp := 0, zone := 1,
             value := [] }],
          [(0x200, EventInfo.mk 0 1)]) := by
  decide

/-- C34: in every state reached from the initial state by subscribes, unsubscribes, client
deaths, startMocking and stopMocking (and the monitoring operations), every client of the
subscriber vector of a property has a record for that property, and the fan-out of any
batch of events completes without meeting a missing record. -/
theorem subscribers_have_records (env : Env) (properties : List vehicle_prop_config_t)
    (ops : List Op) (s : Service) (hrun : run env (Service.init properties) ops = some s) :
    (∀ p c, c ∈ subscribersOf s p → (s.heap c).getSubscriptionInfo p ≠ none) ∧
    ∀ events now, dispatchHalEvents s events now ≠ none := by
  have hw := run_wellFormed env ops _ s (wellFormed_init properties) hrun
  have hrec : ∀ p clients, valueFor s.mPropertyToClientsMap p = some clients →
      ∀ c ∈ clients, (s.heap c).getSubscriptionInfo p ≠ none :=
    fun p clients hp c hc => ((hw.2 p clients hp).2 c hc).2
  refine ⟨?_, fun events now => dispatchHalEvents_total s events now hrec⟩
  intro p c hc
  obtain ⟨v, hv, hcv⟩ := subscribersOf_mem hc
  exact hrec p v hv c hcv

theorem subscribers_have_records_witness :
    1 ∈ subscribersOf ((run sampleEnv sampleService sampleSetCallOps).get (by decide)) 0x100 ∧
    ((((run sampleEnv sampleService sampleSetCallOps).get (by decide)).heap 1).getSubscriptionInfo
      0x100 ≠ none) ∧
    dispatchHalEvents ((run sampleEnv sampleService sampleSetCallOps).get (by decide))
      [sampleEvent] 0 ≠ none :=
  have h := subscribers_have_records sampleEnv [sampleSpeed, sampleZoned, sampleInternal]
    sampleSetCallOps ((run sampleEnv sampleService sampleSetCallOps).get (by decide))
    (Option.some_get _).symm
  ⟨by decide, h.1 0x100 1 (by decide), h.2 [sampleEvent] 0⟩

/-- C35, failing input: while a mock that rejects every set is registered, setProperty of
a value of the internal property 0x74000000 returns the status -5 of the mock, yet the cache,
empty before, holds the value afterwards and a later getProperty returns it with
NO_ERROR. -/
theorem rejected_mock_set_changes_cache :
    isInternalProperty sampleEnv sampleValue.prop = true ∧
    (startMocking sampleService sampleRejectingMock).state.mCache = [] ∧
    (setProperty sampleEnv (startMocking sampleService sampleRejectingMock).state sampleValue
        0 0).map (fun o => (o.status, o.state.mCache))
      = some (-5, [(0x74000000, sampleValue)]) ∧
    ((setProperty sampleEnv (startMocking sampleService sampleRejectingMock).state sampleValue
        0 0).bind (fun o => getProperty sampleEnv o.state
          { sampleValue with value := [], timestamp := 0 })).map
      (fun g => (g.status, g.data)) = some (NO_ERROR, sampleValue) := by
  decide

/-- C36: there are a zoned property with write access, a client in its subscriber vector
whose record has SET_CALL and the zones 0, and a value of the property for a zone other than
0, such that setProperty of the value returns NO_ERROR and notifies no listener of the
set. -/
theorem zero_zone_subscriber_misses_set_event :
    ∃ (env : Env) (properties : List vehicle_prop_config_t) (ops : List Op) (s : Service)
      (config : vehicle_prop_config_t) (c : Nat) (info : SubscriptionInfo)
      (data : vehicle_prop_value_t) (o : Outcome),
      run env (Service.init properties) ops = some s ∧
      findConfigLocked s config.prop = some config ∧
      isZonedProperty (some config) = true ∧
      config.access &&& VEHICLE_PROP_ACCESS_WRITE ≠ 0 ∧
      c ∈ subscribersOf s config.prop ∧
      (s.heap c).getSubscriptionInfo config.prop = some info ∧
      SubscribeFlags.SET_CALL &&& info.flags ≠ 0 ∧ info.zones = 0 ∧
      data.prop = config.prop ∧ data.zone ≠ 0 ∧
      setProperty env s data 0 0 = some o ∧ o.status = NO_ERROR ∧
      o.calls.filter Call.isOnPropertySet = [] :=
  ⟨sampleEnv, [sampleSpeed, sampleZoned, sampleInternal], sampleSetCallOps,
    (run sampleEnv sampleService sampleSetCallOps).get (by decide), sampleZoned, 2,
    SubscriptionInfo.mk 0 0 2, sampleZonedValue,
    (setProperty sampleEnv ((run sampleEnv sampleService sampleSetCallOps).get (by decide))
      sampleZonedValue 0 0).get (by decide),
    (Option.some_get _).symm, by decide, by decide, by decide, by decide, by decide, by decide,
    rfl, rfl, by decide, (Option.some_get _).symm, by decide, by decide⟩

end VNS
